import Mathlib

/-!
Anisotropic size map of mmgs (`src/mmgs/anisosiz.c`) and the anisotropic
evaluators of the common library (`src/common/mmg_anisosiz.c`).

Shallow embedding of the metric field builder `defsiz_ani`, of the point
estimators, of the gradation `grad2met` / `gradsiz_ani` and of the evaluators
`_MMG5_lenedg_ani` and `_MMG5_surftri_ani`.

Modelling conventions.

* A C `double` is an element of an arbitrary linearly ordered field `K`
  (exact arithmetic); `sqrt` is a function supplied by the environment.
  Every definition is computable and can be run at `K := ℚ`.
* The metric array `met->m` is read through the pointer `&met->m[6*k+1]`; it is
  modelled as a map from the vertex index `k` to its six values.
* Mesh queries, Bezier reconstruction, the rotation primitive, the memory macros
  and the tag constants are declared in headers and files that are not part of
  the sources at hand: they are fields of the environment `Env`.
* `exit(EXIT_FAILURE)`, a failed `assert` and `exit(0)` are the values of `Fatal`.
-/

namespace MMG

/-! ## Data model -/

/-- The ways the C process can stop without returning: `exit(EXIT_FAILURE)`, a
failed `assert`, `exit(0)`. -/
inductive Fatal where
  | exitFailure
  | assertFailure
  | exitZero
  deriving DecidableEq, Repr

/-- A `double[3]`. -/
structure Vec3 (K : Type) where
  x : K
  y : K
  z : K
  deriving DecidableEq, Repr

/-- A `double[3][3]`; `rij` is `r[i][j]`. -/
structure Mat3 (K : Type) where
  r00 : K
  r01 : K
  r02 : K
  r10 : K
  r11 : K
  r12 : K
  r20 : K
  r21 : K
  r22 : K
  deriving DecidableEq, Repr

/-- The six values `m[0..5]` stored for one vertex. -/
structure Met6 (K : Type) where
  m0 : K
  m1 : K
  m2 : K
  m3 : K
  m4 : K
  m5 : K
  deriving DecidableEq, Repr

/-- The fields of `mesh->info` read by the size map. -/
structure Info (K : Type) where
  hmin : K
  hmax : K
  hausd : K
  hgrad : K
  delta : K

/-- A vertex `MMG5_Point`: coordinates, direction field, tag, index of the
extended record, visit flag. -/
structure Point (K : Type) where
  c : Vec3 K
  n : Vec3 K
  tag : Nat
  ig : Nat
  flag : Int

/-- An extended vertex record `MMG5_xPoint` (two normals). -/
structure xPoint (K : Type) where
  n1 : Vec3 K
  n2 : Vec3 K

/-- A triangle `MMG5_Tria`: vertices `v[0..2]`, edge tags `tag[0..2]`, region id. -/
structure Tria where
  v : Nat → Nat
  tag : Nat → Nat
  ref : Int

/-- The mesh `MMG5_Mesh`; arrays are maps from the index. -/
structure Mesh (K : Type) where
  np : Nat
  nt : Nat
  npmax : Nat
  point : Nat → Point K
  xpoint : Nat → xPoint K
  tria : Nat → Tria
  info : Info K

/-- The metric structure `MMG5_Sol`; `m = none` is the null pointer. -/
structure Sol (K : Type) where
  np : Nat
  npmax : Nat
  m : Option (Nat → Met6 K)

/-- The result of `bouletrid`: return code, the two half-balls and the two
ridge neighbours. -/
structure BouletRid where
  ier : Int
  ilist1 : Nat
  list1 : Nat → Nat
  ilist2 : Nat
  list2 : Nat → Nat
  ip0 : Nat
  ip1 : Nat

/-- What the sources at hand use but do not define: constants and macros of the
headers, the square root, the mesh queries, the Bezier reconstruction, the
rotation primitive and the memory macros. -/
structure Env (K : Type) where
  /-- `_MMG5_EPSD` -/
  EPSD : K
  /-- `MG_NUL`: a vertex is valid (`MG_VOK`) when its tag is below it -/
  MG_NUL : Nat
  /-- bit `MG_REF` -/
  MG_REF : Nat
  /-- bit `MG_GEO` -/
  MG_GEO : Nat
  /-- macro `MS_SIN` on a vertex tag -/
  MS_SIN : Nat → Bool
  /-- macro `MG_EDG` on an edge tag -/
  MG_EDG : Nat → Bool
  /-- table `_MMG5_inxt2` -/
  inxt2 : Nat → Nat
  /-- table `_MMG5_iprv2` -/
  iprv2 : Nat → Nat
  /-- `sqrt` of `math.h` -/
  sqrt : K → K
  /-- `boulet(mesh,it,ip,list)`: the returned `ilist` and the filled `list` -/
  boulet : Mesh K → Nat → Nat → Int × (Nat → Nat)
  /-- `bouletrid(mesh,it,ip,...)` -/
  bouletrid : Mesh K → Nat → Nat → BouletRid
  /-- `bezierEdge(mesh,i0,i1,b0,b1,isrid,v)`: the control points `(b0,b1)` -/
  bezierEdge : Mesh K → Nat → Nat → Bool → Vec3 K → Vec3 K × Vec3 K
  /-- `_MMG5_bezierCP(mesh,pt,&b,1)`: `none` when it returns 0 -/
  bezierCP : Mesh K → Tria → Option (Nat → Vec3 K)
  /-- `_MMG5_nortri(mesh,pt,n)`: the normal `n` -/
  nortri : Mesh K → Tria → Vec3 K
  /-- `_MMG5_rotmatrix(n,r)`: the matrix `r` -/
  rotmatrix : Vec3 K → Mat3 K
  /-- `_MMG5_ADD_MEM(mesh,size,...)`: `false` when the memory budget is
  exceeded and the macro runs its failure statement -/
  ADD_MEM : Mesh K → Nat → Bool
  /-- `_MMG5_SAFE_CALLOC(ptr,size,type)`: `false` when `calloc` fails and the
  macro terminates the process -/
  SAFE_CALLOC : Nat → Bool

section Defs

variable {K : Type} [LinearOrderedField K]

/-! ## Small helpers -/

/-- Modelled from the spec: the macro `MG_MAX` (header absent), the maximum used
for every "maximum of" and lower clamp: `((a) > (b)) ? (a) : (b)`. -/
def MG_MAX (a b : K) : K := if a > b then a else b

/-- Modelled from the spec: the macro `MG_MIN` (header absent), the upper clamp:
`((a) < (b)) ? (a) : (b)`. -/
def MG_MIN (a b : K) : K := if a < b then a else b

/-- Modelled from the spec: the macro `MG_VOK` (header absent), "geometrically
valid vertex": the tag is below `MG_NUL`. -/
def MG_VOK (env : Env K) (ppt : Point K) : Bool := decide (ppt.tag < env.MG_NUL)

/-- Modelled from the spec: the macro `MG_EOK` (header absent), "triangle not
deleted": its first vertex index is positive. -/
def MG_EOK (pt : Tria) : Bool := decide (0 < pt.v 0)

/-- The C test `tag & bit`. -/
def hasBit (tag bit : Nat) : Bool := (tag &&& bit) != 0

/-- Componentwise `a - b`. -/
def Vec3.sub (a b : Vec3 K) : Vec3 K := ⟨a.x - b.x, a.y - b.y, a.z - b.z⟩

/-- Componentwise `s * a`. -/
def Vec3.smul (s : K) (a : Vec3 K) : Vec3 K := ⟨s * a.x, s * a.y, s * a.z⟩

/-- The sum `a[0]*b[0] + a[1]*b[1] + a[2]*b[2]`. -/
def Vec3.dot (a b : Vec3 K) : K := a.x * b.x + a.y * b.y + a.z * b.z

/-- The matrix-vector product `r[i][0]*ux + r[i][1]*uy + r[i][2]*uz`, `i = 0,1,2`. -/
def Mat3.mulVec (r : Mat3 K) (u : Vec3 K) : Vec3 K :=
  ⟨r.r00 * u.x + r.r01 * u.y + r.r02 * u.z,
   r.r10 * u.x + r.r11 * u.y + r.r12 * u.z,
   r.r20 * u.x + r.r21 * u.y + r.r22 * u.z⟩

/-- The effect of `memset(m,0,6*sizeof(double))`. -/
def Met6.zero : Met6 K := ⟨0, 0, 0, 0, 0, 0⟩

/-- The store `m[j] = a`. -/
def Met6.set (m : Met6 K) (j : Nat) (a : K) : Met6 K :=
  match j with
  | 0 => { m with m0 := a }
  | 1 => { m with m1 := a }
  | 2 => { m with m2 := a }
  | 3 => { m with m3 := a }
  | 4 => { m with m4 := a }
  | 5 => { m with m5 := a }
  | _ => m

/-- The load `m[j]`. -/
def Met6.get (m : Met6 K) (j : Nat) : K :=
  match j with
  | 0 => m.m0
  | 1 => m.m1
  | 2 => m.m2
  | 3 => m.m3
  | 4 => m.m4
  | _ => m.m5

/-- The value `1.0 / (h*h)` of `isqhmin` and `isqhmax`. -/
def isq (h : K) : K := 1 / (h * h)

/-! ## `defmetsin` (lines 50-119) -/

/-- Lines 74-86 of `defmetsin`: the two control points `(b0,b1)` of the ball
edge number `k`, as returned by `bezierEdge`. -/
def defmetsin_cp (env : Env K) (mesh : Mesh K) (idp : Nat) (list : Nat → Nat)
    (k : Nat) : Vec3 K × Vec3 K :=
  let iel := list k / 3
  let i0 := list k % 3
  let i1 := env.inxt2 i0
  let i2 := env.iprv2 i0
  let pt := mesh.tria iel
  let n := env.nortri mesh pt
  if env.MG_EDG (pt.tag i2) then env.bezierEdge mesh idp (pt.v i1) true n
  else env.bezierEdge mesh idp (pt.v i1) false n

/-- One iteration of the ball loop of `defmetsin` (lines 73-109): the new
value of `maxkappa`. -/
def defmetsin_step (env : Env K) (mesh : Mesh K) (idp : Nat) (list : Nat → Nat)
    (maxkappa : K) (k : Nat) : K :=
  let p0 := mesh.point idp
  let bb := defmetsin_cp env mesh idp list k
  let b0 := bb.1
  let b1 := bb.2
  let tau0 := 3 * (b0.x - p0.c.x)
  let tau1 := 3 * (b0.y - p0.c.y)
  let tau2 := 3 * (b0.z - p0.c.z)
  let ntau2 := tau0 * tau0 + tau1 * tau1 + tau2 * tau2
  let gammasec0 := 6 * p0.c.x - 12 * b0.x + 6 * b1.x
  let gammasec1 := 6 * p0.c.y - 12 * b0.y + 6 * b1.y
  let gammasec2 := 6 * p0.c.z - 12 * b0.z + 6 * b1.z
  if ntau2 < env.EPSD then maxkappa
  else
    let ntau2 := 1 / ntau2
    let ps1 := gammasec0 * tau0 + gammasec1 * tau1 + gammasec2 * tau2
    let c0 := gammasec0 - ps1 * tau0 * ntau2
    let c1 := gammasec1 - ps1 * tau1 * ntau2
    let c2 := gammasec2 - ps1 * tau2 * ntau2
    let kappa := ntau2 * env.sqrt (c0 * c0 + c1 * c1 + c2 * c2)
    MG_MAX kappa maxkappa

/-- The estimator `defmetsin(mesh,met,it,ip)`: the return code and the new
metric array, or the fatal exit when the ball is empty. -/
def defmetsin (env : Env K) (mesh : Mesh K) (m : Nat → Met6 K) (it ip : Nat) :
    Except Fatal (Int × (Nat → Met6 K)) :=
  let pt := mesh.tria it
  let idp := pt.v ip
  let bl := env.boulet mesh it ip
  let ilist := bl.1
  let list := bl.2
  if ilist = 0 then .error Fatal.exitFailure
  else
    let isqhmin := 1 / (mesh.info.hmin * mesh.info.hmin)
    let isqhmax := 1 / (mesh.info.hmax * mesh.info.hmax)
    let maxkappa := (List.range ilist.toNat).foldl (defmetsin_step env mesh idp list) 0
    let alpha := 1 / 8 * maxkappa / mesh.info.hausd
    let alpha := MG_MIN alpha isqhmin
    let alpha := MG_MAX alpha isqhmax
    .ok (1, Function.update m idp ⟨alpha, 0, 0, alpha, 0, alpha⟩)

/-! ## `defmetrid` (lines 136-402) -/

/-- The truncation of a curvature estimate into a size, written identically at
lines 194-197 and 393-396: `ll` is the squared norm of the tangent and `c` the
normal part of the second derivative. -/
def defmetrid_size (env : Env K) (info : Info K) (ll c0 c1 c2 : K) : K :=
  let isqhmin := 1 / (info.hmin * info.hmin)
  let isqhmax := 1 / (info.hmax * info.hmax)
  let kappacur := MG_MAX 0 (1 / ll * env.sqrt (c0 * c0 + c1 * c1 + c2 * c2))
  let kappacur := 1 / 8 * kappacur / info.hausd
  let kappacur := MG_MIN kappacur isqhmin
  MG_MAX kappacur isqhmax

/-- One iteration of the first loop of `defmetrid` (lines 171-199): the size
along the ridge arc towards the neighbour `ipr`, merged into `m[0]`. -/
def defmetrid_arc (env : Env K) (n0 : Vec3 K) (mesh : Mesh K) (idp ipr : Nat)
    (m : Met6 K) : Met6 K :=
  let p0 := mesh.point idp
  let bb := env.bezierEdge mesh idp ipr true n0
  let b0 := bb.1
  let b1 := bb.2
  let tau0 := 3 * (b0.x - p0.c.x)
  let tau1 := 3 * (b0.y - p0.c.y)
  let tau2 := 3 * (b0.z - p0.c.z)
  let ll := tau0 * tau0 + tau1 * tau1 + tau2 * tau2
  if ll < env.EPSD then m
  else
    let l := 1 / env.sqrt ll
    let tau0 := tau0 * l
    let tau1 := tau1 * l
    let tau2 := tau2 * l
    let gammasec0 := 6 * p0.c.x - 12 * b0.x + 6 * b1.x
    let gammasec1 := 6 * p0.c.y - 12 * b0.y + 6 * b1.y
    let gammasec2 := 6 * p0.c.z - 12 * b0.z + 6 * b1.z
    let ps := tau0 * gammasec0 + tau1 * gammasec1 + tau2 * gammasec2
    let c0 := gammasec0 - ps * tau0
    let c1 := gammasec1 - ps * tau1
    let c2 := gammasec2 - ps * tau2
    let kappacur := defmetrid_size env mesh.info ll c0 c1 c2
    { m with m0 := MG_MAX m.m0 kappacur }

/-- The control-point difference `3.0*(p - q)`, component by component. -/
def bez3 (p q : Vec3 K) : Vec3 K := ⟨3 * (p.x - q.x), 3 * (p.y - q.y), 3 * (p.z - q.z)⟩

/-- The second difference `6.0*(a - 2.0*b + c)`, component by component. -/
def bez6 (a b c : Vec3 K) : Vec3 K :=
  ⟨6 * (a.x - 2 * b.x + c.x), 6 * (a.y - 2 * b.y + c.y), 6 * (a.z - 2 * b.z + c.z)⟩

/-- The mixed difference `6.0*(a - b - c + d)`, component by component. -/
def bez6x (a b c d : Vec3 K) : Vec3 K :=
  ⟨6 * (a.x - b.x - c.x + d.x), 6 * (a.y - b.y - c.y + d.y), 6 * (a.z - b.z - c.z + d.z)⟩

/-- The values set by the three cases of lines 298-370. -/
structure RidFrame (K : Type) where
  lambda0 : K
  lambda1 : K
  /-- column `Jacb[.][0]` -/
  J0 : Vec3 K
  /-- column `Jacb[.][1]` -/
  J1 : Vec3 K
  /-- column `Hb[.][0]` -/
  H0 : Vec3 K
  /-- column `Hb[.][1]` -/
  H1 : Vec3 K
  /-- column `Hb[.][2]` -/
  H2 : Vec3 K

/-- The case analysis on the corner `i0` of lines 298-370. -/
def defmetrid_frame (b : Nat → Vec3 K) (i0 : Nat) (bcu0 bcu1 bcu2 : K) : RidFrame K :=
  if i0 = 0 then
    { lambda0 := bcu1, lambda1 := bcu2,
      J0 := bez3 (b 7) (b 0), J1 := bez3 (b 6) (b 0),
      H0 := bez6 (b 0) (b 7) (b 8), H1 := bez6x (b 0) (b 7) (b 6) (b 9),
      H2 := bez6 (b 0) (b 6) (b 5) }
  else if i0 = 1 then
    { lambda0 := bcu0, lambda1 := bcu1,
      J0 := bez3 (b 1) (b 8), J1 := bez3 (b 3) (b 8),
      H0 := bez6 (b 1) (b 8) (b 7), H1 := bez6x (b 7) (b 8) (b 9) (b 3),
      H2 := bez6 (b 4) (b 9) (b 7) }
  else
    { lambda0 := bcu2, lambda1 := bcu0,
      J0 := bez3 (b 4) (b 5), J1 := bez3 (b 2) (b 5),
      H0 := bez6 (b 3) (b 9) (b 6), H1 := bez6x (b 4) (b 5) (b 9) (b 6),
      H2 := bez6 (b 2) (b 5) (b 6) }

/-- Lines 373-375: the tangent `tau = Jacb * (lambda0, lambda1)`. -/
def defmetrid_tau (f : RidFrame K) : Vec3 K :=
  ⟨f.J0.x * f.lambda0 + f.J1.x * f.lambda1,
   f.J0.y * f.lambda0 + f.J1.y * f.lambda1,
   f.J0.z * f.lambda0 + f.J1.z * f.lambda1⟩

/-- Lines 372-398: from the frame of the straddling triangle to the new
`m[i+1]`; the iteration is skipped when the tangent is degenerate. -/
def defmetrid_contrib (env : Env K) (info : Info K) (f : RidFrame K) (i : Nat)
    (m : Met6 K) : Met6 K :=
  let tau := defmetrid_tau f
  let ll := tau.x * tau.x + tau.y * tau.y + tau.z * tau.z
  if ll < env.EPSD then m
  else
    let l := 1 / env.sqrt ll
    let tau0 := tau.x * l
    let tau1 := tau.y * l
    let tau2 := tau.z * l
    let gammasec0 := f.H0.x * f.lambda0 * f.lambda0 + 2 * f.H1.x * f.lambda0 * f.lambda1
      + f.H2.x * f.lambda1 * f.lambda1
    let gammasec1 := f.H0.y * f.lambda0 * f.lambda0 + 2 * f.H1.y * f.lambda0 * f.lambda1
      + f.H2.y * f.lambda1 * f.lambda1
    let gammasec2 := f.H0.z * f.lambda0 * f.lambda0 + 2 * f.H1.z * f.lambda0 * f.lambda1
      + f.H2.z * f.lambda1 * f.lambda1
    let ps := tau0 * gammasec0 + tau1 * gammasec1 + tau2 * gammasec2
    let c0 := gammasec0 - ps * tau0
    let c1 := gammasec1 - ps * tau1
    let c2 := gammasec2 - ps * tau2
    let kappacur := defmetrid_size env info ll c0 c1 c2
    m.set (i + 1) (MG_MAX (m.get (i + 1)) kappacur)

/-- Lines 213-244: the half-ball `(ilist, list)` rotated by `r`. The result is
the pointer `pt` left by the loop and the array `lispoi`, whose entry `k` stands
for `lispoi[3*k+1..3*k+3]`. `pt0` is the value of `pt` on entry. The entries
`0..ilist` are all written before they are read. -/
def defmetrid_rot (env : Env K) (mesh : Mesh K) (idp : Nat) (r : Mat3 K)
    (ilist : Nat) (list : Nat → Nat) (pt0 : Tria) : Tria × (Nat → Vec3 K) :=
  let p0 := mesh.point idp
  let rot := (List.range ilist).foldl
    (fun (acc : Nat × Tria × (Nat → Vec3 K)) k =>
      let iel := list k / 3
      let i0 := list k % 3
      let i1 := env.inxt2 i0
      let pt := mesh.tria iel
      let p1 := mesh.point (pt.v i1)
      (i1, pt, Function.update acc.2.2 k (r.mulVec (p1.c.sub p0.c))))
    (0, pt0, fun _ => ⟨0, 0, 0⟩)
  let i1 := rot.1
  let pt := rot.2.1
  let i2 := env.inxt2 i1
  let p2 := mesh.point (pt.v i2)
  (pt, Function.update rot.2.2 ilist (r.mulVec (p2.c.sub p0.c)))

/-- The left determinant `detg` of lines 258, 269 and 284. -/
def defmetrid_detg (lispoi : Nat → Vec3 K) (u0 u1 : K) (k : Nat) : K :=
  (lispoi k).x * u1 - (lispoi k).y * u0

/-- The right determinant `detd` of lines 259, 270 and 285. -/
def defmetrid_detd (lispoi : Nat → Vec3 K) (u0 u1 : K) (k : Nat) : K :=
  u0 * (lispoi (k + 1)).y - u1 * (lispoi (k + 1)).x

/-- The search loop of lines 257-261 (and 268-272): the first `k < ilist` with
`detg > 0` and `detd > 0`, or `ilist` when the loop runs to its end. -/
def defmetrid_search (lispoi : Nat → Vec3 K) (u0 u1 : K) (ilist : Nat) : Nat :=
  ((List.range ilist).find? (fun k =>
      decide (defmetrid_detg lispoi u0 u1 k > 0) &&
      decide (defmetrid_detd lispoi u0 u1 k > 0))).getD ilist

/-- Lines 253-273: the direction `u` orthogonal to the rotated tangent, the
search with `u` and, when it fails, with `-u`. The result is `(k, u[0], u[1])`. -/
def defmetrid_locate (lispoi : Nat → Vec3 K) (trot0 trot1 : K) (ilist : Nat) :
    Nat × K × K :=
  let u0 := -trot1
  let u1 := trot0
  let k := defmetrid_search lispoi u0 u1 ilist
  if k = ilist then
    let u0 := u0 * (-1)
    let u1 := u1 * (-1)
    (defmetrid_search lispoi u0 u1 ilist, u0, u1)
  else (k, u0, u1)

/-- One iteration `i` of the second loop of `defmetrid` (lines 202-399) on the
half-ball `(ilist, list)` of the sheet with normal `n`. The local pointer `pt`
survives from one iteration to the next, so it is part of the state. A
skipped iteration (`continue`) returns `m` unchanged. -/
def defmetrid_sheet (env : Env K) (mesh : Mesh K) (idp : Nat) (n : Vec3 K)
    (ilist : Nat) (list : Nat → Nat) (i : Nat) (st : Tria × Met6 K) :
    Except Fatal (Tria × Met6 K) :=
  let p0 := mesh.point idp
  let t := p0.n
  let m := st.2
  let r := env.rotmatrix n
  let rot := defmetrid_rot env mesh idp r ilist list st.1
  let pt := rot.1
  let lispoi := rot.2
  -- lines 250-251
  let trot0 := r.r00 * t.x + r.r01 * t.y + r.r02 * t.z
  let trot1 := r.r10 * t.x + r.r11 * t.y + r.r12 * t.z
  let loc := defmetrid_locate lispoi trot0 trot1 ilist
  let k := loc.1
  let u0 := loc.2.1
  let u1 := loc.2.2
  if k = ilist then .ok (pt, m)
  else
    let iel := list k / 3
    let i0 := list k % 3
    let pt := mesh.tria iel
    match env.bezierCP mesh pt with
    | none => .ok (pt, m)
    | some b =>
      let detg := defmetrid_detg lispoi u0 u1 k
      let detd := defmetrid_detd lispoi u0 u1 k
      let det := detg + detd
      if det < env.EPSD then .ok (pt, m)
      else
        let det := 1 / det
        let bcu0 : K := 0
        -- line 291 writes the expression of `detd` once more
        let bcu1 := defmetrid_detd lispoi u0 u1 k
        let bcu1 := bcu1 * det
        if bcu1 ≤ 1 then
          let bcu2 := 1 - bcu1
          .ok (pt, defmetrid_contrib env mesh.info (defmetrid_frame b i0 bcu0 bcu1 bcu2) i m)
        else .error Fatal.assertFailure

/-- The estimator `defmetrid(mesh,met,it,ip)`: the return code and the new
metric array, or a fatal stop. `n0` is the content of the local array `n0`,
which is passed to `bezierEdge` without having been initialised. -/
def defmetrid (env : Env K) (n0 : Vec3 K) (mesh : Mesh K) (m : Nat → Met6 K)
    (it ip : Nat) : Except Fatal (Int × (Nat → Met6 K)) :=
  let pt := mesh.tria it
  let idp := pt.v ip
  let p0 := mesh.point idp
  let isqhmax := 1 / (mesh.info.hmax * mesh.info.hmax)
  let n1 := (mesh.xpoint p0.ig).n1
  let n2 := (mesh.xpoint p0.ig).n2
  -- lines 157-161
  let mk : Met6 K := ⟨isqhmax, isqhmax, isqhmax, 0, 0, 0⟩
  let br := env.bouletrid mesh it ip
  if br.ier = 0 then .error Fatal.exitFailure
  else
    let mk := defmetrid_arc env n0 mesh idp br.ip0 mk
    let mk := defmetrid_arc env n0 mesh idp br.ip1 mk
    match defmetrid_sheet env mesh idp n1 br.ilist1 br.list1 0 (pt, mk) with
    | .error e => .error e
    | .ok st1 =>
      match defmetrid_sheet env mesh idp n2 br.ilist2 br.list2 1 st1 with
      | .error e => .error e
      | .ok st2 => .ok (1, Function.update m idp st2.2)

/-! ## `defsiz_ani` (lines 1085-1171) -/

/-- The type of a point estimator called as `f(mesh,met,k,i)`: the return code
and the new metric array, or a fatal stop. -/
abbrev Estimator (K : Type) :=
  Mesh K → (Nat → Met6 K) → Nat → Nat → Except Fatal (Int × (Nat → Met6 K))

/-- The state of the two passes: the mesh (its vertex flags are written), the
metric array and the local buffer `mm`. -/
structure SizState (K : Type) where
  mesh : Mesh K
  m : Nat → Met6 K
  mm : Met6 K

/-- The store `mesh->point[k].flag = f`. -/
def Mesh.setFlag (mesh : Mesh K) (k : Nat) (f : Int) : Mesh K :=
  { mesh with point := Function.update mesh.point k { mesh.point k with flag := f } }

/-- The C condition `a || !f(...)`: the call is evaluated only when `a` is
false. The result is the truth value and the metric array after the (possible)
call. -/
def orNot (a : Bool) (call : Except Fatal (Int × (Nat → Met6 K))) (m : Nat → Met6 K) :
    Except Fatal (Bool × (Nat → Met6 K)) :=
  if a then .ok (true, m)
  else match call with
    | .error e => .error e
    | .ok (r, m1) => .ok (r == 0, m1)

/-- What follows a test `if ( cond )  continue;` in the vertex loop: on
`continue` the vertex stays unflagged, otherwise line 1133 flags it. -/
def afterTest (s : SizState K) (idx : Nat) (res : Except Fatal (Bool × (Nat → Met6 K))) :
    Except Fatal (SizState K) :=
  match res with
  | .error e => .error e
  | .ok (skip, m1) =>
    if skip then .ok { s with m := m1 }
    else .ok { mesh := s.mesh.setFlag idx 1, m := m1, mm := s.mm }

/-- The body of the vertex loop (lines 1114-1133) for vertex `i` of triangle
`k`. The estimators of reference and regular vertices are parameters. -/
def defsiz_vertex (env : Env K) (defmetref defmetreg : Estimator K) (n0 : Vec3 K)
    (ismet : Bool) (k i : Nat) (s : SizState K) : Except Fatal (SizState K) :=
  let pt := s.mesh.tria k
  let ppt := s.mesh.point (pt.v i)
  if ppt.flag ≠ 0 || !MG_VOK env ppt then .ok s
  else
    let s := if ismet then { s with mm := s.m (pt.v i) } else s
    if env.MS_SIN ppt.tag then
      afterTest s (pt.v i) (orNot false (defmetsin env s.mesh s.m k i) s.m)
    else if hasBit ppt.tag env.MG_GEO then
      afterTest s (pt.v i) (orNot false (defmetrid env n0 s.mesh s.m k i) s.m)
    else if hasBit ppt.tag env.MG_REF && !hasBit ppt.tag env.MG_GEO then
      afterTest s (pt.v i) (orNot true (defmetref s.mesh s.m k i) s.m)
    else if ppt.tag ≠ 0 then .ok s
    else
      afterTest s (pt.v i) (orNot true (defmetreg s.mesh s.m k i) s.m)

/-- The body of the triangle loop (lines 1110-1134) for triangle `k`. -/
def defsiz_tria (env : Env K) (defmetref defmetreg : Estimator K) (n0 : Vec3 K)
    (ismet : Bool) (s : SizState K) (k : Nat) : Except Fatal (SizState K) :=
  let pt := s.mesh.tria k
  if !MG_EOK pt || pt.ref < 0 then .ok s
  else
    [0, 1, 2].foldlM (fun s i => defsiz_vertex env defmetref defmetreg n0 ismet k i s) s

/-- The first pass (lines 1109-1135): `for (k=1; k<=mesh->nt; k++)`. -/
def defsiz_pass1 (env : Env K) (defmetref defmetreg : Estimator K) (n0 : Vec3 K)
    (ismet : Bool) (s : SizState K) : Except Fatal (SizState K) :=
  (List.range' 1 s.mesh.nt).foldlM (defsiz_tria env defmetref defmetreg n0 ismet) s

/-- The tensor written at lines 1160-1165 from `isqhmax` and the matrix `r`. -/
def defsiz_frame (isqhmax : K) (r : Mat3 K) : Met6 K :=
  ⟨isqhmax * (r.r00 * r.r00 + r.r10 * r.r10 + r.r20 * r.r20),
   isqhmax * (r.r00 * r.r01 + r.r10 * r.r11 + r.r20 * r.r21),
   isqhmax * (r.r00 * r.r02 + r.r10 * r.r12 + r.r20 * r.r22),
   isqhmax * (r.r01 * r.r01 + r.r11 * r.r11 + r.r21 * r.r21),
   isqhmax * (r.r01 * r.r02 + r.r11 * r.r12 + r.r21 * r.r22),
   isqhmax * (r.r02 * r.r02 + r.r12 * r.r12 + r.r22 * r.r22)⟩

/-- The values written by lines 1149-1166 for the vertex `ppt` (no metric
supplied). -/
def defsiz_default (env : Env K) (mesh : Mesh K) (isqhmax : K) (ppt : Point K) : Met6 K :=
  if env.MS_SIN ppt.tag then ⟨isqhmax, 0, 0, isqhmax, 0, isqhmax⟩
  else if hasBit ppt.tag env.MG_GEO then ⟨isqhmax, isqhmax, isqhmax, 0, 0, 0⟩
  else
    let n := if hasBit ppt.tag env.MG_REF then (mesh.xpoint ppt.ig).n1 else ppt.n
    defsiz_frame isqhmax (env.rotmatrix n)

/-- The body of the second loop (lines 1140-1167) for vertex `k`. -/
def defsiz_fill (env : Env K) (ismet : Bool) (isqhmax : K) (s : SizState K) (k : Nat) :
    SizState K :=
  let ppt := s.mesh.point k
  if !MG_VOK env ppt || ppt.flag = 1 then s
  else if ismet then
    { mesh := s.mesh.setFlag k 1, m := Function.update s.m k s.mm, mm := s.mm }
  else
    { mesh := s.mesh.setFlag k 1,
      m := Function.update s.m k (defsiz_default env s.mesh isqhmax ppt),
      mm := s.mm }

/-- The second pass (lines 1138-1168): `for (k=1; k<=mesh->np; k++)`. -/
def defsiz_pass2 (env : Env K) (ismet : Bool) (s : SizState K) : SizState K :=
  let isqhmax := 1 / (s.mesh.info.hmax * s.mesh.info.hmax)
  (List.range' 1 s.mesh.np).foldl (defsiz_fill env ismet isqhmax) s

/-- Line 1102: `if ( mesh->info.hmax < 0.0 )  mesh->info.hmax = 0.5 * mesh->info.delta;` -/
def defsiz_hmax (mesh : Mesh K) : Mesh K :=
  if mesh.info.hmax < 0 then
    { mesh with info := { mesh.info with hmax := 1 / 2 * mesh.info.delta } }
  else mesh

/-- Lines 1104-1107: the flags of the vertices `1..np` are reset. -/
def defsiz_reset (mesh : Mesh K) : Mesh K :=
  (List.range' 1 mesh.np).foldl (fun me k => me.setFlag k 0) mesh

/-- The builder `defsiz_ani(mesh,met)`: the return code with the final mesh and
metric structure, or a fatal stop. `mm0` and `n0` are the contents of the
uninitialised locals `mm` (of `defsiz_ani`) and `n0` (of `defmetrid`). -/
def defsiz_ani (env : Env K) (defmetref defmetreg : Estimator K) (mm0 : Met6 K)
    (n0 : Vec3 K) (mesh : Mesh K) (met : Sol K) : Except Fatal (Int × Mesh K × Sol K) :=
  let ismet := met.m.isSome
  -- lines 1096-1101
  let alloc : Except Fatal (Option (Sol K × (Nat → Met6 K))) :=
    match met.m with
    | some m => .ok (some (met, m))
    | none =>
      let met1 : Sol K := { met with np := mesh.np, npmax := mesh.npmax }
      if !env.ADD_MEM mesh (6 * met1.npmax + 1) then .ok none
      else if !env.SAFE_CALLOC (6 * (mesh.npmax + 1) + 1) then .error Fatal.exitFailure
      else .ok (some (met1, fun _ => Met6.zero))
  match alloc with
  | .error e => .error e
  | .ok none => .ok (0, mesh, { met with np := mesh.np, npmax := mesh.npmax })
  | .ok (some (met1, m)) =>
    let mesh := defsiz_hmax mesh
    let mesh := defsiz_reset mesh
    match defsiz_pass1 env defmetref defmetreg n0 ismet ⟨mesh, m, mm0⟩ with
    | .error e => .error e
    | .ok s1 =>
      let s2 := defsiz_pass2 env ismet s1
      .ok (1, s2.mesh, { met1 with m := some s2.m })

end Defs

/-! ## Further primitives and constants -/

/-- A `double[2][2]`; `vij` is `vp[i][j]`. -/
structure Mat2 (K : Type) where
  v00 : K
  v01 : K
  v10 : K
  v11 : K
  deriving DecidableEq, Repr

/-- What the estimators of reference and regular vertices and the gradation use
beyond `Env` and the sources at hand do not define: further constants of the
headers and the linear algebra primitives. -/
structure Prim (K : Type) where
  /-- `_MMG5_EPS` -/
  EPS : K
  /-- `_MMG5_EPSD2` -/
  EPSD2 : K
  /-- `A64TH` -/
  A64TH : K
  /-- `A32TH` -/
  A32TH : K
  /-- `A16TH` -/
  A16TH : K
  /-- `_MMG5_ATHIRD` -/
  ATHIRD : K
  /-- bit `MG_CRN` -/
  MG_CRN : Nat
  /-- bit `MG_NOM` -/
  MG_NOM : Nat
  /-- return code of `_MMG5_nortri(mesh,pt,n)`: `false` when it is 0 -/
  nortriOk : Mesh K → Tria → Bool
  /-- `_MMG5_sys33sym(a,b,r)`: the solution `r`, `none` when it returns 0 -/
  sys33sym : Met6 K → Vec3 K → Option (Vec3 K)
  /-- `_MMG5_eigensym(m,lambda,vp)`: the values `lambda[0..1]` and the vectors
  `vp[0]`, `vp[1]` -/
  eigensym : Vec3 K → (K × K) × Mat2 K
  /-- `intmetsavedir(mesh,m,n,mr)`: the content of `mr` after the call, from the
  two arguments and the content of `mr` before the call -/
  intmetsavedir : Mesh K → Vec3 K → Vec3 K → Vec3 K → Vec3 K
  /-- `_MMG5_buildridmet(mesh,met,np,ux,uy,uz,mr)`: the tensor `mr`, `none` when
  it returns 0 -/
  buildridmet : Mesh K → (Nat → Met6 K) → Nat → K → K → K → Option (Met6 K)
  /-- `rmtr(r,m,mr)`: the tensor `mr` -/
  rmtr : Mat3 K → Met6 K → Met6 K

section Estimators

variable {K : Type} [LinearOrderedField K]

/-! ## The quadric fit shared by `defmetref` and `defmetreg` -/

/-- The rotated ball of lines 451-484 and 828-840: the entry `k` stands for
`lispoi[3*k+1..3*k+3]`, the image by `r` of the vector from the vertex `idp` to
the ball point number `k`. Only the entries `k < ilist` are read. -/
def defmetreg_lispoi (env : Env K) (mesh : Mesh K) (idp : Nat) (r : Mat3 K)
    (list : Nat → Nat) (k : Nat) : Vec3 K :=
  let iel := list k / 3
  let i0 := list k % 3
  let i1 := env.inxt2 i0
  let pt := mesh.tria iel
  let p1 := mesh.point (pt.v i1)
  let p0 := mesh.point idp
  r.mulVec (p1.c.sub p0.c)

/-- The determinant `det2d` of the ball points `k` and `j` (lines 494, 500, 846,
852). -/
def det2d (lispoi : Nat → Vec3 K) (k j : Nat) : K :=
  (lispoi k).x * (lispoi j).y - (lispoi k).y * (lispoi j).x

/-- Lines 845-857 of `defmetreg`: `true` when a test `det2d <= 0.0` fires and the
function returns 0. -/
def defmetreg_badproj (lispoi : Nat → Vec3 K) (ilist : Nat) : Bool :=
  (List.range (ilist - 1)).any (fun k => decide (det2d lispoi k (k + 1) ≤ 0)) ||
    decide (det2d lispoi (ilist - 1) 0 ≤ 0)

/-- Lines 493-505 of `defmetref`: `true` when a test `det2d < 0.0` fires and the
function returns 0. -/
def defmetref_badproj (lispoi : Nat → Vec3 K) (ilist : Nat) : Bool :=
  (List.range (ilist - 1)).any (fun k => decide (det2d lispoi k (k + 1) < 0)) ||
    decide (det2d lispoi (ilist - 1) 0 < 0)

/-- The twelve updates `tAA[..] += ...`, `tAb[..] += ...` for one sample point
`p` (written four times in each loop body). -/
def fitAdd (acc : Met6 K × Vec3 K) (p : Vec3 K) : Met6 K × Vec3 K :=
  (⟨acc.1.m0 + p.x * p.x * p.x * p.x,
    acc.1.m1 + p.x * p.x * p.y * p.y,
    acc.1.m2 + p.x * p.x * p.x * p.y,
    acc.1.m3 + p.y * p.y * p.y * p.y,
    acc.1.m4 + p.x * p.y * p.y * p.y,
    acc.1.m5 + p.x * p.x * p.y * p.y⟩,
   ⟨acc.2.x + p.x * p.x * p.z,
    acc.2.y + p.y * p.y * p.z,
    acc.2.z + p.x * p.y * p.z⟩)

/-- The combination `A64TH*(a1 + a2 + 3.0*(a3 + a4)) + 3.0*A16TH*(a5 + a6 + a7)
+ A32TH*(a8 + a9)` of the median mid-point, on the three coordinates. -/
def fitMedian (prim : Prim K) (a1 a2 a3 a4 a5 a6 a7 a8 a9 : Vec3 K) : Vec3 K :=
  ⟨prim.A64TH * (a1.x + a2.x + 3 * (a3.x + a4.x)) + 3 * prim.A16TH * (a5.x + a6.x + a7.x)
      + prim.A32TH * (a8.x + a9.x),
   prim.A64TH * (a1.y + a2.y + 3 * (a3.y + a4.y)) + 3 * prim.A16TH * (a5.y + a6.y + a7.y)
      + prim.A32TH * (a8.y + a9.y),
   prim.A64TH * (a1.z + a2.z + 3 * (a3.z + a4.z)) + 3 * prim.A16TH * (a5.z + a6.z + a7.z)
      + prim.A32TH * (a8.z + a9.z)⟩

/-- The combination `0.125*a1 + 0.375*(a2 + a3) + 0.125*a4` of the median
endpoint, on the three coordinates. -/
def fitEnd (a1 a2 a3 a4 : Vec3 K) : Vec3 K :=
  ⟨1 / 8 * a1.x + 3 / 8 * (a2.x + a3.x) + 1 / 8 * a4.x,
   1 / 8 * a1.y + 3 / 8 * (a2.y + a3.y) + 1 / 8 * a4.y,
   1 / 8 * a1.z + 3 / 8 * (a2.z + a3.z) + 1 / 8 * a4.z⟩

/-- The mid-point `3.0/8.0*b0 + 3.0/8.0*b1 + 1.0/8.0*lispoi` of the curved edge. -/
def fitEdge (b0 b1 l : Vec3 K) : Vec3 K :=
  ⟨3 / 8 * b0.x + 3 / 8 * b1.x + 1 / 8 * l.x,
   3 / 8 * b0.y + 3 / 8 * b1.y + 1 / 8 * l.y,
   3 / 8 * b0.z + 3 / 8 * b1.z + 1 / 8 * l.z⟩

/-- One iteration of the fitting loop (lines 516-637 and 867-992, the same
text): the sums `(tAA, tAb)` after the four sample points of the ball triangle
number `k`. The return code of `_MMG5_bezierCP` is not tested; `bfail k` is the
content of the local `b` when the call of iteration `k` fails. -/
def defmetreg_fitStep (env : Env K) (prim : Prim K) (mesh : Mesh K) (idp : Nat)
    (r : Mat3 K) (list : Nat → Nat) (bfail : Nat → Nat → Vec3 K)
    (acc : Met6 K × Vec3 K) (k : Nat) : Met6 K × Vec3 K :=
  let p0 := mesh.point idp
  let iel := list k / 3
  let i0 := list k % 3
  let pt := mesh.tria iel
  let b0 := (env.bezierCP mesh pt).getD (bfail k)
  let b := fun j => r.mulVec ((b0 j).sub p0.c)
  let l := defmetreg_lispoi env mesh idp r list k
  let c := if i0 = 0 then fitEdge (b 7) (b 8) l
    else if i0 = 1 then fitEdge (b 3) (b 4) l
    else fitEdge (b 5) (b 6) l
  let acc := fitAdd acc c
  let acc := fitAdd acc l
  let c := if i0 = 0 then fitMedian prim (b 1) (b 2) (b 3) (b 4) (b 6) (b 7) (b 9) (b 5) (b 8)
    else if i0 = 1 then fitMedian prim (b 0) (b 2) (b 5) (b 6) (b 3) (b 8) (b 9) (b 4) (b 7)
    else fitMedian prim (b 0) (b 1) (b 7) (b 8) (b 4) (b 5) (b 9) (b 3) (b 6)
  let d := if i0 = 0 then fitEnd (b 1) (b 3) (b 4) (b 2)
    else if i0 = 1 then fitEnd (b 2) (b 5) (b 6) (b 0)
    else fitEnd (b 0) (b 7) (b 8) (b 1)
  let acc := fitAdd acc c
  fitAdd acc d

/-- The fitting loop: the matrix `tAA` and the second member `tAb`. -/
def defmetreg_fit (env : Env K) (prim : Prim K) (mesh : Mesh K) (idp : Nat)
    (r : Mat3 K) (list : Nat → Nat) (bfail : Nat → Nat → Vec3 K) (ilist : Nat) :
    Met6 K × Vec3 K :=
  (List.range ilist).foldl (defmetreg_fitStep env prim mesh idp r list bfail)
    (Met6.zero, ⟨0, 0, 0⟩)

/-- The truncation of a principal curvature into a size (lines 661-667 and
1016-1022): `2.0/9.0 * fabs(kappa)/hausd`, then `MG_MIN` with `isqhmin`, then
`MG_MAX` with `isqhmax`. -/
def defmetreg_trunc (info : Info K) (kappa : K) : K :=
  let isqhmin := 1 / (info.hmin * info.hmin)
  let isqhmax := 1 / (info.hmax * info.hmax)
  let kappa := 2 / 9 * |kappa| / info.hausd
  let kappa := MG_MIN kappa isqhmin
  MG_MAX kappa isqhmax

/-- Lines 655-673 and 1010-1028: from the solution `c` of the normal equations
to the tangential form `intm`, through `_MMG5_eigensym` and the truncation. -/
def defmetreg_intm (prim : Prim K) (info : Info K) (c : Vec3 K) : Vec3 K :=
  let intm : Vec3 K := ⟨2 * c.x, c.z, 2 * c.y⟩
  let e := prim.eigensym intm
  let vp := e.2
  let kappa0 := defmetreg_trunc info e.1.1
  let kappa1 := defmetreg_trunc info e.1.2
  ⟨kappa0 * vp.v00 * vp.v00 + kappa1 * vp.v10 * vp.v10,
   kappa0 * vp.v00 * vp.v01 + kappa1 * vp.v10 * vp.v11,
   kappa0 * vp.v01 * vp.v01 + kappa1 * vp.v11 * vp.v11⟩

/-- Lines 766-777 and 1035-1046 (and the same text in `grad2met`): the tensor
`tR * intm * R` where `intm` has 0 in the z direction. -/
def defmetreg_back (r : Mat3 K) (intm : Vec3 K) : Met6 K :=
  let b0 : Vec3 K := ⟨intm.x * r.r00 + intm.y * r.r10, intm.x * r.r01 + intm.y * r.r11,
    intm.x * r.r02 + intm.y * r.r12⟩
  let b1 : Vec3 K := ⟨intm.y * r.r00 + intm.z * r.r10, intm.y * r.r01 + intm.z * r.r11,
    intm.y * r.r02 + intm.z * r.r12⟩
  ⟨r.r00 * b0.x + r.r10 * b1.x,
   r.r00 * b0.y + r.r10 * b1.y,
   r.r00 * b0.z + r.r10 * b1.z,
   r.r01 * b0.y + r.r11 * b1.y,
   r.r01 * b0.z + r.r11 * b1.z,
   r.r02 * b0.z + r.r12 * b1.z⟩

/-! ## `defmetreg` (lines 793-1074) -/

/-- The estimator `defmetreg(mesh,met,it,ip)` of a regular vertex: the return
code and the new metric array, or the fatal exit when the ball is empty. -/
def defmetreg (env : Env K) (prim : Prim K) (bfail : Nat → Nat → Vec3 K) (mesh : Mesh K)
    (m : Nat → Met6 K) (it ip : Nat) : Except Fatal (Int × (Nat → Met6 K)) :=
  let pt := mesh.tria it
  let idp := pt.v ip
  let p0 := mesh.point idp
  let bl := env.boulet mesh it ip
  let ilist := bl.1
  let list := bl.2
  if ilist = 0 then .error Fatal.exitFailure
  else
    let isqhmax := 1 / (mesh.info.hmax * mesh.info.hmax)
    let r := env.rotmatrix p0.n
    let lispoi := defmetreg_lispoi env mesh idp r list
    if defmetreg_badproj lispoi ilist.toNat then .ok (0, m)
    else
      let fit := defmetreg_fit env prim mesh idp r list bfail ilist.toNat
      let tAA := fit.1
      let tAb := fit.2
      if tAb.x * tAb.x + tAb.y * tAb.y + tAb.z * tAb.z < env.EPSD then
        .ok (1, Function.update m idp ⟨isqhmax, 0, 0, isqhmax, 0, isqhmax⟩)
      else
        match prim.sys33sym tAA tAb with
        | none => .ok (0, m)
        | some c =>
          .ok (1, Function.update m idp (defmetreg_back r (defmetreg_intm prim mesh.info c)))

/-! ## `defmetref` (lines 413-780) -/

/-- One of the two blocks of lines 460-470 and 472-482: the endpoint `v` of a
reference edge is recorded in `ipref`, or the process is stopped by `exit(0)`. -/
def defmetref_store (ipref : Nat × Nat) (v : Nat) : Except Fatal (Nat × Nat) :=
  if ipref.1 = 0 then .ok (v, ipref.2)
  else if ipref.2 = 0 ∧ v ≠ ipref.1 then .ok (ipref.1, v)
  else if v ≠ ipref.1 ∧ v ≠ ipref.2 then .error Fatal.exitZero
  else .ok ipref

/-- The endpoints of reference edges met in the ball triangle number `k`, in
the order of the two tests of lines 460 and 472: `pt->v[i2]` when the edge `i1`
is a reference edge, then `pt->v[i1]` when the edge `i2` is one. -/
def defmetref_ends (env : Env K) (mesh : Mesh K) (list : Nat → Nat) (k : Nat) : List Nat :=
  let iel := list k / 3
  let i0 := list k % 3
  let i1 := env.inxt2 i0
  let i2 := env.iprv2 i0
  let pt := mesh.tria iel
  (if hasBit (pt.tag i1) env.MG_REF then [pt.v i2] else []) ++
    (if hasBit (pt.tag i2) env.MG_REF then [pt.v i1] else [])

/-- The part of the first loop of `defmetref` (lines 451-484) that fills
`ipref`, from `ipref[0] = ipref[1] = 0`. -/
def defmetref_scan (env : Env K) (mesh : Mesh K) (list : Nat → Nat) (ilist : Nat) :
    Except Fatal (Nat × Nat) :=
  (List.range ilist).foldlM
    (fun ipref k => (defmetref_ends env mesh list k).foldlM defmetref_store ipref) (0, 0)

/-- One iteration of the loop of lines 682-728 on the reference neighbour `ipr`:
the new `kappacur` and the content of `b0`, which line 694 writes in every
iteration. The normalised `tau` and `c[0]`, `c[1]` of lines 720-726 are not read
afterwards. -/
def defmetref_curve (env : Env K) (prim : Prim K) (mesh : Mesh K) (idp : Nat) (r : Mat3 K)
    (st : K × Vec3 K) (ipr : Nat) : Except Fatal (K × Vec3 K) :=
  let p0 := mesh.point idp
  let isqhmax := 1 / (mesh.info.hmax * mesh.info.hmax)
  let t := p0.n
  let p1 := mesh.point ipr
  let ux := p1.c.x - p0.c.x
  let uy := p1.c.y - p0.c.y
  let uz := p1.c.z - p0.c.z
  let ps1 := ux * t.x + uy * t.y + uz * t.z
  let c : Vec3 K := ⟨prim.ATHIRD * ps1 * t.x, prim.ATHIRD * ps1 * t.y, prim.ATHIRD * ps1 * t.z⟩
  let b0 := r.mulVec c
  let cc : Except Fatal (Vec3 K) :=
    if hasBit p1.tag prim.MG_CRN || hasBit p1.tag prim.MG_NOM then
      .ok ⟨p1.c.x - prim.ATHIRD * ux, p1.c.y - prim.ATHIRD * uy, p1.c.z - prim.ATHIRD * uz⟩
    else if hasBit p1.tag env.MG_REF then
      let t1 := p1.n
      let ps1 := -(ux * t1.x + uy * t1.y + uz * t1.z)
      .ok ⟨p1.c.x + prim.ATHIRD * ps1 * t1.x, p1.c.y + prim.ATHIRD * ps1 * t1.y,
        p1.c.z + prim.ATHIRD * ps1 * t1.z⟩
    else .error Fatal.assertFailure
  match cc with
  | .error e => .error e
  | .ok c =>
    let c : Vec3 K := ⟨c.x - p0.c.x, c.y - p0.c.y, c.z - p0.c.z⟩
    let b1 := r.mulVec c
    let tau0 := 3 * b0.x
    let tau1 := 3 * b0.y
    let ll := tau0 * tau0 + tau1 * tau1
    if ll < env.EPSD then .ok (isqhmax, b0)
    else
      let gammasec2 := -12 * b0.z + 6 * b1.z
      .ok (MG_MAX st.1 (MG_MAX 0 (1 / ll * |gammasec2|)), b0)

/-- Lines 730-758 of `defmetref`: the form `intm` after the override along the
reference curve, from `kappacur`, the content of `b0` and the form `intm` of the
quadric fit. -/
def defmetref_blend (prim : Prim K) (mesh : Mesh K) (idp : Nat) (r : Mat3 K)
    (kappacur : K) (b0 : Vec3 K) (intm : Vec3 K) : Vec3 K :=
  let isqhmin := 1 / (mesh.info.hmin * mesh.info.hmin)
  let isqhmax := 1 / (mesh.info.hmax * mesh.info.hmax)
  let t := (mesh.point idp).n
  let c := r.mulVec t
  let tau0 := c.x
  let tau1 := c.y
  let kappacur := 1 / 8 * kappacur / mesh.info.hausd
  let kappacur := MG_MIN kappacur isqhmin
  let kappacur := MG_MAX kappacur isqhmax
  let c : Vec3 K := ⟨kappacur * tau0 * tau0 + isqhmax * tau1 * tau1,
    (kappacur - isqhmax) * tau0 * tau1,
    kappacur * tau1 * tau1 + isqhmax * tau0 * tau0⟩
  prim.intmetsavedir mesh c intm b0

/-- The estimator `defmetref(mesh,met,it,ip)` of a reference vertex: the return
code and the new metric array, or a fatal stop (empty ball, third reference
endpoint, failed assertion). -/
def defmetref (env : Env K) (prim : Prim K) (bfail : Nat → Nat → Vec3 K) (mesh : Mesh K)
    (m : Nat → Met6 K) (it ip : Nat) : Except Fatal (Int × (Nat → Met6 K)) :=
  let pt := mesh.tria it
  let idp := pt.v ip
  let p0 := mesh.point idp
  let bl := env.boulet mesh it ip
  let ilist := bl.1
  let list := bl.2
  if ilist = 0 then .error Fatal.exitFailure
  else
    let isqhmax := 1 / (mesh.info.hmax * mesh.info.hmax)
    let r := env.rotmatrix (mesh.xpoint p0.ig).n1
    match defmetref_scan env mesh list ilist.toNat with
    | .error e => .error e
    | .ok ipref =>
      let lispoi := defmetreg_lispoi env mesh idp r list
      if defmetref_badproj lispoi ilist.toNat then .ok (0, m)
      else if ipref.1 = 0 ∨ ipref.2 = 0 then .error Fatal.assertFailure
      else
        let fit := defmetreg_fit env prim mesh idp r list bfail ilist.toNat
        let tAA := fit.1
        let tAb := fit.2
        if tAb.x * tAb.x + tAb.y * tAb.y + tAb.z * tAb.z < env.EPSD then
          .ok (1, Function.update m idp ⟨isqhmax, 0, 0, isqhmax, 0, isqhmax⟩)
        else
          match prim.sys33sym tAA tAb with
          | none => .ok (0, m)
          | some c =>
            let intm := defmetreg_intm prim mesh.info c
            match [ipref.1, ipref.2].foldlM (defmetref_curve env prim mesh idp r)
                (0, ⟨0, 0, 0⟩) with
            | .error e => .error e
            | .ok st =>
              let intm := defmetref_blend prim mesh idp r st.1 st.2 intm
              .ok (1, Function.update m idp (defmetreg_back r intm))

end Estimators

section Gradation

variable {K : Type} [LinearOrderedField K]

/-! ## `grad2met` (lines 1175-1466) -/

/-- Lines 1202-1228 (and 1231-1257): the normal and the tensor recovered at an
endpoint `np` of the edge, `none` when `_MMG5_buildridmet` returns 0. -/
def grad2met_side (env : Env K) (prim : Prim K) (mesh : Mesh K) (m : Nat → Met6 K)
    (nt : Vec3 K) (np : Nat) (ux uy uz : K) : Option (Vec3 K × Met6 K) :=
  let p := mesh.point np
  if env.MS_SIN p.tag then some (nt, m np)
  else if hasBit p.tag env.MG_GEO then
    let nn1 := (mesh.xpoint p.ig).n1
    let nn2 := (mesh.xpoint p.ig).n2
    let ps1 := nt.x * nn1.x + nt.y * nn1.y + nt.z * nn1.z
    let ps2 := nt.x * nn2.x + nt.y * nn2.y + nt.z * nn2.z
    let n := if |ps1| < |ps2| then nn2 else nn1
    match prim.buildridmet mesh m np ux uy uz with
    | none => none
    | some mr => some (n, mr)
  else if hasBit p.tag env.MG_REF then some ((mesh.xpoint p.ig).n1, m np)
  else some (p.n, m np)

/-- The tangential data of an endpoint: the block `mtan`, the unit projection
`(t0, t1)` of the chord and the specific speed `ps`. -/
structure GradEnd (K : Type) where
  mtan : Vec3 K
  t0 : K
  t1 : K
  ps : K

/-- Lines 1281-1297 (and 1299-1316): from the rotation `r`, the tensor `m1` and
the image `c` of the chord by `r`, the tangential block, the unit projection
and the speed; `none` when `dd < _MMG5_EPSD2`. -/
def grad2met_end (env : Env K) (prim : Prim K) (r : Mat3 K) (m1 : Met6 K) (c : Vec3 K) :
    Option (GradEnd K) :=
  let mr := prim.rmtr r m1
  let mtan : Vec3 K := ⟨mr.m0, mr.m1, mr.m3⟩
  let dd := c.x * c.x + c.y * c.y
  if dd < prim.EPSD2 then none
  else
    let dd := 1 / env.sqrt dd
    let t0 := c.x * dd
    let t1 := c.y * dd
    let ps := mtan.x * t0 * t0 + 2 * mtan.y * t0 * t1 + mtan.z * t1 * t1
    some ⟨mtan, t0, t1, env.sqrt ps⟩

/-- The components `c[0]`, `c[1]` of the unit projection in the basis `vp`
(lines 1329-1330). -/
def grad2met_comp (vp : Mat2 K) (t0 t1 : K) : K × K :=
  (t0 * vp.v00 + t1 * vp.v01, t0 * vp.v10 + t1 * vp.v11)

/-- The index `ichg` of the eigenvalue that is raised (lines 1332-1347). -/
def grad2met_ichg (vp : Mat2 K) (t0 t1 : K) : Nat :=
  if |(grad2met_comp vp t0 t1).1| > |(grad2met_comp vp t0 t1).2| then 0 else 1

/-- The increment `beta` (lines 1334 and 1342). -/
def grad2met_beta (vp : Mat2 K) (t0 t1 ps alpha : K) : K :=
  if |(grad2met_comp vp t0 t1).1| > |(grad2met_comp vp t0 t1).2| then
    (alpha * alpha - ps * ps) / ((grad2met_comp vp t0 t1).1 * (grad2met_comp vp t0 t1).1)
  else
    (alpha * alpha - ps * ps) / ((grad2met_comp vp t0 t1).2 * (grad2met_comp vp t0 t1).2)

/-- The tangential block recomposed from the two values `l0`, `l1` and the
vectors `vp` (lines 1336-1338 and 1344-1346). -/
def grad2met_compose (vp : Mat2 K) (l0 l1 : K) : Vec3 K :=
  ⟨l0 * vp.v00 * vp.v00 + l1 * vp.v10 * vp.v10,
   l0 * vp.v00 * vp.v01 + l1 * vp.v10 * vp.v11,
   l0 * vp.v01 * vp.v01 + l1 * vp.v11 * vp.v11⟩

/-- The tangential block after the update (lines 1332-1347): `mu = lambda[ichg]
+ beta` replaces `lambda[ichg]`. -/
def grad2met_tan (prim : Prim K) (e : GradEnd K) (alpha : K) : Vec3 K :=
  let lambda := (prim.eigensym e.mtan).1
  let vp := (prim.eigensym e.mtan).2
  let beta := grad2met_beta vp e.t0 e.t1 e.ps alpha
  if |(grad2met_comp vp e.t0 e.t1).1| > |(grad2met_comp vp e.t0 e.t1).2| then
    grad2met_compose vp (lambda.1 + beta) lambda.2
  else
    grad2met_compose vp lambda.1 (lambda.2 + beta)

/-- The update of one of the three sizes of a ridge vertex (lines 1355-1375):
the size closest to `lam` receives `beta`. -/
def grad2met_ridge (mm : Met6 K) (lam beta : K) : Met6 K :=
  let c0 := |mm.m0 - lam|
  let c1 := |mm.m1 - lam|
  let c2 := |mm.m2 - lam|
  if c0 < c1 then
    if c0 < c2 then { mm with m0 := mm.m0 + beta }
    else { mm with m2 := mm.m2 + beta }
  else
    if c1 < c2 then { mm with m1 := mm.m1 + beta }
    else { mm with m2 := mm.m2 + beta }

/-- The metric update of lines 1349-1391 (and 1420-1462): the new entry of the
endpoint `p`, whose stored entry is `mm`. -/
def grad2met_update (env : Env K) (prim : Prim K) (p : Point K) (mm : Met6 K) (r : Mat3 K)
    (e : GradEnd K) (alpha : K) : Met6 K :=
  let lambda := (prim.eigensym e.mtan).1
  let vp := (prim.eigensym e.mtan).2
  let beta := grad2met_beta vp e.t0 e.t1 e.ps alpha
  if env.MS_SIN p.tag then
    { mm with m0 := mm.m0 + 1 / 2 * beta, m3 := mm.m3 + 1 / 2 * beta,
              m5 := mm.m5 + 1 / 2 * beta }
  else if hasBit p.tag env.MG_GEO then
    grad2met_ridge mm (if grad2met_ichg vp e.t0 e.t1 = 0 then lambda.1 else lambda.2) beta
  else defmetreg_back r (grad2met_tan prim e alpha)

/-- The bound `alpha = ps /(1.0 + hgrad*l*ps)` that the speed `ps` of one
endpoint puts on the other (lines 1324 and 1394). -/
def grad2met_alpha (info : Info K) (l ps : K) : K := ps / (1 + info.hgrad * l * ps)

/-- What `grad2met` has computed when it reaches the comparison of line 1322: the
two rotations, the tangential data of the two endpoints and the length `l`. -/
structure GradEdge (K : Type) where
  r1 : Mat3 K
  e1 : GradEnd K
  r2 : Mat3 K
  e2 : GradEnd K
  l : K

/-- Lines 1187-1316 of `grad2met`: the data of the two endpoints of the edge `i`
of the triangle `iel`, `none` on each of the four early `return(-1)` (normal of
the triangle, ridge reconstruction, degenerate projection). The sums `l1`, `l2`
of lines 1273-1277 are overwritten at line 1279 before being read. -/
def grad2met_ends (env : Env K) (prim : Prim K) (mesh : Mesh K) (m : Nat → Met6 K)
    (iel i : Nat) : Option (GradEdge K) :=
  let pt := mesh.tria iel
  let i1 := env.inxt2 i
  let i2 := env.iprv2 i
  let np1 := pt.v i1
  let np2 := pt.v i2
  let p1 := mesh.point np1
  let p2 := mesh.point np2
  let ux := p2.c.x - p1.c.x
  let uy := p2.c.y - p1.c.y
  let uz := p2.c.z - p1.c.z
  if prim.nortriOk mesh pt = false then none
  else
    let nt := env.nortri mesh pt
    match grad2met_side env prim mesh m nt np1 ux uy uz with
    | none => none
    | some (n1, m1) =>
      match grad2met_side env prim mesh m nt np2 ux uy uz with
      | none => none
      | some (n2, m2) =>
        let r1 := env.rotmatrix n1
        let r2 := env.rotmatrix n2
        let l := env.sqrt (ux * ux + uy * uy + uz * uz)
        match grad2met_end env prim r1 m1 (r1.mulVec ⟨ux, uy, uz⟩) with
        | none => none
        | some e1 =>
          match grad2met_end env prim r2 m2
              ⟨-(r2.r00 * ux + r2.r01 * uy + r2.r02 * uz),
               -(r2.r10 * ux + r2.r11 * uy + r2.r12 * uz),
               -(r2.r20 * ux + r2.r21 * uy + r2.r22 * uz)⟩ with
          | none => none
          | some e2 => some ⟨r1, e1, r2, e2, l⟩

/-- The function `grad2met(mesh,met,iel,i)`: the returned index (-1 when nothing
is changed) and the metric array. -/
def grad2met (env : Env K) (prim : Prim K) (mesh : Mesh K) (m : Nat → Met6 K)
    (iel i : Nat) : Int × (Nat → Met6 K) :=
  let pt := mesh.tria iel
  let i1 := env.inxt2 i
  let i2 := env.iprv2 i
  let np1 := pt.v i1
  let np2 := pt.v i2
  match grad2met_ends env prim mesh m iel i with
  | none => (-1, m)
  | some g =>
    if g.e2.ps > g.e1.ps then
      let alpha := grad2met_alpha mesh.info g.l g.e2.ps
      if g.e1.ps ≥ alpha - prim.EPS then (-1, m)
      else ((i1 : Int), Function.update m np1
        (grad2met_update env prim (mesh.point np1) (m np1) g.r1 g.e1 alpha))
    else
      let alpha := grad2met_alpha mesh.info g.l g.e1.ps
      if g.e2.ps ≥ alpha - prim.EPS then (-1, m)
      else ((i2 : Int), Function.update m np2
        (grad2met_update env prim (mesh.point np2) (m np2) g.r2 g.e2 alpha))

/-! ## `gradsiz_ani` (lines 1469-1528) -/

/-- The state of `gradsiz_ani`: the mesh (its vertex flags are written), the
metric array, the generation `mesh->base` and the counters `it`, `nup`, `nu`. -/
structure GradState (K : Type) where
  mesh : Mesh K
  m : Nat → Met6 K
  base : Int
  it : Int
  nup : Int
  nu : Int

/-- Lines 1480-1491, for the vertex `k`: the three sizes of a valid ridge vertex
that is not singular are set to their maximum. -/
def gradsiz_iso (env : Env K) (mesh : Mesh K) (m : Nat → Met6 K) (k : Nat) : Nat → Met6 K :=
  let p1 := mesh.point k
  if MG_VOK env p1 = false then m
  else if env.MS_SIN p1.tag then m
  else if hasBit p1.tag env.MG_GEO = false then m
  else
    let mv := MG_MAX (m k).m0 (MG_MAX (m k).m1 (m k).m2)
    Function.update m k { m k with m0 := mv, m1 := mv, m2 := mv }

/-- The first step of `gradsiz_ani` (lines 1479-1491): make ridges iso. -/
def gradsiz_prepass (env : Env K) (mesh : Mesh K) (m : Nat → Met6 K) : Nat → Met6 K :=
  (List.range' 1 mesh.np).foldl (gradsiz_iso env mesh) m

/-- The body of the inner loop (lines 1503-1517) for the edge `i` of the
triangle `k`. -/
def gradsiz_edge (env : Env K) (prim : Prim K) (k : Nat) (s : GradState K) (i : Nat) :
    GradState K :=
  let pt := s.mesh.tria k
  let i1 := env.inxt2 i
  let i2 := env.iprv2 i
  let p1 := s.mesh.point (pt.v i1)
  let p2 := s.mesh.point (pt.v i2)
  if p1.flag < s.base - 1 ∧ p2.flag < s.base - 1 then s
  else
    let res := grad2met env prim s.mesh s.m k i
    let ier := res.1
    if ier = (i1 : Int) then
      { s with mesh := s.mesh.setFlag (pt.v i1) s.base, m := res.2, nu := s.nu + 1 }
    else if ier = (i2 : Int) then
      { s with mesh := s.mesh.setFlag (pt.v i2) s.base, m := res.2, nu := s.nu + 1 }
    else { s with m := res.2 }

/-- The body of the loop over the triangles (lines 1499-1518). -/
def gradsiz_tria (env : Env K) (prim : Prim K) (s : GradState K) (k : Nat) : GradState K :=
  if MG_EOK (s.mesh.tria k) = false then s
  else [0, 1, 2].foldl (gradsiz_edge env prim k) s

/-- One sweep: the body of the `do ... while` loop (lines 1496-1520) followed by
the increment `++it` of its test. -/
def gradsiz_sweep (env : Env K) (prim : Prim K) (s : GradState K) : GradState K :=
  let s0 := { s with base := s.base + 1, nu := 0 }
  let s1 := (List.range' 1 s.mesh.nt).foldl (gradsiz_tria env prim) s0
  { s1 with nup := s1.nup + s1.nu, it := s1.it + 1 }

/-- The `do ... while( ++it < maxit && nu > 0 )` loop. The first argument bounds
the number of sweeps for the recursion; it is never exhausted when it is at
least `maxit - it`. -/
def gradsiz_loop (env : Env K) (prim : Prim K) (maxit : Int) : Nat → GradState K → GradState K
  | 0, s => s
  | fuel + 1, s =>
    let s1 := gradsiz_sweep env prim s
    if s1.it < maxit ∧ s1.nu > 0 then gradsiz_loop env prim maxit fuel s1 else s1

/-- The state of `gradsiz_ani` when it returns. -/
def gradsiz_run (env : Env K) (prim : Prim K) (mesh : Mesh K) (m : Nat → Met6 K) :
    GradState K :=
  let mesh0 := (List.range' 1 mesh.np).foldl (fun me k => me.setFlag k 0) mesh
  let m0 := gradsiz_prepass env mesh0 m
  gradsiz_loop env prim 100 100 ⟨mesh0, m0, 0, 0, 0, 0⟩

/-- The function `gradsiz_ani(mesh,met)`: the return code, the mesh and the metric
array. -/
def gradsiz_ani (env : Env K) (prim : Prim K) (mesh : Mesh K) (m : Nat → Met6 K) :
    Int × Mesh K × (Nat → Met6 K) :=
  (1, (gradsiz_run env prim mesh m).mesh, (gradsiz_run env prim mesh m).m)

end Gradation

/-! ## Specification-side definitions -/

section SpecDefs

variable {K : Type} [LinearOrderedField K]

/-- Componentwise `a + b`. -/
def Vec3.add (a b : Vec3 K) : Vec3 K := ⟨a.x + b.x, a.y + b.y, a.z + b.z⟩

/-- The squared Euclidean norm. -/
def Vec3.normSq (a : Vec3 K) : K := a.dot a

/-- The tangent `tau = 3 (b0 - p0)` of a Bezier edge at its origin. -/
def edgeTangent (p0 b0 : Vec3 K) : Vec3 K := Vec3.smul 3 (b0.sub p0)

/-- The second derivative `g = 6 p0 - 12 b0 + 6 b1` of a Bezier edge at its origin. -/
def edgeSecond (p0 b0 b1 : Vec3 K) : Vec3 K :=
  ((Vec3.smul 6 p0).sub (Vec3.smul 12 b0)).add (Vec3.smul 6 b1)

/-- The curvature `|g - (g.tau) tau/|tau|^2| / |tau|^2` of a Bezier edge at its
origin, the norm being taken with the square root of the environment. -/
def edgeCurvature (env : Env K) (p0 b0 b1 : Vec3 K) : K :=
  let tau := edgeTangent p0 b0
  let g := edgeSecond p0 b0 b1
  env.sqrt (Vec3.normSq (g.sub (Vec3.smul (g.dot tau / tau.normSq) tau))) / tau.normSq

/-- The maximum of the curvature over the edges whose tangent is not degenerate
(`|tau|^2 >= EPSD`); it is `0` when there is no such edge. -/
def maxCurvature (env : Env K) (p0 : Vec3 K) (cps : List (Vec3 K × Vec3 K)) : K :=
  ((cps.filter (fun e => decide (env.EPSD ≤ (edgeTangent p0 e.1).normSq))).map
    (fun e => edgeCurvature env p0 e.1 e.2)).foldr max 0

/-- The size `max(isqhmax, min(isqhmin, kappa/(8*hausd)))`. -/
def clampSize (info : Info K) (kappa : K) : K :=
  max (isq info.hmax) (min (isq info.hmin) (kappa / (8 * info.hausd)))

/-- The tensor `a * Identity`. -/
def Met6.iso (a : K) : Met6 K := ⟨a, 0, 0, a, 0, a⟩

/-- The maximum of the seed `isqhmax` and of the clamped contributions `ks`. -/
def seedMax (info : Info K) (ks : List K) : K :=
  (ks.map (clampSize info)).foldr max (isq info.hmax)

/-- The value `x` lies in `[isqhmax, isqhmin]`. -/
def InBounds (info : Info K) (x : K) : Prop := isq info.hmax ≤ x ∧ x ≤ isq info.hmin

/-- The vector `v` scaled by `1/sqrt(|v|^2)`: a tangent as the code normalises
it. -/
def Vec3.normalized (env : Env K) (v : Vec3 K) : Vec3 K :=
  Vec3.smul (1 / env.sqrt v.normSq) v

/-- The curvature `max(0, |g - (g.t) t| / |tau|^2)` of a curve of tangent `tau`
and second derivative `g`, `t` being the normalised tangent. -/
def curveCurvature (env : Env K) (tau g : Vec3 K) : K :=
  max 0 (env.sqrt (g.sub (Vec3.smul ((Vec3.normalized env tau).dot g)
    (Vec3.normalized env tau))).normSq / tau.normSq)

/-- The contribution of the ridge arc from the vertex `idp` to its ridge
neighbour `ipr`: the curvature of its Bezier edge, or nothing when the tangent
is degenerate (`|tau|^2 < EPSD`). -/
def arcContribution (env : Env K) (n0 : Vec3 K) (mesh : Mesh K) (idp ipr : Nat) : Option K :=
  if (edgeTangent (mesh.point idp).c (env.bezierEdge mesh idp ipr true n0).1).normSq < env.EPSD
  then none
  else some (curveCurvature env
    (edgeTangent (mesh.point idp).c (env.bezierEdge mesh idp ipr true n0).1)
    (edgeSecond (mesh.point idp).c (env.bezierEdge mesh idp ipr true n0).1
      (env.bezierEdge mesh idp ipr true n0).2))

/-- The second derivative `lambda0^2 H0 + 2 lambda0 lambda1 H1 + lambda1^2 H2` of
the curve drawn on the Bezier patch in the direction `(lambda0, lambda1)`. -/
def frameSecond (f : RidFrame K) : Vec3 K :=
  ((Vec3.smul (f.lambda0 * f.lambda0) f.H0).add
    (Vec3.smul (2 * f.lambda0 * f.lambda1) f.H1)).add (Vec3.smul (f.lambda1 * f.lambda1) f.H2)

/-- No triangle of the rotated half-ball straddles the direction `u` or the
direction `-u`: the test `detg > 0 && detd > 0` fails for every `k < ilist`
with both signs. -/
def NoStraddle (lispoi : Nat → Vec3 K) (u0 u1 : K) (ilist : Nat) : Prop :=
  ∀ k, k < ilist →
    ¬ (0 < defmetrid_detg lispoi u0 u1 k ∧ 0 < defmetrid_detd lispoi u0 u1 k) ∧
    ¬ (0 < defmetrid_detg lispoi (u0 * (-1)) (u1 * (-1)) k ∧
       0 < defmetrid_detd lispoi (u0 * (-1)) (u1 * (-1)) k)

/-- The contribution of the sheet with normal `n` and half-ball `(ilist, list)`
is skipped: no triangle straddles the direction orthogonal to the rotated
tangent with either sign, or the Bezier patch of the located triangle fails, or
the barycentric denominator is below `EPSD`, or the interpolated tangent is
degenerate. `pt0` is the triangle left in the local `pt`. -/
def SheetSkipped (env : Env K) (mesh : Mesh K) (idp : Nat) (n : Vec3 K)
    (ilist : Nat) (list : Nat → Nat) (pt0 : Tria) : Prop :=
  let t := (mesh.point idp).n
  let r := env.rotmatrix n
  let lispoi := (defmetrid_rot env mesh idp r ilist list pt0).2
  let trot0 := r.r00 * t.x + r.r01 * t.y + r.r02 * t.z
  let trot1 := r.r10 * t.x + r.r11 * t.y + r.r12 * t.z
  let loc := defmetrid_locate lispoi trot0 trot1 ilist
  let k := loc.1
  let detg := defmetrid_detg lispoi loc.2.1 loc.2.2 k
  let detd := defmetrid_detd lispoi loc.2.1 loc.2.2 k
  NoStraddle lispoi (-trot1) trot0 ilist ∨
  env.bezierCP mesh (mesh.tria (list k / 3)) = none ∨
  detg + detd < env.EPSD ∨
  ∃ b, env.bezierCP mesh (mesh.tria (list k / 3)) = some b ∧
    (defmetrid_tau (defmetrid_frame b (list k % 3) 0 (detd * (1 / (detg + detd)))
      (1 - detd * (1 / (detg + detd))))).normSq < env.EPSD

/-- The contribution of the sheet with normal `n` and half-ball `(ilist, list)`:
the curvature of the curve drawn on the Bezier patch of the straddling triangle
in the direction orthogonal to the ridge tangent, or nothing when the
contribution is skipped. `pt0` is the triangle left in the local `pt`. -/
def sheetContribution (env : Env K) (mesh : Mesh K) (idp : Nat) (n : Vec3 K)
    (ilist : Nat) (list : Nat → Nat) (pt0 : Tria) : Option K :=
  let t := (mesh.point idp).n
  let r := env.rotmatrix n
  let lispoi := (defmetrid_rot env mesh idp r ilist list pt0).2
  let trot0 := r.r00 * t.x + r.r01 * t.y + r.r02 * t.z
  let trot1 := r.r10 * t.x + r.r11 * t.y + r.r12 * t.z
  let loc := defmetrid_locate lispoi trot0 trot1 ilist
  let k := loc.1
  let detg := defmetrid_detg lispoi loc.2.1 loc.2.2 k
  let detd := defmetrid_detd lispoi loc.2.1 loc.2.2 k
  if k = ilist then none
  else match env.bezierCP mesh (mesh.tria (list k / 3)) with
    | none => none
    | some b =>
      if detg + detd < env.EPSD then none
      else if (defmetrid_tau (defmetrid_frame b (list k % 3) 0 (detd * (1 / (detg + detd)))
          (1 - detd * (1 / (detg + detd))))).normSq < env.EPSD then none
      else some (curveCurvature env
        (defmetrid_tau (defmetrid_frame b (list k % 3) 0 (detd * (1 / (detg + detd)))
          (1 - detd * (1 / (detg + detd)))))
        (frameSecond (defmetrid_frame b (list k % 3) 0 (detd * (1 / (detg + detd)))
          (1 - detd * (1 / (detg + detd))))))

/-- The size `m[0]` raised to the maximum with the clamped contribution of an
arc, when there is one. -/
def addArc (info : Info K) (a : Option K) (m : Met6 K) : Met6 K :=
  match a with
  | none => m
  | some x => { m with m0 := max m.m0 (clampSize info x) }

/-- The size `m[i+1]` raised to the maximum with the clamped contribution of the
sheet `i`, when there is one. -/
def addSheet (info : Info K) (i : Nat) (a : Option K) (m : Met6 K) : Met6 K :=
  match a with
  | none => m
  | some x => m.set (i + 1) (max (m.get (i + 1)) (clampSize info x))

/-- The entry that `defmetrid` writes at a ridge vertex, from the contributions
of its two ridge arcs and of its two sheets. -/
def ridgeEntry (info : Info K) (a0 a1 s1 s2 : Option K) : Met6 K :=
  ⟨seedMax info (a1.toList ++ a0.toList), seedMax info s1.toList, seedMax info s2.toList,
    0, 0, 0⟩

/-- The form of the entry written by `defmetrid`: `m[3] = m[4] = m[5] = 0` and
each of `m[0]`, `m[1]`, `m[2]` is the maximum of the seed `isqhmax` and of clamped
contributions, at most two for `m[0]` (the two ridge arcs) and at most one for
`m[1]` and for `m[2]` (one sheet each). -/
def RidgeForm (info : Info K) (v : Met6 K) : Prop :=
  v.m3 = 0 ∧ v.m4 = 0 ∧ v.m5 = 0 ∧
  (∃ ks : List K, ks.length ≤ 2 ∧ v.m0 = seedMax info ks) ∧
  (∃ ks : List K, ks.length ≤ 1 ∧ v.m1 = seedMax info ks) ∧
  (∃ ks : List K, ks.length ≤ 1 ∧ v.m2 = seedMax info ks)

/-- Two meshes differ at most by the flags of their vertices. -/
def SameGeom (a b : Mesh K) : Prop :=
  a.np = b.np ∧ a.nt = b.nt ∧ a.npmax = b.npmax ∧ a.info = b.info ∧ a.tria = b.tria ∧
  a.xpoint = b.xpoint ∧
  ∀ k, (a.point k).c = (b.point k).c ∧ (a.point k).n = (b.point k).n ∧
    (a.point k).tag = (b.point k).tag ∧ (a.point k).ig = (b.point k).ig

/-- The entry `v` is one that an estimator called by the first pass writes for
a vertex of tag `tag`: `defmetsin` writes a clamped size times the identity at a
singular vertex, `defmetrid` an entry of the form `RidgeForm` at a ridge vertex. -/
def Estimated (env : Env K) (info : Info K) (tag : Nat) (v : Met6 K) : Prop :=
  (env.MS_SIN tag = true ∧ ∃ a, v = Met6.iso (clampSize info a)) ∨
  (env.MS_SIN tag = false ∧ hasBit tag env.MG_GEO = true ∧ RidgeForm info v)

/-- The invariant of the first pass, relative to the state `s0` on entry: the
mesh changes by its flags only, and each vertex either is untouched (flag and
entry) or was a valid vertex with flag 0 which is now flagged 1 and holds an
estimated entry. -/
def Pass1Inv (env : Env K) (s0 s : SizState K) : Prop :=
  SameGeom s0.mesh s.mesh ∧
  ∀ k, ((s.mesh.point k).flag = (s0.mesh.point k).flag ∧ s.m k = s0.m k) ∨
    ((s.mesh.point k).flag = 1 ∧ (s0.mesh.point k).flag = 0 ∧
      MG_VOK env (s0.mesh.point k) = true ∧
      Estimated env s0.mesh.info (s0.mesh.point k).tag (s.m k))

/-- The value that the second loop writes at a vertex it fills. -/
def fillValue (env : Env K) (ismet : Bool) (q : K) (s : SizState K) (k : Nat) : Met6 K :=
  if ismet then s.mm else defsiz_default env s.mesh q (s.mesh.point k)

/-- The matrix `r[i][j]` as a matrix of Mathlib. -/
def Mat3.toMatrix (r : Mat3 K) : Matrix (Fin 3) (Fin 3) K :=
  !![r.r00, r.r01, r.r02; r.r10, r.r11, r.r12; r.r20, r.r21, r.r22]

/-- The symmetric tensor `[[m0,m1,m2],[m1,m3,m4],[m2,m4,m5]]` of a stored entry. -/
def Met6.toMatrix (v : Met6 K) : Matrix (Fin 3) (Fin 3) K :=
  !![v.m0, v.m1, v.m2; v.m1, v.m3, v.m4; v.m2, v.m4, v.m5]

/-- The matrix `r` is orthogonal: `r^T r = Identity`. -/
def Mat3.IsOrthogonal (r : Mat3 K) : Prop := r.toMatrix.transpose * r.toMatrix = 1

/-- All eigenvalues of the symmetric tensor `M` lie in `[lo, hi]`: the quadratic
form is bounded by `lo |v|^2` and `hi |v|^2`, and every eigenvalue (of a non-zero
eigenvector) lies between `lo` and `hi`. -/
def SpectrumIn (M : Matrix (Fin 3) (Fin 3) K) (lo hi : K) : Prop :=
  (∀ v : Fin 3 → K, lo * Matrix.dotProduct v v ≤ Matrix.dotProduct v (M.mulVec v) ∧
    Matrix.dotProduct v (M.mulVec v) ≤ hi * Matrix.dotProduct v v) ∧
  (∀ (mu : K) (v : Fin 3 → K), v ≠ 0 → M.mulVec v = mu • v → lo ≤ mu ∧ mu ≤ hi)

/-- The tensor `M` is positive semi-definite: `v^T M v >= 0` for every `v`. -/
def IsPSD (M : Matrix (Fin 3) (Fin 3) K) : Prop :=
  ∀ v : Fin 3 → K, 0 ≤ Matrix.dotProduct v (M.mulVec v)

/-- The vertex of tag `tag` is a ridge vertex for the builder: not singular, with
the bit `MG_GEO`. -/
def IsRidgeTag (env : Env K) (tag : Nat) : Prop :=
  env.MS_SIN tag = false ∧ hasBit tag env.MG_GEO = true

/-- The state on entry of the first pass when no metric is supplied: `hmax`
defaulted, flags reset, zeroed storage, uninitialised `mm`. -/
def pass1Entry (mesh : Mesh K) (mm0 : Met6 K) : SizState K :=
  ⟨defsiz_reset (defsiz_hmax mesh), fun _ => Met6.zero, mm0⟩

/-- No ball or half-ball query made by the first pass fails: on every state of
the mesh `mesh0` (same geometry, any flags), for a vertex of an active triangle,
`boulet` does not return 0 if the vertex is singular and `bouletrid` does not
return 0 if it is a ridge vertex. -/
def QueriesOk (env : Env K) (mesh0 : Mesh K) : Prop :=
  ∀ me, SameGeom mesh0 me → ∀ it ip, MG_EOK (me.tria it) = true →
    (env.MS_SIN (me.point ((me.tria it).v ip)).tag = true → (env.boulet me it ip).1 ≠ 0) ∧
    (env.MS_SIN (me.point ((me.tria it).v ip)).tag = false →
      hasBit (me.point ((me.tria it).v ip)).tag env.MG_GEO = true →
      (env.bouletrid me it ip).ier ≠ 0)

/-- The control points `(b0, b1)` of the edges of the ball of the vertex `ip` of
the triangle `it`, in the order of the ball. -/
def ballEdges (env : Env K) (mesh : Mesh K) (it ip : Nat) : List (Vec3 K × Vec3 K) :=
  (List.range (env.boulet mesh it ip).1.toNat).map
    (defmetsin_cp env mesh ((mesh.tria it).v ip) (env.boulet mesh it ip).2)

/-- The maximum curvature `maxK` over the ball of the vertex `ip` of the triangle
`it`. -/
def ballMaxK (env : Env K) (mesh : Mesh K) (it ip : Nat) : K :=
  maxCurvature env (mesh.point ((mesh.tria it).v ip)).c (ballEdges env mesh it ip)

end SpecDefs

/-! ## Concrete meshes and environments

Inputs on which the definitions are run. The constants are those of the mmg
headers; the queries and the Bezier reconstruction are given for the meshes
below. -/

section Instances

/-- Newton iteration for the integer square root of `n`, from the estimate `x`. -/
def natSqrtAux (n : Nat) : Nat → Nat → Nat
  | 0, x => x
  | fuel + 1, x =>
    if x = 0 then 0
    else if (x + n / x) / 2 < x then natSqrtAux n fuel ((x + n / x) / 2)
    else x

/-- The integer square root (for numbers below `2^64`). -/
def natSqrt (n : Nat) : Nat := natSqrtAux n 64 n

/-- A square root on `ℚ`: exact on the squares of rationals, rounded down on
the numerator otherwise. -/
def sqrtQ (x : ℚ) : ℚ :=
  if x ≤ 0 then 0 else (natSqrt (x.num.toNat * x.den) : ℚ) / (x.den : ℚ)

/-- A triangle with vertices `a`, `b`, `c`, edge tags `t0`, `t1`, `t2` and
region `ref`. -/
def mkTria (a b c t0 t1 t2 : Nat) (ref : Int) : Tria :=
  ⟨fun i => if i = 0 then a else if i = 1 then b else c,
   fun i => if i = 0 then t0 else if i = 1 then t1 else t2, ref⟩

/-- The point `p + s (q - p)` of the segment from `p` to `q`. -/
def onSegment (s : ℚ) (p q : Vec3 ℚ) : Vec3 ℚ :=
  ⟨p.x + s * (q.x - p.x), p.y + s * (q.y - p.y), p.z + s * (q.z - p.z)⟩

/-- The control points of the flat Bezier patch of a triangle: corners `0,1,2`,
edge points `3,4` on the edge 1-2, `5,6` on the edge 2-0, `7,8` on the edge 0-1,
centre `9`. -/
def flatPatch (me : Mesh ℚ) (pt : Tria) : Nat → Vec3 ℚ :=
  let p0 := (me.point (pt.v 0)).c
  let p1 := (me.point (pt.v 1)).c
  let p2 := (me.point (pt.v 2)).c
  fun j =>
    if j = 0 then p0 else if j = 1 then p1 else if j = 2 then p2
    else if j = 3 then onSegment (1 / 3) p1 p2 else if j = 4 then onSegment (2 / 3) p1 p2
    else if j = 5 then onSegment (1 / 3) p2 p0 else if j = 6 then onSegment (2 / 3) p2 p0
    else if j = 7 then onSegment (1 / 3) p0 p1 else if j = 8 then onSegment (2 / 3) p0 p1
    else ⟨(p0.x + p1.x + p2.x) / 3, (p0.y + p1.y + p2.y) / 3, (p0.z + p1.z + p2.z) / 3⟩

/-- The identity matrix. -/
def idMat3 : Mat3 ℚ := ⟨1, 0, 0, 0, 1, 0, 0, 0, 1⟩

/-- An environment for flat meshes whose normals are all `(0,0,1)`: the
constants of the mmg headers, straight Bezier edges and flat patches, the ball
of a vertex reduced to the triangle it is asked from (`boulet` and `bouletrid`
return 0 on a deleted triangle), the identity as rotation, no allocation failure. -/
def flatEnv : Env ℚ where
  EPSD := 1 / 10 ^ 30
  MG_NUL := 16384
  MG_REF := 1
  MG_GEO := 2
  MS_SIN := fun t => hasBit t 32 || hasBit t 8
  MG_EDG := fun t => hasBit t 1 || hasBit t 2
  inxt2 := fun i => (i + 1) % 3
  iprv2 := fun i => (i + 2) % 3
  sqrt := sqrtQ
  boulet := fun me it ip =>
    if MG_EOK (me.tria it) then (1, fun _ => 3 * it + ip) else (0, fun _ => 0)
  bouletrid := fun me it ip =>
    if MG_EOK (me.tria it) then
      ⟨1, 1, fun _ => 3 * it + ip, 1, fun _ => 3 * it + ip,
        (me.tria it).v ((ip + 1) % 3), (me.tria it).v ((ip + 2) % 3)⟩
    else ⟨0, 0, fun _ => 0, 0, fun _ => 0, 0, 0⟩
  bezierEdge := fun me i0 i1 _ _ =>
    (onSegment (1 / 3) (me.point i0).c (me.point i1).c,
     onSegment (2 / 3) (me.point i0).c (me.point i1).c)
  bezierCP := fun me pt => some (flatPatch me pt)
  nortri := fun _ _ => ⟨0, 0, 1⟩
  rotmatrix := fun _ => idMat3
  ADD_MEM := fun _ _ => true
  SAFE_CALLOC := fun _ => true

/-- The environment of a curved patch: as `flatEnv`, but every Bezier edge,
seen from its origin, has its second control point raised by `1/6` along `z`. -/
def curvedEnv : Env ℚ :=
  { flatEnv with
    bezierEdge := fun me i0 i1 _ _ =>
      (onSegment (1 / 3) (me.point i0).c (me.point i1).c,
       ⟨(onSegment (2 / 3) (me.point i0).c (me.point i1).c).x,
        (onSegment (2 / 3) (me.point i0).c (me.point i1).c).y,
        (onSegment (2 / 3) (me.point i0).c (me.point i1).c).z + 1 / 6⟩) }

/-- An environment whose ball query fails everywhere. -/
def noBallEnv : Env ℚ :=
  { flatEnv with boulet := fun _ _ _ => (0, fun _ => 0) }

/-- The unit square `(0,0,0), (1,0,0), (1,1,0), (0,1,0)` cut into the triangles
`(1,2,3)` and `(1,3,4)`; the four vertices have the tag `tag4` for vertex 4 and 0
(regular) for the others, the normal `(0,0,1)` and an arbitrary flag on entry;
`hmin = 0.001`, `hmax = 1`, `hausd = 0.01`. -/
def squareMeshTag (K : Type) [LinearOrderedField K] (tag4 : Nat) : Mesh K where
  np := 4
  nt := 2
  npmax := 4
  point := fun k =>
    ⟨if k = 1 then ⟨0, 0, 0⟩ else if k = 2 then ⟨1, 0, 0⟩ else if k = 3 then ⟨1, 1, 0⟩
      else ⟨0, 1, 0⟩,
     ⟨0, 0, 1⟩, if k = 4 then tag4 else 0, 0, 7⟩
  xpoint := fun _ => ⟨⟨0, 0, 1⟩, ⟨0, 0, 1⟩⟩
  tria := fun k =>
    if k = 1 then mkTria 1 2 3 0 0 0 1
    else if k = 2 then mkTria 1 3 4 0 0 0 1
    else mkTria 0 0 0 0 0 0 0
  info := ⟨1 / 1000, 1, 1 / 100, 1, 1⟩

/-- The flat unit square with four regular vertices. -/
def squareMesh (K : Type) [LinearOrderedField K] : Mesh K := squareMeshTag K 0

/-- The same two triangles with vertex 4 a corner (tag `MG_CRN = 32`), hence
singular. -/
def patchMesh : Mesh ℚ := squareMeshTag ℚ 32

/-- The empty metric structure: no metric supplied. -/
def noMet (K : Type) : Sol K := ⟨0, 0, none⟩

/-- A supplied metric on four vertices: vertex `k` holds `(k+1) * Identity`. -/
def suppliedMet : Sol ℚ := ⟨4, 4, some (fun k => ⟨(k : ℚ) + 1, 0, 0, (k : ℚ) + 1, 0, (k : ℚ) + 1⟩)⟩

/-- A stand-in for an estimator of regular or reference vertices: it always
succeeds and writes `4 * Identity` at the vertex. -/
def fourEstimator : Estimator ℚ :=
  fun me m k i => .ok (1, Function.update m ((me.tria k).v i) ⟨4, 0, 0, 4, 0, 4⟩)

/-- An arbitrary content of the uninitialised buffer `mm`. -/
def junk6 : Met6 ℚ := ⟨9, 9, 9, 9, 9, 9⟩

/-- An arbitrary content of the uninitialised array `n0`. -/
def junk3 : Vec3 ℚ := ⟨9, 9, 9⟩

/-- A roof: the ridge runs along the `x` axis through the ridge vertex 1
`(0,0,0)` (tangent `(1,0,0)`) between the corners 2 `(1,0,0)` and 3 `(-1,0,0)`;
the sheet of normal `(0,3/5,4/5)` holds vertex 4 `(1,4,-3)` and the triangles
`(1,2,4)`, `(1,4,3)`; the sheet of normal `(0,-3/5,4/5)` holds vertex 5
`(1,-4,-3)` and the triangles `(1,3,5)`, `(1,5,2)`. Ridge edges carry the tag
`MG_GEO = 2`. The size bounds are `hmin` and `hmax = 1`, `hausd = 0.01`. -/
def roofMesh (hmin : ℚ) : Mesh ℚ where
  np := 5
  nt := 4
  npmax := 5
  point := fun k =>
    if k = 1 then ⟨⟨0, 0, 0⟩, ⟨1, 0, 0⟩, 2, 1, 0⟩
    else if k = 2 then ⟨⟨1, 0, 0⟩, ⟨1, 0, 0⟩, 34, 2, 0⟩
    else if k = 3 then ⟨⟨-1, 0, 0⟩, ⟨1, 0, 0⟩, 34, 2, 0⟩
    else if k = 4 then ⟨⟨1, 4, -3⟩, ⟨0, 3 / 5, 4 / 5⟩, 0, 0, 0⟩
    else ⟨⟨1, -4, -3⟩, ⟨0, -3 / 5, 4 / 5⟩, 0, 0, 0⟩
  xpoint := fun _ => ⟨⟨0, 3 / 5, 4 / 5⟩, ⟨0, -3 / 5, 4 / 5⟩⟩
  tria := fun k =>
    if k = 1 then mkTria 1 2 4 0 0 2 1
    else if k = 2 then mkTria 1 4 3 0 2 0 1
    else if k = 3 then mkTria 1 3 5 0 0 2 1
    else if k = 4 then mkTria 1 5 2 0 2 0 1
    else mkTria 0 0 0 0 0 0 0
  info := ⟨hmin, 1, 1 / 100, 1, 1⟩

/-- The environment of the roof: the half-balls of the ridge vertex 1 are
`(1,2,4), (1,4,3)` and `(1,3,5), (1,5,2)`, its ridge neighbours are 2 and 3; the
rotation primitive maps each sheet normal to `(0,0,1)`. -/
def roofEnv : Env ℚ :=
  { flatEnv with
    bouletrid := fun _ _ _ =>
      ⟨1, 2, fun k => if k = 0 then 3 else 6, 2, fun k => if k = 0 then 9 else 12, 2, 3⟩
    rotmatrix := fun n =>
      if n = ⟨0, 3 / 5, 4 / 5⟩ then ⟨1, 0, 0, 0, 4 / 5, -3 / 5, 0, 3 / 5, 4 / 5⟩
      else if n = ⟨0, -3 / 5, 4 / 5⟩ then ⟨1, 0, 0, 0, 4 / 5, 3 / 5, 0, -3 / 5, 4 / 5⟩
      else idMat3 }

/-- The entry stored at vertex `k` by a run of the builder, when it returns. -/
def storedAt {K : Type} (r : Except Fatal (Int × Mesh K × Sol K)) (k : Nat) :
    Option (Met6 K) :=
  match r with
  | .ok (_, _, met) => met.m.map (fun m => m k)
  | .error _ => none

/-- The return code of a run of the builder, when it returns. -/
def codeOf {K : Type} (r : Except Fatal (Int × Mesh K × Sol K)) : Option Int :=
  match r with
  | .ok (c, _, _) => some c
  | .error _ => none

/-- A second run of the builder on the state left by a first run. -/
def runAgain {K : Type} (f : Mesh K → Sol K → Except Fatal (Int × Mesh K × Sol K))
    (r : Except Fatal (Int × Mesh K × Sol K)) : Except Fatal (Int × Mesh K × Sol K) :=
  match r with
  | .ok (_, mesh, met) => f mesh met
  | .error e => .error e

/-- The entry stored at vertex `k` by an estimator, with its return code. -/
def estimatedAt {K : Type} (r : Except Fatal (Int × (Nat → Met6 K))) (k : Nat) :
    Option (Int × Met6 K) :=
  match r with
  | .ok (c, m) => some (c, m k)
  | .error _ => none

end Instances

/-! ## Specification-side definitions for the estimators of regular and
reference vertices and for the gradation -/

section SpecDefs2

variable {K : Type} [LinearOrderedField K]

/-- The vertex `k` is a valid ridge vertex that is not singular. -/
def GradRidge (env : Env K) (mesh : Mesh K) (k : Nat) : Prop :=
  1 ≤ k ∧ k ≤ mesh.np ∧ MG_VOK env (mesh.point k) = true ∧
    env.MS_SIN (mesh.point k).tag = false ∧ hasBit (mesh.point k).tag env.MG_GEO = true

instance GradRidge.decidable (env : Env K) (mesh : Mesh K) (k : Nat) :
    Decidable (GradRidge env mesh k) := by
  unfold GradRidge
  infer_instance

/-- The entry `v` with `m[0]`, `m[1]`, `m[2]` replaced by their maximum. -/
def ridgeIso (v : Met6 K) : Met6 K :=
  ⟨max v.m0 (max v.m1 v.m2), max v.m0 (max v.m1 v.m2), max v.m0 (max v.m1 v.m2),
    v.m3, v.m4, v.m5⟩

/-- The eigenvalue `lambda[j]` returned by `_MMG5_eigensym` for the tangential
block of the endpoint `e`. -/
def gradLambda (prim : Prim K) (e : GradEnd K) (j : Nat) : K :=
  if j = 0 then (prim.eigensym e.mtan).1.1 else (prim.eigensym e.mtan).1.2

/-- The component `c[j]` of the unit chord projection of the endpoint `e` in the
basis returned by `_MMG5_eigensym`. -/
def gradComp (prim : Prim K) (e : GradEnd K) (j : Nat) : K :=
  if j = 0 then (grad2met_comp (prim.eigensym e.mtan).2 e.t0 e.t1).1
  else (grad2met_comp (prim.eigensym e.mtan).2 e.t0 e.t1).2

/-- The index of the component of larger magnitude (the second one on a tie). -/
def gradIdx (prim : Prim K) (e : GradEnd K) : Nat :=
  grad2met_ichg (prim.eigensym e.mtan).2 e.t0 e.t1

/-- The increment `beta` of the endpoint `e` for the bound `alpha`. -/
def gradBeta (prim : Prim K) (e : GradEnd K) (alpha : K) : K :=
  grad2met_beta (prim.eigensym e.mtan).2 e.t0 e.t1 e.ps alpha

/-- The quadratic form `a[0] t0^2 + 2 a[1] t0 t1 + a[2] t1^2` of a tangential
block. -/
def quad2 (a : Vec3 K) (t0 t1 : K) : K := a.x * t0 * t0 + 2 * a.y * t0 * t1 + a.z * t1 * t1

/-- The matrix `vp` has a non-zero determinant: its two rows are a basis. -/
def Mat2.IsBasis (vp : Mat2 K) : Prop := vp.v00 * vp.v11 - vp.v01 * vp.v10 ≠ 0

/-- The endpoint updated by `grad2met` is `np`, with rotation `r`, tangential
data `e` and bound `alpha`, and the returned index is `code`: the first endpoint
when the second speed is the larger one, the second endpoint otherwise. -/
def GradUpdated (env : Env K) (mesh : Mesh K) (iel i : Nat) (g : GradEdge K)
    (np : Nat) (r : Mat3 K) (e : GradEnd K) (alpha : K) (code : Int) : Prop :=
  (g.e2.ps > g.e1.ps ∧ np = (mesh.tria iel).v (env.inxt2 i) ∧ r = g.r1 ∧ e = g.e1 ∧
    alpha = grad2met_alpha mesh.info g.l g.e2.ps ∧ code = ((env.inxt2 i : Nat) : Int)) ∨
  (¬ g.e2.ps > g.e1.ps ∧ np = (mesh.tria iel).v (env.iprv2 i) ∧ r = g.r2 ∧ e = g.e2 ∧
    alpha = grad2met_alpha mesh.info g.l g.e1.ps ∧ code = ((env.iprv2 i : Nat) : Int))

/-- The product `M t` of the symmetric tensor of a stored entry and a vector. -/
def Met6.apply (v : Met6 K) (t : Vec3 K) : Vec3 K :=
  ⟨v.m0 * t.x + v.m1 * t.y + v.m2 * t.z, v.m1 * t.x + v.m3 * t.y + v.m4 * t.z,
    v.m2 * t.x + v.m4 * t.y + v.m5 * t.z⟩

/-- The row `i` of a matrix `r` (the last one for `i >= 2`). -/
def Mat3.row (r : Mat3 K) (i : Nat) : Vec3 K :=
  if i = 0 then ⟨r.r00, r.r01, r.r02⟩ else if i = 1 then ⟨r.r10, r.r11, r.r12⟩
  else ⟨r.r20, r.r21, r.r22⟩

/-- The primitive `rmtr` returns the tangential block of `R M tR`: the entries
`mr[0]`, `mr[1]`, `mr[3]` read by `grad2met` are `r0.M r0`, `r0.M r1`, `r1.M r1` for
the first two rows `r0`, `r1` of `R`. -/
def RmtrSpec (prim : Prim K) : Prop :=
  ∀ (r : Mat3 K) (a : Met6 K),
    (prim.rmtr r a).m0 = (r.row 0).dot (a.apply (r.row 0)) ∧
    (prim.rmtr r a).m1 = (r.row 0).dot (a.apply (r.row 1)) ∧
    (prim.rmtr r a).m3 = (r.row 1).dot (a.apply (r.row 1))

/-- The two rows of `vp` are orthonormal vectors. -/
def Mat2.IsOrthonormal (vp : Mat2 K) : Prop :=
  vp.v00 * vp.v00 + vp.v01 * vp.v01 = 1 ∧ vp.v10 * vp.v10 + vp.v11 * vp.v11 = 1 ∧
    vp.v00 * vp.v10 + vp.v01 * vp.v11 = 0

/-- The specific speed that `grad2met` computes for the tensor `a` in the frame
`r` along the unit projection `(t0, t1)`. -/
def speedAlong (env : Env K) (prim : Prim K) (r : Mat3 K) (a : Met6 K) (t0 t1 : K) : K :=
  env.sqrt (quad2 ⟨(prim.rmtr r a).m0, (prim.rmtr r a).m1, (prim.rmtr r a).m3⟩ t0 t1)

/-- The second member `tAb` of the quadric fit is numerically null: the test of
lines 641 and 997. -/
def FlatRhs (env : Env K) (tAb : Vec3 K) : Prop :=
  tAb.x * tAb.x + tAb.y * tAb.y + tAb.z * tAb.z < env.EPSD

instance FlatRhs.decidable (env : Env K) (tAb : Vec3 K) : Decidable (FlatRhs env tAb) := by
  unfold FlatRhs
  infer_instance

/-- The reference endpoints met while the ball `(ilist, list)` is scanned, in the
order of the scan. -/
def refEnds (env : Env K) (mesh : Mesh K) (list : Nat → Nat) (ilist : Nat) : List Nat :=
  (List.range ilist).flatMap (defmetref_ends env mesh list)

/-- One step of `firstSeen`. -/
def seeOne (acc : List Nat) (v : Nat) : List Nat := if v ∈ acc then acc else acc ++ [v]

/-- The distinct elements of a list in the order of their first occurrence. -/
def firstSeen (l : List Nat) : List Nat := l.foldl seeOne []

/-- The pair `ipref` holding the elements of a list of at most two endpoints,
0 standing for "none". -/
def padPair (l : List Nat) : Nat × Nat :=
  match l with
  | [] => (0, 0)
  | [a] => (a, 0)
  | a :: b :: _ => (a, b)

/-- The truncated size `max(isqhmax, min(isqhmin, (2/9)|kappa|/hausd))` of a
principal curvature. -/
def truncSize (info : Info K) (kappa : K) : K :=
  max (isq info.hmax) (min (isq info.hmin) (2 / 9 * |kappa| / info.hausd))

/-- The tangent vector `a r0 + b r1` of the frame `r`, whose local coordinates
are `(a, b, 0)`. -/
def Mat3.tangent (r : Mat3 K) (a b : K) : Vec3 K :=
  (Vec3.smul a (r.row 0)).add (Vec3.smul b (r.row 1))

/-- The curvature form `(2 c[0], c[2], 2 c[1])` that `defmetreg` hands to
`_MMG5_eigensym`, from the solution `c` of the normal equations. -/
def curvForm (c : Vec3 K) : Vec3 K := ⟨2 * c.x, c.z, 2 * c.y⟩

/-- The primitives called by `grad2met` with the mesh as argument do not read
the flags of the vertices: they agree on two meshes that differ at most by
these flags. -/
def FlagFree (env : Env K) (prim : Prim K) : Prop :=
  ∀ a b : Mesh K, SameGeom a b →
    env.nortri a = env.nortri b ∧ prim.nortriOk a = prim.nortriOk b ∧
    prim.buildridmet a = prim.buildridmet b

/-- The ridge reconstruction at the vertex `np` reads the metric array at `np`
only. -/
def RidLocal (prim : Prim K) : Prop :=
  ∀ (me : Mesh K) (m1 m2 : Nat → Met6 K) (np : Nat) (ux uy uz : K), m1 np = m2 np →
    prim.buildridmet me m1 np ux uy uz = prim.buildridmet me m2 np ux uy uz

/-- The edge `i` of the triangle `k` is an edge of an active triangle. -/
def ActiveEdge (mesh : Mesh K) (k i : Nat) : Prop :=
  1 ≤ k ∧ k ≤ mesh.nt ∧ MG_EOK (mesh.tria k) = true ∧ i < 3

/-- The two endpoints of the edges of the active triangles are vertices of the
mesh. -/
def EdgesInMesh (env : Env K) (mesh : Mesh K) : Prop :=
  ∀ k i, ActiveEdge mesh k i →
    (1 ≤ (mesh.tria k).v (env.inxt2 i) ∧ (mesh.tria k).v (env.inxt2 i) ≤ mesh.np) ∧
    (1 ≤ (mesh.tria k).v (env.iprv2 i) ∧ (mesh.tria k).v (env.iprv2 i) ≤ mesh.np)

/-- The edge `i` of the triangle `k` is at rest: `grad2met` returns -1 on it. -/
def EdgeQuiet (env : Env K) (prim : Prim K) (mesh : Mesh K) (m : Nat → Met6 K)
    (k i : Nat) : Prop :=
  (grad2met env prim mesh m k i).1 = -1

/-- The edge is at rest or one of its endpoints has a flag of at least `b`. -/
def EdgeMarked (env : Env K) (prim : Prim K) (s : GradState K) (b : Int) (k i : Nat) : Prop :=
  EdgeQuiet env prim s.mesh s.m k i ∨
    b ≤ (s.mesh.point ((s.mesh.tria k).v (env.inxt2 i))).flag ∨
    b ≤ (s.mesh.point ((s.mesh.tria k).v (env.iprv2 i))).flag

/-- The invariant of a sweep, `done` being the list of the edges that the sweep
has gone through: an edge of an active triangle is at rest unless an endpoint
was flagged in this sweep (edges gone through) or in this sweep or the
preceding one (other edges), and as long as the sweep has updated no vertex the
edges gone through are at rest. -/
def SweepInv (env : Env K) (prim : Prim K) (mesh0 : Mesh K) (b : Int)
    (done : List (Nat × Nat)) (s : GradState K) : Prop :=
  SameGeom mesh0 s.mesh ∧ s.base = b ∧ 0 ≤ s.nu ∧
  ∀ k i, ActiveEdge mesh0 k i →
    ((k, i) ∉ done → EdgeMarked env prim s (b - 1) k i) ∧
    ((k, i) ∈ done → EdgeMarked env prim s b k i) ∧
    ((k, i) ∈ done → s.nu = 0 → EdgeQuiet env prim s.mesh s.m k i)

/-- The state between two sweeps: every edge of an active triangle is at rest
or has an endpoint flagged in the last sweep. -/
def SweepEnd (env : Env K) (prim : Prim K) (mesh0 : Mesh K) (s : GradState K) : Prop :=
  SameGeom mesh0 s.mesh ∧ ∀ k i, ActiveEdge mesh0 k i → EdgeMarked env prim s s.base k i

/-- The return code of `grad2met` from the data of the two endpoints. -/
def gradCode (env : Env K) (prim : Prim K) (info : Info K) (i : Nat)
    (og : Option (GradEdge K)) : Int :=
  match og with
  | none => -1
  | some g =>
    if g.e2.ps > g.e1.ps then
      if g.e1.ps ≥ grad2met_alpha info g.l g.e2.ps - prim.EPS then -1 else (env.inxt2 i : Int)
    else
      if g.e2.ps ≥ grad2met_alpha info g.l g.e1.ps - prim.EPS then -1 else (env.iprv2 i : Int)

end SpecDefs2

/-! ## Concrete inputs for the estimators of regular and reference vertices and
for the gradation -/

section Instances2

/-- The solution of the symmetric system `a r = b` on `ℚ` by Cramer's rule,
`none` when the determinant is 0. -/
def sys33symQ (a : Met6 ℚ) (b : Vec3 ℚ) : Option (Vec3 ℚ) :=
  let det := a.m0 * (a.m3 * a.m5 - a.m4 * a.m4) - a.m1 * (a.m1 * a.m5 - a.m4 * a.m2)
    + a.m2 * (a.m1 * a.m4 - a.m3 * a.m2)
  if det = 0 then none
  else some
    ⟨(b.x * (a.m3 * a.m5 - a.m4 * a.m4) - a.m1 * (b.y * a.m5 - a.m4 * b.z)
        + a.m2 * (b.y * a.m4 - a.m3 * b.z)) / det,
     (a.m0 * (b.y * a.m5 - a.m4 * b.z) - b.x * (a.m1 * a.m5 - a.m4 * a.m2)
        + a.m2 * (a.m1 * b.z - b.y * a.m2)) / det,
     (a.m0 * (a.m3 * b.z - b.y * a.m4) - a.m1 * (a.m1 * b.z - b.y * a.m2)
        + b.x * (a.m1 * a.m4 - a.m3 * a.m2)) / det⟩

/-- The eigenvalues and eigenvectors of a diagonal form `(a, 0, b)`: the values
`a`, `b` and the canonical basis. It is called on diagonal forms only. -/
def eigensymQ (m : Vec3 ℚ) : (ℚ × ℚ) × Mat2 ℚ := ((m.x, m.z), ⟨1, 0, 0, 1⟩)

/-- The six entries of `R M tR` on `ℚ`. -/
def rmtrQ (r : Mat3 ℚ) (m : Met6 ℚ) : Met6 ℚ :=
  let a0 : Vec3 ℚ := ⟨m.m0 * r.r00 + m.m1 * r.r01 + m.m2 * r.r02,
    m.m1 * r.r00 + m.m3 * r.r01 + m.m4 * r.r02, m.m2 * r.r00 + m.m4 * r.r01 + m.m5 * r.r02⟩
  let a1 : Vec3 ℚ := ⟨m.m0 * r.r10 + m.m1 * r.r11 + m.m2 * r.r12,
    m.m1 * r.r10 + m.m3 * r.r11 + m.m4 * r.r12, m.m2 * r.r10 + m.m4 * r.r11 + m.m5 * r.r12⟩
  let a2 : Vec3 ℚ := ⟨m.m0 * r.r20 + m.m1 * r.r21 + m.m2 * r.r22,
    m.m1 * r.r20 + m.m3 * r.r21 + m.m4 * r.r22, m.m2 * r.r20 + m.m4 * r.r21 + m.m5 * r.r22⟩
  ⟨r.r00 * a0.x + r.r01 * a0.y + r.r02 * a0.z, r.r10 * a0.x + r.r11 * a0.y + r.r12 * a0.z,
   r.r20 * a0.x + r.r21 * a0.y + r.r22 * a0.z, r.r10 * a1.x + r.r11 * a1.y + r.r12 * a1.z,
   r.r20 * a1.x + r.r21 * a1.y + r.r22 * a1.z, r.r20 * a2.x + r.r21 * a2.y + r.r22 * a2.z⟩

/-- The constants of the mmg headers and exact linear algebra on `ℚ`; the normal
of a triangle is always computed, the ridge reconstruction returns the three
sizes on the diagonal, the intersection of two forms keeps the second one. -/
def fanPrim : Prim ℚ where
  EPS := 1 / 10 ^ 6
  EPSD2 := 1 / 10 ^ 200
  A64TH := 1 / 64
  A32TH := 1 / 32
  A16TH := 1 / 16
  ATHIRD := 1 / 3
  MG_CRN := 32
  MG_NOM := 8
  nortriOk := fun _ _ => true
  sys33sym := sys33symQ
  eigensym := eigensymQ
  intmetsavedir := fun _ _ n _ => n
  buildridmet := fun _ m np _ _ _ => some ⟨(m np).m0, 0, 0, (m np).m1, 0, (m np).m2⟩
  rmtr := rmtrQ

/-- A fan of four triangles `(5,k,k+1)` around the vertex 5 at the origin, whose
outer vertices `1..4` are at `c1..c4`; every normal and tangent is `(0,0,1)`
resp. `(1,0,0)` for vertex 5, which has the tag `tag5`; `etag k` gives the tags
of the three edges of the triangle `k`; `hmax = 1`, `hausd = 0.01`, `hgrad = 0.1`. -/
def fanMesh (c1 c2 c3 c4 : Vec3 ℚ) (hmin : ℚ) (tag5 : Nat) (etag : Nat → Nat → Nat) :
    Mesh ℚ where
  np := 5
  nt := 4
  npmax := 5
  point := fun k =>
    if k = 1 then ⟨c1, ⟨0, 0, 1⟩, 0, 0, 0⟩
    else if k = 2 then ⟨c2, ⟨0, 0, 1⟩, 0, 0, 0⟩
    else if k = 3 then ⟨c3, ⟨0, 0, 1⟩, 0, 0, 0⟩
    else if k = 4 then ⟨c4, ⟨0, 0, 1⟩, 0, 0, 0⟩
    else ⟨⟨0, 0, 0⟩, if hasBit tag5 1 then ⟨1, 0, 0⟩ else ⟨0, 0, 1⟩, tag5, 1, 0⟩
  xpoint := fun _ => ⟨⟨0, 0, 1⟩, ⟨0, 0, 1⟩⟩
  tria := fun k =>
    if 1 ≤ k ∧ k ≤ 4 then ⟨fun i => if i = 0 then 5 else if i = 1 then k else k % 4 + 1,
      etag k, 1⟩
    else mkTria 0 0 0 0 0 0 0
  info := ⟨hmin, 1, 1 / 100, 1 / 10, 1⟩

/-- The environment of the fan: as `flatEnv`, with the ball of vertex 5 made of
the four triangles in the order `1, 2, 3, 4`. -/
def fanEnv : Env ℚ :=
  { flatEnv with
    boulet := fun me it _ =>
      if MG_EOK (me.tria it) then (4, fun k => 3 * (k + 1)) else (0, fun _ => 0) }

/-- No edge of the fan is tagged. -/
def noTag : Nat → Nat → Nat := fun _ _ => 0

/-- The edges from vertex 5 to the vertices 1 and 3 are reference edges. -/
def refTag13 : Nat → Nat → Nat := fun k j =>
  if (k = 1 ∧ j = 2) ∨ (k = 2 ∧ j = 1) ∨ (k = 3 ∧ j = 2) ∨ (k = 4 ∧ j = 1) then 1 else 0

/-- The edges from vertex 5 to the vertices 1, 2 and 3 are reference edges. -/
def refTag123 : Nat → Nat → Nat := fun k j =>
  if (k = 1 ∧ j = 1) ∨ (k = 2 ∧ j = 2) then 1 else refTag13 k j

/-- The flat fan with outer vertices `(1,0,0), (0,1,0), (-1,0,0), (0,-1,0)`. -/
def flatFan (tag5 : Nat) (etag : Nat → Nat → Nat) : Mesh ℚ :=
  fanMesh ⟨1, 0, 0⟩ ⟨0, 1, 0⟩ ⟨-1, 0, 0⟩ ⟨0, -1, 0⟩ (1 / 1000) tag5 etag

/-- The saddle-free bowl: the outer vertices of the flat fan raised to the
heights `1/10` (vertices 1, 3) and `1/5` (vertices 2, 4). -/
def bowlFan (hmin : ℚ) : Mesh ℚ :=
  fanMesh ⟨1, 0, 1 / 10⟩ ⟨0, 1, 1 / 5⟩ ⟨-1, 0, 1 / 10⟩ ⟨0, -1, 1 / 5⟩ hmin 0 noTag

/-- No content is needed for the local `b`: the Bezier patches of the examples
never fail. -/
def noB : Nat → Nat → Vec3 ℚ := fun _ _ => ⟨0, 0, 0⟩

/-- A metric array on the fan: `100 * Identity` (speed 10) at the centre 5 and
the identity (speed 1) at the other vertices. -/
def gradMet : Nat → Met6 ℚ :=
  fun k => if k = 5 then ⟨100, 0, 0, 100, 0, 100⟩ else ⟨1, 0, 0, 1, 0, 1⟩

/-- The metric array that is the identity (speed 1) at every vertex. -/
def unitMet : Nat → Met6 ℚ := fun _ => ⟨1, 0, 0, 1, 0, 1⟩

end Instances2

/-! ## Edge length and triangle area in the metric (`src/common/mmg_anisosiz.c`) -/

section Evaluators

variable {K : Type} [LinearOrderedField K]

/-! ## `_MMG5_lenedg_ani` (lines 49-181) -/

/-- Lines 72-89: for the endpoint `p0`, neither singular nor taken on a ridge
edge, the normal `n1` that is kept and the product `ps1` of the chord
`(ux,uy,uz)` with it. -/
def lenedg_normal0 (env : Env K) (mesh : Mesh K) (p0 : Point K) (ux uy uz : K) : Vec3 K × K :=
  if hasBit p0.tag env.MG_GEO then
    let n1 := (mesh.xpoint p0.ig).n1
    let n2 := (mesh.xpoint p0.ig).n2
    let ps1 := ux * n1.x + uy * n1.y + uz * n1.z
    let ps2 := ux * n2.x + uy * n2.y + uz * n2.z
    if |ps2| < |ps1| then (n2, ps2) else (n1, ps1)
  else if hasBit p0.tag env.MG_REF then
    let n1 := (mesh.xpoint p0.ig).n1
    (n1, ux * n1.x + uy * n1.y + uz * n1.z)
  else
    (p0.n, ux * p0.n.x + uy * p0.n.y + uz * p0.n.z)

/-- Lines 60-94: the tangent vector `gammaprim0` at the endpoint `p0`; `isedg` is
the truth value of the C argument `isedg`. -/
def lenedg_gamma0 (env : Env K) (mesh : Mesh K) (p0 : Point K) (isedg : Bool)
    (ux uy uz : K) : Vec3 K :=
  if env.MS_SIN p0.tag then ⟨ux, uy, uz⟩
  else if isedg then
    let t := p0.n
    let ps1 := ux * t.x + uy * t.y + uz * t.z
    ⟨ps1 * t.x, ps1 * t.y, ps1 * t.z⟩
  else
    let n1 := (lenedg_normal0 env mesh p0 ux uy uz).1
    let ps1 := (lenedg_normal0 env mesh p0 ux uy uz).2
    ⟨ux - ps1 * n1.x, uy - ps1 * n1.y, uz - ps1 * n1.z⟩

/-- Lines 109-125: for the endpoint `p1`, neither singular nor taken on a ridge
edge, the normal `n1` that is kept and the product `ps1` of the opposite of the
chord with it. -/
def lenedg_normal1 (env : Env K) (mesh : Mesh K) (p1 : Point K) (ux uy uz : K) : Vec3 K × K :=
  if hasBit p1.tag env.MG_GEO then
    let n1 := (mesh.xpoint p1.ig).n1
    let n2 := (mesh.xpoint p1.ig).n2
    let ps1 := -ux * n1.x - uy * n1.y - uz * n1.z
    let ps2 := -ux * n2.x - uy * n2.y - uz * n2.z
    if |ps2| < |ps1| then (n2, ps2) else (n1, ps1)
  else if hasBit p1.tag env.MG_REF then
    let n1 := (mesh.xpoint p1.ig).n1
    (n1, -ux * n1.x - uy * n1.y - uz * n1.z)
  else
    (p1.n, -ux * p1.n.x - uy * p1.n.y - uz * p1.n.z)

/-- Lines 96-130: the tangent vector `gammaprim1` at the endpoint `p1`. -/
def lenedg_gamma1 (env : Env K) (mesh : Mesh K) (p1 : Point K) (isedg : Bool)
    (ux uy uz : K) : Vec3 K :=
  if env.MS_SIN p1.tag then ⟨-ux, -uy, -uz⟩
  else if isedg then
    let t := p1.n
    let ps1 := -ux * t.x - uy * t.y - uz * t.z
    ⟨ps1 * t.x, ps1 * t.y, ps1 * t.z⟩
  else
    let n1 := (lenedg_normal1 env mesh p1 ux uy uz).1
    let ps1 := (lenedg_normal1 env mesh p1 ux uy uz).2
    ⟨-ux - ps1 * n1.x, -uy - ps1 * n1.y, -uz - ps1 * n1.z⟩

/-- Lines 133-153: the tensor `m0` (resp. `m1`) of the endpoint `np`, `none` when
`_MMG5_buildridmet` returns 0. -/
def lenedg_met (env : Env K) (prim : Prim K) (mesh : Mesh K) (m : Nat → Met6 K) (np : Nat)
    (ux uy uz : K) : Option (Met6 K) :=
  let p := mesh.point np
  if env.MS_SIN p.tag then some (m np)
  else if hasBit p.tag env.MG_GEO then prim.buildridmet mesh m np ux uy uz
  else some (m np)

/-- Lines 156-164: the quadratic form of the tensor `a` at the vector `g`. -/
def lenedg_form (a : Met6 K) (g : Vec3 K) : K :=
  a.m0 * g.x * g.x + a.m3 * g.y * g.y + a.m5 * g.z * g.z
    + 2 * a.m1 * g.x * g.y + 2 * a.m2 * g.x * g.z + 2 * a.m4 * g.y * g.z

/-- The function `_MMG5_lenedg_ani(mesh,met,np0,np1,isedg)`: the returned
length, `-1.0` when a ridge reconstruction fails. The two `printf` are not
modelled. -/
def lenedg_ani (env : Env K) (prim : Prim K) (mesh : Mesh K) (m : Nat → Met6 K)
    (np0 np1 : Nat) (isedg : Bool) : K :=
  let p0 := mesh.point np0
  let p1 := mesh.point np1
  let ux := p1.c.x - p0.c.x
  let uy := p1.c.y - p0.c.y
  let uz := p1.c.z - p0.c.z
  let gammaprim0 := lenedg_gamma0 env mesh p0 isedg ux uy uz
  let gammaprim1 := lenedg_gamma1 env mesh p1 isedg ux uy uz
  match lenedg_met env prim mesh m np0 ux uy uz with
  | none => -1
  | some m0 =>
    match lenedg_met env prim mesh m np1 ux uy uz with
    | none => -1
    | some m1 =>
      let l0 := lenedg_form m0 gammaprim0
      let l1 := lenedg_form m1 gammaprim1
      let l0 := if l0 < 0 then 1 else l0
      let l1 := if l1 < 0 then 1 else l1
      1 / 2 * (env.sqrt l0 + env.sqrt l1)

/-! ## `_MMG5_surftri_ani` (lines 193-269) -/

/-- Lines 209-224, for the corner `i` of the triangle `ptt`: the tensor `m[i]`,
`none` when `_MMG5_buildridmet` returns 0. -/
def surftri_met (env : Env K) (prim : Prim K) (mesh : Mesh K) (m : Nat → Met6 K) (ptt : Tria)
    (i : Nat) : Option (Met6 K) :=
  let p := mesh.point (ptt.v i)
  let pi1 := mesh.point (ptt.v (env.inxt2 i))
  let pi2 := mesh.point (ptt.v (env.iprv2 i))
  let ux := 1 / 2 * (pi1.c.x + pi2.c.x) - p.c.x
  let uy := 1 / 2 * (pi1.c.y + pi2.c.y) - p.c.y
  let uz := 1 / 2 * (pi1.c.z + pi2.c.z) - p.c.z
  if env.MS_SIN p.tag then some (m (ptt.v i))
  else if hasBit p.tag env.MG_GEO then prim.buildridmet mesh m (ptt.v i) ux uy uz
  else some (m (ptt.v i))

/-- Lines 228-242: the two columns `(J[0][0], J[1][0], J[2][0])` and
`(J[0][1], J[1][1], J[2][1])` of the matrix `J` at the corner `i`, from the
control points `b.b[0..9]`. -/
def surftri_J (b : Nat → Vec3 K) (i : Nat) : Vec3 K × Vec3 K :=
  if i = 0 then (bez3 (b 7) (b 0), bez3 (b 6) (b 0))
  else if i = 1 then (bez3 (b 1) (b 8), bez3 (b 3) (b 8))
  else (bez3 (b 4) (b 5), bez3 (b 2) (b 5))

/-- Lines 244-258: the density `dens` from the tensor `a` of the corner and the
two columns of `J`. -/
def surftri_dens (a : Met6 K) (J : Vec3 K × Vec3 K) : K :=
  let mJ00 := a.m0 * J.1.x + a.m1 * J.1.y + a.m2 * J.1.z
  let mJ10 := a.m1 * J.1.x + a.m3 * J.1.y + a.m4 * J.1.z
  let mJ20 := a.m2 * J.1.x + a.m4 * J.1.y + a.m5 * J.1.z
  let mJ01 := a.m0 * J.2.x + a.m1 * J.2.y + a.m2 * J.2.z
  let mJ11 := a.m1 * J.2.x + a.m3 * J.2.y + a.m4 * J.2.z
  let mJ21 := a.m2 * J.2.x + a.m4 * J.2.y + a.m5 * J.2.z
  let tJmJ00 := J.1.x * mJ00 + J.1.y * mJ10 + J.1.z * mJ20
  let tJmJ01 := J.1.x * mJ01 + J.1.y * mJ11 + J.1.z * mJ21
  let tJmJ10 := J.2.x * mJ00 + J.2.y * mJ10 + J.2.z * mJ20
  let tJmJ11 := J.2.x * mJ01 + J.2.y * mJ11 + J.2.z * mJ21
  tJmJ00 * tJmJ11 - tJmJ10 * tJmJ01

/-- The function `_MMG5_surftri_ani(mesh,met,ptt)`: the returned area, `0.0`
when the Bezier patch or a ridge reconstruction fails. The test `dens < 0.0`
has an empty body. -/
def surftri_ani (env : Env K) (prim : Prim K) (mesh : Mesh K) (m : Nat → Met6 K)
    (ptt : Tria) : K :=
  match env.bezierCP mesh ptt with
  | none => 0
  | some b =>
    match surftri_met env prim mesh m ptt 0 with
    | none => 0
    | some m0 =>
      match surftri_met env prim mesh m ptt 1 with
      | none => 0
      | some m1 =>
        match surftri_met env prim mesh m ptt 2 with
        | none => 0
        | some m2 =>
          let surf := 0 + env.sqrt |surftri_dens m0 (surftri_J b 0)|
          let surf := surf + env.sqrt |surftri_dens m1 (surftri_J b 1)|
          let surf := surf + env.sqrt |surftri_dens m2 (surftri_J b 2)|
          surf * prim.ATHIRD

end Evaluators

/-! ## The traversals with the record of their calls -/

section Traces

variable {K : Type} [LinearOrderedField K]

/-- A call of an estimator made by the first pass of `defsiz_ani`: the triangle
`k` and the local index `i` given to the estimator, and the value of
`mesh->info.hmax` when the call is made. -/
structure SizCall (K : Type) where
  k : Nat
  i : Nat
  hmax : K
  deriving DecidableEq, Repr

/-- The estimator called by the body of the vertex loop (lines 1114-1133) for the
vertex `i` of the triangle `k` in the state `s`: `defmetsin` at a singular
vertex, `defmetrid` at a ridge vertex; no call for a vertex that is skipped, nor
for the other tags, whose calls stand behind `1 ||`. -/
def defsiz_vertex_calls (env : Env K) (k i : Nat) (s : SizState K) : List (SizCall K) :=
  let pt := s.mesh.tria k
  let ppt := s.mesh.point (pt.v i)
  if ppt.flag ≠ 0 || !MG_VOK env ppt then []
  else if env.MS_SIN ppt.tag then [⟨k, i, s.mesh.info.hmax⟩]
  else if hasBit ppt.tag env.MG_GEO then [⟨k, i, s.mesh.info.hmax⟩]
  else []

/-- The body of the vertex loop with the record of the calls: nothing happens
once the process has stopped. -/
def defsiz_vertex_traced (env : Env K) (defmetref defmetreg : Estimator K) (n0 : Vec3 K)
    (ismet : Bool) (k : Nat) (acc : List (SizCall K) × Except Fatal (SizState K)) (i : Nat) :
    List (SizCall K) × Except Fatal (SizState K) :=
  match acc.2 with
  | .error _ => acc
  | .ok s =>
    (acc.1 ++ defsiz_vertex_calls env k i s, defsiz_vertex env defmetref defmetreg n0 ismet k i s)

/-- The body of the triangle loop (lines 1110-1134) with the record of the
calls. -/
def defsiz_tria_traced (env : Env K) (defmetref defmetreg : Estimator K) (n0 : Vec3 K)
    (ismet : Bool) (acc : List (SizCall K) × Except Fatal (SizState K)) (k : Nat) :
    List (SizCall K) × Except Fatal (SizState K) :=
  match acc.2 with
  | .error _ => acc
  | .ok s =>
    let pt := s.mesh.tria k
    if !MG_EOK pt || pt.ref < 0 then acc
    else [0, 1, 2].foldl (defsiz_vertex_traced env defmetref defmetreg n0 ismet k) acc

/-- The first pass (lines 1109-1135) with the record of the calls. -/
def defsiz_pass1_traced (env : Env K) (defmetref defmetreg : Estimator K) (n0 : Vec3 K)
    (ismet : Bool) (s : SizState K) : List (SizCall K) × Except Fatal (SizState K) :=
  (List.range' 1 s.mesh.nt).foldl (defsiz_tria_traced env defmetref defmetreg n0 ismet)
    ([], .ok s)

/-- The calls of the estimators made by a run of `defsiz_ani(mesh,met)`, in the
order of the calls: none when the allocation fails, those of the first pass
otherwise. -/
def defsiz_calls (env : Env K) (defmetref defmetreg : Estimator K) (mm0 : Met6 K)
    (n0 : Vec3 K) (mesh : Mesh K) (met : Sol K) : List (SizCall K) :=
  match met.m with
  | some m =>
    (defsiz_pass1_traced env defmetref defmetreg n0 true
      ⟨defsiz_reset (defsiz_hmax mesh), m, mm0⟩).1
  | none =>
    if !env.ADD_MEM mesh (6 * mesh.npmax + 1) then []
    else if !env.SAFE_CALLOC (6 * (mesh.npmax + 1) + 1) then []
    else (defsiz_pass1_traced env defmetref defmetreg n0 false
      ⟨defsiz_reset (defsiz_hmax mesh), fun _ => Met6.zero, mm0⟩).1

/-- The call of `grad2met` made by the body of the inner loop of `gradsiz_ani`
(lines 1503-1517) for the edge `i` of the triangle `k` in the state `s`: none when
the edge is skipped by the test on the flags. -/
def gradsiz_edge_calls (env : Env K) (k : Nat) (s : GradState K) (i : Nat) : List (Nat × Nat) :=
  let pt := s.mesh.tria k
  let p1 := s.mesh.point (pt.v (env.inxt2 i))
  let p2 := s.mesh.point (pt.v (env.iprv2 i))
  if p1.flag < s.base - 1 ∧ p2.flag < s.base - 1 then [] else [(k, i)]

/-- The body of the inner loop with the record of the calls. -/
def gradsiz_edge_traced (env : Env K) (prim : Prim K) (k : Nat)
    (acc : List (Nat × Nat) × GradState K) (i : Nat) : List (Nat × Nat) × GradState K :=
  (acc.1 ++ gradsiz_edge_calls env k acc.2 i, gradsiz_edge env prim k acc.2 i)

/-- The body of the loop over the triangles (lines 1499-1518) with the record of
the calls. -/
def gradsiz_tria_traced (env : Env K) (prim : Prim K) (acc : List (Nat × Nat) × GradState K)
    (k : Nat) : List (Nat × Nat) × GradState K :=
  if MG_EOK (acc.2.mesh.tria k) = false then acc
  else [0, 1, 2].foldl (gradsiz_edge_traced env prim k) acc

/-- One sweep with the record of the calls. -/
def gradsiz_sweep_traced (env : Env K) (prim : Prim K) (acc : List (Nat × Nat) × GradState K) :
    List (Nat × Nat) × GradState K :=
  let s0 := { acc.2 with base := acc.2.base + 1, nu := 0 }
  let r := (List.range' 1 acc.2.mesh.nt).foldl (gradsiz_tria_traced env prim) (acc.1, s0)
  (r.1, { r.2 with nup := r.2.nup + r.2.nu, it := r.2.it + 1 })

/-- The `do ... while( ++it < maxit && nu > 0 )` loop with the record of the
calls. -/
def gradsiz_loop_traced (env : Env K) (prim : Prim K) (maxit : Int) :
    Nat → List (Nat × Nat) × GradState K → List (Nat × Nat) × GradState K
  | 0, acc => acc
  | fuel + 1, acc =>
    let a1 := gradsiz_sweep_traced env prim acc
    if a1.2.it < maxit ∧ a1.2.nu > 0 then gradsiz_loop_traced env prim maxit fuel a1 else a1

/-- The calls of `grad2met` made by a run of `gradsiz_ani(mesh,met)`, as pairs
(triangle, edge), in the order of the calls. -/
def gradsiz_calls (env : Env K) (prim : Prim K) (mesh : Mesh K) (m : Nat → Met6 K) :
    List (Nat × Nat) :=
  let mesh0 := (List.range' 1 mesh.np).foldl (fun me k => me.setFlag k 0) mesh
  let m0 := gradsiz_prepass env mesh0 m
  (gradsiz_loop_traced env prim 100 100 ([], ⟨mesh0, m0, 0, 0, 0, 0⟩)).1

end Traces

/-! ## Specification-side definitions for the evaluators and the traversals -/

section SpecDefs3

variable {K : Type} [LinearOrderedField K]

/-- The chord from the vertex `np` to the vertex `nq`. -/
def chord (mesh : Mesh K) (np nq : Nat) : Vec3 K := (mesh.point nq).c.sub (mesh.point np).c

/-- The quadratic form `t^T M t` of a stored entry read as a symmetric tensor. -/
def Met6.quad (a : Met6 K) (t : Vec3 K) : K := t.dot (a.apply t)

/-- The normal selected at an endpoint `p` whose chord to the other endpoint is
`u`: at a ridge vertex, the one of the two normals of its record whose product
with the chord is the smaller in magnitude (the first one on a tie); at a
reference vertex, the normal of its record; at a regular vertex, its own
normal. -/
def selectedNormal (env : Env K) (mesh : Mesh K) (p : Point K) (u : Vec3 K) : Vec3 K :=
  if hasBit p.tag env.MG_GEO then
    if |u.dot (mesh.xpoint p.ig).n2| < |u.dot (mesh.xpoint p.ig).n1| then (mesh.xpoint p.ig).n2
    else (mesh.xpoint p.ig).n1
  else if hasBit p.tag env.MG_REF then (mesh.xpoint p.ig).n1
  else p.n

/-- The tangent `t` at an endpoint `p` whose chord to the other endpoint is `u`:
`u` itself at a singular endpoint, `(u.t) t` with `t` the stored tangent on a
ridge edge, `u - (u.n) n` with `n` the selected normal otherwise. -/
def edgeTangentAt (env : Env K) (mesh : Mesh K) (p : Point K) (isedg : Bool) (u : Vec3 K) :
    Vec3 K :=
  if env.MS_SIN p.tag then u
  else if isedg then Vec3.smul (u.dot p.n) p.n
  else u.sub (Vec3.smul (u.dot (selectedNormal env mesh p u)) (selectedNormal env mesh p u))

/-- The tensor of the vertex `np` for the direction `u`: the stored entry at a
singular, reference or regular vertex, the tensor rebuilt by `_MMG5_buildridmet`
at a ridge vertex that is not singular (`none` when the reconstruction fails). -/
def endTensor (env : Env K) (prim : Prim K) (mesh : Mesh K) (m : Nat → Met6 K) (np : Nat)
    (u : Vec3 K) : Option (Met6 K) :=
  if env.MS_SIN (mesh.point np).tag = false ∧ hasBit (mesh.point np).tag env.MG_GEO = true then
    prim.buildridmet mesh m np u.x u.y u.z
  else some (m np)

/-- The quadratic form with the guard of the edge length: a negative value is
replaced by 1. -/
def guardedForm (q : K) : K := if q < 0 then 1 else q

/-- The matrix with columns `c.1` and `c.2`. -/
def colMatrix (c : Vec3 K × Vec3 K) : Matrix (Fin 3) (Fin 2) K :=
  !![c.1.x, c.2.x; c.1.y, c.2.y; c.1.z, c.2.z]

/-- The Jacobian `J_i` of the Bezier patch of control points `b` at the corner
`i`: columns `3(b7-b0), 3(b6-b0)` at corner 0, `3(b1-b8), 3(b3-b8)` at corner 1,
`3(b4-b5), 3(b2-b5)` at corner 2. -/
def cornerJacobian (b : Nat → Vec3 K) (i : Nat) : Matrix (Fin 3) (Fin 2) K :=
  if i = 0 then colMatrix (Vec3.smul 3 ((b 7).sub (b 0)), Vec3.smul 3 ((b 6).sub (b 0)))
  else if i = 1 then colMatrix (Vec3.smul 3 ((b 1).sub (b 8)), Vec3.smul 3 ((b 3).sub (b 8)))
  else colMatrix (Vec3.smul 3 ((b 4).sub (b 5)), Vec3.smul 3 ((b 2).sub (b 5)))

/-- The density `det(J^T M J)`. -/
def density (a : Met6 K) (J : Matrix (Fin 3) (Fin 2) K) : K :=
  (J.transpose * a.toMatrix * J).det

/-- The cross product. -/
def Vec3.cross (a b : Vec3 K) : Vec3 K :=
  ⟨a.y * b.z - a.z * b.y, a.z * b.x - a.x * b.z, a.x * b.y - a.y * b.x⟩

/-- The Euclidean area `|(p1-p0) x (p2-p0)| / 2` of the triangle `ptt`, the norm
being taken with the square root of the environment. -/
def euclidArea (env : Env K) (mesh : Mesh K) (ptt : Tria) : K :=
  env.sqrt (((mesh.point (ptt.v 1)).c.sub (mesh.point (ptt.v 0)).c).cross
    ((mesh.point (ptt.v 2)).c.sub (mesh.point (ptt.v 0)).c)).normSq / 2

/-- The point `p + s (q - p)` of the segment from `p` to `q`. -/
def Vec3.lerp (s : K) (p q : Vec3 K) : Vec3 K :=
  ⟨p.x + s * (q.x - p.x), p.y + s * (q.y - p.y), p.z + s * (q.z - p.z)⟩

/-- The Bezier patch `b` of the triangle `ptt` is flat: its corners are the
vertices and its edge control points are at the thirds of the straight edges
(`b3, b4` on the edge 1-2, `b5, b6` on the edge 2-0, `b7, b8` on the edge 0-1). -/
def FlatPatch (mesh : Mesh K) (ptt : Tria) (b : Nat → Vec3 K) : Prop :=
  b 0 = (mesh.point (ptt.v 0)).c ∧ b 1 = (mesh.point (ptt.v 1)).c ∧
  b 2 = (mesh.point (ptt.v 2)).c ∧
  b 3 = Vec3.lerp (1 / 3) (mesh.point (ptt.v 1)).c (mesh.point (ptt.v 2)).c ∧
  b 4 = Vec3.lerp (2 / 3) (mesh.point (ptt.v 1)).c (mesh.point (ptt.v 2)).c ∧
  b 5 = Vec3.lerp (1 / 3) (mesh.point (ptt.v 2)).c (mesh.point (ptt.v 0)).c ∧
  b 6 = Vec3.lerp (2 / 3) (mesh.point (ptt.v 2)).c (mesh.point (ptt.v 0)).c ∧
  b 7 = Vec3.lerp (1 / 3) (mesh.point (ptt.v 0)).c (mesh.point (ptt.v 1)).c ∧
  b 8 = Vec3.lerp (2 / 3) (mesh.point (ptt.v 0)).c (mesh.point (ptt.v 1)).c

/-- The corner `i` of the triangle `ptt` is not a ridge vertex (it is singular
or has no bit `MG_GEO`) and carries the identity tensor. -/
def IdentityCorner (env : Env K) (mesh : Mesh K) (m : Nat → Met6 K) (ptt : Tria) (i : Nat) :
    Prop :=
  (env.MS_SIN (mesh.point (ptt.v i)).tag = true ∨
    hasBit (mesh.point (ptt.v i)).tag env.MG_GEO = false) ∧
  m (ptt.v i) = ⟨1, 0, 0, 1, 0, 1⟩

/-- The triangle is inactive: deleted, or with a non-positive region id. -/
def Inactive (pt : Tria) : Prop := MG_EOK pt = false ∨ pt.ref ≤ 0

/-- The invariant of the record of the first pass of `defsiz_ani`, relative to
the state `s0` on entry: every recorded call is on a triangle `1..nt` that is not
deleted and whose region id is not negative, with the `hmax` of `s0`; the state,
if the process has not stopped, satisfies the invariant of the first pass. -/
def SizTraceInv (env : Env K) (s0 : SizState K)
    (acc : List (SizCall K) × Except Fatal (SizState K)) : Prop :=
  (∀ c ∈ acc.1, 1 ≤ c.k ∧ c.k ≤ s0.mesh.nt ∧ c.i < 3 ∧ MG_EOK (s0.mesh.tria c.k) = true ∧
    0 ≤ (s0.mesh.tria c.k).ref ∧ c.hmax = s0.mesh.info.hmax) ∧
  ∀ s, acc.2 = .ok s → Pass1Inv env s0 s

/-- The invariant of the record of the sweeps of `gradsiz_ani`, relative to the
mesh `mesh0` on entry: every recorded call is on an edge of a triangle `1..nt`
that is not deleted; the mesh of the state changes by its flags only. -/
def GradTraceInv (mesh0 : Mesh K) (acc : List (Nat × Nat) × GradState K) : Prop :=
  (∀ c ∈ acc.1, 1 ≤ c.1 ∧ c.1 ≤ mesh0.nt ∧ c.2 < 3 ∧ MG_EOK (mesh0.tria c.1) = true) ∧
  SameGeom mesh0 acc.2.mesh

/-- The normal that `grad2met` recovers at a vertex that is neither singular
nor a ridge vertex: the normal of its record at a reference vertex, its own
normal otherwise. -/
def gradNormal (env : Env K) (mesh : Mesh K) (k : Nat) : Vec3 K :=
  if hasBit (mesh.point k).tag env.MG_REF then (mesh.xpoint (mesh.point k).ig).n1
  else (mesh.point k).n

end SpecDefs3

/-! ## Concrete inputs for the evaluators and the traversals -/

section Instances3

/-- A metric array on the fan whose entry at the centre 5 is `-Identity` (a
negative quadratic form) and `4 * Identity` (length factor 2) elsewhere. -/
def negMet : Nat → Met6 ℚ :=
  fun k => if k = 5 then ⟨-1, 0, 0, -1, 0, -1⟩ else ⟨4, 0, 0, 4, 0, 4⟩

/-- The flat fan whose centre 5 is a ridge vertex (tag `MG_REF + MG_GEO = 3`) with
tangent `(1,0,0)`. -/
def ridgeFan : Mesh ℚ := flatFan 3 noTag

/-- A metric array on the fan: the three sizes `(4, 9, 16)` at the centre 5 and
the identity elsewhere. -/
def ridgeMet : Nat → Met6 ℚ :=
  fun k => if k = 5 then ⟨4, 9, 16, 0, 0, 0⟩ else ⟨1, 0, 0, 1, 0, 1⟩

/-- A metric array on the fan: the identity (speed 1) at vertex 2 and
`36/25 * Identity` (speed 6/5) at the other vertices. -/
def dentMet : Nat → Met6 ℚ :=
  fun k => if k = 2 then ⟨1, 0, 0, 1, 0, 1⟩ else ⟨36 / 25, 0, 0, 36 / 25, 0, 36 / 25⟩

/-- The unit square with three triangles: the triangle 1 `(1,3,4)` of region id
0, the triangle 2 `(1,2,3)` of region id -1 and the deleted triangle 3 (first
vertex index 0); vertex 4 is a corner (singular); `hgrad = 0.1`. -/
def refSquare : Mesh ℚ :=
  { squareMeshTag ℚ 32 with
    nt := 3
    info := ⟨1 / 1000, 1, 1 / 100, 1 / 10, 1⟩
    tria := fun k =>
      if k = 1 then mkTria 1 3 4 0 0 0 0
      else if k = 2 then mkTria 1 2 3 0 0 0 (-1)
      else if k = 3 then mkTria 0 3 4 0 0 0 1
      else mkTria 0 0 0 0 0 0 0 }

/-- The mesh `patchMesh` with `hmax` unset (`-1`) and a bounding diagonal
`delta = 4`. -/
def unsetMesh : Mesh ℚ :=
  { patchMesh with info := ⟨1 / 1000, -1, 1 / 100, 1, 4⟩ }

end Instances3

/-! ## The sweeps of the gradation with the record of their visits -/

section Visits

variable {K : Type} [LinearOrderedField K]

/-- A visit of an edge by a sweep of `gradsiz_ani`: the generation `mesh->base` of
the sweep, the triangle `k` and the edge `i`, the flags `f1`, `f2` of the two
endpoints as the test of line 1509 reads them, and the value returned by
`grad2met`, `none` when the edge is skipped (`continue`). -/
structure GradVisit where
  b : Int
  k : Nat
  i : Nat
  f1 : Int
  f2 : Int
  ier : Option Int
  deriving DecidableEq, Repr

/-- The visit made by the body of the inner loop (lines 1503-1517) for the edge
`i` of the triangle `k` in the state `s`. -/
def gradsiz_edge_visit (env : Env K) (prim : Prim K) (k : Nat) (s : GradState K) (i : Nat) :
    GradVisit :=
  let pt := s.mesh.tria k
  let p1 := s.mesh.point (pt.v (env.inxt2 i))
  let p2 := s.mesh.point (pt.v (env.iprv2 i))
  ⟨s.base, k, i, p1.flag, p2.flag,
    if p1.flag < s.base - 1 ∧ p2.flag < s.base - 1 then none
    else some (grad2met env prim s.mesh s.m k i).1⟩

/-- The body of the inner loop with the record of the visits. -/
def gradsiz_edge_logged (env : Env K) (prim : Prim K) (k : Nat)
    (acc : List GradVisit × GradState K) (i : Nat) : List GradVisit × GradState K :=
  (acc.1 ++ [gradsiz_edge_visit env prim k acc.2 i], gradsiz_edge env prim k acc.2 i)

/-- The body of the loop over the triangles (lines 1499-1518) with the record of
the visits. -/
def gradsiz_tria_logged (env : Env K) (prim : Prim K) (acc : List GradVisit × GradState K)
    (k : Nat) : List GradVisit × GradState K :=
  if MG_EOK (acc.2.mesh.tria k) = false then acc
  else [0, 1, 2].foldl (gradsiz_edge_logged env prim k) acc

/-- One sweep with the record of the visits. -/
def gradsiz_sweep_logged (env : Env K) (prim : Prim K) (acc : List GradVisit × GradState K) :
    List GradVisit × GradState K :=
  let s0 := { acc.2 with base := acc.2.base + 1, nu := 0 }
  let r := (List.range' 1 acc.2.mesh.nt).foldl (gradsiz_tria_logged env prim) (acc.1, s0)
  (r.1, { r.2 with nup := r.2.nup + r.2.nu, it := r.2.it + 1 })

/-- The `do ... while( ++it < maxit && nu > 0 )` loop with the record of the
visits. -/
def gradsiz_loop_logged (env : Env K) (prim : Prim K) (maxit : Int) :
    Nat → List GradVisit × GradState K → List GradVisit × GradState K
  | 0, acc => acc
  | fuel + 1, acc =>
    let a1 := gradsiz_sweep_logged env prim acc
    if a1.2.it < maxit ∧ a1.2.nu > 0 then gradsiz_loop_logged env prim maxit fuel a1 else a1

/-- The visits of the edges made by a run of `gradsiz_ani(mesh,met)`, in the order
of the visits. -/
def gradsiz_visits (env : Env K) (prim : Prim K) (mesh : Mesh K) (m : Nat → Met6 K) :
    List GradVisit :=
  let mesh0 := (List.range' 1 mesh.np).foldl (fun me k => me.setFlag k 0) mesh
  let m0 := gradsiz_prepass env mesh0 m
  (gradsiz_loop_logged env prim 100 100 ([], ⟨mesh0, m0, 0, 0, 0, 0⟩)).1

end Visits

/-! ## Specification-side definitions for the pruning, the quadric fit and the
symmetry of the edge length -/

section SpecDefs4

variable {K : Type} [LinearOrderedField K]

/-- The four sample points of the iteration `k` of the fitting loop (lines
516-637 and 867-992), in the order in which they are added to `tAA` and `tAb`: the
mid-point `c` of the curved edge, the ball point `lispoi`, the mid-point `c` of
the median and its endpoint `d`. -/
def defmetreg_samples (env : Env K) (prim : Prim K) (mesh : Mesh K) (idp : Nat)
    (r : Mat3 K) (list : Nat → Nat) (bfail : Nat → Nat → Vec3 K) (k : Nat) : List (Vec3 K) :=
  let p0 := mesh.point idp
  let iel := list k / 3
  let i0 := list k % 3
  let pt := mesh.tria iel
  let b0 := (env.bezierCP mesh pt).getD (bfail k)
  let b := fun j => r.mulVec ((b0 j).sub p0.c)
  let l := defmetreg_lispoi env mesh idp r list k
  let c := if i0 = 0 then fitEdge (b 7) (b 8) l
    else if i0 = 1 then fitEdge (b 3) (b 4) l
    else fitEdge (b 5) (b 6) l
  let c2 := if i0 = 0 then fitMedian prim (b 1) (b 2) (b 3) (b 4) (b 6) (b 7) (b 9) (b 5) (b 8)
    else if i0 = 1 then fitMedian prim (b 0) (b 2) (b 5) (b 6) (b 3) (b 8) (b 9) (b 4) (b 7)
    else fitMedian prim (b 0) (b 1) (b 7) (b 8) (b 4) (b 5) (b 9) (b 3) (b 6)
  let d := if i0 = 0 then fitEnd (b 1) (b 3) (b 4) (b 2)
    else if i0 = 1 then fitEnd (b 2) (b 5) (b 6) (b 0)
    else fitEnd (b 0) (b 7) (b 8) (b 1)
  [c, l, c2, d]

/-- The sample points of the whole fitting loop on a ball of `ilist` triangles. -/
def defmetreg_points (env : Env K) (prim : Prim K) (mesh : Mesh K) (idp : Nat)
    (r : Mat3 K) (list : Nat → Nat) (bfail : Nat → Nat → Vec3 K) (ilist : Nat) :
    List (Vec3 K) :=
  (List.range ilist).flatMap (defmetreg_samples env prim mesh idp r list bfail)

/-- The monomials `(x^2, y^2, x y)` of a sample point: its row in the matrix `A`
of the least-squares problem. -/
def fitRow (p : Vec3 K) : Vec3 K := ⟨p.x * p.x, p.y * p.y, p.x * p.y⟩

/-- The homogeneous quadric `a x^2 + b y^2 + c x y` of coefficients `(a, b, c)`. -/
def quadric (c : Vec3 K) (x y : K) : K := c.x * x ^ 2 + c.y * y ^ 2 + c.z * (x * y)

/-- The sum of the squares `(z_i - q(x_i, y_i))^2` over the sample points. -/
def fitError (pts : List (Vec3 K)) (c : Vec3 K) : K :=
  (pts.map (fun p => (p.z - quadric c p.x p.y) ^ 2)).sum

/-- The matrix `tA A` of the normal equations: the sum of the products of each
row with itself. -/
def normalMatrix (pts : List (Vec3 K)) : Matrix (Fin 3) (Fin 3) K :=
  (pts.map (fun p => Matrix.vecMulVec ![p.x * p.x, p.y * p.y, p.x * p.y]
    ![p.x * p.x, p.y * p.y, p.x * p.y])).sum

/-- The right-hand side `tA z` of the normal equations. -/
def normalRhs (pts : List (Vec3 K)) : Fin 3 → K :=
  (pts.map (fun p => p.z • ![p.x * p.x, p.y * p.y, p.x * p.y])).sum

/-- The determinant of the symmetric matrix of a stored entry. -/
def Met6.det (a : Met6 K) : K := a.toMatrix.det

/-- The primitive `_MMG5_sys33sym` solves the system: when it returns 1, the
vector `r` satisfies `a r = b` for the symmetric matrix
`[[a0,a1,a2],[a1,a3,a4],[a2,a4,a5]]`. -/
def Sys33Spec (prim : Prim K) : Prop :=
  ∀ (a : Met6 K) (b r : Vec3 K), prim.sys33sym a b = some r → a.apply r = b

/-- The cubic Bezier curve of control points `p0, c1, c2, p1` at the parameter
`t`. -/
def bezierCurve (p0 c1 c2 p1 : Vec3 K) (t : K) : Vec3 K :=
  (((Vec3.smul ((1 - t) ^ 3) p0).add (Vec3.smul (3 * (1 - t) ^ 2 * t) c1)).add
    (Vec3.smul (3 * (1 - t) * t ^ 2) c2)).add (Vec3.smul (t ^ 3) p1)

/-- The vertex whose flag a visit writes (lines 1511-1518): the first endpoint
of the edge when `grad2met` returns its index `i1`, the second endpoint when it
returns `i2`, none otherwise. -/
def GradVisit.updated (env : Env K) (mesh : Mesh K) (c : GradVisit) : Option Nat :=
  if c.ier = some ((env.inxt2 c.i : Nat) : Int) then some ((mesh.tria c.k).v (env.inxt2 c.i))
  else if c.ier = some ((env.iprv2 c.i : Nat) : Int) then
    some ((mesh.tria c.k).v (env.iprv2 c.i))
  else none

/-- The generation of the last visit of the record that updated the vertex `v`,
0 when there is none. -/
def lastUpdate (env : Env K) (mesh : Mesh K) (log : List GradVisit) (v : Nat) : Int :=
  log.foldl (fun a c => if c.updated env mesh = some v then c.b else a) 0

/-- The edges of the triangles that are not deleted, in the order of a sweep. -/
def activeEdges (mesh : Mesh K) : List (Nat × Nat) :=
  (List.range' 1 mesh.nt).flatMap
    (fun k => if MG_EOK (mesh.tria k) then [(k, 0), (k, 1), (k, 2)] else [])

/-- What holds of a visit `c` made after the visits `pre`: it is on an edge of a
triangle that is not deleted, in a generation at least 1 that is not below the
generations of `pre`; the flags read are not negative and are the generations of
the last updates of the two endpoints; the edge is skipped exactly when both
flags are below `b - 1`, that is, from the generation 2 on, when no visit of `pre`
of the generation `b` or `b - 1` has updated one of its endpoints. -/
def VisitOk (env : Env K) (mesh : Mesh K) (pre : List GradVisit) (c : GradVisit) : Prop :=
  ActiveEdge mesh c.k c.i ∧ 1 ≤ c.b ∧ (∀ d ∈ pre, d.b ≤ c.b) ∧
  0 ≤ c.f1 ∧ 0 ≤ c.f2 ∧
  c.f1 = lastUpdate env mesh pre ((mesh.tria c.k).v (env.inxt2 c.i)) ∧
  c.f2 = lastUpdate env mesh pre ((mesh.tria c.k).v (env.iprv2 c.i)) ∧
  (c.ier = none ↔ c.f1 < c.b - 1 ∧ c.f2 < c.b - 1) ∧
  (2 ≤ c.b → (c.ier = none ↔ ∀ d ∈ pre,
    d.updated env mesh = some ((mesh.tria c.k).v (env.inxt2 c.i)) ∨
    d.updated env mesh = some ((mesh.tria c.k).v (env.iprv2 c.i)) → d.b < c.b - 1))

/-- Every visit of the record satisfies `VisitOk` for the visits that precede
it. -/
def LogOk (env : Env K) (mesh : Mesh K) (log : List GradVisit) : Prop :=
  ∀ pre c post, log = pre ++ c :: post → VisitOk env mesh pre c

/-- The invariant of the record of the visits, relative to the mesh on entry:
the mesh changes by its flags only, the generations of the record are between 1
and the current one, the flag of each vertex `1..np` is the generation of its
last update, the generations of the record do not decrease and the record
satisfies `LogOk`. -/
def VisitInv (env : Env K) (mesh : Mesh K) (acc : List GradVisit × GradState K) : Prop :=
  SameGeom mesh acc.2.mesh ∧ (∀ c ∈ acc.1, 1 ≤ c.b ∧ c.b ≤ acc.2.base) ∧
  (∀ v, 1 ≤ v → v ≤ mesh.np → (acc.2.mesh.point v).flag = lastUpdate env mesh acc.1 v) ∧
  List.Pairwise (fun d c : GradVisit => d.b ≤ c.b) acc.1 ∧ LogOk env mesh acc.1

/-- The generation, the triangle and the edge of a visit. -/
def visitKey (c : GradVisit) : Int × Nat × Nat := (c.b, c.k, c.i)

/-- The visits of the record that are not skipped, as pairs (triangle, edge). -/
def visitsCalled (log : List GradVisit) : List (Nat × Nat) :=
  (log.filter (fun c => c.ier.isSome)).map (fun c => (c.k, c.i))

end SpecDefs4

/-! ## Concrete inputs for the pruning, the quadric fit and the edge length -/

section Instances4

/-- A metric array on the roof: the three sizes `(4, 9, 16)` at the ridge vertex 1
and the identity elsewhere. -/
def roofMet : Nat → Met6 ℚ :=
  fun k => if k = 1 then ⟨4, 9, 16, 0, 0, 0⟩ else ⟨1, 0, 0, 1, 0, 1⟩

deriving instance DecidableEq for GradEnd

deriving instance DecidableEq for GradEdge

/-- The flat fan whose centre 5 is a corner (tag `MG_CRN = 32`), hence singular. -/
def cornerFan : Mesh ℚ := flatFan 32 noTag

/-- A metric array on the fan: the identity (speed 1) at the centre 5 and
`100 * Identity` (speed 10) at the other vertices. -/
def cornerMet : Nat → Met6 ℚ :=
  fun k => if k = 5 then ⟨1, 0, 0, 1, 0, 1⟩ else ⟨100, 0, 0, 100, 0, 100⟩

/-- What `grad2met` computes on the edge 2 of the triangle 1 of the fan (from the
centre 5 to the vertex 1) with `cornerMet`: identity frames, speed 1 at the
centre and 10 at the vertex 1, chord of length 1. -/
def cornerEdge : GradEdge ℚ :=
  ⟨idMat3, ⟨⟨1, 0, 1⟩, 1, 0, 1⟩, idMat3, ⟨⟨100, 0, 100⟩, -1, 0, 10⟩, 1⟩

/-- What `grad2met` computes on the edge 2 of the triangle 1 of the fan with
`gradMet`: speed 10 at the centre and 1 at the vertex 1. -/
def plainEdge : GradEdge ℚ :=
  ⟨idMat3, ⟨⟨100, 0, 100⟩, 1, 0, 10⟩, idMat3, ⟨⟨1, 0, 1⟩, -1, 0, 1⟩, 1⟩

/-- The bowl around a reference vertex: the fan whose outer vertices are raised to
the heights `1/10` (vertices 1, 3) and `1/5` (vertices 2, 4), the centre 5 and the
vertices 1 and 3 being reference vertices (tag `MG_REF`) of tangent `(1,0,0)`,
joined by the reference edges 5-1 and 5-3. -/
def refBowl : Mesh ℚ :=
  { fanMesh ⟨1, 0, 1 / 10⟩ ⟨0, 1, 1 / 5⟩ ⟨-1, 0, 1 / 10⟩ ⟨0, -1, 1 / 5⟩ (1 / 1000) 1 refTag13 with
    point := fun k =>
      if k = 1 ∨ k = 3 then
        { (fanMesh ⟨1, 0, 1 / 10⟩ ⟨0, 1, 1 / 5⟩ ⟨-1, 0, 1 / 10⟩ ⟨0, -1, 1 / 5⟩ (1 / 1000) 1
            refTag13).point k with tag := 1, n := ⟨1, 0, 0⟩ }
      else (fanMesh ⟨1, 0, 1 / 10⟩ ⟨0, 1, 1 / 5⟩ ⟨-1, 0, 1 / 10⟩ ⟨0, -1, 1 / 5⟩ (1 / 1000) 1
        refTag13).point k }

end Instances4

/-! ### Frame lemmas on the mesh -/

section FrameLemmas

variable {K : Type}

theorem SameGeom.refl (a : Mesh K) : SameGeom a a :=
  ⟨rfl, rfl, rfl, rfl, rfl, rfl, fun _ => ⟨rfl, rfl, rfl, rfl⟩⟩

theorem SameGeom.trans {a b c : Mesh K} (h1 : SameGeom a b) (h2 : SameGeom b c) :
    SameGeom a c := by
  obtain ⟨a1, a2, a3, a4, a5, a6, a7⟩ := h1
  obtain ⟨b1, b2, b3, b4, b5, b6, b7⟩ := h2
  refine ⟨a1.trans b1, a2.trans b2, a3.trans b3, a4.trans b4, a5.trans b5, a6.trans b6, ?_⟩
  intro k
  obtain ⟨c1, c2, c3, c4⟩ := a7 k
  obtain ⟨d1, d2, d3, d4⟩ := b7 k
  exact ⟨c1.trans d1, c2.trans d2, c3.trans d3, c4.trans d4⟩

theorem setFlag_point_self (mesh : Mesh K) (k : Nat) (f : Int) :
    (mesh.setFlag k f).point k = { mesh.point k with flag := f } := by
  simp [Mesh.setFlag]

theorem setFlag_point_ne (mesh : Mesh K) {k j : Nat} (f : Int) (h : j ≠ k) :
    (mesh.setFlag k f).point j = mesh.point j := by
  simp [Mesh.setFlag, Function.update_noteq h]

theorem SameGeom_setFlag (mesh : Mesh K) (k : Nat) (f : Int) :
    SameGeom mesh (mesh.setFlag k f) := by
  refine ⟨rfl, rfl, rfl, rfl, rfl, rfl, ?_⟩
  intro j
  by_cases h : j = k
  · subst h
    rw [setFlag_point_self]
    exact ⟨rfl, rfl, rfl, rfl⟩
  · rw [setFlag_point_ne mesh f h]
    exact ⟨rfl, rfl, rfl, rfl⟩

theorem MG_VOK_congr (env : Env K) {p q : Point K} (h : p.tag = q.tag) :
    MG_VOK env p = MG_VOK env q := by
  unfold MG_VOK
  rw [h]

theorem orNot_true (call : Except Fatal (Int × (Nat → Met6 K))) (m : Nat → Met6 K) :
    orNot true call m = .ok (true, m) := rfl

/-- The test `if ( !f(...) )  continue;` around an estimator that, when it
returns, returns 1 after writing an entry `v` with property `E` at the vertex. -/
theorem afterTest_estimator (s s1 : SizState K) (idx : Nat)
    (call : Except Fatal (Int × (Nat → Met6 K))) (E : Met6 K → Prop)
    (h : afterTest s idx (orNot false call s.m) = .ok s1)
    (hcall : ∀ r m1, call = .ok (r, m1) → r = 1 ∧ ∃ v, m1 = Function.update s.m idx v ∧ E v) :
    s1.mesh = s.mesh.setFlag idx 1 ∧ ∃ v, s1.m = Function.update s.m idx v ∧ E v := by
  cases hc : call with
  | error e =>
    rw [hc] at h
    simp [orNot, afterTest] at h
  | ok rm =>
    obtain ⟨r, m1⟩ := rm
    obtain ⟨hr, v, hv, hE⟩ := hcall r m1 hc
    rw [hc] at h
    subst hr
    simp [orNot, afterTest] at h
    subst h
    exact ⟨rfl, v, hv, hE⟩

/-- The flags after a sequence of stores `flag = f` on the vertices of `l`. -/
theorem foldl_setFlag (l : List Nat) (f : Int) (mesh : Mesh K) :
    SameGeom mesh (l.foldl (fun me k => me.setFlag k f) mesh) ∧
    ∀ k, ((l.foldl (fun me k => me.setFlag k f) mesh).point k).flag =
      if k ∈ l then f else (mesh.point k).flag := by
  induction l generalizing mesh with
  | nil => exact ⟨SameGeom.refl _, fun k => by simp⟩
  | cons j l ih =>
    obtain ⟨h1, h2⟩ := ih (mesh.setFlag j f)
    refine ⟨(SameGeom_setFlag mesh j f).trans h1, fun k => ?_⟩
    rw [List.foldl_cons, h2 k]
    by_cases hk : k ∈ l
    · simp [hk]
    · by_cases hj : k = j
      · subst hj
        simp [hk, setFlag_point_self]
      · simp [hk, hj, setFlag_point_ne mesh f hj]

theorem defsiz_reset_spec (mesh : Mesh K) :
    SameGeom mesh (defsiz_reset mesh) ∧
    ∀ k, ((defsiz_reset mesh).point k).flag =
      if 1 ≤ k ∧ k ≤ mesh.np then 0 else (mesh.point k).flag := by
  unfold defsiz_reset
  obtain ⟨h1, h2⟩ := foldl_setFlag (List.range' 1 mesh.np) 0 mesh
  refine ⟨h1, fun k => ?_⟩
  rw [h2 k]
  have : k ∈ List.range' 1 mesh.np ↔ (1 ≤ k ∧ k ≤ mesh.np) := by
    rw [List.mem_range'_1]; omega
  simp only [this]

theorem afterTest_ok (s : SizState K) (idx : Nat) (b : Bool) (m1 : Nat → Met6 K) :
    ∃ s1, afterTest s idx (.ok (b, m1)) = .ok s1 ∧ SameGeom s.mesh s1.mesh := by
  unfold afterTest
  cases b
  · exact ⟨_, rfl, SameGeom_setFlag _ _ _⟩
  · exact ⟨_, rfl, SameGeom.refl _⟩

theorem QueriesOk_of_forall (env : Env K) (mesh0 : Mesh K)
    (hb : ∀ me it ip, MG_EOK (me.tria it) = true → (env.boulet me it ip).1 ≠ 0)
    (hr : ∀ me it ip, MG_EOK (me.tria it) = true → (env.bouletrid me it ip).ier ≠ 0) :
    QueriesOk env mesh0 :=
  fun me _ it ip hk => ⟨fun _ => hb me it ip hk, fun _ _ => hr me it ip hk⟩

end FrameLemmas

/-! ## Lemmas -/

section Lemmas

variable {K : Type} [LinearOrderedField K]

theorem MG_MAX_eq_max (a b : K) : MG_MAX a b = max a b := by
  unfold MG_MAX
  split_ifs with h
  · exact (max_eq_left h.le).symm
  · exact (max_eq_right (not_lt.mp h)).symm

theorem MG_MIN_eq_min (a b : K) : MG_MIN a b = min a b := by
  unfold MG_MIN
  split_ifs with h
  · exact (min_eq_left h.le).symm
  · exact (min_eq_right (not_lt.mp h)).symm

theorem isq_nonneg (h : K) : 0 ≤ isq h := by
  unfold isq
  exact div_nonneg zero_le_one (mul_self_nonneg h)

theorem isq_pos {h : K} (hh : h ≠ 0) : 0 < isq h := by
  unfold isq
  exact div_pos zero_lt_one (mul_self_pos.mpr hh)

theorem isq_anti {a b : K} (ha : 0 < a) (hab : a ≤ b) : isq b ≤ isq a := by
  unfold isq
  exact one_div_le_one_div_of_le (mul_pos ha ha) (mul_le_mul hab hab ha.le (ha.le.trans hab))

theorem clampSize_ge (info : Info K) (x : K) : isq info.hmax ≤ clampSize info x :=
  le_max_left _ _

theorem clampSize_le (info : Info K) (x : K) (h : isq info.hmax ≤ isq info.hmin) :
    clampSize info x ≤ isq info.hmin :=
  max_le h (min_le_left _ _)

/-- The clamp written in C, `MG_MAX(MG_MIN(1/8*kappa/hausd, isqhmin), isqhmax)`,
is `clampSize`. -/
theorem clamp_code_eq (info : Info K) (x : K) :
    MG_MAX (MG_MIN (1 / 8 * x / info.hausd) (1 / (info.hmin * info.hmin)))
      (1 / (info.hmax * info.hmax)) = clampSize info x := by
  rw [MG_MAX_eq_max, MG_MIN_eq_min]
  unfold clampSize isq
  rw [max_comm, min_comm]
  congr 2
  ring

theorem curv_aux (f : K → K) (N N1 A B : K) (hN : N = N1) (hA : A = B) :
    1 / N * f A = f B / N1 := by
  subst hN hA
  rw [one_div, mul_comm, div_eq_mul_inv]

/-- The curvature computed by one iteration of the ball loop is `edgeCurvature`. -/
theorem defmetsin_step_eq (env : Env K) (mesh : Mesh K) (idp : Nat) (list : Nat → Nat)
    (a : K) (k : Nat) :
    defmetsin_step env mesh idp list a k =
      if (edgeTangent (mesh.point idp).c (defmetsin_cp env mesh idp list k).1).normSq < env.EPSD
      then a
      else max (edgeCurvature env (mesh.point idp).c (defmetsin_cp env mesh idp list k).1
        (defmetsin_cp env mesh idp list k).2) a := by
  unfold defmetsin_step edgeCurvature
  simp only [MG_MAX_eq_max, edgeTangent, edgeSecond, Vec3.normSq, Vec3.dot, Vec3.smul,
    Vec3.sub, Vec3.add]
  split_ifs with h
  · rfl
  · congr 1
    apply curv_aux
    · rfl
    · ring

theorem maxCurvature_nil (env : Env K) (p0 : Vec3 K) : maxCurvature env p0 [] = 0 := rfl

theorem maxCurvature_cons (env : Env K) (p0 : Vec3 K) (e : Vec3 K × Vec3 K)
    (cps : List (Vec3 K × Vec3 K)) :
    maxCurvature env p0 (e :: cps) =
      if (edgeTangent p0 e.1).normSq < env.EPSD then maxCurvature env p0 cps
      else max (edgeCurvature env p0 e.1 e.2) (maxCurvature env p0 cps) := by
  unfold maxCurvature
  by_cases h : (edgeTangent p0 e.1).normSq < env.EPSD
  · have h1 : ¬ env.EPSD ≤ (edgeTangent p0 e.1).normSq := not_le.mpr h
    simp [List.filter_cons, h, h1]
  · have h1 : env.EPSD ≤ (edgeTangent p0 e.1).normSq := not_lt.mp h
    simp [List.filter_cons, h, h1]

theorem maxCurvature_nonneg (env : Env K) (p0 : Vec3 K) (cps : List (Vec3 K × Vec3 K)) :
    0 ≤ maxCurvature env p0 cps := by
  induction cps with
  | nil => exact le_refl _
  | cons e cps ih =>
    rw [maxCurvature_cons]
    split_ifs
    · exact ih
    · exact le_max_of_le_right ih

/-- The ball loop of `defmetsin` computes the maximum of the curvatures. -/
theorem defmetsin_fold (env : Env K) (mesh : Mesh K) (idp : Nat) (list : Nat → Nat)
    (l : List Nat) (a : K) (ha : 0 ≤ a) :
    l.foldl (defmetsin_step env mesh idp list) a =
      max a (maxCurvature env (mesh.point idp).c (l.map (defmetsin_cp env mesh idp list))) := by
  induction l generalizing a with
  | nil => simp [maxCurvature_nil, ha]
  | cons k l ih =>
    rw [List.foldl_cons, List.map_cons, maxCurvature_cons, defmetsin_step_eq]
    split_ifs with h
    · exact ih a ha
    · rw [ih _ (le_max_of_le_right ha), max_comm _ a, max_assoc]

/-- The value returned by `defmetsin` when the ball query succeeds. -/
theorem defmetsin_ok (env : Env K) (mesh : Mesh K) (m : Nat → Met6 K) (it ip : Nat)
    (h : (env.boulet mesh it ip).1 ≠ 0) :
    defmetsin env mesh m it ip = .ok (1, Function.update m ((mesh.tria it).v ip)
      (Met6.iso (clampSize mesh.info (maxCurvature env (mesh.point ((mesh.tria it).v ip)).c
        ((List.range (env.boulet mesh it ip).1.toNat).map
          (defmetsin_cp env mesh ((mesh.tria it).v ip) (env.boulet mesh it ip).2)))))) := by
  unfold defmetsin
  simp only [h, if_false]
  rw [defmetsin_fold _ _ _ _ _ _ (le_refl 0), max_eq_right (maxCurvature_nonneg _ _ _),
    clamp_code_eq]
  rfl

/-- The fatal stop of `defmetsin` when the ball is empty. -/
theorem defmetsin_exit (env : Env K) (mesh : Mesh K) (m : Nat → Met6 K) (it ip : Nat)
    (h : (env.boulet mesh it ip).1 = 0) :
    defmetsin env mesh m it ip = .error Fatal.exitFailure := by
  unfold defmetsin
  simp only [h, if_true]

/-! ### `defmetrid` -/

theorem seedMax_nil (info : Info K) : seedMax info [] = isq info.hmax := rfl

theorem seedMax_ge (info : Info K) (ks : List K) : isq info.hmax ≤ seedMax info ks := by
  induction ks with
  | nil => exact le_refl _
  | cons a ks ih => exact le_max_of_le_right ih

theorem seedMax_le (info : Info K) (ks : List K) (h : isq info.hmax ≤ isq info.hmin) :
    seedMax info ks ≤ isq info.hmin := by
  induction ks with
  | nil => exact h
  | cons a ks ih => exact max_le (clampSize_le info a h) ih

theorem seedMax_inBounds (info : Info K) (ks : List K) (h : isq info.hmax ≤ isq info.hmin) :
    InBounds info (seedMax info ks) :=
  ⟨seedMax_ge info ks, seedMax_le info ks h⟩

theorem seedMax_snoc (info : Info K) (ks : List K) (a : K) :
    max (seedMax info ks) (clampSize info a) = seedMax info (a :: ks) :=
  max_comm _ _

theorem defmetrid_size_eq (env : Env K) (info : Info K) (ll c0 c1 c2 : K) :
    defmetrid_size env info ll c0 c1 c2 =
      clampSize info (max 0 (1 / ll * env.sqrt (c0 * c0 + c1 * c1 + c2 * c2))) := by
  unfold defmetrid_size
  simp only
  rw [clamp_code_eq, MG_MAX_eq_max]

/-- The curvature written in C at lines 180-194 and 379-393 is `curveCurvature`. -/
theorem defmetrid_kappa_eq (env : Env K) (info : Info K) (tau g : Vec3 K) :
    defmetrid_size env info (tau.x * tau.x + tau.y * tau.y + tau.z * tau.z)
      (g.x - (tau.x * (1 / env.sqrt (tau.x * tau.x + tau.y * tau.y + tau.z * tau.z)) * g.x +
          tau.y * (1 / env.sqrt (tau.x * tau.x + tau.y * tau.y + tau.z * tau.z)) * g.y +
          tau.z * (1 / env.sqrt (tau.x * tau.x + tau.y * tau.y + tau.z * tau.z)) * g.z) *
        (tau.x * (1 / env.sqrt (tau.x * tau.x + tau.y * tau.y + tau.z * tau.z))))
      (g.y - (tau.x * (1 / env.sqrt (tau.x * tau.x + tau.y * tau.y + tau.z * tau.z)) * g.x +
          tau.y * (1 / env.sqrt (tau.x * tau.x + tau.y * tau.y + tau.z * tau.z)) * g.y +
          tau.z * (1 / env.sqrt (tau.x * tau.x + tau.y * tau.y + tau.z * tau.z)) * g.z) *
        (tau.y * (1 / env.sqrt (tau.x * tau.x + tau.y * tau.y + tau.z * tau.z))))
      (g.z - (tau.x * (1 / env.sqrt (tau.x * tau.x + tau.y * tau.y + tau.z * tau.z)) * g.x +
          tau.y * (1 / env.sqrt (tau.x * tau.x + tau.y * tau.y + tau.z * tau.z)) * g.y +
          tau.z * (1 / env.sqrt (tau.x * tau.x + tau.y * tau.y + tau.z * tau.z)) * g.z) *
        (tau.z * (1 / env.sqrt (tau.x * tau.x + tau.y * tau.y + tau.z * tau.z)))) =
      clampSize info (curveCurvature env tau g) := by
  rw [defmetrid_size_eq]
  unfold curveCurvature
  congr 2
  simp only [Vec3.normalized, Vec3.normSq, Vec3.dot, Vec3.smul, Vec3.sub]
  apply curv_aux
  · rfl
  · ring

/-- An iteration of the first loop raises `m[0]` to the maximum with the clamped
contribution of the arc, when there is one. -/
theorem defmetrid_arc_eq (env : Env K) (n0 : Vec3 K) (mesh : Mesh K) (idp ipr : Nat)
    (m : Met6 K) :
    defmetrid_arc env n0 mesh idp ipr m =
      addArc mesh.info (arcContribution env n0 mesh idp ipr) m := by
  unfold defmetrid_arc arcContribution addArc
  have hn : (edgeTangent (mesh.point idp).c (env.bezierEdge mesh idp ipr true n0).1).normSq =
      3 * ((env.bezierEdge mesh idp ipr true n0).1.x - (mesh.point idp).c.x) *
        (3 * ((env.bezierEdge mesh idp ipr true n0).1.x - (mesh.point idp).c.x)) +
      3 * ((env.bezierEdge mesh idp ipr true n0).1.y - (mesh.point idp).c.y) *
        (3 * ((env.bezierEdge mesh idp ipr true n0).1.y - (mesh.point idp).c.y)) +
      3 * ((env.bezierEdge mesh idp ipr true n0).1.z - (mesh.point idp).c.z) *
        (3 * ((env.bezierEdge mesh idp ipr true n0).1.z - (mesh.point idp).c.z)) := by
    simp only [edgeTangent, Vec3.normSq, Vec3.dot, Vec3.smul, Vec3.sub]
  simp only [MG_MAX_eq_max]
  rw [hn]
  split_ifs with h
  · rfl
  · have hk := defmetrid_kappa_eq env mesh.info
      (edgeTangent (mesh.point idp).c (env.bezierEdge mesh idp ipr true n0).1)
      (edgeSecond (mesh.point idp).c (env.bezierEdge mesh idp ipr true n0).1
        (env.bezierEdge mesh idp ipr true n0).2)
    simp only [edgeTangent, edgeSecond, Vec3.smul, Vec3.sub, Vec3.add] at hk
    simp only [edgeTangent, edgeSecond, Vec3.smul, Vec3.sub, Vec3.add]
    rw [hk]

theorem defmetrid_search_spec (lispoi : Nat → Vec3 K) (u0 u1 : K) (ilist : Nat) :
    defmetrid_search lispoi u0 u1 ilist = ilist ∨
      (defmetrid_search lispoi u0 u1 ilist < ilist ∧
        0 < defmetrid_detg lispoi u0 u1 (defmetrid_search lispoi u0 u1 ilist) ∧
        0 < defmetrid_detd lispoi u0 u1 (defmetrid_search lispoi u0 u1 ilist)) := by
  unfold defmetrid_search
  cases hf : (List.range ilist).find? (fun k =>
      decide (defmetrid_detg lispoi u0 u1 k > 0) &&
      decide (defmetrid_detd lispoi u0 u1 k > 0)) with
  | none => exact Or.inl rfl
  | some k =>
    right
    have h1 := List.find?_some hf
    have h2 := List.mem_of_find?_eq_some hf
    simp only [Option.getD_some]
    simp only [Bool.and_eq_true, decide_eq_true_eq, gt_iff_lt] at h1
    exact ⟨List.mem_range.mp h2, h1.1, h1.2⟩

theorem defmetrid_search_none (lispoi : Nat → Vec3 K) (u0 u1 : K) (ilist : Nat)
    (h : ∀ k, k < ilist →
      ¬ (0 < defmetrid_detg lispoi u0 u1 k ∧ 0 < defmetrid_detd lispoi u0 u1 k)) :
    defmetrid_search lispoi u0 u1 ilist = ilist := by
  rcases defmetrid_search_spec lispoi u0 u1 ilist with h1 | ⟨h1, h2, h3⟩
  · exact h1
  · exact absurd ⟨h2, h3⟩ (h _ h1)

theorem defmetrid_locate_spec (lispoi : Nat → Vec3 K) (trot0 trot1 : K) (ilist : Nat) :
    (defmetrid_locate lispoi trot0 trot1 ilist).1 = ilist ∨
      ((defmetrid_locate lispoi trot0 trot1 ilist).1 < ilist ∧
        0 < defmetrid_detg lispoi (defmetrid_locate lispoi trot0 trot1 ilist).2.1
          (defmetrid_locate lispoi trot0 trot1 ilist).2.2
          (defmetrid_locate lispoi trot0 trot1 ilist).1 ∧
        0 < defmetrid_detd lispoi (defmetrid_locate lispoi trot0 trot1 ilist).2.1
          (defmetrid_locate lispoi trot0 trot1 ilist).2.2
          (defmetrid_locate lispoi trot0 trot1 ilist).1) := by
  unfold defmetrid_locate
  simp only
  split_ifs with h
  · exact defmetrid_search_spec lispoi _ _ ilist
  · rcases defmetrid_search_spec lispoi (-trot1) trot0 ilist with h1 | h1
    · exact absurd h1 h
    · exact Or.inr h1

theorem defmetrid_locate_none (lispoi : Nat → Vec3 K) (trot0 trot1 : K) (ilist : Nat)
    (h : NoStraddle lispoi (-trot1) trot0 ilist) :
    (defmetrid_locate lispoi trot0 trot1 ilist).1 = ilist := by
  unfold defmetrid_locate
  simp only
  rw [if_pos (defmetrid_search_none lispoi _ _ ilist (fun k hk => (h k hk).1))]
  exact defmetrid_search_none lispoi _ _ ilist (fun k hk => (h k hk).2)

/-- The interpolation step raises `m[i+1]` to the maximum with the clamped
curvature of the curve drawn on the patch, unless its tangent is degenerate. -/
theorem defmetrid_contrib_eq (env : Env K) (info : Info K) (f : RidFrame K) (i : Nat)
    (m : Met6 K) :
    defmetrid_contrib env info f i m =
      if (defmetrid_tau f).normSq < env.EPSD then m
      else m.set (i + 1) (max (m.get (i + 1))
        (clampSize info (curveCurvature env (defmetrid_tau f) (frameSecond f)))) := by
  unfold defmetrid_contrib
  simp only [MG_MAX_eq_max, Vec3.normSq, Vec3.dot]
  split_ifs with h
  · rfl
  · have hg : frameSecond f =
        ⟨f.H0.x * f.lambda0 * f.lambda0 + 2 * f.H1.x * f.lambda0 * f.lambda1
            + f.H2.x * f.lambda1 * f.lambda1,
          f.H0.y * f.lambda0 * f.lambda0 + 2 * f.H1.y * f.lambda0 * f.lambda1
            + f.H2.y * f.lambda1 * f.lambda1,
          f.H0.z * f.lambda0 * f.lambda0 + 2 * f.H1.z * f.lambda0 * f.lambda1
            + f.H2.z * f.lambda1 * f.lambda1⟩ := by
      simp only [frameSecond, Vec3.add, Vec3.smul]
      congr 1 <;> ring
    have hk := defmetrid_kappa_eq env info (defmetrid_tau f) (frameSecond f)
    rw [hg] at hk
    simp only at hk
    rw [hk, hg]

theorem defmetrid_contrib_skip (env : Env K) (info : Info K) (f : RidFrame K) (i : Nat)
    (m : Met6 K) (h : (defmetrid_tau f).normSq < env.EPSD) :
    defmetrid_contrib env info f i m = m := by
  rw [defmetrid_contrib_eq, if_pos h]

/-- The barycentric coordinate tested by the assertion of line 293 is at most 1
when both determinants are positive. -/
theorem bcu1_le_one {detg detd : K} (hg : 0 < detg) (hd : 0 < detd) :
    detd * (1 / (detg + detd)) ≤ 1 := by
  rw [mul_one_div, div_le_one (add_pos hg hd)]
  exact le_add_of_nonneg_left hg.le

/-- With a non-empty half-ball the rotation loop overwrites the pointer `pt`
before it is read: the result does not depend on its value on entry. -/
theorem defmetrid_rot_indep (env : Env K) (mesh : Mesh K) (idp : Nat) (r : Mat3 K)
    (ilist : Nat) (list : Nat → Nat) (pt0 pt1 : Tria) (h : ilist ≠ 0) :
    defmetrid_rot env mesh idp r ilist list pt0 = defmetrid_rot env mesh idp r ilist list pt1 := by
  unfold defmetrid_rot
  cases hl : List.range ilist with
  | nil => exact absurd (List.range_eq_nil.mp hl) h
  | cons k l => simp only [List.foldl_cons]

/-- An iteration of the second loop never stops the process: it raises `m[i+1]`
to the maximum with the clamped contribution of the sheet, when there is one. -/
theorem defmetrid_sheet_eq (env : Env K) (mesh : Mesh K) (idp : Nat) (n : Vec3 K)
    (ilist : Nat) (list : Nat → Nat) (i : Nat) (st : Tria × Met6 K) :
    ∃ pt1, defmetrid_sheet env mesh idp n ilist list i st = .ok (pt1,
      addSheet mesh.info i (sheetContribution env mesh idp n ilist list st.1) st.2) := by
  unfold defmetrid_sheet sheetContribution addSheet
  simp only
  generalize hL : (defmetrid_rot env mesh idp (env.rotmatrix n) ilist list st.1).2 = lispoi
  generalize hloc : defmetrid_locate lispoi _ _ ilist = loc
  have hs := defmetrid_locate_spec lispoi
    ((env.rotmatrix n).r00 * (mesh.point idp).n.x + (env.rotmatrix n).r01 * (mesh.point idp).n.y
      + (env.rotmatrix n).r02 * (mesh.point idp).n.z)
    ((env.rotmatrix n).r10 * (mesh.point idp).n.x + (env.rotmatrix n).r11 * (mesh.point idp).n.y
      + (env.rotmatrix n).r12 * (mesh.point idp).n.z) ilist
  rw [hloc] at hs
  rcases hs with hk | ⟨hlt, hg, hd⟩
  · rw [if_pos hk, if_pos hk]
    exact ⟨_, rfl⟩
  · rw [if_neg (Nat.ne_of_lt hlt), if_neg (Nat.ne_of_lt hlt)]
    cases hb : env.bezierCP mesh (mesh.tria (list loc.1 / 3)) with
    | none => exact ⟨_, rfl⟩
    | some b =>
      simp only
      by_cases h1 : defmetrid_detg lispoi loc.2.1 loc.2.2 loc.1 +
          defmetrid_detd lispoi loc.2.1 loc.2.2 loc.1 < env.EPSD
      · rw [if_pos h1, if_pos h1]
        exact ⟨_, rfl⟩
      · rw [if_neg h1, if_neg h1, if_pos (bcu1_le_one hg hd), defmetrid_contrib_eq]
        refine ⟨mesh.tria (list loc.1 / 3), ?_⟩
        split_ifs <;> rfl

theorem defmetrid_locate_zero (lispoi : Nat → Vec3 K) (trot0 trot1 : K) :
    (defmetrid_locate lispoi trot0 trot1 0).1 = 0 := by
  rcases defmetrid_locate_spec lispoi trot0 trot1 0 with h | ⟨h, _⟩
  · exact h
  · exact absurd h (Nat.not_lt_zero _)

/-- The contribution of a sheet does not depend on the stale pointer `pt`. -/
theorem sheetContribution_indep (env : Env K) (mesh : Mesh K) (idp : Nat) (n : Vec3 K)
    (ilist : Nat) (list : Nat → Nat) (pt0 pt1 : Tria) :
    sheetContribution env mesh idp n ilist list pt0 =
      sheetContribution env mesh idp n ilist list pt1 := by
  by_cases h0 : ilist = 0
  · subst h0
    unfold sheetContribution
    simp only [defmetrid_locate_zero, if_true]
  · unfold sheetContribution
    simp only
    rw [defmetrid_rot_indep env mesh idp _ ilist list pt0 pt1 h0]

theorem defmetrid_search_all (lispoi : Nat → Vec3 K) (u0 u1 : K) (ilist : Nat)
    (h : defmetrid_search lispoi u0 u1 ilist = ilist) :
    ∀ k, k < ilist →
      ¬ (0 < defmetrid_detg lispoi u0 u1 k ∧ 0 < defmetrid_detd lispoi u0 u1 k) := by
  intro k hk hc
  unfold defmetrid_search at h
  cases hf : (List.range ilist).find? (fun k =>
      decide (defmetrid_detg lispoi u0 u1 k > 0) &&
      decide (defmetrid_detd lispoi u0 u1 k > 0)) with
  | none =>
    have := List.find?_eq_none.mp hf k (List.mem_range.mpr hk)
    simp only [gt_iff_lt, Bool.and_eq_true, decide_eq_true_eq] at this
    exact this hc
  | some j =>
    rw [hf, Option.getD_some] at h
    have := List.mem_of_find?_eq_some hf
    rw [h] at this
    exact absurd (List.mem_range.mp this) (Nat.lt_irrefl _)

theorem defmetrid_locate_all (lispoi : Nat → Vec3 K) (trot0 trot1 : K) (ilist : Nat)
    (h : (defmetrid_locate lispoi trot0 trot1 ilist).1 = ilist) :
    NoStraddle lispoi (-trot1) trot0 ilist := by
  unfold defmetrid_locate at h
  simp only at h
  by_cases h1 : defmetrid_search lispoi (-trot1) trot0 ilist = ilist
  · rw [if_pos h1] at h
    exact fun k hk => ⟨defmetrid_search_all lispoi _ _ ilist h1 k hk,
      defmetrid_search_all lispoi _ _ ilist h k hk⟩
  · rw [if_neg h1] at h
    exact absurd h h1

/-- A sheet is skipped exactly when it has no contribution. -/
theorem SheetSkipped_iff (env : Env K) (mesh : Mesh K) (idp : Nat) (n : Vec3 K)
    (ilist : Nat) (list : Nat → Nat) (pt0 : Tria) :
    SheetSkipped env mesh idp n ilist list pt0 ↔
      sheetContribution env mesh idp n ilist list pt0 = none := by
  unfold SheetSkipped sheetContribution
  simp only
  generalize hL : (defmetrid_rot env mesh idp (env.rotmatrix n) ilist list pt0).2 = lispoi
  have hn := defmetrid_locate_none lispoi
    ((env.rotmatrix n).r00 * (mesh.point idp).n.x + (env.rotmatrix n).r01 * (mesh.point idp).n.y
      + (env.rotmatrix n).r02 * (mesh.point idp).n.z)
    ((env.rotmatrix n).r10 * (mesh.point idp).n.x + (env.rotmatrix n).r11 * (mesh.point idp).n.y
      + (env.rotmatrix n).r12 * (mesh.point idp).n.z) ilist
  have ha := defmetrid_locate_all lispoi
    ((env.rotmatrix n).r00 * (mesh.point idp).n.x + (env.rotmatrix n).r01 * (mesh.point idp).n.y
      + (env.rotmatrix n).r02 * (mesh.point idp).n.z)
    ((env.rotmatrix n).r10 * (mesh.point idp).n.x + (env.rotmatrix n).r11 * (mesh.point idp).n.y
      + (env.rotmatrix n).r12 * (mesh.point idp).n.z) ilist
  generalize hloc : defmetrid_locate lispoi _ _ ilist = loc at hn ha ⊢
  by_cases hk : loc.1 = ilist
  · rw [if_pos hk]
    exact ⟨fun _ => rfl, fun _ => Or.inl (ha hk)⟩
  · rw [if_neg hk]
    cases hb : env.bezierCP mesh (mesh.tria (list loc.1 / 3)) with
    | none => exact ⟨fun _ => rfl, fun _ => Or.inr (Or.inl rfl)⟩
    | some b =>
      simp only
      by_cases h1 : defmetrid_detg lispoi loc.2.1 loc.2.2 loc.1 +
          defmetrid_detd lispoi loc.2.1 loc.2.2 loc.1 < env.EPSD
      · rw [if_pos h1]
        exact ⟨fun _ => rfl, fun _ => Or.inr (Or.inr (Or.inl h1))⟩
      · rw [if_neg h1]
        constructor
        · rintro (h | h | h | ⟨b1, hb1, h⟩)
          · exact absurd (hn h) hk
          · exact absurd h (by simp)
          · exact absurd h h1
          · injection hb1 with hb1
            subst hb1
            rw [if_pos h]
        · intro h
          split_ifs at h with h2
          exact Or.inr (Or.inr (Or.inr ⟨b, rfl, h2⟩))

theorem ridgeEntry_steps (info : Info K) (a0 a1 s1 s2 : Option K) :
    addSheet info 1 s2 (addSheet info 0 s1 (addArc info a1 (addArc info a0
      ⟨1 / (info.hmax * info.hmax), 1 / (info.hmax * info.hmax),
        1 / (info.hmax * info.hmax), 0, 0, 0⟩))) = ridgeEntry info a0 a1 s1 s2 := by
  cases a0 <;> cases a1 <;> cases s1 <;> cases s2 <;>
    simp only [addSheet, addArc, ridgeEntry, seedMax, Met6.set, Met6.get, isq, Option.toList,
      List.nil_append, List.append_nil, List.map, List.foldr, List.singleton_append,
      Nat.reduceAdd] <;>
    first
      | rfl
      | (congr 1 <;> first | rfl | exact max_comm _ _ | ac_rfl)

/-- The value returned by `defmetrid` when the half-ball query succeeds: it
returns 1 and the entry of the vertex is `ridgeEntry` of the contributions of its
two ridge arcs and its two sheets. -/
theorem defmetrid_ok (env : Env K) (n0 : Vec3 K) (mesh : Mesh K) (m : Nat → Met6 K)
    (it ip : Nat) (pta ptb : Tria) (h : (env.bouletrid mesh it ip).ier ≠ 0) :
    defmetrid env n0 mesh m it ip = .ok (1, Function.update m ((mesh.tria it).v ip)
      (ridgeEntry mesh.info
        (arcContribution env n0 mesh ((mesh.tria it).v ip) (env.bouletrid mesh it ip).ip0)
        (arcContribution env n0 mesh ((mesh.tria it).v ip) (env.bouletrid mesh it ip).ip1)
        (sheetContribution env mesh ((mesh.tria it).v ip)
          (mesh.xpoint (mesh.point ((mesh.tria it).v ip)).ig).n1
          (env.bouletrid mesh it ip).ilist1 (env.bouletrid mesh it ip).list1 pta)
        (sheetContribution env mesh ((mesh.tria it).v ip)
          (mesh.xpoint (mesh.point ((mesh.tria it).v ip)).ig).n2
          (env.bouletrid mesh it ip).ilist2 (env.bouletrid mesh it ip).list2 ptb))) := by
  unfold defmetrid
  simp only [h, if_false]
  rw [defmetrid_arc_eq, defmetrid_arc_eq]
  obtain ⟨pt1, h1⟩ := defmetrid_sheet_eq env mesh ((mesh.tria it).v ip)
    (mesh.xpoint (mesh.point ((mesh.tria it).v ip)).ig).n1
    (env.bouletrid mesh it ip).ilist1 (env.bouletrid mesh it ip).list1 0
    (mesh.tria it, addArc mesh.info
      (arcContribution env n0 mesh ((mesh.tria it).v ip) (env.bouletrid mesh it ip).ip1)
      (addArc mesh.info
        (arcContribution env n0 mesh ((mesh.tria it).v ip) (env.bouletrid mesh it ip).ip0)
        ⟨1 / (mesh.info.hmax * mesh.info.hmax), 1 / (mesh.info.hmax * mesh.info.hmax),
          1 / (mesh.info.hmax * mesh.info.hmax), 0, 0, 0⟩))
  rw [h1]
  simp only
  obtain ⟨pt2, h2⟩ := defmetrid_sheet_eq env mesh ((mesh.tria it).v ip)
    (mesh.xpoint (mesh.point ((mesh.tria it).v ip)).ig).n2
    (env.bouletrid mesh it ip).ilist2 (env.bouletrid mesh it ip).list2 1
    (pt1, addSheet mesh.info 0 (sheetContribution env mesh ((mesh.tria it).v ip)
      (mesh.xpoint (mesh.point ((mesh.tria it).v ip)).ig).n1
      (env.bouletrid mesh it ip).ilist1 (env.bouletrid mesh it ip).list1 (mesh.tria it))
      (addArc mesh.info
        (arcContribution env n0 mesh ((mesh.tria it).v ip) (env.bouletrid mesh it ip).ip1)
        (addArc mesh.info
          (arcContribution env n0 mesh ((mesh.tria it).v ip) (env.bouletrid mesh it ip).ip0)
          ⟨1 / (mesh.info.hmax * mesh.info.hmax), 1 / (mesh.info.hmax * mesh.info.hmax),
            1 / (mesh.info.hmax * mesh.info.hmax), 0, 0, 0⟩)))
  rw [h2]
  simp only
  rw [sheetContribution_indep env mesh _ _ _ _ pt1 ptb,
    sheetContribution_indep env mesh _ _ _ _ (mesh.tria it) pta, ridgeEntry_steps]

theorem ridgeEntry_form (info : Info K) (a0 a1 s1 s2 : Option K) :
    RidgeForm info (ridgeEntry info a0 a1 s1 s2) := by
  refine ⟨rfl, rfl, rfl, ⟨_, ?_, rfl⟩, ⟨_, ?_, rfl⟩, ⟨_, ?_, rfl⟩⟩
  · cases a0 <;> cases a1 <;> simp
  · cases s1 <;> simp
  · cases s2 <;> simp

theorem defmetsin_returns (env : Env K) (mesh : Mesh K) (m : Nat → Met6 K) (it ip : Nat)
    (r : Int) (m1 : Nat → Met6 K) (h : defmetsin env mesh m it ip = .ok (r, m1)) :
    r = 1 ∧ ∃ v, m1 = Function.update m ((mesh.tria it).v ip) v ∧
      ∃ a, v = Met6.iso (clampSize mesh.info a) := by
  by_cases hb : (env.boulet mesh it ip).1 = 0
  · rw [defmetsin_exit env mesh m it ip hb] at h
    exact absurd h (by simp)
  · rw [defmetsin_ok env mesh m it ip hb] at h
    injection h with h
    injection h with h1 h2
    exact ⟨h1.symm, _, h2.symm, _, rfl⟩

theorem defmetrid_exit (env : Env K) (n0 : Vec3 K) (mesh : Mesh K) (m : Nat → Met6 K)
    (it ip : Nat) (h : (env.bouletrid mesh it ip).ier = 0) :
    defmetrid env n0 mesh m it ip = .error Fatal.exitFailure := by
  unfold defmetrid
  simp only [h, if_true]

theorem defmetrid_returns (env : Env K) (n0 : Vec3 K) (mesh : Mesh K) (m : Nat → Met6 K)
    (it ip : Nat) (r : Int) (m1 : Nat → Met6 K)
    (h : defmetrid env n0 mesh m it ip = .ok (r, m1)) :
    r = 1 ∧ ∃ v, m1 = Function.update m ((mesh.tria it).v ip) v ∧ RidgeForm mesh.info v := by
  by_cases hb : (env.bouletrid mesh it ip).ier = 0
  · rw [defmetrid_exit env n0 mesh m it ip hb] at h
    exact absurd h (by simp)
  · rw [defmetrid_ok env n0 mesh m it ip (mesh.tria it) (mesh.tria it) hb] at h
    injection h with h
    injection h with h1 h2
    exact ⟨h1.symm, _, h2.symm, ridgeEntry_form _ _ _ _ _⟩

/-- The two outcomes of the vertex loop body when it does not stop the process:
the vertex is left as it is (flag and entry), or it was valid with flag 0 and is
now flagged with an estimated entry. -/
theorem defsiz_vertex_cases (env : Env K) (defmetref defmetreg : Estimator K) (n0 : Vec3 K)
    (ismet : Bool) (k i : Nat) (s s1 : SizState K)
    (h : defsiz_vertex env defmetref defmetreg n0 ismet k i s = .ok s1) :
    (s1.mesh = s.mesh ∧ s1.m = s.m) ∨
    ((s.mesh.point ((s.mesh.tria k).v i)).flag = 0 ∧
      MG_VOK env (s.mesh.point ((s.mesh.tria k).v i)) = true ∧
      s1.mesh = s.mesh.setFlag ((s.mesh.tria k).v i) 1 ∧
      ∃ v, s1.m = Function.update s.m ((s.mesh.tria k).v i) v ∧
        Estimated env s.mesh.info (s.mesh.point ((s.mesh.tria k).v i)).tag v) := by
  unfold defsiz_vertex at h
  simp only at h
  by_cases hskip : (decide ((s.mesh.point ((s.mesh.tria k).v i)).flag ≠ 0) ||
      !MG_VOK env (s.mesh.point ((s.mesh.tria k).v i))) = true
  · rw [if_pos hskip] at h
    injection h with h; subst h; exact Or.inl ⟨rfl, rfl⟩
  · rw [if_neg hskip] at h
    have hfv : (s.mesh.point ((s.mesh.tria k).v i)).flag = 0 ∧
        MG_VOK env (s.mesh.point ((s.mesh.tria k).v i)) = true := by
      simpa using hskip
    generalize hs' : (if ismet = true then
      ({ mesh := s.mesh, m := s.m, mm := s.m ((s.mesh.tria k).v i) } : SizState K) else s) = s' at h
    have hsm : s'.mesh = s.mesh ∧ s'.m = s.m := by
      rw [← hs']; split_ifs <;> exact ⟨rfl, rfl⟩
    obtain ⟨hsmesh, hsmm⟩ := hsm
    by_cases hsin : env.MS_SIN (s.mesh.point ((s.mesh.tria k).v i)).tag = true
    · rw [if_pos hsin] at h
      have := afterTest_estimator s' s1 _ _
        (fun v => ∃ a, v = Met6.iso (clampSize s.mesh.info a)) h
        (fun r m1 hc => by
          have := defmetsin_returns env s'.mesh s'.m k i r m1 hc
          rw [hsmesh] at this
          exact this)
      rw [hsmesh, hsmm] at this
      exact Or.inr ⟨hfv.1, hfv.2, this.1, this.2.imp fun v hv => ⟨hv.1, Or.inl ⟨hsin, hv.2⟩⟩⟩
    · rw [if_neg hsin] at h
      by_cases hgeo : hasBit (s.mesh.point ((s.mesh.tria k).v i)).tag env.MG_GEO = true
      · rw [if_pos hgeo] at h
        have := afterTest_estimator s' s1 _ _
          (fun v => RidgeForm s.mesh.info v) h
          (fun r m1 hc => by
            have := defmetrid_returns env n0 s'.mesh s'.m k i r m1 hc
            rw [hsmesh] at this
            exact this)
        rw [hsmesh, hsmm] at this
        exact Or.inr ⟨hfv.1, hfv.2, this.1, this.2.imp fun v hv =>
          ⟨hv.1, Or.inr ⟨by simpa using hsin, hgeo, hv.2⟩⟩⟩
      · rw [if_neg hgeo] at h
        left
        rw [← hsmesh, ← hsmm]
        split_ifs at h
        all_goals (injection h with h; subst h; exact ⟨rfl, rfl⟩)

theorem Pass1Inv_init (env : Env K) (s : SizState K) : Pass1Inv env s s :=
  ⟨SameGeom.refl _, fun _ => Or.inl ⟨rfl, rfl⟩⟩

/-- The vertex loop body preserves the invariant of the first pass. -/
theorem defsiz_vertex_inv (env : Env K) (defmetref defmetreg : Estimator K) (n0 : Vec3 K)
    (ismet : Bool) (k i : Nat) (s0 s s1 : SizState K) (hinv : Pass1Inv env s0 s)
    (h : defsiz_vertex env defmetref defmetreg n0 ismet k i s = .ok s1) :
    Pass1Inv env s0 s1 := by
  obtain ⟨hg, hpt⟩ := hinv
  rcases defsiz_vertex_cases env defmetref defmetreg n0 ismet k i s s1 h with
    ⟨h1, h2⟩ | ⟨hf, hv, h1, v, h2, hE⟩
  · rw [Pass1Inv, h1, h2]
    exact ⟨hg, hpt⟩
  · refine ⟨?_, ?_⟩
    · rw [h1]
      exact hg.trans (SameGeom_setFlag _ _ _)
    · intro j
      by_cases hj : j = (s.mesh.tria k).v i
      · right
        have htag := (hg.2.2.2.2.2.2 j).2.2.1
        have hflag0 : (s0.mesh.point j).flag = 0 := by
          rcases hpt j with ⟨hp, _⟩ | ⟨hp, _⟩
          · rw [← hp, hj]; exact hf
          · rw [hj, hf] at hp
            exact absurd hp (by decide)
        refine ⟨?_, hflag0, ?_, ?_⟩
        · rw [h1, hj, setFlag_point_self]
        · rw [MG_VOK_congr env htag, hj]; exact hv
        · rw [h2, hj, Function.update_same, hg.2.2.2.1, ← hj, htag, hj]
          exact hE
      · rw [h1, h2, setFlag_point_ne _ _ hj, Function.update_noteq hj]
        exact hpt j

/-- The triangle loop body preserves the invariant of the first pass. -/
theorem defsiz_tria_inv (env : Env K) (defmetref defmetreg : Estimator K) (n0 : Vec3 K)
    (ismet : Bool) (k : Nat) (s0 s s1 : SizState K) (hinv : Pass1Inv env s0 s)
    (h : defsiz_tria env defmetref defmetreg n0 ismet s k = .ok s1) :
    Pass1Inv env s0 s1 := by
  unfold defsiz_tria at h
  simp only at h
  split_ifs at h with hskip
  · injection h with h; subst h; exact hinv
  · simp only [List.foldlM, bind, Except.bind] at h
    cases ha : defsiz_vertex env defmetref defmetreg n0 ismet k 0 s with
    | error e => rw [ha] at h; exact absurd h (by simp)
    | ok sa =>
      rw [ha] at h
      simp only at h
      cases hb : defsiz_vertex env defmetref defmetreg n0 ismet k 1 sa with
      | error e => rw [hb] at h; exact absurd h (by simp)
      | ok sb =>
        rw [hb] at h
        simp only at h
        cases hc : defsiz_vertex env defmetref defmetreg n0 ismet k 2 sb with
        | error e => rw [hc] at h; exact absurd h (by simp)
        | ok sc =>
          rw [hc] at h
          simp only [pure, Except.pure] at h
          injection h with h
          subst h
          exact defsiz_vertex_inv env _ _ n0 ismet k 2 s0 sb sc
            (defsiz_vertex_inv env _ _ n0 ismet k 1 s0 sa sb
              (defsiz_vertex_inv env _ _ n0 ismet k 0 s0 s sa hinv ha) hb) hc

/-- A loop `foldlM` in the error monad preserves an invariant that each
iteration preserves. -/
theorem foldlM_inv {σ α : Type} (f : σ → α → Except Fatal σ) (P : σ → Prop)
    (hf : ∀ s a s1, P s → f s a = .ok s1 → P s1) (l : List α) (s s1 : σ) (hs : P s)
    (h : l.foldlM f s = .ok s1) : P s1 := by
  induction l generalizing s with
  | nil =>
    simp only [List.foldlM, pure, Except.pure] at h
    injection h with h; subst h; exact hs
  | cons a l ih =>
    simp only [List.foldlM, bind, Except.bind] at h
    cases ha : f s a with
    | error e => rw [ha] at h; exact absurd h (by simp)
    | ok sa =>
      rw [ha] at h
      exact ih sa (hf s a sa hs ha) h

/-- The first pass establishes its invariant. -/
theorem defsiz_pass1_inv (env : Env K) (defmetref defmetreg : Estimator K) (n0 : Vec3 K)
    (ismet : Bool) (s s1 : SizState K)
    (h : defsiz_pass1 env defmetref defmetreg n0 ismet s = .ok s1) :
    Pass1Inv env s s1 :=
  foldlM_inv (defsiz_tria env defmetref defmetreg n0 ismet) (Pass1Inv env s)
    (fun a k a1 ha h1 => defsiz_tria_inv env _ _ n0 ismet k s a a1 ha h1) _ s s1
    (Pass1Inv_init env s) h

/-! ### `defsiz_ani`: reset, second pass -/

theorem defsiz_hmax_geom (mesh : Mesh K) :
    (defsiz_hmax mesh).np = mesh.np ∧ (defsiz_hmax mesh).nt = mesh.nt ∧
    (defsiz_hmax mesh).npmax = mesh.npmax ∧ (defsiz_hmax mesh).point = mesh.point ∧
    (defsiz_hmax mesh).xpoint = mesh.xpoint ∧ (defsiz_hmax mesh).tria = mesh.tria ∧
    (defsiz_hmax mesh).info.hmin = mesh.info.hmin ∧
    (defsiz_hmax mesh).info.hausd = mesh.info.hausd := by
  unfold defsiz_hmax
  split_ifs <;> exact ⟨rfl, rfl, rfl, rfl, rfl, rfl, rfl, rfl⟩

theorem defsiz_hmax_of_nonneg (mesh : Mesh K) (h : 0 ≤ mesh.info.hmax) :
    defsiz_hmax mesh = mesh := by
  unfold defsiz_hmax
  rw [if_neg (not_lt.mpr h)]

theorem defsiz_default_congr (env : Env K) {a b : Mesh K} (h : SameGeom a b) (q : K) (k : Nat) :
    defsiz_default env a q (a.point k) = defsiz_default env b q (b.point k) := by
  obtain ⟨_, _, _, _, _, hx, hp⟩ := h
  obtain ⟨_, hn, ht, hi⟩ := hp k
  unfold defsiz_default
  rw [hx, hn, ht, hi]

/-- The second loop over an arbitrary list of vertices: a vertex of the list
that is valid and not flagged 1 receives `fillValue` and the flag 1; every other
vertex keeps its entry and its flag. -/
theorem defsiz_fill_fold (env : Env K) (ismet : Bool) (q : K) (l : List Nat) (s : SizState K) :
    SameGeom s.mesh (l.foldl (defsiz_fill env ismet q) s).mesh ∧
    (l.foldl (defsiz_fill env ismet q) s).mm = s.mm ∧
    ∀ k, (k ∈ l ∧ MG_VOK env (s.mesh.point k) = true ∧ (s.mesh.point k).flag ≠ 1 →
        (l.foldl (defsiz_fill env ismet q) s).m k = fillValue env ismet q s k ∧
        ((l.foldl (defsiz_fill env ismet q) s).mesh.point k).flag = 1) ∧
      (¬ (k ∈ l ∧ MG_VOK env (s.mesh.point k) = true ∧ (s.mesh.point k).flag ≠ 1) →
        (l.foldl (defsiz_fill env ismet q) s).m k = s.m k ∧
        ((l.foldl (defsiz_fill env ismet q) s).mesh.point k).flag = (s.mesh.point k).flag) := by
  induction l generalizing s with
  | nil =>
    refine ⟨SameGeom.refl _, rfl, fun k => ⟨fun h => absurd h.1 (List.not_mem_nil k), fun _ => ⟨rfl, rfl⟩⟩⟩
  | cons j l ih =>
    rw [List.foldl_cons]
    obtain ⟨hg, hmm, hk⟩ := ih (defsiz_fill env ismet q s j)
    by_cases hj : MG_VOK env (s.mesh.point j) = true ∧ (s.mesh.point j).flag ≠ 1
    · -- the vertex `j` is filled
      have hs1 : defsiz_fill env ismet q s j =
          { mesh := s.mesh.setFlag j 1, m := Function.update s.m j (fillValue env ismet q s j),
            mm := s.mm } := by
        unfold defsiz_fill fillValue
        have : (!MG_VOK env (s.mesh.point j) || decide ((s.mesh.point j).flag = 1)) = false := by
          simp [hj.1, hj.2]
        simp only [this]
        cases ismet <;> simp
      rw [hs1] at hg hmm hk ⊢
      refine ⟨(SameGeom_setFlag s.mesh j 1).trans hg, hmm, fun k => ?_⟩
      have hgeo := SameGeom_setFlag s.mesh j 1
      by_cases hkj : k = j
      · subst hkj
        have hnot : ¬ (k ∈ l ∧ MG_VOK env ((s.mesh.setFlag k 1).point k) = true ∧
            ((s.mesh.setFlag k 1).point k).flag ≠ 1) := by
          rw [setFlag_point_self]; simp
        obtain ⟨e1, e2⟩ := (hk k).2 hnot
        simp only at e1 e2
        rw [setFlag_point_self] at e2
        rw [Function.update_same] at e1
        exact ⟨fun _ => ⟨e1, e2⟩, fun hc => absurd ⟨List.mem_cons_self _ _, hj⟩ hc⟩
      · have e3 : (s.mesh.setFlag j 1).point k = s.mesh.point k := setFlag_point_ne _ _ hkj
        have e4 : fillValue env ismet q
            { mesh := s.mesh.setFlag j 1, m := Function.update s.m j (fillValue env ismet q s j),
              mm := s.mm } k = fillValue env ismet q s k := by
          unfold fillValue
          simp only
          rw [← defsiz_default_congr env hgeo q k]
        have hk' := hk k
        simp only [e3, e4, Function.update_noteq hkj] at hk'
        simp only [List.mem_cons, hkj, false_or]
        exact hk'
    · -- the vertex `j` is skipped
      have hs1 : defsiz_fill env ismet q s j = s := by
        unfold defsiz_fill
        have : (!MG_VOK env (s.mesh.point j) || decide ((s.mesh.point j).flag = 1)) = true := by
          by_cases hv : MG_VOK env (s.mesh.point j) = true
          · have := not_not.mp (fun hc => hj ⟨hv, hc⟩)
            simp [this]
          · simp [hv]
        simp only [this, if_true]
      rw [hs1] at hg hmm hk ⊢
      refine ⟨hg, hmm, fun k => ?_⟩
      by_cases hkj : k = j
      · subst hkj
        have hnot : ¬ (k ∈ l ∧ MG_VOK env (s.mesh.point k) = true ∧ (s.mesh.point k).flag ≠ 1) :=
          fun hc => hj hc.2
        exact ⟨fun hc => absurd hc.2 hj, fun _ => (hk k).2 hnot⟩
      · simp only [List.mem_cons, hkj, false_or]
        exact hk k

/-! ### `defsiz_ani`: the whole function -/

/-- The builder without a supplied metric, unfolded. -/
theorem defsiz_ani_nomet (env : Env K) (defmetref defmetreg : Estimator K) (mm0 : Met6 K)
    (n0 : Vec3 K) (mesh : Mesh K) (met : Sol K) (hm : met.m = none) :
    defsiz_ani env defmetref defmetreg mm0 n0 mesh met =
      if env.ADD_MEM mesh (6 * mesh.npmax + 1) = false then
        .ok (0, mesh, { met with np := mesh.np, npmax := mesh.npmax })
      else if env.SAFE_CALLOC (6 * (mesh.npmax + 1) + 1) = false then .error Fatal.exitFailure
      else match defsiz_pass1 env defmetref defmetreg n0 false (pass1Entry mesh mm0) with
        | .error e => .error e
        | .ok s1 => .ok (1, (defsiz_pass2 env false s1).mesh,
            { np := mesh.np, npmax := mesh.npmax, m := some (defsiz_pass2 env false s1).m }) := by
  unfold defsiz_ani pass1Entry
  simp only [hm, Option.isSome_none]
  cases h1 : env.ADD_MEM mesh (6 * mesh.npmax + 1) with
  | false => simp
  | true =>
    cases h2 : env.SAFE_CALLOC (6 * (mesh.npmax + 1) + 1) with
    | false => simp
    | true => simp

/-- The builder with a supplied metric `m`, unfolded. -/
theorem defsiz_ani_met (env : Env K) (defmetref defmetreg : Estimator K) (mm0 : Met6 K)
    (n0 : Vec3 K) (mesh : Mesh K) (met : Sol K) (m : Nat → Met6 K) (hm : met.m = some m) :
    defsiz_ani env defmetref defmetreg mm0 n0 mesh met =
      match defsiz_pass1 env defmetref defmetreg n0 true
          ⟨defsiz_reset (defsiz_hmax mesh), m, mm0⟩ with
        | .error e => .error e
        | .ok s1 => .ok (1, (defsiz_pass2 env true s1).mesh,
            { met with m := some (defsiz_pass2 env true s1).m }) := by
  unfold defsiz_ani
  simp only [hm, Option.isSome_some]

theorem pass1Entry_geom (mesh : Mesh K) (mm0 : Met6 K) :
    SameGeom (defsiz_hmax mesh) (pass1Entry mesh mm0).mesh :=
  (defsiz_reset_spec (defsiz_hmax mesh)).1

theorem pass1Entry_flag (mesh : Mesh K) (mm0 : Met6 K) (k : Nat) (h1 : 1 ≤ k)
    (h2 : k ≤ mesh.np) : ((pass1Entry mesh mm0).mesh.point k).flag = 0 := by
  have := (defsiz_reset_spec (defsiz_hmax mesh)).2 k
  rw [(defsiz_hmax_geom mesh).1, if_pos ⟨h1, h2⟩] at this
  exact this

theorem pass1Entry_tag (mesh : Mesh K) (mm0 : Met6 K) (k : Nat) :
    ((pass1Entry mesh mm0).mesh.point k).tag = (mesh.point k).tag := by
  have := ((pass1Entry_geom mesh mm0).2.2.2.2.2.2 k).2.2.1
  rw [(defsiz_hmax_geom mesh).2.2.2.1] at this
  exact this.symm

theorem defsiz_default_hmax (env : Env K) (mesh : Mesh K) (q : K) (p : Point K) :
    defsiz_default env (defsiz_hmax mesh) q p = defsiz_default env mesh q p := by
  unfold defsiz_default
  rw [(defsiz_hmax_geom mesh).2.2.2.2.1]

/-- The entries after the second pass, from the state `s1` left by the first
pass on the entry state (no metric supplied): a valid vertex `k` of `1..np` is
flagged; if the first pass flagged it, it keeps the entry of the first pass,
otherwise it receives the default entry. -/
theorem defsiz_pass2_entries (env : Env K) (mesh : Mesh K) (mm0 : Met6 K) (s1 : SizState K)
    (hg : SameGeom (pass1Entry mesh mm0).mesh s1.mesh) (k : Nat) (h1 : 1 ≤ k)
    (h2 : k ≤ mesh.np) (hv : MG_VOK env (mesh.point k) = true) :
    ((defsiz_pass2 env false s1).mesh.point k).flag = 1 ∧
    ((s1.mesh.point k).flag = 1 → (defsiz_pass2 env false s1).m k = s1.m k) ∧
    ((s1.mesh.point k).flag ≠ 1 → (defsiz_pass2 env false s1).m k =
      defsiz_default env mesh (isq (defsiz_hmax mesh).info.hmax) (mesh.point k)) := by
  have hg0 := (pass1Entry_geom mesh mm0).trans hg
  have hnp : s1.mesh.np = mesh.np := by rw [← hg0.1, (defsiz_hmax_geom mesh).1]
  have hinfo : s1.mesh.info = (defsiz_hmax mesh).info := hg0.2.2.2.1.symm
  have htag : (s1.mesh.point k).tag = (mesh.point k).tag := by
    rw [← (hg0.2.2.2.2.2.2 k).2.2.1, (defsiz_hmax_geom mesh).2.2.2.1]
  have hv1 : MG_VOK env (s1.mesh.point k) = true := by
    rw [MG_VOK_congr env htag]; exact hv
  have hmem : k ∈ List.range' 1 s1.mesh.np := by
    rw [List.mem_range'_1, hnp]; omega
  obtain ⟨_, _, hk⟩ := defsiz_fill_fold env false
    (1 / (s1.mesh.info.hmax * s1.mesh.info.hmax)) (List.range' 1 s1.mesh.np) s1
  have hdef : fillValue env false (1 / (s1.mesh.info.hmax * s1.mesh.info.hmax)) s1 k =
      defsiz_default env mesh (isq (defsiz_hmax mesh).info.hmax) (mesh.point k) := by
    unfold fillValue isq
    simp only [Bool.false_eq_true, if_false]
    rw [hinfo, ← defsiz_default_congr env hg0, defsiz_default_hmax,
      (defsiz_hmax_geom mesh).2.2.2.1]
  unfold defsiz_pass2
  simp only
  by_cases hf : (s1.mesh.point k).flag = 1
  · obtain ⟨e1, e2⟩ := (hk k).2 (fun hc => hc.2.2 hf)
    exact ⟨e2.trans hf, fun _ => e1, fun hc => absurd hf hc⟩
  · obtain ⟨e1, e2⟩ := (hk k).1 ⟨hmem, hv1, hf⟩
    exact ⟨e2, fun hc => absurd hc hf, fun _ => e1.trans hdef⟩

/-- The entries after `defsiz_ani` without a supplied metric: every valid vertex
of `1..np` is flagged and holds an estimated entry or the default entry. -/
theorem defsiz_entries (env : Env K) (defmetref defmetreg : Estimator K) (n0 : Vec3 K)
    (mesh : Mesh K) (mm0 : Met6 K) (s1 : SizState K)
    (h : defsiz_pass1 env defmetref defmetreg n0 false (pass1Entry mesh mm0) = .ok s1)
    (k : Nat) (h1 : 1 ≤ k) (h2 : k ≤ mesh.np) (hv : MG_VOK env (mesh.point k) = true) :
    ((defsiz_pass2 env false s1).mesh.point k).flag = 1 ∧
    (Estimated env (defsiz_hmax mesh).info (mesh.point k).tag ((defsiz_pass2 env false s1).m k) ∨
      ((s1.mesh.point k).flag = 0 ∧ (defsiz_pass2 env false s1).m k =
        defsiz_default env mesh (isq (defsiz_hmax mesh).info.hmax) (mesh.point k))) := by
  obtain ⟨hg, hpt⟩ := defsiz_pass1_inv env defmetref defmetreg n0 false _ s1 h
  obtain ⟨e1, e2, e3⟩ := defsiz_pass2_entries env mesh mm0 s1 hg k h1 h2 hv
  refine ⟨e1, ?_⟩
  have hinfo : (pass1Entry mesh mm0).mesh.info = (defsiz_hmax mesh).info :=
    (pass1Entry_geom mesh mm0).2.2.2.1.symm
  rcases hpt k with ⟨hf, _⟩ | ⟨hf, _, _, hE⟩
  · rw [pass1Entry_flag mesh mm0 k h1 h2] at hf
    right
    refine ⟨hf, e3 ?_⟩
    rw [hf]; decide
  · left
    rw [e2 hf, ← hinfo, ← pass1Entry_tag mesh mm0 k]
    exact hE

/-! ### Tensors -/

theorem dot_self_nonneg3 (v : Fin 3 → K) : 0 ≤ Matrix.dotProduct v v := by
  simp only [Matrix.dotProduct, Fin.sum_univ_three]
  nlinarith [mul_self_nonneg (v 0), mul_self_nonneg (v 1), mul_self_nonneg (v 2)]

theorem dot_self_pos3 (v : Fin 3 → K) (hv : v ≠ 0) : 0 < Matrix.dotProduct v v := by
  rcases (dot_self_nonneg3 v).lt_or_eq with h | h
  · exact h
  · exact absurd (Matrix.dotProduct_self_eq_zero.mp h.symm) hv

/-- Bounds on the quadratic form bound the eigenvalues. -/
theorem spectrumIn_of_quad (M : Matrix (Fin 3) (Fin 3) K) (lo hi : K)
    (h : ∀ v : Fin 3 → K, lo * Matrix.dotProduct v v ≤ Matrix.dotProduct v (M.mulVec v) ∧
      Matrix.dotProduct v (M.mulVec v) ≤ hi * Matrix.dotProduct v v) :
    SpectrumIn M lo hi := by
  refine ⟨h, fun mu v hv he => ?_⟩
  have hp := dot_self_pos3 v hv
  obtain ⟨h1, h2⟩ := h v
  rw [he, Matrix.dotProduct_smul, smul_eq_mul] at h1 h2
  exact ⟨le_of_mul_le_mul_right h1 hp, le_of_mul_le_mul_right h2 hp⟩

theorem iso_quad (a : K) (v : Fin 3 → K) :
    Matrix.dotProduct v ((Met6.iso a).toMatrix.mulVec v) = a * Matrix.dotProduct v v := by
  simp only [Met6.toMatrix, Met6.iso, Matrix.mulVec, Matrix.dotProduct, Fin.sum_univ_three,
    Matrix.of_apply, Matrix.cons_val_zero, Matrix.cons_val_one, Matrix.head_cons,
    Matrix.cons_val_two, Matrix.tail_cons]
  ring

theorem iso_spectrum (a lo hi : K) (h1 : lo ≤ a) (h2 : a ≤ hi) :
    SpectrumIn (Met6.iso a).toMatrix lo hi := by
  apply spectrumIn_of_quad
  intro v
  rw [iso_quad]
  exact ⟨mul_le_mul_of_nonneg_right h1 (dot_self_nonneg3 v),
    mul_le_mul_of_nonneg_right h2 (dot_self_nonneg3 v)⟩

theorem iso_psd (a : K) (h : 0 ≤ a) : IsPSD (Met6.iso a).toMatrix := by
  intro v
  rw [iso_quad]
  exact mul_nonneg h (dot_self_nonneg3 v)

theorem gram_entries (r : Mat3 K) :
    r.toMatrix.transpose * r.toMatrix =
      !![r.r00 * r.r00 + r.r10 * r.r10 + r.r20 * r.r20,
         r.r00 * r.r01 + r.r10 * r.r11 + r.r20 * r.r21,
         r.r00 * r.r02 + r.r10 * r.r12 + r.r20 * r.r22;
         r.r00 * r.r01 + r.r10 * r.r11 + r.r20 * r.r21,
         r.r01 * r.r01 + r.r11 * r.r11 + r.r21 * r.r21,
         r.r01 * r.r02 + r.r11 * r.r12 + r.r21 * r.r22;
         r.r00 * r.r02 + r.r10 * r.r12 + r.r20 * r.r22,
         r.r01 * r.r02 + r.r11 * r.r12 + r.r21 * r.r22,
         r.r02 * r.r02 + r.r12 * r.r12 + r.r22 * r.r22] := by
  ext i j
  fin_cases i <;> fin_cases j <;>
    simp only [Mat3.toMatrix, Matrix.mul_apply, Fin.sum_univ_three, Matrix.transpose_apply,
      Matrix.of_apply, Matrix.cons_val_zero, Matrix.cons_val_one, Matrix.head_cons,
      Matrix.cons_val_two, Matrix.tail_cons, Fin.zero_eta, Fin.mk_one, Fin.reduceFinMk,
      Matrix.cons_val', Matrix.empty_val', Matrix.cons_val_fin_one, Fin.isValue] <;>
    first
      | rfl
      | (simp only [Matrix.vecHead]; ring1)

/-- Lines 1160-1165 write `isqhmax * (r^T r)`. -/
theorem defsiz_frame_toMatrix (q : K) (r : Mat3 K) :
    (defsiz_frame q r).toMatrix = q • (r.toMatrix.transpose * r.toMatrix) := by
  rw [gram_entries]
  simp [Met6.toMatrix, defsiz_frame, Matrix.smul_of, Matrix.smul_cons, Matrix.smul_empty]

theorem defsiz_frame_orth (q : K) (r : Mat3 K) (h : r.IsOrthogonal) :
    defsiz_frame q r = Met6.iso q := by
  unfold Mat3.IsOrthogonal at h
  rw [gram_entries] at h
  have e00 := congrFun (congrFun h 0) 0
  have e01 := congrFun (congrFun h 0) 1
  have e02 := congrFun (congrFun h 0) 2
  have e11 := congrFun (congrFun h 1) 1
  have e12 := congrFun (congrFun h 1) 2
  have e22 := congrFun (congrFun h 2) 2
  simp at e00 e01 e02 e11 e12 e22
  unfold defsiz_frame Met6.iso
  rw [e00, e01, e02, e11, e12, e22]
  simp

theorem defsiz_frame_psd (q : K) (r : Mat3 K) (h : 0 ≤ q) : IsPSD (defsiz_frame q r).toMatrix := by
  intro v
  have : Matrix.dotProduct v ((defsiz_frame q r).toMatrix.mulVec v) =
      q * ((r.r00 * v 0 + r.r01 * v 1 + r.r02 * v 2) ^ 2 +
        (r.r10 * v 0 + r.r11 * v 1 + r.r12 * v 2) ^ 2 +
        (r.r20 * v 0 + r.r21 * v 1 + r.r22 * v 2) ^ 2) := by
    simp only [Met6.toMatrix, defsiz_frame, Matrix.mulVec, Matrix.dotProduct, Fin.sum_univ_three,
      Matrix.of_apply, Matrix.cons_val_zero, Matrix.cons_val_one, Matrix.head_cons,
      Matrix.cons_val_two, Matrix.tail_cons]
    ring
  rw [this]
  exact mul_nonneg h (by positivity)

/-! ### `defsiz_ani`: the first pass returns -/

/-- The vertex loop body returns when the queries it makes succeed. -/
theorem defsiz_vertex_ok (env : Env K) (defmetref defmetreg : Estimator K) (n0 : Vec3 K)
    (ismet : Bool) (k i : Nat) (mesh0 : Mesh K) (s : SizState K) (hq : QueriesOk env mesh0)
    (hg : SameGeom mesh0 s.mesh) (hk : MG_EOK (s.mesh.tria k) = true) :
    ∃ s1, defsiz_vertex env defmetref defmetreg n0 ismet k i s = .ok s1 ∧
      SameGeom mesh0 s1.mesh := by
  unfold defsiz_vertex
  simp only
  by_cases hskip : (decide ((s.mesh.point ((s.mesh.tria k).v i)).flag ≠ 0) ||
      !MG_VOK env (s.mesh.point ((s.mesh.tria k).v i))) = true
  · rw [if_pos hskip]
    exact ⟨s, rfl, hg⟩
  · rw [if_neg hskip]
    generalize hs' : (if ismet = true then
      ({ mesh := s.mesh, m := s.m, mm := s.m ((s.mesh.tria k).v i) } : SizState K) else s) = s'
    have hsm : s'.mesh = s.mesh := by
      rw [← hs']; split_ifs <;> rfl
    obtain ⟨hq1, hq2⟩ := hq s.mesh hg k i hk
    by_cases hsin : env.MS_SIN (s.mesh.point ((s.mesh.tria k).v i)).tag = true
    · rw [if_pos hsin, hsm, defmetsin_ok env s.mesh s'.m k i (hq1 hsin)]
      obtain ⟨s1, h1, h2⟩ := afterTest_ok s' ((s.mesh.tria k).v i) ((1 : Int) == 0)
        (Function.update s'.m ((s.mesh.tria k).v i) (Met6.iso (clampSize s.mesh.info
          (maxCurvature env (s.mesh.point ((s.mesh.tria k).v i)).c
            ((List.range (env.boulet s.mesh k i).1.toNat).map
              (defmetsin_cp env s.mesh ((s.mesh.tria k).v i) (env.boulet s.mesh k i).2))))))
      rw [hsm] at h2
      exact ⟨s1, h1, hg.trans h2⟩
    · rw [if_neg hsin]
      by_cases hgeo : hasBit (s.mesh.point ((s.mesh.tria k).v i)).tag env.MG_GEO = true
      · rw [if_pos hgeo, hsm]
        rw [defmetrid_ok env n0 s.mesh s'.m k i (s.mesh.tria k) (s.mesh.tria k)
          (hq2 (by simpa using hsin) hgeo)]
        obtain ⟨s1, h1, h2⟩ := afterTest_ok s' ((s.mesh.tria k).v i) ((1 : Int) == 0)
          (Function.update s'.m ((s.mesh.tria k).v i) (ridgeEntry s.mesh.info
            (arcContribution env n0 s.mesh ((s.mesh.tria k).v i) (env.bouletrid s.mesh k i).ip0)
            (arcContribution env n0 s.mesh ((s.mesh.tria k).v i) (env.bouletrid s.mesh k i).ip1)
            (sheetContribution env s.mesh ((s.mesh.tria k).v i)
              (s.mesh.xpoint (s.mesh.point ((s.mesh.tria k).v i)).ig).n1
              (env.bouletrid s.mesh k i).ilist1 (env.bouletrid s.mesh k i).list1 (s.mesh.tria k))
            (sheetContribution env s.mesh ((s.mesh.tria k).v i)
              (s.mesh.xpoint (s.mesh.point ((s.mesh.tria k).v i)).ig).n2
              (env.bouletrid s.mesh k i).ilist2 (env.bouletrid s.mesh k i).list2
              (s.mesh.tria k))))
        rw [hsm] at h2
        exact ⟨s1, h1, hg.trans h2⟩
      · rw [if_neg hgeo]
        split_ifs
        · obtain ⟨s1, h1, h2⟩ := afterTest_ok s' ((s.mesh.tria k).v i) true s'.m
          rw [hsm] at h2
          exact ⟨s1, h1, hg.trans h2⟩
        · exact ⟨s', rfl, by rw [hsm]; exact hg⟩
        · obtain ⟨s1, h1, h2⟩ := afterTest_ok s' ((s.mesh.tria k).v i) true s'.m
          rw [hsm] at h2
          exact ⟨s1, h1, hg.trans h2⟩

/-- The triangle loop body returns when the queries it makes succeed. -/
theorem defsiz_tria_ok (env : Env K) (defmetref defmetreg : Estimator K) (n0 : Vec3 K)
    (ismet : Bool) (k : Nat) (mesh0 : Mesh K) (s : SizState K) (hq : QueriesOk env mesh0)
    (hg : SameGeom mesh0 s.mesh) :
    ∃ s1, defsiz_tria env defmetref defmetreg n0 ismet s k = .ok s1 ∧
      SameGeom mesh0 s1.mesh := by
  unfold defsiz_tria
  simp only
  by_cases hskip : (!MG_EOK (s.mesh.tria k) || decide ((s.mesh.tria k).ref < 0)) = true
  · rw [if_pos hskip]
    exact ⟨s, rfl, hg⟩
  · rw [if_neg hskip]
    have hk : MG_EOK (s.mesh.tria k) = true := by
      cases h : MG_EOK (s.mesh.tria k)
      · rw [h] at hskip; simp at hskip
      · rfl
    obtain ⟨sa, ha, hga⟩ := defsiz_vertex_ok env defmetref defmetreg n0 ismet k 0 mesh0 s hq hg hk
    have hka : MG_EOK (sa.mesh.tria k) = true := by
      rw [← hga.2.2.2.2.1, hg.2.2.2.2.1]; exact hk
    obtain ⟨sb, hb, hgb⟩ := defsiz_vertex_ok env defmetref defmetreg n0 ismet k 1 mesh0 sa hq hga hka
    have hkb : MG_EOK (sb.mesh.tria k) = true := by
      rw [← hgb.2.2.2.2.1, hg.2.2.2.2.1]; exact hk
    obtain ⟨sc, hc, hgc⟩ := defsiz_vertex_ok env defmetref defmetreg n0 ismet k 2 mesh0 sb hq hgb hkb
    refine ⟨sc, ?_, hgc⟩
    simp only [List.foldlM, bind, Except.bind, ha, hb, hc, pure, Except.pure]

/-- A loop `foldlM` returns when each iteration returns on the states of an
invariant that the iterations preserve. -/
theorem foldlM_ok {σ α : Type} (f : σ → α → Except Fatal σ) (P : σ → Prop)
    (hf : ∀ s a, P s → ∃ s1, f s a = .ok s1 ∧ P s1) (l : List α) (s : σ) (hs : P s) :
    ∃ s1, l.foldlM f s = .ok s1 ∧ P s1 := by
  induction l generalizing s with
  | nil => exact ⟨s, rfl, hs⟩
  | cons a l ih =>
    obtain ⟨sa, ha, hpa⟩ := hf s a hs
    obtain ⟨s1, h1, hp1⟩ := ih sa hpa
    refine ⟨s1, ?_, hp1⟩
    simp only [List.foldlM, bind, Except.bind, ha]
    exact h1

/-- The first pass returns when the queries it makes succeed. -/
theorem defsiz_pass1_ok (env : Env K) (defmetref defmetreg : Estimator K) (n0 : Vec3 K)
    (ismet : Bool) (mesh0 : Mesh K) (s : SizState K) (hq : QueriesOk env mesh0)
    (hg : SameGeom mesh0 s.mesh) :
    ∃ s1, defsiz_pass1 env defmetref defmetreg n0 ismet s = .ok s1 :=
  (foldlM_ok (defsiz_tria env defmetref defmetreg n0 ismet) (fun t => SameGeom mesh0 t.mesh)
    (fun t k ht => defsiz_tria_ok env defmetref defmetreg n0 ismet k mesh0 t hq ht)
    _ s hg).imp fun _ h => h.1

/-! ### Entries of the builder without a supplied metric -/

/-- A run of the builder without a supplied metric that returns 1 went through
both passes. -/
theorem defsiz_ani_nomet_inv (env : Env K) (defmetref defmetreg : Estimator K) (mm0 : Met6 K)
    (n0 : Vec3 K) (mesh : Mesh K) (met : Sol K) (mesh2 : Mesh K) (met2 : Sol K)
    (hm : met.m = none)
    (h : defsiz_ani env defmetref defmetreg mm0 n0 mesh met = .ok (1, mesh2, met2)) :
    ∃ s1, defsiz_pass1 env defmetref defmetreg n0 false (pass1Entry mesh mm0) = .ok s1 ∧
      mesh2 = (defsiz_pass2 env false s1).mesh ∧
      met2 = { np := mesh.np, npmax := mesh.npmax, m := some (defsiz_pass2 env false s1).m } := by
  rw [defsiz_ani_nomet env defmetref defmetreg mm0 n0 mesh met hm] at h
  split_ifs at h with h1 h2
  · injection h with h
    injection h with h
    exact absurd h (by decide)
  · cases hp : defsiz_pass1 env defmetref defmetreg n0 false (pass1Entry mesh mm0) with
    | error e => rw [hp] at h; exact absurd h (by simp)
    | ok s1 =>
      rw [hp] at h
      simp only at h
      injection h with h
      injection h with _ h
      injection h with h3 h4
      exact ⟨s1, rfl, h3.symm, h4.symm⟩

/-- The entries after a run of the builder without a supplied metric. -/
theorem defsiz_ani_nomet_entries (env : Env K) (defmetref defmetreg : Estimator K)
    (mm0 : Met6 K) (n0 : Vec3 K) (mesh : Mesh K) (met : Sol K) (mesh2 : Mesh K) (met2 : Sol K)
    (hm : met.m = none)
    (h : defsiz_ani env defmetref defmetreg mm0 n0 mesh met = .ok (1, mesh2, met2)) :
    ∃ m2, met2.m = some m2 ∧ ∀ k, 1 ≤ k → k ≤ mesh.np → MG_VOK env (mesh.point k) = true →
      (mesh2.point k).flag = 1 ∧
      (Estimated env (defsiz_hmax mesh).info (mesh.point k).tag (m2 k) ∨
        m2 k = defsiz_default env mesh (isq (defsiz_hmax mesh).info.hmax) (mesh.point k)) := by
  obtain ⟨s1, h1, hmesh, hmet⟩ :=
    defsiz_ani_nomet_inv env defmetref defmetreg mm0 n0 mesh met mesh2 met2 hm h
  refine ⟨(defsiz_pass2 env false s1).m, by rw [hmet], fun k hk1 hk2 hv => ?_⟩
  obtain ⟨e1, e2⟩ := defsiz_entries env defmetref defmetreg n0 mesh mm0 s1 h1 k hk1 hk2 hv
  rw [hmesh]
  exact ⟨e1, e2.imp id (fun h => h.2)⟩

theorem isq_le_of_bounds (info : Info K) (h1 : 0 < info.hmin) (h2 : info.hmin ≤ info.hmax) :
    isq info.hmax ≤ isq info.hmin := isq_anti h1 h2

theorem RidgeForm_inBounds (info : Info K) (v : Met6 K) (hf : RidgeForm info v)
    (h : isq info.hmax ≤ isq info.hmin) :
    InBounds info v.m0 ∧ InBounds info v.m1 ∧ InBounds info v.m2 := by
  obtain ⟨_, _, _, ⟨k0, _, e0⟩, ⟨k1, _, e1⟩, ⟨k2, _, e2⟩⟩ := hf
  rw [e0, e1, e2]
  exact ⟨seedMax_inBounds info k0 h, seedMax_inBounds info k1 h, seedMax_inBounds info k2 h⟩

/-- The default entry of a vertex that is not a ridge vertex is `isqhmax`
times the identity when the rotation matrix is orthogonal. -/
theorem defsiz_default_nonridge (env : Env K) (mesh : Mesh K) (q : K) (p : Point K)
    (hR : ∀ n, (env.rotmatrix n).IsOrthogonal) (hr : ¬ IsRidgeTag env p.tag) :
    defsiz_default env mesh q p = Met6.iso q := by
  unfold defsiz_default
  by_cases hs : env.MS_SIN p.tag = true
  · rw [if_pos hs]; rfl
  · rw [if_neg hs]
    have hg : ¬ hasBit p.tag env.MG_GEO = true := fun hg => hr ⟨by simpa using hs, hg⟩
    rw [if_neg hg]
    exact defsiz_frame_orth q _ (hR _)

theorem defsiz_default_ridge (env : Env K) (mesh : Mesh K) (q : K) (p : Point K)
    (hr : IsRidgeTag env p.tag) :
    defsiz_default env mesh q p = ⟨q, q, q, 0, 0, 0⟩ := by
  unfold defsiz_default
  have hs : ¬ env.MS_SIN p.tag = true := by rw [hr.1]; decide
  rw [if_neg hs, if_pos hr.2]

/-! ### Flags after the second pass, plain vertices -/

theorem defsiz_pass2_flag (env : Env K) (ismet : Bool) (s1 : SizState K) (k : Nat)
    (h1 : 1 ≤ k) (h2 : k ≤ s1.mesh.np) (hv : MG_VOK env (s1.mesh.point k) = true) :
    ((defsiz_pass2 env ismet s1).mesh.point k).flag = 1 := by
  have hmem : k ∈ List.range' 1 s1.mesh.np := by
    rw [List.mem_range'_1]; omega
  obtain ⟨_, _, hk⟩ := defsiz_fill_fold env ismet
    (1 / (s1.mesh.info.hmax * s1.mesh.info.hmax)) (List.range' 1 s1.mesh.np) s1
  unfold defsiz_pass2
  simp only
  by_cases hf : (s1.mesh.point k).flag = 1
  · exact ((hk k).2 (fun hc => hc.2.2 hf)).2.trans hf
  · exact ((hk k).1 ⟨hmem, hv, hf⟩).2

/-- A vertex that is neither singular nor a ridge vertex is never given an
estimated entry. -/
theorem not_Estimated_plain (env : Env K) (info : Info K) (tag : Nat) (v : Met6 K)
    (hs : env.MS_SIN tag = false) (hg : hasBit tag env.MG_GEO = false) :
    ¬ Estimated env info tag v := by
  rintro (⟨h, _⟩ | ⟨_, h, _⟩)
  · rw [hs] at h; exact absurd h (by decide)
  · rw [hg] at h; exact absurd h (by decide)

theorem defsiz_default_plain (env : Env K) (mesh : Mesh K) (q : K) (p : Point K)
    (hs : env.MS_SIN p.tag = false) (hg : hasBit p.tag env.MG_GEO = false) :
    defsiz_default env mesh q p = defsiz_frame q (env.rotmatrix
      (if hasBit p.tag env.MG_REF = true then (mesh.xpoint p.ig).n1 else p.n)) := by
  unfold defsiz_default
  simp [hs, hg]

theorem hasBit_zero (bit : Nat) : hasBit 0 bit = false := by
  simp [hasBit]

theorem defsiz_vertex_indep (env : Env K) (f g f1 g1 : Estimator K) (n0 : Vec3 K)
    (ismet : Bool) (k i : Nat) (s : SizState K) :
    defsiz_vertex env f g n0 ismet k i s = defsiz_vertex env f1 g1 n0 ismet k i s := by
  unfold defsiz_vertex
  simp only [orNot_true]

theorem defsiz_tria_indep (env : Env K) (f g f1 g1 : Estimator K) (n0 : Vec3 K)
    (ismet : Bool) (s : SizState K) (k : Nat) :
    defsiz_tria env f g n0 ismet s k = defsiz_tria env f1 g1 n0 ismet s k := by
  unfold defsiz_tria
  simp only [defsiz_vertex_indep env f g f1 g1]

theorem defsiz_pass1_indep (env : Env K) (f g f1 g1 : Estimator K) (n0 : Vec3 K)
    (ismet : Bool) (s : SizState K) :
    defsiz_pass1 env f g n0 ismet s = defsiz_pass1 env f1 g1 n0 ismet s := by
  unfold defsiz_pass1
  have : defsiz_tria env f g n0 ismet = defsiz_tria env f1 g1 n0 ismet := by
    funext t k
    exact defsiz_tria_indep env f g f1 g1 n0 ismet t k
  rw [this]

theorem defsiz_ani_indep (env : Env K) (f g f1 g1 : Estimator K) (mm0 : Met6 K)
    (n0 : Vec3 K) (mesh : Mesh K) (met : Sol K) :
    defsiz_ani env f g mm0 n0 mesh met = defsiz_ani env f1 g1 mm0 n0 mesh met := by
  unfold defsiz_ani
  simp only [defsiz_pass1_indep env f g f1 g1]

theorem iso_toMatrix (q : K) : (Met6.iso q).toMatrix = q • (1 : Matrix (Fin 3) (Fin 3) K) := by
  have h := defsiz_frame_toMatrix q (⟨1, 0, 0, 0, 1, 0, 0, 0, 1⟩ : Mat3 K)
  have ho : (⟨1, 0, 0, 0, 1, 0, 0, 0, 1⟩ : Mat3 K).IsOrthogonal := by
    unfold Mat3.IsOrthogonal
    rw [gram_entries]
    simp [Matrix.one_fin_three]
  rw [defsiz_frame_orth q _ ho, ho] at h
  exact h

theorem maxCurvature_degenerate (env : Env K) (p0 : Vec3 K) (cps : List (Vec3 K × Vec3 K))
    (h : ∀ e ∈ cps, (edgeTangent p0 e.1).normSq < env.EPSD) : maxCurvature env p0 cps = 0 := by
  induction cps with
  | nil => rfl
  | cons e cps ih =>
    rw [maxCurvature_cons, if_pos (h e (List.mem_cons_self _ _))]
    exact ih (fun e1 he1 => h e1 (List.mem_cons_of_mem _ he1))

theorem clampSize_zero (info : Info K) : clampSize info 0 = isq info.hmax := by
  unfold clampSize
  rw [zero_div]
  exact max_eq_left ((min_le_right _ _).trans (isq_nonneg _))

theorem clampSize_top (info : Info K) (x : K) (h1 : isq info.hmax ≤ isq info.hmin)
    (h2 : isq info.hmin < x / (8 * info.hausd)) : clampSize info x = isq info.hmin := by
  unfold clampSize
  rw [min_eq_left h2.le, max_eq_right h1]

/-! ### Concrete inputs -/

theorem ok_of_codeOf {K : Type} (r : Except Fatal (Int × Mesh K × Sol K))
    (h : codeOf r = some 1) : ∃ mesh2 met2, r = .ok (1, mesh2, met2) := by
  cases r with
  | error e => exact absurd h (by simp [codeOf])
  | ok a =>
    obtain ⟨c, mesh2, met2⟩ := a
    simp only [codeOf, Option.some.injEq] at h
    subst h
    exact ⟨mesh2, met2, rfl⟩

theorem idMat3_orth : idMat3.IsOrthogonal := by
  unfold Mat3.IsOrthogonal
  rw [gram_entries]
  simp [idMat3, Matrix.one_fin_three]

theorem flatEnv_queries (mesh0 : Mesh ℚ) : QueriesOk flatEnv mesh0 := by
  intro me _ it ip hk
  constructor
  · intro _
    simp [flatEnv, hk]
  · intro _ _
    simp [flatEnv, hk]

theorem curvedEnv_queries (mesh0 : Mesh ℚ) : QueriesOk curvedEnv mesh0 :=
  flatEnv_queries mesh0

end Lemmas

/-! ## Lemmas on the estimators of regular and reference vertices and on the
gradation -/

section Lemmas2

variable {K : Type} [LinearOrderedField K]

/-! ### The pre-pass of the gradation -/

theorem gradsiz_iso_eq (env : Env K) (mesh : Mesh K) (m : Nat → Met6 K) (k : Nat) :
    gradsiz_iso env mesh m k =
      Function.update m k (if MG_VOK env (mesh.point k) = true ∧
        env.MS_SIN (mesh.point k).tag = false ∧ hasBit (mesh.point k).tag env.MG_GEO = true
        then ridgeIso (m k) else m k) := by
  unfold gradsiz_iso ridgeIso
  simp only [MG_MAX_eq_max]
  by_cases h1 : MG_VOK env (mesh.point k) = true
  · by_cases h2 : env.MS_SIN (mesh.point k).tag = true
    · simp [h1, h2]
    · by_cases h3 : hasBit (mesh.point k).tag env.MG_GEO = true
      · simp [h1, h2, h3]
      · simp [h1, h2, h3]
  · simp [h1]

theorem gradsiz_iso_fold (env : Env K) (mesh : Mesh K) (l : List Nat) (hl : l.Nodup)
    (m : Nat → Met6 K) (j : Nat) :
    (l.foldl (gradsiz_iso env mesh) m) j =
      if j ∈ l ∧ MG_VOK env (mesh.point j) = true ∧
        env.MS_SIN (mesh.point j).tag = false ∧ hasBit (mesh.point j).tag env.MG_GEO = true
      then ridgeIso (m j) else m j := by
  induction l generalizing m with
  | nil => simp
  | cons a l ih =>
    rw [List.foldl_cons, ih (List.nodup_cons.mp hl).2, gradsiz_iso_eq]
    have ha : a ∉ l := (List.nodup_cons.mp hl).1
    by_cases hja : j = a
    · subst hja
      simp [ha]
    · have : j ∈ a :: l ↔ j ∈ l := by simp [hja]
      rw [Function.update_noteq hja]
      simp only [this]

theorem gradsiz_prepass_eq (env : Env K) (mesh : Mesh K) (m : Nat → Met6 K) (k : Nat) :
    gradsiz_prepass env mesh m k = if GradRidge env mesh k then ridgeIso (m k) else m k := by
  unfold gradsiz_prepass
  rw [gradsiz_iso_fold env mesh _ (List.nodup_range' 1 mesh.np)]
  have : k ∈ List.range' 1 mesh.np ↔ (1 ≤ k ∧ k ≤ mesh.np) := by
    rw [List.mem_range'_1]; omega
  simp only [this, GradRidge, and_assoc]

theorem ridgeIso_idem (v : Met6 K) : ridgeIso (ridgeIso v) = ridgeIso v := by
  unfold ridgeIso
  simp

omit [LinearOrderedField K] in
theorem GradRidge_congr (env : Env K) (a b : Mesh K) (h : SameGeom a b) (k : Nat) :
    GradRidge env a k ↔ GradRidge env b k := by
  unfold GradRidge MG_VOK
  rw [h.1, (h.2.2.2.2.2.2 k).2.2.1]


/-! ### The loop of the sweeps -/

theorem gradsiz_edge_frame (env : Env K) (prim : Prim K) (k : Nat) (s : GradState K) (i : Nat) :
    (gradsiz_edge env prim k s i).it = s.it ∧ (gradsiz_edge env prim k s i).base = s.base ∧
    (gradsiz_edge env prim k s i).nup = s.nup ∧ s.nu ≤ (gradsiz_edge env prim k s i).nu := by
  unfold gradsiz_edge
  simp only
  split_ifs <;> simp

theorem gradsiz_edges_frame (env : Env K) (prim : Prim K) (k : Nat) (l : List Nat)
    (s : GradState K) :
    (l.foldl (gradsiz_edge env prim k) s).it = s.it ∧
    (l.foldl (gradsiz_edge env prim k) s).base = s.base ∧
    (l.foldl (gradsiz_edge env prim k) s).nup = s.nup ∧
    s.nu ≤ (l.foldl (gradsiz_edge env prim k) s).nu := by
  induction l generalizing s with
  | nil => simp
  | cons a l ih =>
    rw [List.foldl_cons]
    obtain ⟨h1, h2, h3, h4⟩ := ih (gradsiz_edge env prim k s a)
    obtain ⟨g1, g2, g3, g4⟩ := gradsiz_edge_frame env prim k s a
    exact ⟨h1.trans g1, h2.trans g2, h3.trans g3, g4.trans h4⟩

theorem gradsiz_tria_frame (env : Env K) (prim : Prim K) (s : GradState K) (k : Nat) :
    (gradsiz_tria env prim s k).it = s.it ∧ (gradsiz_tria env prim s k).base = s.base ∧
    (gradsiz_tria env prim s k).nup = s.nup ∧ s.nu ≤ (gradsiz_tria env prim s k).nu := by
  unfold gradsiz_tria
  split_ifs
  · exact ⟨rfl, rfl, rfl, le_refl _⟩
  · exact gradsiz_edges_frame env prim k _ s

theorem gradsiz_trias_frame (env : Env K) (prim : Prim K) (l : List Nat) (s : GradState K) :
    (l.foldl (gradsiz_tria env prim) s).it = s.it ∧
    (l.foldl (gradsiz_tria env prim) s).base = s.base ∧
    (l.foldl (gradsiz_tria env prim) s).nup = s.nup ∧
    s.nu ≤ (l.foldl (gradsiz_tria env prim) s).nu := by
  induction l generalizing s with
  | nil => simp
  | cons a l ih =>
    rw [List.foldl_cons]
    obtain ⟨h1, h2, h3, h4⟩ := ih (gradsiz_tria env prim s a)
    obtain ⟨g1, g2, g3, g4⟩ := gradsiz_tria_frame env prim s a
    exact ⟨h1.trans g1, h2.trans g2, h3.trans g3, g4.trans h4⟩

/-- A sweep increments `it` and `mesh->base`, and its count `nu` is not negative. -/
theorem gradsiz_sweep_frame (env : Env K) (prim : Prim K) (s : GradState K) :
    (gradsiz_sweep env prim s).it = s.it + 1 ∧ (gradsiz_sweep env prim s).base = s.base + 1 ∧
    0 ≤ (gradsiz_sweep env prim s).nu := by
  unfold gradsiz_sweep
  obtain ⟨h1, h2, _, h4⟩ := gradsiz_trias_frame env prim (List.range' 1 s.mesh.nt)
    { s with base := s.base + 1, nu := 0 }
  exact ⟨by simp only [h1], by simp only [h2], h4⟩

theorem gradsiz_iterate_it (env : Env K) (prim : Prim K) (n : Nat) (s : GradState K) :
    ((gradsiz_sweep env prim)^[n] s).it = s.it + n := by
  induction n generalizing s with
  | zero => simp
  | succ n ih =>
    rw [Function.iterate_succ_apply, ih, (gradsiz_sweep_frame env prim s).1]
    push_cast
    ring

/-- The loop runs `n` sweeps, `1 <= n <= fuel`: the first `n - 1` update a vertex,
and the last one updates none or brings `it` to `maxit`. -/
theorem gradsiz_loop_spec (env : Env K) (prim : Prim K) (maxit : Int) (fuel : Nat)
    (s : GradState K) (hf : 1 ≤ fuel) (hit : s.it + fuel = maxit) :
    ∃ n : Nat, 1 ≤ n ∧ n ≤ fuel ∧
      gradsiz_loop env prim maxit fuel s = (gradsiz_sweep env prim)^[n] s ∧
      (∀ j, 1 ≤ j → j < n → 0 < ((gradsiz_sweep env prim)^[j] s).nu) ∧
      (((gradsiz_sweep env prim)^[n] s).nu = 0 ∨ ((gradsiz_sweep env prim)^[n] s).it = maxit) := by
  induction fuel generalizing s with
  | zero => omega
  | succ f ih =>
    obtain ⟨h1, _, h3⟩ := gradsiz_sweep_frame env prim s
    rw [gradsiz_loop]
    by_cases hc : (gradsiz_sweep env prim s).it < maxit ∧ (gradsiz_sweep env prim s).nu > 0
    · rw [if_pos hc]
      have hf1 : 1 ≤ f := by
        have := hc.1
        rw [h1] at this
        push_cast at hit
        omega
      obtain ⟨n, hn1, hn2, e, hj, hlast⟩ := ih (gradsiz_sweep env prim s) hf1
        (by rw [h1]; push_cast at hit; omega)
      refine ⟨n + 1, by omega, by omega, ?_, ?_, ?_⟩
      · rw [Function.iterate_succ_apply, e]
      · intro j hj1 hj2
        by_cases hj0 : j = 1
        · subst hj0
          exact hc.2
        · obtain ⟨j, rfl⟩ : ∃ i, j = i + 1 := ⟨j - 1, by omega⟩
          rw [Function.iterate_succ_apply]
          exact hj j (by omega) (by omega)
      · rw [Function.iterate_succ_apply]
        exact hlast
    · rw [if_neg hc]
      refine ⟨1, le_refl _, hf, rfl, fun j hj1 hj2 => by omega, ?_⟩
      rw [Function.iterate_one]
      by_cases hnu : (gradsiz_sweep env prim s).nu > 0
      · right
        have : ¬ (gradsiz_sweep env prim s).it < maxit := fun h => hc ⟨h, hnu⟩
        rw [h1] at this ⊢
        push_cast at hit
        omega
      · left
        omega

/-! ### `grad2met` -/

theorem grad2met_end_none (env : Env K) (prim : Prim K) (r : Mat3 K) (m1 : Met6 K) (c : Vec3 K)
    (h : c.x * c.x + c.y * c.y < prim.EPSD2) : grad2met_end env prim r m1 c = none := by
  unfold grad2met_end
  simp only [h, if_true]

theorem grad2met_end_some (env : Env K) (prim : Prim K) (r : Mat3 K) (m1 : Met6 K) (c : Vec3 K)
    (e : GradEnd K) (h : grad2met_end env prim r m1 c = some e) :
    ¬ c.x * c.x + c.y * c.y < prim.EPSD2 ∧
    e.mtan = ⟨(prim.rmtr r m1).m0, (prim.rmtr r m1).m1, (prim.rmtr r m1).m3⟩ ∧
    e.t0 = c.x * (1 / env.sqrt (c.x * c.x + c.y * c.y)) ∧
    e.t1 = c.y * (1 / env.sqrt (c.x * c.x + c.y * c.y)) ∧
    e.ps = env.sqrt (e.mtan.x * e.t0 * e.t0 + 2 * e.mtan.y * e.t0 * e.t1 +
      e.mtan.z * e.t1 * e.t1) := by
  unfold grad2met_end at h
  simp only at h
  split_ifs at h with hd
  injection h with h
  subst h
  exact ⟨hd, rfl, rfl, rfl, rfl⟩

/-- When `grad2met` reaches the comparison of the two speeds: the normal of the
triangle was computed, both endpoints were recovered and both projections have a
squared norm of at least `EPSD2`. -/
theorem grad2met_ends_some (env : Env K) (prim : Prim K) (mesh : Mesh K) (m : Nat → Met6 K)
    (iel i : Nat) (g : GradEdge K) (h : grad2met_ends env prim mesh m iel i = some g) :
    prim.nortriOk mesh (mesh.tria iel) = true ∧
    ∃ n1 m1 n2 m2,
      grad2met_side env prim mesh m (env.nortri mesh (mesh.tria iel))
        ((mesh.tria iel).v (env.inxt2 i))
        ((mesh.point ((mesh.tria iel).v (env.iprv2 i))).c.x -
          (mesh.point ((mesh.tria iel).v (env.inxt2 i))).c.x)
        ((mesh.point ((mesh.tria iel).v (env.iprv2 i))).c.y -
          (mesh.point ((mesh.tria iel).v (env.inxt2 i))).c.y)
        ((mesh.point ((mesh.tria iel).v (env.iprv2 i))).c.z -
          (mesh.point ((mesh.tria iel).v (env.inxt2 i))).c.z) = some (n1, m1) ∧
      grad2met_side env prim mesh m (env.nortri mesh (mesh.tria iel))
        ((mesh.tria iel).v (env.iprv2 i))
        ((mesh.point ((mesh.tria iel).v (env.iprv2 i))).c.x -
          (mesh.point ((mesh.tria iel).v (env.inxt2 i))).c.x)
        ((mesh.point ((mesh.tria iel).v (env.iprv2 i))).c.y -
          (mesh.point ((mesh.tria iel).v (env.inxt2 i))).c.y)
        ((mesh.point ((mesh.tria iel).v (env.iprv2 i))).c.z -
          (mesh.point ((mesh.tria iel).v (env.inxt2 i))).c.z) = some (n2, m2) ∧
      g.r1 = env.rotmatrix n1 ∧ g.r2 = env.rotmatrix n2 ∧
      (∃ c1, grad2met_end env prim g.r1 m1 c1 = some g.e1) ∧
      (∃ c2, grad2met_end env prim g.r2 m2 c2 = some g.e2) := by
  unfold grad2met_ends at h
  simp only at h
  split_ifs at h with h0
  split at h
  · exact absurd h (by simp)
  · rename_i n1 m1 hs1
    split at h
    · exact absurd h (by simp)
    · rename_i n2 m2 hs2
      split at h
      · exact absurd h (by simp)
      · rename_i e1 he1
        split at h
        · exact absurd h (by simp)
        · rename_i e2 he2
          injection h with h
          subst h
          exact ⟨by simpa using h0, n1, m1, n2, m2, hs1, hs2, rfl, rfl, ⟨_, he1⟩, ⟨_, he2⟩⟩

theorem grad2met_of_none (env : Env K) (prim : Prim K) (mesh : Mesh K) (m : Nat → Met6 K)
    (iel i : Nat) (h : grad2met_ends env prim mesh m iel i = none) :
    grad2met env prim mesh m iel i = (-1, m) := by
  unfold grad2met
  simp only [h]

/-- The four outcomes of `grad2met` once the two speeds are computed. -/
theorem grad2met_of_some (env : Env K) (prim : Prim K) (mesh : Mesh K) (m : Nat → Met6 K)
    (iel i : Nat) (g : GradEdge K) (h : grad2met_ends env prim mesh m iel i = some g) :
    grad2met env prim mesh m iel i =
      if g.e2.ps > g.e1.ps then
        if g.e1.ps ≥ grad2met_alpha mesh.info g.l g.e2.ps - prim.EPS then (-1, m)
        else (((env.inxt2 i : Nat) : Int), Function.update m ((mesh.tria iel).v (env.inxt2 i))
          (grad2met_update env prim (mesh.point ((mesh.tria iel).v (env.inxt2 i)))
            (m ((mesh.tria iel).v (env.inxt2 i))) g.r1 g.e1
            (grad2met_alpha mesh.info g.l g.e2.ps)))
      else
        if g.e2.ps ≥ grad2met_alpha mesh.info g.l g.e1.ps - prim.EPS then (-1, m)
        else (((env.iprv2 i : Nat) : Int), Function.update m ((mesh.tria iel).v (env.iprv2 i))
          (grad2met_update env prim (mesh.point ((mesh.tria iel).v (env.iprv2 i)))
            (m ((mesh.tria iel).v (env.iprv2 i))) g.r2 g.e2
            (grad2met_alpha mesh.info g.l g.e1.ps))) := by
  unfold grad2met
  simp only [h]

/-- A return of -1 leaves the metric array as it is. -/
theorem grad2met_minus_one (env : Env K) (prim : Prim K) (mesh : Mesh K) (m : Nat → Met6 K)
    (iel i : Nat) (h : (grad2met env prim mesh m iel i).1 = -1) :
    grad2met env prim mesh m iel i = (-1, m) := by
  cases hg : grad2met_ends env prim mesh m iel i with
  | none => exact grad2met_of_none env prim mesh m iel i hg
  | some g =>
    rw [grad2met_of_some env prim mesh m iel i g hg] at h ⊢
    by_cases h1 : g.e2.ps > g.e1.ps
    · rw [if_pos h1] at h ⊢
      by_cases h2 : g.e1.ps ≥ grad2met_alpha mesh.info g.l g.e2.ps - prim.EPS
      · rw [if_pos h2]
      · rw [if_neg h2] at h
        simp only at h
        omega
    · rw [if_neg h1] at h ⊢
      by_cases h2 : g.e2.ps ≥ grad2met_alpha mesh.info g.l g.e1.ps - prim.EPS
      · rw [if_pos h2]
      · rw [if_neg h2] at h
        simp only at h
        omega

/-- The bound `alpha` is at most the speed it is computed from, when that speed
and `hgrad * l` are not negative. -/
theorem grad2met_alpha_le (info : Info K) (l ps : K) (hps : 0 ≤ ps) (hl : 0 ≤ info.hgrad * l) :
    grad2met_alpha info l ps ≤ ps := by
  unfold grad2met_alpha
  have h1 : 1 ≤ 1 + info.hgrad * l * ps := by
    have := mul_nonneg hl hps
    linarith
  exact div_le_self hps h1

/-- The unit projection computed by `grad2met_end` is not the null vector, when
`EPSD2` is positive and the square root of a positive number is positive. -/
theorem grad2met_end_tnz (env : Env K) (prim : Prim K) (r : Mat3 K) (m1 : Met6 K) (c : Vec3 K)
    (e : GradEnd K) (hD : 0 < prim.EPSD2) (hs : ∀ x, 0 < x → 0 < env.sqrt x)
    (h : grad2met_end env prim r m1 c = some e) : ¬ (e.t0 = 0 ∧ e.t1 = 0) := by
  obtain ⟨hd, _, h0, h1, _⟩ := grad2met_end_some env prim r m1 c e h
  have hpos : 0 < c.x * c.x + c.y * c.y := lt_of_lt_of_le hD (not_lt.mp hd)
  have hsq := hs _ hpos
  have hinv : 1 / env.sqrt (c.x * c.x + c.y * c.y) ≠ 0 := by positivity
  rintro ⟨e0, e1⟩
  rw [h0] at e0
  rw [h1] at e1
  have hx : c.x = 0 := by
    rcases mul_eq_zero.mp e0 with h | h
    · exact h
    · exact absurd h hinv
  have hy : c.y = 0 := by
    rcases mul_eq_zero.mp e1 with h | h
    · exact h
    · exact absurd h hinv
  rw [hx, hy] at hpos
  simp at hpos

theorem grad2met_end_ps_nonneg (env : Env K) (prim : Prim K) (r : Mat3 K) (m1 : Met6 K)
    (c : Vec3 K) (e : GradEnd K) (hs0 : ∀ x, 0 ≤ env.sqrt x)
    (h : grad2met_end env prim r m1 c = some e) : 0 ≤ e.ps := by
  obtain ⟨_, _, _, _, hp⟩ := grad2met_end_some env prim r m1 c e h
  rw [hp]
  exact hs0 _

/-- In a basis, a vector that is not null has a component that is not null. -/
theorem grad2met_comp_ne (vp : Mat2 K) (t0 t1 : K) (hvp : vp.IsBasis)
    (ht : ¬ (t0 = 0 ∧ t1 = 0)) :
    ¬ ((grad2met_comp vp t0 t1).1 = 0 ∧ (grad2met_comp vp t0 t1).2 = 0) := by
  unfold grad2met_comp
  rintro ⟨h0, h1⟩
  simp only at h0 h1
  apply ht
  constructor
  · have : t0 * (vp.v00 * vp.v11 - vp.v01 * vp.v10) = 0 := by
      linear_combination vp.v11 * h0 - vp.v01 * h1
    rcases mul_eq_zero.mp this with h | h
    · exact h
    · exact absurd h hvp
  · have : t1 * (vp.v00 * vp.v11 - vp.v01 * vp.v10) = 0 := by
      linear_combination vp.v00 * h1 - vp.v10 * h0
    rcases mul_eq_zero.mp this with h | h
    · exact h
    · exact absurd h hvp

/-- The component of larger magnitude is not null. -/
theorem gradComp_idx_ne (prim : Prim K) (e : GradEnd K)
    (h : ¬ ((grad2met_comp (prim.eigensym e.mtan).2 e.t0 e.t1).1 = 0 ∧
      (grad2met_comp (prim.eigensym e.mtan).2 e.t0 e.t1).2 = 0)) :
    gradComp prim e (gradIdx prim e) ≠ 0 := by
  unfold gradComp gradIdx grad2met_ichg
  by_cases hc : |(grad2met_comp (prim.eigensym e.mtan).2 e.t0 e.t1).1| >
      |(grad2met_comp (prim.eigensym e.mtan).2 e.t0 e.t1).2|
  · rw [if_pos hc, if_pos rfl]
    intro h0
    rw [h0, abs_zero] at hc
    exact absurd hc (not_lt.mpr (abs_nonneg _))
  · rw [if_neg hc, if_neg (by decide)]
    intro h1
    apply h
    refine ⟨?_, h1⟩
    rw [h1, abs_zero] at hc
    exact abs_eq_zero.mp (le_antisymm (not_lt.mp hc) (abs_nonneg _))

theorem gradBeta_eq (prim : Prim K) (e : GradEnd K) (alpha : K) :
    gradBeta prim e alpha = (alpha * alpha - e.ps * e.ps) /
      (gradComp prim e (gradIdx prim e) * gradComp prim e (gradIdx prim e)) := by
  unfold gradBeta grad2met_beta gradComp gradIdx grad2met_ichg
  by_cases hc : |(grad2met_comp (prim.eigensym e.mtan).2 e.t0 e.t1).1| >
      |(grad2met_comp (prim.eigensym e.mtan).2 e.t0 e.t1).2|
  · rw [if_pos hc, if_pos hc, if_pos rfl]
  · rw [if_neg hc, if_neg hc, if_neg (by decide)]

/-- The increment is positive when the speed is below the bound and the
component of larger magnitude is not null. -/
theorem gradBeta_pos (prim : Prim K) (e : GradEnd K) (alpha : K) (hps : 0 ≤ e.ps)
    (hE : 0 ≤ prim.EPS) (hlt : e.ps < alpha - prim.EPS)
    (hc : gradComp prim e (gradIdx prim e) ≠ 0) : 0 < gradBeta prim e alpha := by
  rw [gradBeta_eq]
  have h1 : e.ps < alpha := by linarith
  have h2 : 0 < alpha * alpha - e.ps * e.ps := by nlinarith
  have h3 : 0 < gradComp prim e (gradIdx prim e) * gradComp prim e (gradIdx prim e) :=
    mul_self_pos.mpr hc
  exact div_pos h2 h3

theorem grad2met_tan_eq (prim : Prim K) (e : GradEnd K) (alpha : K) :
    grad2met_tan prim e alpha = grad2met_compose (prim.eigensym e.mtan).2
      (if gradIdx prim e = 0 then gradLambda prim e 0 + gradBeta prim e alpha
        else gradLambda prim e 0)
      (if gradIdx prim e = 0 then gradLambda prim e 1
        else gradLambda prim e 1 + gradBeta prim e alpha) := by
  unfold grad2met_tan gradIdx grad2met_ichg gradLambda gradBeta
  by_cases hc : |(grad2met_comp (prim.eigensym e.mtan).2 e.t0 e.t1).1| >
      |(grad2met_comp (prim.eigensym e.mtan).2 e.t0 e.t1).2|
  · simp only [hc, if_true]
    rfl
  · simp only [hc, if_false]
    rfl

/-- The update of a ridge vertex adds `beta` to exactly one of its three sizes. -/
theorem grad2met_ridge_one (mm : Met6 K) (lam beta : K) :
    ∃ j, j < 3 ∧ grad2met_ridge mm lam beta = mm.set j (mm.get j + beta) := by
  unfold grad2met_ridge
  simp only
  split_ifs
  · exact ⟨0, by decide, rfl⟩
  · exact ⟨2, by decide, rfl⟩
  · exact ⟨1, by decide, rfl⟩
  · exact ⟨2, by decide, rfl⟩

/-- When `grad2met` does not return -1, it has updated one endpoint. -/
theorem grad2met_updated (env : Env K) (prim : Prim K) (mesh : Mesh K) (m : Nat → Met6 K)
    (iel i : Nat) (hu : (grad2met env prim mesh m iel i).1 ≠ -1) :
    ∃ g np r e alpha, grad2met_ends env prim mesh m iel i = some g ∧
      GradUpdated env mesh iel i g np r e alpha (grad2met env prim mesh m iel i).1 ∧
      e.ps < alpha - prim.EPS ∧
      (grad2met env prim mesh m iel i).2 =
        Function.update m np (grad2met_update env prim (mesh.point np) (m np) r e alpha) := by
  cases hg : grad2met_ends env prim mesh m iel i with
  | none =>
    rw [grad2met_of_none env prim mesh m iel i hg] at hu
    exact absurd rfl hu
  | some g =>
    rw [grad2met_of_some env prim mesh m iel i g hg] at hu ⊢
    by_cases h1 : g.e2.ps > g.e1.ps
    · rw [if_pos h1] at hu ⊢
      by_cases h2 : g.e1.ps ≥ grad2met_alpha mesh.info g.l g.e2.ps - prim.EPS
      · rw [if_pos h2] at hu
        exact absurd rfl hu
      · rw [if_neg h2]
        exact ⟨g, _, g.r1, g.e1, _, rfl, Or.inl ⟨h1, rfl, rfl, rfl, rfl, rfl⟩, not_le.mp h2, rfl⟩
    · rw [if_neg h1] at hu ⊢
      by_cases h2 : g.e2.ps ≥ grad2met_alpha mesh.info g.l g.e1.ps - prim.EPS
      · rw [if_pos h2] at hu
        exact absurd rfl hu
      · rw [if_neg h2]
        exact ⟨g, _, g.r2, g.e2, _, rfl, Or.inr ⟨h1, rfl, rfl, rfl, rfl, rfl⟩, not_le.mp h2, rfl⟩

/-- The tangential data of the updated endpoint come from `grad2met_end`. -/
theorem GradUpdated_end (env : Env K) (prim : Prim K) (mesh : Mesh K) (m : Nat → Met6 K)
    (iel i : Nat) (g : GradEdge K) (np : Nat) (r : Mat3 K) (e : GradEnd K) (alpha : K)
    (code : Int) (hg : grad2met_ends env prim mesh m iel i = some g)
    (hu : GradUpdated env mesh iel i g np r e alpha code) :
    ∃ m1 c, grad2met_end env prim r m1 c = some e := by
  obtain ⟨_, n1, m1, n2, m2, _, _, _, _, ⟨c1, h1⟩, ⟨c2, h2⟩⟩ :=
    grad2met_ends_some env prim mesh m iel i g hg
  rcases hu with ⟨_, _, rfl, rfl, _⟩ | ⟨_, _, rfl, rfl, _⟩
  · exact ⟨m1, c1, h1⟩
  · exact ⟨m2, c2, h2⟩

/-! ### The square root of the concrete environments -/

theorem natSqrtAux_pos (n : Nat) (hn : 1 ≤ n) (fuel x : Nat) (hx : 1 ≤ x) :
    1 ≤ natSqrtAux n fuel x := by
  induction fuel generalizing x with
  | zero => exact hx
  | succ f ih =>
    rw [natSqrtAux]
    rw [if_neg (by omega)]
    split_ifs with h
    · apply ih
      have h1 : 1 ≤ n / x ∨ 2 ≤ x := by
        by_cases h2 : 2 ≤ x
        · exact Or.inr h2
        · left
          have hx1 : x = 1 := by omega
          subst hx1
          simpa using hn
      generalize n / x = d at h h1 ⊢
      omega
    · exact hx

theorem sqrtQ_nonneg (x : ℚ) : 0 ≤ sqrtQ x := by
  unfold sqrtQ
  split_ifs
  · exact le_refl _
  · positivity

theorem sqrtQ_pos (x : ℚ) (hx : 0 < x) : 0 < sqrtQ x := by
  unfold sqrtQ
  rw [if_neg (not_le.mpr hx)]
  have hnum : 0 < x.num := Rat.num_pos.mpr hx
  have hden : 0 < x.den := x.den_pos
  have h1 : 1 ≤ x.num.toNat * x.den := by
    have : 1 ≤ x.num.toNat := by omega
    exact Nat.one_le_iff_ne_zero.mpr (Nat.mul_ne_zero (by omega) (by omega))
  have h2 : 1 ≤ natSqrt (x.num.toNat * x.den) := natSqrtAux_pos _ h1 _ _ h1
  have h3 : (0 : ℚ) < (natSqrt (x.num.toNat * x.den) : ℚ) := by exact_mod_cast h2
  have h4 : (0 : ℚ) < (x.den : ℚ) := by exact_mod_cast hden
  exact div_pos h3 h4


theorem eigensymQ_basis (a : Vec3 ℚ) : (fanPrim.eigensym a).2.IsBasis := by
  unfold Mat2.IsBasis fanPrim eigensymQ
  norm_num

/-! ### Rotations and eigenbases -/

theorem gram_rows (r : Mat3 K) :
    r.toMatrix * r.toMatrix.transpose =
      !![r.r00 * r.r00 + r.r01 * r.r01 + r.r02 * r.r02,
         r.r00 * r.r10 + r.r01 * r.r11 + r.r02 * r.r12,
         r.r00 * r.r20 + r.r01 * r.r21 + r.r02 * r.r22;
         r.r10 * r.r00 + r.r11 * r.r01 + r.r12 * r.r02,
         r.r10 * r.r10 + r.r11 * r.r11 + r.r12 * r.r12,
         r.r10 * r.r20 + r.r11 * r.r21 + r.r12 * r.r22;
         r.r20 * r.r00 + r.r21 * r.r01 + r.r22 * r.r02,
         r.r20 * r.r10 + r.r21 * r.r11 + r.r22 * r.r12,
         r.r20 * r.r20 + r.r21 * r.r21 + r.r22 * r.r22] := by
  ext i j
  fin_cases i <;> fin_cases j <;>
    simp only [Mat3.toMatrix, Matrix.mul_apply, Fin.sum_univ_three, Matrix.transpose_apply,
      Matrix.of_apply, Matrix.cons_val_zero, Matrix.cons_val_one, Matrix.head_cons,
      Matrix.cons_val_two, Matrix.tail_cons, Fin.zero_eta, Fin.mk_one, Fin.reduceFinMk,
      Matrix.cons_val', Matrix.empty_val', Matrix.cons_val_fin_one, Fin.isValue] <;>
    rfl

/-- The rows of an orthogonal matrix are orthonormal. -/
theorem orth_rows (r : Mat3 K) (h : r.IsOrthogonal) :
    r.r00 * r.r00 + r.r01 * r.r01 + r.r02 * r.r02 = 1 ∧
    r.r00 * r.r10 + r.r01 * r.r11 + r.r02 * r.r12 = 0 ∧
    r.r00 * r.r20 + r.r01 * r.r21 + r.r02 * r.r22 = 0 ∧
    r.r10 * r.r10 + r.r11 * r.r11 + r.r12 * r.r12 = 1 ∧
    r.r10 * r.r20 + r.r11 * r.r21 + r.r12 * r.r22 = 0 ∧
    r.r20 * r.r20 + r.r21 * r.r21 + r.r22 * r.r22 = 1 := by
  unfold Mat3.IsOrthogonal at h
  have h' := Matrix.mul_eq_one_comm.mp h
  rw [gram_rows] at h'
  have e00 := congrFun (congrFun h' 0) 0
  have e01 := congrFun (congrFun h' 0) 1
  have e02 := congrFun (congrFun h' 0) 2
  have e11 := congrFun (congrFun h' 1) 1
  have e12 := congrFun (congrFun h' 1) 2
  have e22 := congrFun (congrFun h' 2) 2
  simp at e00 e01 e02 e11 e12 e22
  exact ⟨e00, e01, e02, e11, e12, e22⟩

/-- The columns of an orthogonal matrix are orthonormal. -/
theorem orth_cols (r : Mat3 K) (h : r.IsOrthogonal) :
    r.r00 * r.r00 + r.r10 * r.r10 + r.r20 * r.r20 = 1 ∧
    r.r00 * r.r01 + r.r10 * r.r11 + r.r20 * r.r21 = 0 ∧
    r.r00 * r.r02 + r.r10 * r.r12 + r.r20 * r.r22 = 0 ∧
    r.r01 * r.r01 + r.r11 * r.r11 + r.r21 * r.r21 = 1 ∧
    r.r01 * r.r02 + r.r11 * r.r12 + r.r21 * r.r22 = 0 ∧
    r.r02 * r.r02 + r.r12 * r.r12 + r.r22 * r.r22 = 1 := by
  unfold Mat3.IsOrthogonal at h
  rw [gram_entries] at h
  have e00 := congrFun (congrFun h 0) 0
  have e01 := congrFun (congrFun h 0) 1
  have e02 := congrFun (congrFun h 0) 2
  have e11 := congrFun (congrFun h 1) 1
  have e12 := congrFun (congrFun h 1) 2
  have e22 := congrFun (congrFun h 2) 2
  simp at e00 e01 e02 e11 e12 e22
  exact ⟨e00, e01, e02, e11, e12, e22⟩

/-- The columns of a matrix with orthonormal rows are orthonormal. -/
theorem Mat2.IsOrthonormal.cols (vp : Mat2 K) (h : vp.IsOrthonormal) :
    vp.v00 * vp.v00 + vp.v10 * vp.v10 = 1 ∧ vp.v01 * vp.v01 + vp.v11 * vp.v11 = 1 ∧
      vp.v00 * vp.v01 + vp.v10 * vp.v11 = 0 := by
  obtain ⟨h1, h2, h3⟩ := h
  have c1 : vp.v00 * vp.v00 + vp.v10 * vp.v10 = 1 := by
    linear_combination (vp.v00 * vp.v10 - vp.v01 * vp.v11) * h3 + vp.v11 * vp.v11 * h1 +
      (1 - vp.v00 * vp.v00) * h2
  have c2 : vp.v01 * vp.v01 + vp.v11 * vp.v11 = 1 := by
    linear_combination (vp.v01 * vp.v11 - vp.v00 * vp.v10) * h3 + vp.v10 * vp.v10 * h1 +
      (1 - vp.v01 * vp.v01) * h2
  refine ⟨c1, c2, ?_⟩
  have hd : (vp.v00 * vp.v11 - vp.v01 * vp.v10) ^ 2 = 1 := by
    linear_combination (vp.v10 * vp.v10 + vp.v11 * vp.v11) * h1 + h2 -
      (vp.v00 * vp.v10 + vp.v01 * vp.v11) * h3
  have hz : (vp.v00 * vp.v01 + vp.v10 * vp.v11) ^ 2 = 0 := by
    linear_combination (vp.v01 * vp.v01 + vp.v11 * vp.v11) * c1 + c2 - hd
  exact pow_eq_zero_iff (by norm_num) |>.mp hz

theorem Mat2.IsOrthonormal.isBasis (vp : Mat2 K) (h : vp.IsOrthonormal) : vp.IsBasis := by
  obtain ⟨h1, h2, h3⟩ := h
  have hd : (vp.v00 * vp.v11 - vp.v01 * vp.v10) ^ 2 = 1 := by
    linear_combination (vp.v10 * vp.v10 + vp.v11 * vp.v11) * h1 + h2 -
      (vp.v00 * vp.v10 + vp.v01 * vp.v11) * h3
  intro h0
  unfold Mat2.IsBasis at *
  rw [h0] at hd
  norm_num at hd

/-- The quadratic form of a recomposed block is the weighted sum of the squared
components in the basis. -/
theorem quad2_compose (vp : Mat2 K) (a b t0 t1 : K) :
    quad2 (grad2met_compose vp a b) t0 t1 =
      a * ((grad2met_comp vp t0 t1).1 * (grad2met_comp vp t0 t1).1) +
      b * ((grad2met_comp vp t0 t1).2 * (grad2met_comp vp t0 t1).2) := by
  unfold quad2 grad2met_compose grad2met_comp
  ring

/-- In an orthonormal basis the squared components add up to the squared norm. -/
theorem comp_normSq (vp : Mat2 K) (h : vp.IsOrthonormal) (t0 t1 : K) :
    (grad2met_comp vp t0 t1).1 * (grad2met_comp vp t0 t1).1 +
      (grad2met_comp vp t0 t1).2 * (grad2met_comp vp t0 t1).2 = t0 * t0 + t1 * t1 := by
  obtain ⟨c1, c2, c3⟩ := h.cols
  unfold grad2met_comp
  linear_combination t0 * t0 * c1 + t1 * t1 * c2 + 2 * t0 * t1 * c3

/-- The tangential block of `R (tR I R) tR` is `I` when `R` is orthogonal. -/
theorem rmtr_back (prim : Prim K) (r : Mat3 K) (a : Vec3 K) (hrm : RmtrSpec prim)
    (hR : r.IsOrthogonal) :
    (prim.rmtr r (defmetreg_back r a)).m0 = a.x ∧ (prim.rmtr r (defmetreg_back r a)).m1 = a.y ∧
    (prim.rmtr r (defmetreg_back r a)).m3 = a.z := by
  obtain ⟨e00, e01, _, e11, _, _⟩ := orth_rows r hR
  obtain ⟨h0, h1, h3⟩ := hrm r (defmetreg_back r a)
  rw [h0, h1, h3]
  unfold defmetreg_back Met6.apply Vec3.dot Mat3.row
  simp only [if_true, if_false, one_ne_zero]
  refine ⟨?_, ?_, ?_⟩
  · linear_combination (a.x * ((r.r00 * r.r00 + r.r01 * r.r01 + r.r02 * r.r02) + 1)) * e00 +
      (2 * a.y * (r.r00 * r.r00 + r.r01 * r.r01 + r.r02 * r.r02) +
        a.z * (r.r00 * r.r10 + r.r01 * r.r11 + r.r02 * r.r12)) * e01
  · linear_combination (a.x * (r.r00 * r.r00 + r.r01 * r.r01 + r.r02 * r.r02) +
      a.y * (r.r00 * r.r10 + r.r01 * r.r11 + r.r02 * r.r12) +
      a.z * (r.r10 * r.r10 + r.r11 * r.r11 + r.r12 * r.r12)) * e01 +
      a.y * (r.r10 * r.r10 + r.r11 * r.r11 + r.r12 * r.r12) * e00 + a.y * e11
  · linear_combination (a.x * (r.r00 * r.r10 + r.r01 * r.r11 + r.r02 * r.r12) +
      2 * a.y * (r.r10 * r.r10 + r.r11 * r.r11 + r.r12 * r.r12)) * e01 +
      (a.z * ((r.r10 * r.r10 + r.r11 * r.r11 + r.r12 * r.r12) + 1)) * e11

/-- The quadratic form of the updated block along the unit projection is
`alpha^2`, when the block is decomposed in the basis of `_MMG5_eigensym`, the
speed is an exact square root and the component of larger magnitude is not null. -/
theorem quad2_tan (prim : Prim K) (e : GradEnd K) (alpha : K)
    (hdec : e.mtan = grad2met_compose (prim.eigensym e.mtan).2 (gradLambda prim e 0)
      (gradLambda prim e 1))
    (hps : e.ps * e.ps = quad2 e.mtan e.t0 e.t1)
    (hc : gradComp prim e (gradIdx prim e) ≠ 0) :
    quad2 (grad2met_tan prim e alpha) e.t0 e.t1 = alpha * alpha := by
  have hq : quad2 e.mtan e.t0 e.t1 =
      gradLambda prim e 0 * ((grad2met_comp (prim.eigensym e.mtan).2 e.t0 e.t1).1 *
        (grad2met_comp (prim.eigensym e.mtan).2 e.t0 e.t1).1) +
      gradLambda prim e 1 * ((grad2met_comp (prim.eigensym e.mtan).2 e.t0 e.t1).2 *
        (grad2met_comp (prim.eigensym e.mtan).2 e.t0 e.t1).2) := by
    conv_lhs => rw [hdec]
    rw [quad2_compose]
  have hb : gradBeta prim e alpha * (gradComp prim e (gradIdx prim e) *
      gradComp prim e (gradIdx prim e)) = alpha * alpha - e.ps * e.ps := by
    rw [gradBeta_eq]
    exact div_mul_cancel₀ _ (mul_ne_zero hc hc)
  rw [grad2met_tan_eq, quad2_compose]
  by_cases hi : gradIdx prim e = 0
  · rw [if_pos hi, if_pos hi]
    rw [hi] at hb
    unfold gradComp at hb
    rw [if_pos rfl] at hb
    linear_combination hb - hq - hps
  · rw [if_neg hi, if_neg hi]
    have hi1 : gradIdx prim e = 1 := by
      unfold gradIdx grad2met_ichg at hi ⊢
      split_ifs at hi ⊢ with h
      · exact absurd rfl hi
      · rfl
    rw [hi1] at hb
    unfold gradComp at hb
    rw [if_neg (by decide)] at hb
    linear_combination hb - hq - hps


theorem rmtrQ_spec : RmtrSpec fanPrim := by
  intro r a
  unfold fanPrim rmtrQ Met6.apply Vec3.dot Mat3.row
  simp only [if_true, if_false, one_ne_zero]
  refine ⟨?_, ?_, ?_⟩ <;> ring_nf

/-! ### The estimators of regular and reference vertices -/

/-- The outcomes of `defmetreg` once the ball is computed. -/
theorem defmetreg_eq (env : Env K) (prim : Prim K) (bfail : Nat → Nat → Vec3 K) (mesh : Mesh K)
    (m : Nat → Met6 K) (it ip : Nat) (hb : (env.boulet mesh it ip).1 ≠ 0) :
    defmetreg env prim bfail mesh m it ip =
      if defmetreg_badproj (defmetreg_lispoi env mesh ((mesh.tria it).v ip)
          (env.rotmatrix (mesh.point ((mesh.tria it).v ip)).n) (env.boulet mesh it ip).2)
          (env.boulet mesh it ip).1.toNat = true then .ok (0, m)
      else if FlatRhs env (defmetreg_fit env prim mesh ((mesh.tria it).v ip)
          (env.rotmatrix (mesh.point ((mesh.tria it).v ip)).n) (env.boulet mesh it ip).2 bfail
          (env.boulet mesh it ip).1.toNat).2 then
        .ok (1, Function.update m ((mesh.tria it).v ip) (Met6.iso (isq mesh.info.hmax)))
      else
        match prim.sys33sym (defmetreg_fit env prim mesh ((mesh.tria it).v ip)
          (env.rotmatrix (mesh.point ((mesh.tria it).v ip)).n) (env.boulet mesh it ip).2 bfail
          (env.boulet mesh it ip).1.toNat).1 (defmetreg_fit env prim mesh ((mesh.tria it).v ip)
          (env.rotmatrix (mesh.point ((mesh.tria it).v ip)).n) (env.boulet mesh it ip).2 bfail
          (env.boulet mesh it ip).1.toNat).2 with
        | none => .ok (0, m)
        | some c => .ok (1, Function.update m ((mesh.tria it).v ip)
            (defmetreg_back (env.rotmatrix (mesh.point ((mesh.tria it).v ip)).n)
              (defmetreg_intm prim mesh.info c))) := by
  unfold defmetreg FlatRhs
  simp only [hb, if_false]
  rfl

/-- The outcomes of `defmetref` up to the solution of the normal equations, once
the ball is computed and the scan of the reference edges has returned. -/
theorem defmetref_eq (env : Env K) (prim : Prim K) (bfail : Nat → Nat → Vec3 K) (mesh : Mesh K)
    (m : Nat → Met6 K) (it ip : Nat) (ipref : Nat × Nat)
    (hb : (env.boulet mesh it ip).1 ≠ 0)
    (hsc : defmetref_scan env mesh (env.boulet mesh it ip).2 (env.boulet mesh it ip).1.toNat =
      .ok ipref) :
    defmetref env prim bfail mesh m it ip =
      if defmetref_badproj (defmetreg_lispoi env mesh ((mesh.tria it).v ip)
          (env.rotmatrix (mesh.xpoint (mesh.point ((mesh.tria it).v ip)).ig).n1)
          (env.boulet mesh it ip).2) (env.boulet mesh it ip).1.toNat = true then .ok (0, m)
      else if ipref.1 = 0 ∨ ipref.2 = 0 then .error Fatal.assertFailure
      else if FlatRhs env (defmetreg_fit env prim mesh ((mesh.tria it).v ip)
          (env.rotmatrix (mesh.xpoint (mesh.point ((mesh.tria it).v ip)).ig).n1)
          (env.boulet mesh it ip).2 bfail (env.boulet mesh it ip).1.toNat).2 then
        .ok (1, Function.update m ((mesh.tria it).v ip) (Met6.iso (isq mesh.info.hmax)))
      else
        match prim.sys33sym (defmetreg_fit env prim mesh ((mesh.tria it).v ip)
          (env.rotmatrix (mesh.xpoint (mesh.point ((mesh.tria it).v ip)).ig).n1)
          (env.boulet mesh it ip).2 bfail (env.boulet mesh it ip).1.toNat).1
          (defmetreg_fit env prim mesh ((mesh.tria it).v ip)
          (env.rotmatrix (mesh.xpoint (mesh.point ((mesh.tria it).v ip)).ig).n1)
          (env.boulet mesh it ip).2 bfail (env.boulet mesh it ip).1.toNat).2 with
        | none => .ok (0, m)
        | some c =>
          match [ipref.1, ipref.2].foldlM (defmetref_curve env prim mesh ((mesh.tria it).v ip)
              (env.rotmatrix (mesh.xpoint (mesh.point ((mesh.tria it).v ip)).ig).n1))
              (0, ⟨0, 0, 0⟩) with
          | .error e => .error e
          | .ok st => .ok (1, Function.update m ((mesh.tria it).v ip)
              (defmetreg_back (env.rotmatrix (mesh.xpoint (mesh.point ((mesh.tria it).v ip)).ig).n1)
                (defmetref_blend prim mesh ((mesh.tria it).v ip)
                  (env.rotmatrix (mesh.xpoint (mesh.point ((mesh.tria it).v ip)).ig).n1)
                  st.1 st.2 (defmetreg_intm prim mesh.info c)))) := by
  unfold defmetref FlatRhs
  simp only [hb, if_false, hsc]
  rfl

theorem defmetref_scan_error (env : Env K) (prim : Prim K) (bfail : Nat → Nat → Vec3 K)
    (mesh : Mesh K) (m : Nat → Met6 K) (it ip : Nat) (e : Fatal)
    (hb : (env.boulet mesh it ip).1 ≠ 0)
    (hsc : defmetref_scan env mesh (env.boulet mesh it ip).2 (env.boulet mesh it ip).1.toNat =
      .error e) :
    defmetref env prim bfail mesh m it ip = .error e := by
  unfold defmetref
  simp only [hb, if_false, hsc]

omit [LinearOrderedField K] in
theorem foldlM_flatMap {α β : Type} (g : β → α → Except Fatal β) (f : Nat → List α)
    (l : List Nat) (s : β) :
    (l.flatMap f).foldlM g s = l.foldlM (fun s a => (f a).foldlM g s) s := by
  induction l generalizing s with
  | nil => rfl
  | cons a l ih =>
    rw [List.flatMap_cons, List.foldlM_append, List.foldlM_cons]
    cases h : (f a).foldlM g s with
    | error e => rfl
    | ok s1 => exact ih s1

omit [LinearOrderedField K] in
theorem defmetref_scan_eq (env : Env K) (mesh : Mesh K) (list : Nat → Nat) (ilist : Nat) :
    defmetref_scan env mesh list ilist =
      (refEnds env mesh list ilist).foldlM defmetref_store (0, 0) := by
  unfold defmetref_scan refEnds
  rw [foldlM_flatMap]

theorem seeOne_length_le (acc : List Nat) (v : Nat) : acc.length ≤ (seeOne acc v).length := by
  unfold seeOne
  split_ifs
  · exact le_refl _
  · simp

theorem seeOne_fold_length_le (l acc : List Nat) : acc.length ≤ (l.foldl seeOne acc).length := by
  induction l generalizing acc with
  | nil => exact le_refl _
  | cons v l ih => exact (seeOne_length_le acc v).trans (ih (seeOne acc v))

/-- The scan from a state that holds the distinct endpoints `acc` seen so far:
it ends with the first two distinct endpoints in the order they were seen, or
stops the process when a third one is met. -/
theorem defmetref_store_fold (l acc : List Nat) (hn : acc.Nodup) (h0 : ∀ v ∈ acc, v ≠ 0)
    (hlen : acc.length ≤ 2) (hl : ∀ v ∈ l, v ≠ 0) :
    l.foldlM defmetref_store (padPair acc) =
      if (l.foldl seeOne acc).length ≤ 2 then .ok (padPair (l.foldl seeOne acc))
      else .error Fatal.exitZero := by
  induction l generalizing acc with
  | nil =>
    simp only [List.foldl_nil, if_pos hlen]
    rfl
  | cons v l ih =>
    have hv : v ≠ 0 := hl v (List.mem_cons_self _ _)
    have hl' : ∀ w ∈ l, w ≠ 0 := fun w hw => hl w (List.mem_cons_of_mem _ hw)
    rw [List.foldlM_cons, List.foldl_cons]
    match acc, hn, h0, hlen with
    | [], _, _, _ =>
      have e1 : defmetref_store (padPair []) v = .ok (padPair [v]) := by
        simp [defmetref_store, padPair]
      have e2 : seeOne [] v = [v] := by simp [seeOne]
      rw [e1, e2]
      exact ih [v] (List.nodup_singleton v) (by simpa using hv) (by simp) hl'
    | [a], _, h0, _ =>
      have ha : a ≠ 0 := h0 a (List.mem_singleton_self a)
      by_cases hva : v = a
      · have e1 : defmetref_store (padPair [a]) v = .ok (padPair [a]) := by
          simp [defmetref_store, padPair, ha, hva]
        have e2 : seeOne [a] v = [a] := by simp [seeOne, hva]
        rw [e1, e2]
        exact ih [a] (List.nodup_singleton a) h0 (by simp) hl'
      · have e1 : defmetref_store (padPair [a]) v = .ok (padPair [a, v]) := by
          simp [defmetref_store, padPair, ha, hva]
        have e2 : seeOne [a] v = [a, v] := by simp [seeOne, hva]
        rw [e1, e2]
        refine ih [a, v] ?_ ?_ (by simp) hl'
        · simp [Ne.symm hva]
        · intro w hw
          simp at hw
          rcases hw with rfl | rfl
          · exact ha
          · exact hv
    | [a, b], hn, h0, _ =>
      have ha : a ≠ 0 := h0 a (by simp)
      have hb : b ≠ 0 := h0 b (by simp)
      by_cases hva : v = a ∨ v = b
      · have e1 : defmetref_store (padPair [a, b]) v = .ok (padPair [a, b]) := by
          rcases hva with h | h <;> simp [defmetref_store, padPair, ha, hb, h]
        have e2 : seeOne [a, b] v = [a, b] := by
          rcases hva with h | h <;> simp [seeOne, h]
        rw [e1, e2]
        exact ih [a, b] hn h0 (by simp) hl'
      · push_neg at hva
        have e1 : defmetref_store (padPair [a, b]) v = .error Fatal.exitZero := by
          simp [defmetref_store, padPair, ha, hb, hva.1, hva.2]
        have e2 : seeOne [a, b] v = [a, b, v] := by simp [seeOne, hva.1, hva.2]
        rw [e1, e2]
        have hlong := seeOne_fold_length_le l [a, b, v]
        simp only [List.length_cons, List.length_nil] at hlong
        rw [if_neg (by omega)]
        rfl
    | _ :: _ :: _ :: _, _, _, hlen => simp at hlen

/-! ### The tensor of a regular vertex -/

theorem defmetreg_trunc_eq (info : Info K) (kappa : K) :
    defmetreg_trunc info kappa = truncSize info kappa := by
  unfold defmetreg_trunc truncSize isq
  simp only [MG_MAX_eq_max, MG_MIN_eq_min]
  rw [max_comm, min_comm]

theorem truncSize_ge (info : Info K) (kappa : K) : isq info.hmax ≤ truncSize info kappa :=
  le_max_left _ _

theorem truncSize_le (info : Info K) (kappa : K) (h : isq info.hmax ≤ isq info.hmin) :
    truncSize info kappa ≤ isq info.hmin :=
  max_le h (min_le_left _ _)

theorem defmetreg_intm_eq (prim : Prim K) (info : Info K) (c : Vec3 K) :
    defmetreg_intm prim info c = grad2met_compose (prim.eigensym (curvForm c)).2
      (truncSize info (prim.eigensym (curvForm c)).1.1)
      (truncSize info (prim.eigensym (curvForm c)).1.2) := by
  unfold defmetreg_intm grad2met_compose curvForm
  simp only [defmetreg_trunc_eq]

/-- The quadratic form of `tR I R` at `t` is the one of `I` at the first two
coordinates of `R t`. -/
theorem back_quad (r : Mat3 K) (a t : Vec3 K) :
    t.dot ((defmetreg_back r a).apply t) = quad2 a ((r.row 0).dot t) ((r.row 1).dot t) := by
  unfold defmetreg_back Met6.apply Vec3.dot quad2 Mat3.row
  simp only [if_true, if_false, one_ne_zero]
  ring

/-- The product of `tR I R` and a vector, from the first two coordinates of its
image by `R`. -/
theorem back_apply (r : Mat3 K) (a t : Vec3 K) :
    (defmetreg_back r a).apply t =
      r.tangent (a.x * (r.row 0).dot t + a.y * (r.row 1).dot t)
        (a.y * (r.row 0).dot t + a.z * (r.row 1).dot t) := by
  unfold defmetreg_back Met6.apply Vec3.dot Mat3.tangent Mat3.row Vec3.add Vec3.smul
  simp only [if_true, if_false, one_ne_zero]
  congr 1 <;> ring

/-- An orthogonal matrix that maps `n` to `(0,0,1)` has `n` as third row. -/
theorem orth_third_row (r : Mat3 K) (n : Vec3 K) (hR : r.IsOrthogonal)
    (hn : r.mulVec n = ⟨0, 0, 1⟩) : n = r.row 2 := by
  obtain ⟨c00, c01, c02, c11, c12, c22⟩ := orth_cols r hR
  unfold Mat3.mulVec at hn
  injection hn with h0 h1 h2
  unfold Mat3.row
  simp only [if_false, OfNat.ofNat_ne_zero, OfNat.ofNat_ne_one]
  cases n with
  | mk x y z =>
    simp only at h0 h1 h2
    congr 1
    · linear_combination r.r00 * h0 + r.r10 * h1 + r.r20 * h2 - x * c00 - y * c01 - z * c02
    · linear_combination r.r01 * h0 + r.r11 * h1 + r.r21 * h2 - x * c01 - y * c11 - z * c12
    · linear_combination r.r02 * h0 + r.r12 * h1 + r.r22 * h2 - x * c02 - y * c12 - z * c22

/-- An orthogonal matrix keeps the squared norm. -/
theorem orth_normSq (r : Mat3 K) (t : Vec3 K) (hR : r.IsOrthogonal) :
    (r.row 0).dot t * (r.row 0).dot t + (r.row 1).dot t * (r.row 1).dot t +
      (r.row 2).dot t * (r.row 2).dot t = t.normSq := by
  obtain ⟨c00, c01, c02, c11, c12, c22⟩ := orth_cols r hR
  unfold Vec3.normSq Vec3.dot Mat3.row
  simp only [if_true, if_false, one_ne_zero, OfNat.ofNat_ne_zero, OfNat.ofNat_ne_one]
  linear_combination t.x * t.x * c00 + 2 * t.x * t.y * c01 + 2 * t.x * t.z * c02 +
    t.y * t.y * c11 + 2 * t.y * t.z * c12 + t.z * t.z * c22

/-- Bounds on the quadratic form of a block recomposed in an orthonormal basis. -/
theorem quad2_compose_bounds (vp : Mat2 K) (h : vp.IsOrthonormal) (k0 k1 lo hi a b : K)
    (h0 : lo ≤ k0 ∧ k0 ≤ hi) (h1 : lo ≤ k1 ∧ k1 ≤ hi) :
    lo * (a * a + b * b) ≤ quad2 (grad2met_compose vp k0 k1) a b ∧
    quad2 (grad2met_compose vp k0 k1) a b ≤ hi * (a * a + b * b) := by
  rw [quad2_compose, ← comp_normSq vp h a b]
  have p0 := mul_self_nonneg (grad2met_comp vp a b).1
  have p1 := mul_self_nonneg (grad2met_comp vp a b).2
  constructor
  · nlinarith [mul_le_mul_of_nonneg_right h0.1 p0, mul_le_mul_of_nonneg_right h1.1 p1]
  · nlinarith [mul_le_mul_of_nonneg_right h0.2 p0, mul_le_mul_of_nonneg_right h1.2 p1]

/-- The rows of `vp`, sent back by an orthogonal `R`, are eigenvectors of
`tR I R` when `I` is recomposed in the orthonormal basis `vp`. -/
theorem back_eigen (r : Mat3 K) (vp : Mat2 K) (k0 k1 : K) (hR : r.IsOrthogonal)
    (h : vp.IsOrthonormal) :
    (defmetreg_back r (grad2met_compose vp k0 k1)).apply (r.tangent vp.v00 vp.v01) =
      Vec3.smul k0 (r.tangent vp.v00 vp.v01) ∧
    (defmetreg_back r (grad2met_compose vp k0 k1)).apply (r.tangent vp.v10 vp.v11) =
      Vec3.smul k1 (r.tangent vp.v10 vp.v11) := by
  obtain ⟨e00, e01, _, e11, _, _⟩ := orth_rows r hR
  obtain ⟨h1, h2, h3⟩ := h
  have d00 : ∀ a b, (r.row 0).dot (r.tangent a b) = a := by
    intro a b
    unfold Mat3.tangent Mat3.row Vec3.dot Vec3.add Vec3.smul
    simp only [if_true, if_false, one_ne_zero]
    linear_combination a * e00 + b * e01
  have d10 : ∀ a b, (r.row 1).dot (r.tangent a b) = b := by
    intro a b
    unfold Mat3.tangent Mat3.row Vec3.dot Vec3.add Vec3.smul
    simp only [if_true, if_false, one_ne_zero]
    linear_combination a * e01 + b * e11
  have ht : ∀ a b a1 b1, a = a1 → b = b1 → r.tangent a b = r.tangent a1 b1 := by
    intro a b a1 b1 ha hb
    rw [ha, hb]
  have hsm : ∀ k a b, Vec3.smul k (r.tangent a b) = r.tangent (k * a) (k * b) := by
    intro k a b
    unfold Mat3.tangent Vec3.smul Vec3.add
    congr 1 <;> ring
  constructor
  · rw [back_apply, d00, d10, hsm]
    apply ht
    · unfold grad2met_compose
      linear_combination k0 * vp.v00 * h1 + k1 * vp.v10 * h3
    · unfold grad2met_compose
      linear_combination k0 * vp.v01 * h1 + k1 * vp.v11 * h3
  · rw [back_apply, d00, d10, hsm]
    apply ht
    · unfold grad2met_compose
      linear_combination k0 * vp.v00 * h3 + k1 * vp.v10 * h2
    · unfold grad2met_compose
      linear_combination k0 * vp.v01 * h3 + k1 * vp.v11 * h2


theorem eigensymQ_orth (a : Vec3 ℚ) : (fanPrim.eigensym a).2.IsOrthonormal := by
  unfold Mat2.IsOrthonormal fanPrim eigensymQ
  norm_num

/-! ### The fixed point of the gradation -/

theorem grad2met_code (env : Env K) (prim : Prim K) (mesh : Mesh K) (m : Nat → Met6 K)
    (k i : Nat) :
    (grad2met env prim mesh m k i).1 =
      gradCode env prim mesh.info i (grad2met_ends env prim mesh m k i) := by
  cases hg : grad2met_ends env prim mesh m k i with
  | none => rw [grad2met_of_none env prim mesh m k i hg]; rfl
  | some g =>
    rw [grad2met_of_some env prim mesh m k i g hg]
    unfold gradCode
    simp only
    split_ifs <;> rfl

/-- The array returned by `grad2met` differs from the one it received at most at
the endpoint whose index it returns. -/
theorem grad2met_frame (env : Env K) (prim : Prim K) (mesh : Mesh K) (m : Nat → Met6 K)
    (k i : Nat) :
    ((grad2met env prim mesh m k i).1 = -1 ∧ (grad2met env prim mesh m k i).2 = m) ∨
    ((grad2met env prim mesh m k i).1 = (env.inxt2 i : Int) ∧
      ∀ j, j ≠ (mesh.tria k).v (env.inxt2 i) → (grad2met env prim mesh m k i).2 j = m j) ∨
    ((grad2met env prim mesh m k i).1 = (env.iprv2 i : Int) ∧
      ∀ j, j ≠ (mesh.tria k).v (env.iprv2 i) → (grad2met env prim mesh m k i).2 j = m j) := by
  cases hg : grad2met_ends env prim mesh m k i with
  | none =>
    rw [grad2met_of_none env prim mesh m k i hg]
    exact Or.inl ⟨rfl, rfl⟩
  | some g =>
    rw [grad2met_of_some env prim mesh m k i g hg]
    by_cases h1 : g.e2.ps > g.e1.ps
    · rw [if_pos h1]
      by_cases h2 : g.e1.ps ≥ grad2met_alpha mesh.info g.l g.e2.ps - prim.EPS
      · rw [if_pos h2]
        exact Or.inl ⟨rfl, rfl⟩
      · rw [if_neg h2]
        exact Or.inr (Or.inl ⟨rfl, fun j hj => Function.update_noteq hj _ _⟩)
    · rw [if_neg h1]
      by_cases h2 : g.e2.ps ≥ grad2met_alpha mesh.info g.l g.e1.ps - prim.EPS
      · rw [if_pos h2]
        exact Or.inl ⟨rfl, rfl⟩
      · rw [if_neg h2]
        exact Or.inr (Or.inr ⟨rfl, fun j hj => Function.update_noteq hj _ _⟩)

theorem grad2met_side_congr (env : Env K) (prim : Prim K) (a b : Mesh K)
    (m1 m2 : Nat → Met6 K) (nt : Vec3 K) (np : Nat) (ux uy uz : K) (hg : SameGeom a b)
    (hff : FlagFree env prim) (hloc : RidLocal prim) (hm : m1 np = m2 np) :
    grad2met_side env prim a m1 nt np ux uy uz = grad2met_side env prim b m2 nt np ux uy uz := by
  have hx : a.xpoint = b.xpoint := hg.2.2.2.2.2.1
  obtain ⟨_, hn, htag, hig⟩ := hg.2.2.2.2.2.2 np
  have hbr : prim.buildridmet a m1 np ux uy uz = prim.buildridmet b m2 np ux uy uz := by
    rw [(hff a b hg).2.2, hloc b m1 m2 np ux uy uz hm]
  unfold grad2met_side
  simp only [htag, hig, hn, hx, hm, hbr]

theorem grad2met_ends_congr (env : Env K) (prim : Prim K) (a b : Mesh K)
    (m1 m2 : Nat → Met6 K) (k i : Nat) (hg : SameGeom a b)
    (hff : FlagFree env prim) (hloc : RidLocal prim)
    (h1 : m1 ((a.tria k).v (env.inxt2 i)) = m2 ((a.tria k).v (env.inxt2 i)))
    (h2 : m1 ((a.tria k).v (env.iprv2 i)) = m2 ((a.tria k).v (env.iprv2 i))) :
    grad2met_ends env prim a m1 k i = grad2met_ends env prim b m2 k i := by
  have ht : a.tria = b.tria := hg.2.2.2.2.1
  have hc : ∀ j, (a.point j).c = (b.point j).c := fun j => (hg.2.2.2.2.2.2 j).1
  obtain ⟨f1, f2, _⟩ := hff a b hg
  unfold grad2met_ends
  simp only
  rw [grad2met_side_congr env prim a b m1 m2 _ _ _ _ _ hg hff hloc h1,
    grad2met_side_congr env prim a b m1 m2 _ _ _ _ _ hg hff hloc h2]
  simp only [ht, hc, f1, f2]

/-- The return code of `grad2met` on an edge is the same on two meshes that
differ at most by the flags and for two metric arrays that agree at the two
endpoints of the edge. -/
theorem EdgeQuiet_congr (env : Env K) (prim : Prim K) (a b : Mesh K)
    (m1 m2 : Nat → Met6 K) (k i : Nat) (hg : SameGeom a b)
    (hff : FlagFree env prim) (hloc : RidLocal prim)
    (h1 : m1 ((a.tria k).v (env.inxt2 i)) = m2 ((a.tria k).v (env.inxt2 i)))
    (h2 : m1 ((a.tria k).v (env.iprv2 i)) = m2 ((a.tria k).v (env.iprv2 i))) :
    EdgeQuiet env prim a m1 k i ↔ EdgeQuiet env prim b m2 k i := by
  unfold EdgeQuiet
  rw [grad2met_code, grad2met_code, grad2met_ends_congr env prim a b m1 m2 k i hg hff hloc h1 h2,
    hg.2.2.2.1]

/-- The three ways the body of the inner loop leaves the state: unchanged because
the edge is skipped, unchanged because `grad2met` returns -1 on it, or with one
endpoint `w` of the edge flagged, the metric array changed at `w` only and `nu`
incremented. -/
theorem gradsiz_edge_cases (env : Env K) (prim : Prim K) (k : Nat) (s : GradState K) (i : Nat) :
    (gradsiz_edge env prim k s i = s ∧
      (((s.mesh.point ((s.mesh.tria k).v (env.inxt2 i))).flag < s.base - 1 ∧
        (s.mesh.point ((s.mesh.tria k).v (env.iprv2 i))).flag < s.base - 1) ∨
       EdgeQuiet env prim s.mesh s.m k i)) ∨
    ∃ w m1, (w = (s.mesh.tria k).v (env.inxt2 i) ∨ w = (s.mesh.tria k).v (env.iprv2 i)) ∧
      gradsiz_edge env prim k s i =
        { s with mesh := s.mesh.setFlag w s.base, m := m1, nu := s.nu + 1 } ∧
      ∀ j, j ≠ w → m1 j = s.m j := by
  unfold gradsiz_edge
  simp only
  by_cases hskip : (s.mesh.point ((s.mesh.tria k).v (env.inxt2 i))).flag < s.base - 1 ∧
      (s.mesh.point ((s.mesh.tria k).v (env.iprv2 i))).flag < s.base - 1
  · rw [if_pos hskip]
    exact Or.inl ⟨rfl, Or.inl hskip⟩
  · rw [if_neg hskip]
    rcases grad2met_frame env prim s.mesh s.m k i with ⟨hc, hm⟩ | ⟨hc, hm⟩ | ⟨hc, hm⟩
    · have n1 : ¬ (grad2met env prim s.mesh s.m k i).1 = (env.inxt2 i : Int) := by
        rw [hc]; omega
      have n2 : ¬ (grad2met env prim s.mesh s.m k i).1 = (env.iprv2 i : Int) := by
        rw [hc]; omega
      rw [if_neg n1, if_neg n2, hm]
      exact Or.inl ⟨rfl, Or.inr hc⟩
    · rw [if_pos hc]
      exact Or.inr ⟨_, _, Or.inl rfl, rfl, hm⟩
    · by_cases h1 : (grad2met env prim s.mesh s.m k i).1 = (env.inxt2 i : Int)
      · rw [if_pos h1]
        have he : env.inxt2 i = env.iprv2 i := by
          rw [hc] at h1
          exact_mod_cast h1.symm
        refine Or.inr ⟨_, _, Or.inl rfl, rfl, ?_⟩
        rw [he]
        exact hm
      · rw [if_neg h1, if_pos hc]
        exact Or.inr ⟨_, _, Or.inr rfl, rfl, hm⟩

theorem EdgeMarked_mono (env : Env K) (prim : Prim K) (s : GradState K)
    (b c : Int) (k i : Nat) (hbc : c ≤ b) (h : EdgeMarked env prim s b k i) :
    EdgeMarked env prim s c k i := by
  rcases h with h | h | h
  · exact Or.inl h
  · exact Or.inr (Or.inl (hbc.trans h))
  · exact Or.inr (Or.inr (hbc.trans h))

/-- The body of the inner loop keeps the invariant of the sweep and adds its edge
to the edges gone through. -/
theorem gradsiz_edge_inv (env : Env K) (prim : Prim K) (mesh0 : Mesh K) (b : Int)
    (done : List (Nat × Nat)) (s : GradState K) (k i : Nat) (hff : FlagFree env prim)
    (hloc : RidLocal prim) (hinv : SweepInv env prim mesh0 b done s) :
    SweepInv env prim mesh0 b (done ++ [(k, i)]) (gradsiz_edge env prim k s i) := by
  obtain ⟨hg, hb, hnu, hE⟩ := hinv
  have ht : mesh0.tria = s.mesh.tria := hg.2.2.2.2.1
  rcases gradsiz_edge_cases env prim k s i with ⟨hs, hq⟩ | ⟨w, m1, hw, hs, hm⟩
  · -- the state is unchanged
    rw [hs]
    have hquiet : ActiveEdge mesh0 k i → (k, i) ∉ done → EdgeQuiet env prim s.mesh s.m k i := by
      intro ha hd
      rcases hq with ⟨f1, f2⟩ | hq
      · rcases (hE k i ha).1 hd with h | h | h
        · exact h
        · rw [hb] at f1; omega
        · rw [hb] at f2; omega
      · exact hq
    refine ⟨hg, hb, hnu, fun k1 i1 ha => ⟨fun hd => ?_, fun hd => ?_, fun hd h0 => ?_⟩⟩
    · exact (hE k1 i1 ha).1 (fun h => hd (List.mem_append_left _ h))
    · by_cases h : (k1, i1) ∈ done
      · exact (hE k1 i1 ha).2.1 h
      · have he : (k1, i1) = (k, i) := by
          rcases List.mem_append.mp hd with h1 | h1
          · exact absurd h1 h
          · simpa using h1
        injection he with e1 e2
        subst e1 e2
        exact Or.inl (hquiet ha h)
    · by_cases h : (k1, i1) ∈ done
      · exact (hE k1 i1 ha).2.2 h h0
      · have he : (k1, i1) = (k, i) := by
          rcases List.mem_append.mp hd with h1 | h1
          · exact absurd h1 h
          · simpa using h1
        injection he with e1 e2
        subst e1 e2
        exact hquiet ha h
  · -- the endpoint `w` is updated and flagged
    rw [hs]
    have hg1 : SameGeom s.mesh (s.mesh.setFlag w s.base) := SameGeom_setFlag s.mesh w s.base
    refine ⟨hg.trans hg1, hb, by simp only; omega,
      fun k1 i1 ha => ?_⟩
    by_cases hend : w = (s.mesh.tria k1).v (env.inxt2 i1) ∨ w = (s.mesh.tria k1).v (env.iprv2 i1)
    · -- an endpoint of the edge is flagged with the current generation
      have hmark : EdgeMarked env prim
          { s with mesh := s.mesh.setFlag w s.base, m := m1, nu := s.nu + 1 } b k1 i1 := by
        rcases hend with h | h
        · right; left
          show b ≤ ((s.mesh.setFlag w s.base).point ((s.mesh.tria k1).v (env.inxt2 i1))).flag
          rw [← h, setFlag_point_self, hb]
        · right; right
          show b ≤ ((s.mesh.setFlag w s.base).point ((s.mesh.tria k1).v (env.iprv2 i1))).flag
          rw [← h, setFlag_point_self, hb]
      refine ⟨fun _ => EdgeMarked_mono env prim _ b (b - 1) k1 i1 (by omega) hmark,
        fun _ => hmark, fun _ h0 => ?_⟩
      simp only at h0
      omega
    · -- the edge is away from the updated vertex
      push_neg at hend
      have hq : EdgeQuiet env prim (s.mesh.setFlag w s.base) m1 k1 i1 ↔
          EdgeQuiet env prim s.mesh s.m k1 i1 :=
        (EdgeQuiet_congr env prim s.mesh (s.mesh.setFlag w s.base) s.m m1 k1 i1 hg1 hff hloc
          (hm _ (Ne.symm hend.1)).symm (hm _ (Ne.symm hend.2)).symm).symm
      have hmk : ∀ c, EdgeMarked env prim
          { s with mesh := s.mesh.setFlag w s.base, m := m1, nu := s.nu + 1 } c k1 i1 ↔
          EdgeMarked env prim s c k1 i1 := by
        intro c
        unfold EdgeMarked
        show (EdgeQuiet env prim (s.mesh.setFlag w s.base) m1 k1 i1 ∨
          c ≤ ((s.mesh.setFlag w s.base).point ((s.mesh.tria k1).v (env.inxt2 i1))).flag ∨
          c ≤ ((s.mesh.setFlag w s.base).point ((s.mesh.tria k1).v (env.iprv2 i1))).flag) ↔ _
        rw [hq, setFlag_point_ne _ _ (Ne.symm hend.1), setFlag_point_ne _ _ (Ne.symm hend.2)]
      have hne : (k1, i1) ≠ (k, i) := by
        intro he
        injection he with e1 e2
        subst e1 e2
        rcases hw with h | h
        · exact hend.1 h
        · exact hend.2 h
      have hd : (k1, i1) ∈ done ++ [(k, i)] ↔ (k1, i1) ∈ done := by
        simp [hne]
      refine ⟨fun h => (hmk _).mpr ((hE k1 i1 ha).1 (fun h1 => h (hd.mpr h1))),
        fun h => (hmk _).mpr ((hE k1 i1 ha).2.1 (hd.mp h)), fun _ h0 => ?_⟩
      simp only at h0
      omega

/-- The invariant of the sweep reads the list of the edges gone through on the
edges of the active triangles only. -/
theorem SweepInv_congr (env : Env K) (prim : Prim K) (mesh0 : Mesh K) (b : Int)
    (d1 d2 : List (Nat × Nat)) (s : GradState K)
    (h : ∀ k i, ActiveEdge mesh0 k i → ((k, i) ∈ d1 ↔ (k, i) ∈ d2))
    (hinv : SweepInv env prim mesh0 b d1 s) : SweepInv env prim mesh0 b d2 s := by
  obtain ⟨hg, hb, hnu, hE⟩ := hinv
  refine ⟨hg, hb, hnu, fun k i ha => ⟨fun hd => ?_, fun hd => ?_, fun hd => ?_⟩⟩
  · exact (hE k i ha).1 (fun h1 => hd ((h k i ha).mp h1))
  · exact (hE k i ha).2.1 ((h k i ha).mpr hd)
  · exact (hE k i ha).2.2 ((h k i ha).mpr hd)

theorem gradsiz_edges_inv (env : Env K) (prim : Prim K) (mesh0 : Mesh K) (b : Int)
    (k : Nat) (l : List Nat) (done : List (Nat × Nat)) (s : GradState K)
    (hff : FlagFree env prim) (hloc : RidLocal prim)
    (hinv : SweepInv env prim mesh0 b done s) :
    SweepInv env prim mesh0 b (done ++ l.map (fun i => (k, i)))
      (l.foldl (gradsiz_edge env prim k) s) := by
  induction l generalizing done s with
  | nil => simpa using hinv
  | cons a l ih =>
    rw [List.foldl_cons, List.map_cons]
    have := ih (done ++ [(k, a)]) (gradsiz_edge env prim k s a)
      (gradsiz_edge_inv env prim mesh0 b done s k a hff hloc hinv)
    rw [List.append_assoc, List.singleton_append] at this
    exact this

theorem gradsiz_tria_inv (env : Env K) (prim : Prim K) (mesh0 : Mesh K) (b : Int)
    (k : Nat) (done : List (Nat × Nat)) (s : GradState K)
    (hff : FlagFree env prim) (hloc : RidLocal prim)
    (hinv : SweepInv env prim mesh0 b done s) :
    SweepInv env prim mesh0 b (done ++ [0, 1, 2].map (fun i => (k, i)))
      (gradsiz_tria env prim s k) := by
  unfold gradsiz_tria
  by_cases hok : MG_EOK (s.mesh.tria k) = false
  · rw [if_pos hok]
    refine SweepInv_congr env prim mesh0 b done _ s (fun k1 i1 ha => ?_) hinv
    have hne : k1 ≠ k := by
      intro he
      subst he
      have := ha.2.2.1
      rw [hinv.1.2.2.2.2.1, hok] at this
      exact absurd this (by decide)
    simp [hne]
  · rw [if_neg hok]
    exact gradsiz_edges_inv env prim mesh0 b k _ done s hff hloc hinv

theorem gradsiz_trias_inv (env : Env K) (prim : Prim K) (mesh0 : Mesh K) (b : Int)
    (l : List Nat) (done : List (Nat × Nat)) (s : GradState K)
    (hff : FlagFree env prim) (hloc : RidLocal prim)
    (hinv : SweepInv env prim mesh0 b done s) :
    SweepInv env prim mesh0 b
      (done ++ l.flatMap (fun k => [0, 1, 2].map (fun i => (k, i))))
      (l.foldl (gradsiz_tria env prim) s) := by
  induction l generalizing done s with
  | nil => simpa using hinv
  | cons a l ih =>
    rw [List.foldl_cons, List.flatMap_cons]
    have := ih (done ++ [0, 1, 2].map (fun i => (a, i))) (gradsiz_tria env prim s a)
      (gradsiz_tria_inv env prim mesh0 b a done s hff hloc hinv)
    rw [List.append_assoc] at this
    exact this

/-- A sweep keeps the property that holds between two sweeps, and when it
updates no vertex every edge of an active triangle is at rest. -/
theorem gradsiz_sweep_end (env : Env K) (prim : Prim K) (mesh0 : Mesh K) (s : GradState K)
    (hff : FlagFree env prim) (hloc : RidLocal prim) (hend : SweepEnd env prim mesh0 s) :
    SweepEnd env prim mesh0 (gradsiz_sweep env prim s) ∧
    ((gradsiz_sweep env prim s).nu = 0 → ∀ k i, ActiveEdge mesh0 k i →
      EdgeQuiet env prim (gradsiz_sweep env prim s).mesh (gradsiz_sweep env prim s).m k i) := by
  obtain ⟨hg, hE⟩ := hend
  have hstart : SweepInv env prim mesh0 (s.base + 1) []
      { s with base := s.base + 1, nu := 0 } := by
    refine ⟨hg, rfl, le_refl _, fun k i ha => ⟨fun _ => ?_, fun h => ?_, fun h => ?_⟩⟩
    · have := hE k i ha
      rw [add_sub_cancel_right]
      exact this
    · exact absurd h (List.not_mem_nil _)
    · exact absurd h (List.not_mem_nil _)
  have hfold := gradsiz_trias_inv env prim mesh0 (s.base + 1) (List.range' 1 s.mesh.nt) []
    { s with base := s.base + 1, nu := 0 } hff hloc hstart
  generalize hs1 : (List.range' 1 s.mesh.nt).foldl (gradsiz_tria env prim)
    { s with base := s.base + 1, nu := 0 } = s1 at hfold
  obtain ⟨hg1, hb1, _, hE1⟩ := hfold
  have hmem : ∀ k i, ActiveEdge mesh0 k i →
      (k, i) ∈ [] ++ (List.range' 1 s.mesh.nt).flatMap
        (fun k => [0, 1, 2].map (fun i => (k, i))) := by
    intro k i ha
    obtain ⟨h1, h2, _, h3⟩ := ha
    rw [hg.2.1] at h2
    simp only [List.nil_append, List.mem_flatMap, List.mem_map, List.mem_range'_1]
    refine ⟨k, ⟨h1, by omega⟩, i, ?_, rfl⟩
    have : i = 0 ∨ i = 1 ∨ i = 2 := by omega
    simpa using this
  have hsw : gradsiz_sweep env prim s = { s1 with nup := s1.nup + s1.nu, it := s1.it + 1 } := by
    unfold gradsiz_sweep
    simp only
    rw [hs1]
  rw [hsw]
  refine ⟨⟨hg1, fun k i ha => ?_⟩, fun h0 k i ha => ?_⟩
  · have hm : EdgeMarked env prim s1 s1.base k i := by
      rw [hb1]
      exact (hE1 k i ha).2.1 (hmem k i ha)
    exact hm
  · exact (hE1 k i ha).2.2 (hmem k i ha) h0

theorem gradsiz_iterate_end (env : Env K) (prim : Prim K) (mesh0 : Mesh K) (s : GradState K)
    (hff : FlagFree env prim) (hloc : RidLocal prim) (hend : SweepEnd env prim mesh0 s)
    (n : Nat) : SweepEnd env prim mesh0 ((gradsiz_sweep env prim)^[n] s) := by
  induction n with
  | zero => exact hend
  | succ n ih =>
    rw [Function.iterate_succ_apply']
    exact (gradsiz_sweep_end env prim mesh0 _ hff hloc ih).1

/-- The state left by the pre-pass has the property that holds between two
sweeps: the flags of the endpoints are 0. -/
theorem gradsiz_start_end (env : Env K) (prim : Prim K) (mesh : Mesh K) (m : Nat → Met6 K)
    (hwf : EdgesInMesh env mesh) :
    SweepEnd env prim mesh
      ⟨defsiz_reset mesh, gradsiz_prepass env (defsiz_reset mesh) m, 0, 0, 0, 0⟩ := by
  obtain ⟨hg, hfl⟩ := defsiz_reset_spec mesh
  refine ⟨hg, fun k i ha => Or.inr (Or.inl ?_)⟩
  have hv := (hwf k i ha).1
  show (0 : Int) ≤ ((defsiz_reset mesh).point (((defsiz_reset mesh).tria k).v (env.inxt2 i))).flag
  rw [← hg.2.2.2.2.1, hfl, if_pos hv]

/-- When the last sweep of `gradsiz_ani` has updated no vertex, `grad2met`
returns -1 on every edge of every active triangle for the final metric array. -/
theorem gradsiz_run_quiet (env : Env K) (prim : Prim K) (mesh : Mesh K) (m : Nat → Met6 K)
    (hff : FlagFree env prim) (hloc : RidLocal prim) (hwf : EdgesInMesh env mesh)
    (h0 : (gradsiz_run env prim mesh m).nu = 0) (k i : Nat) (ha : ActiveEdge mesh k i) :
    EdgeQuiet env prim (gradsiz_run env prim mesh m).mesh (gradsiz_run env prim mesh m).m k i := by
  obtain ⟨n, h1, _, e, _, _⟩ := gradsiz_loop_spec env prim 100 100
    ⟨defsiz_reset mesh, gradsiz_prepass env (defsiz_reset mesh) m, 0, 0, 0, 0⟩ (by norm_num)
    (by norm_num)
  have e1 : gradsiz_run env prim mesh m = (gradsiz_sweep env prim)^[n]
      ⟨defsiz_reset mesh, gradsiz_prepass env (defsiz_reset mesh) m, 0, 0, 0, 0⟩ := e
  obtain ⟨j, rfl⟩ : ∃ j, n = j + 1 := ⟨n - 1, by omega⟩
  rw [Function.iterate_succ_apply'] at e1
  have hend := gradsiz_iterate_end env prim mesh _ hff hloc
    (gradsiz_start_end env prim mesh m hwf) j
  rw [e1] at h0 ⊢
  exact (gradsiz_sweep_end env prim mesh _ hff hloc hend).2 h0 k i ha

theorem fanPrim_flagFree : FlagFree fanEnv fanPrim := fun _ _ _ => ⟨rfl, rfl, rfl⟩

theorem fanPrim_ridLocal : RidLocal fanPrim := by
  intro me m1 m2 np ux uy uz h
  unfold fanPrim
  simp only [h]

theorem flatFan_edges : EdgesInMesh fanEnv (flatFan 0 noTag) := by
  intro k i ha
  obtain ⟨h1, h2, _, h3⟩ := ha
  have hk : k ≤ 4 := h2
  interval_cases k <;> interval_cases i <;> decide

end Lemmas2

/-! ### Lemmas on the evaluators, the traversals and the invariants of the gradation -/

section Lemmas3

variable {K : Type} [LinearOrderedField K]

theorem lenedg_form_eq (a : Met6 K) (g : Vec3 K) : lenedg_form a g = a.quad g := by
  unfold lenedg_form Met6.quad Met6.apply Vec3.dot
  ring

theorem lenedg_normal0_eq (env : Env K) (mesh : Mesh K) (p : Point K) (u : Vec3 K) :
    lenedg_normal0 env mesh p u.x u.y u.z =
      (selectedNormal env mesh p u, u.dot (selectedNormal env mesh p u)) := by
  unfold lenedg_normal0 selectedNormal Vec3.dot
  by_cases hg : hasBit p.tag env.MG_GEO = true
  · simp only [hg, if_true]
    by_cases hc : |u.x * (mesh.xpoint p.ig).n2.x + u.y * (mesh.xpoint p.ig).n2.y +
        u.z * (mesh.xpoint p.ig).n2.z| < |u.x * (mesh.xpoint p.ig).n1.x +
        u.y * (mesh.xpoint p.ig).n1.y + u.z * (mesh.xpoint p.ig).n1.z|
    · simp only [hc, if_true]
    · simp only [hc, if_false]
  · simp only [hg, if_false, Bool.false_eq_true]
    by_cases hr : hasBit p.tag env.MG_REF = true
    · simp only [hr, if_true]
    · simp only [hr, if_false, Bool.false_eq_true]

theorem lenedg_gamma0_eq (env : Env K) (mesh : Mesh K) (p : Point K) (isedg : Bool)
    (u : Vec3 K) :
    lenedg_gamma0 env mesh p isedg u.x u.y u.z = edgeTangentAt env mesh p isedg u := by
  unfold lenedg_gamma0 edgeTangentAt
  rw [lenedg_normal0_eq]
  by_cases hs : env.MS_SIN p.tag = true
  · simp only [hs, if_true]
  · simp only [hs, if_false, Bool.false_eq_true]
    by_cases he : isedg = true
    · simp only [he, if_true]
      unfold Vec3.smul Vec3.dot
      rfl
    · simp only [he, if_false, Bool.false_eq_true]
      unfold Vec3.sub Vec3.smul
      rfl

theorem lenedg_normal1_eq (env : Env K) (mesh : Mesh K) (p : Point K) (ux uy uz : K) :
    lenedg_normal1 env mesh p ux uy uz =
      (selectedNormal env mesh p ⟨-ux, -uy, -uz⟩,
        (⟨-ux, -uy, -uz⟩ : Vec3 K).dot (selectedNormal env mesh p ⟨-ux, -uy, -uz⟩)) := by
  have e : ∀ n : Vec3 K, -ux * n.x - uy * n.y - uz * n.z = -ux * n.x + -uy * n.y + -uz * n.z := by
    intro n
    ring
  unfold lenedg_normal1 selectedNormal Vec3.dot
  simp only [e]
  by_cases hg : hasBit p.tag env.MG_GEO = true
  · simp only [hg, if_true]
    by_cases hc : |-ux * (mesh.xpoint p.ig).n2.x + -uy * (mesh.xpoint p.ig).n2.y +
        -uz * (mesh.xpoint p.ig).n2.z| < |-ux * (mesh.xpoint p.ig).n1.x +
        -uy * (mesh.xpoint p.ig).n1.y + -uz * (mesh.xpoint p.ig).n1.z|
    · simp only [hc, if_true]
    · simp only [hc, if_false]
  · simp only [hg, if_false, Bool.false_eq_true]
    by_cases hr : hasBit p.tag env.MG_REF = true
    · simp only [hr, if_true]
    · simp only [hr, if_false, Bool.false_eq_true]

theorem lenedg_gamma1_eq (env : Env K) (mesh : Mesh K) (p : Point K) (isedg : Bool)
    (ux uy uz : K) :
    lenedg_gamma1 env mesh p isedg ux uy uz = edgeTangentAt env mesh p isedg ⟨-ux, -uy, -uz⟩ := by
  unfold lenedg_gamma1 edgeTangentAt
  rw [lenedg_normal1_eq]
  by_cases hs : env.MS_SIN p.tag = true
  · simp only [hs, if_true]
  · simp only [hs, if_false, Bool.false_eq_true]
    by_cases he : isedg = true
    · simp only [he, if_true]
      unfold Vec3.smul Vec3.dot
      simp only [Vec3.mk.injEq]
      refine ⟨?_, ?_, ?_⟩ <;> ring
    · simp only [he, if_false, Bool.false_eq_true]
      unfold Vec3.sub Vec3.smul
      rfl

omit [LinearOrderedField K] in
theorem lenedg_met_eq (env : Env K) (prim : Prim K) (mesh : Mesh K) (m : Nat → Met6 K)
    (np : Nat) (ux uy uz : K) :
    lenedg_met env prim mesh m np ux uy uz = endTensor env prim mesh m np ⟨ux, uy, uz⟩ := by
  unfold lenedg_met endTensor
  by_cases hs : env.MS_SIN (mesh.point np).tag = true
  · simp [hs]
  · by_cases hg : hasBit (mesh.point np).tag env.MG_GEO = true
    · simp [hs, hg]
    · simp [hs, hg]

theorem chord_neg (mesh : Mesh K) (np0 np1 : Nat) :
    (⟨-((mesh.point np1).c.x - (mesh.point np0).c.x), -((mesh.point np1).c.y - (mesh.point np0).c.y),
      -((mesh.point np1).c.z - (mesh.point np0).c.z)⟩ : Vec3 K) = chord mesh np1 np0 := by
  unfold chord Vec3.sub
  simp only [Vec3.mk.injEq]
  refine ⟨?_, ?_, ?_⟩ <;> ring

theorem lenedg_ani_eq (env : Env K) (prim : Prim K) (mesh : Mesh K) (m : Nat → Met6 K)
    (np0 np1 : Nat) (isedg : Bool) :
    lenedg_ani env prim mesh m np0 np1 isedg =
      match endTensor env prim mesh m np0 (chord mesh np0 np1) with
      | none => -1
      | some M0 =>
        match endTensor env prim mesh m np1 (chord mesh np0 np1) with
        | none => -1
        | some M1 =>
          1 / 2 * (env.sqrt (guardedForm (M0.quad
              (edgeTangentAt env mesh (mesh.point np0) isedg (chord mesh np0 np1)))) +
            env.sqrt (guardedForm (M1.quad
              (edgeTangentAt env mesh (mesh.point np1) isedg (chord mesh np1 np0))))) := by
  unfold lenedg_ani
  simp only [lenedg_met_eq, lenedg_form_eq, lenedg_gamma1_eq, chord_neg]
  have hu := lenedg_gamma0_eq env mesh (mesh.point np0) isedg (chord mesh np0 np1)
  have hc : chord mesh np0 np1 = ⟨(mesh.point np1).c.x - (mesh.point np0).c.x,
    (mesh.point np1).c.y - (mesh.point np0).c.y, (mesh.point np1).c.z - (mesh.point np0).c.z⟩ := rfl
  rw [hc] at hu ⊢
  simp only at hu
  rw [hu]
  rfl
theorem surftri_dens_det (a : Met6 K) (c : Vec3 K × Vec3 K) :
    surftri_dens a c = density a (colMatrix c) := by
  unfold surftri_dens density colMatrix Met6.toMatrix
  rw [Matrix.det_fin_two]
  simp only [Matrix.mul_apply, Matrix.transpose_apply, Fin.sum_univ_three, Fin.sum_univ_two,
    Matrix.of_apply, Matrix.cons_val', Matrix.cons_val_zero, Matrix.cons_val_one,
    Matrix.head_cons, Matrix.empty_val', Matrix.cons_val_fin_one, Matrix.cons_val_two,
    Matrix.tail_cons, Matrix.head_fin_const]
  ring

theorem surftri_J_eq (b : Nat → Vec3 K) (i : Nat) :
    colMatrix (surftri_J b i) = cornerJacobian b i := by
  unfold surftri_J cornerJacobian bez3 Vec3.smul Vec3.sub
  by_cases h0 : i = 0
  · simp only [h0, if_true]
  · by_cases h1 : i = 1
    · simp only [h1, if_true, one_ne_zero, if_false]
    · simp only [h0, h1, if_false]

theorem surftri_ani_eq (env : Env K) (prim : Prim K) (mesh : Mesh K) (m : Nat → Met6 K)
    (ptt : Tria) (b : Nat → Vec3 K) (M0 M1 M2 : Met6 K)
    (hb : env.bezierCP mesh ptt = some b)
    (h0 : surftri_met env prim mesh m ptt 0 = some M0)
    (h1 : surftri_met env prim mesh m ptt 1 = some M1)
    (h2 : surftri_met env prim mesh m ptt 2 = some M2) :
    surftri_ani env prim mesh m ptt =
      prim.ATHIRD * (env.sqrt |density M0 (cornerJacobian b 0)| +
        env.sqrt |density M1 (cornerJacobian b 1)| +
        env.sqrt |density M2 (cornerJacobian b 2)|) := by
  unfold surftri_ani
  simp only [hb, h0, h1, h2, surftri_dens_det, surftri_J_eq]
  ring

theorem surftri_ani_fail (env : Env K) (prim : Prim K) (mesh : Mesh K) (m : Nat → Met6 K)
    (ptt : Tria) :
    (env.bezierCP mesh ptt = none → surftri_ani env prim mesh m ptt = 0) ∧
    (∀ i, i < 3 → surftri_met env prim mesh m ptt i = none →
      surftri_ani env prim mesh m ptt = 0) := by
  constructor
  · intro h
    unfold surftri_ani
    simp only [h]
  · intro i hi h
    unfold surftri_ani
    cases hb : env.bezierCP mesh ptt with
    | none => rfl
    | some b =>
      simp only
      cases h0 : surftri_met env prim mesh m ptt 0 with
      | none => rfl
      | some M0 =>
        simp only
        cases h1 : surftri_met env prim mesh m ptt 1 with
        | none => rfl
        | some M1 =>
          simp only
          cases h2 : surftri_met env prim mesh m ptt 2 with
          | none => rfl
          | some M2 =>
            exfalso
            interval_cases i
            · rw [h0] at h; cases h
            · rw [h1] at h; cases h
            · rw [h2] at h; cases h

theorem surftri_ani_nonneg (env : Env K) (prim : Prim K) (mesh : Mesh K) (m : Nat → Met6 K)
    (ptt : Tria) (hs : ∀ x, 0 ≤ env.sqrt x) (hA : 0 ≤ prim.ATHIRD) :
    0 ≤ surftri_ani env prim mesh m ptt := by
  unfold surftri_ani
  cases env.bezierCP mesh ptt with
  | none => exact le_refl _
  | some b =>
    simp only
    cases surftri_met env prim mesh m ptt 0 with
    | none => exact le_refl _
    | some M0 =>
      simp only
      cases surftri_met env prim mesh m ptt 1 with
      | none => exact le_refl _
      | some M1 =>
        simp only
        cases surftri_met env prim mesh m ptt 2 with
        | none => exact le_refl _
        | some M2 =>
          simp only
          have a0 := hs |surftri_dens M0 (surftri_J b 0)|
          have a1 := hs |surftri_dens M1 (surftri_J b 1)|
          have a2 := hs |surftri_dens M2 (surftri_J b 2)|
          exact mul_nonneg (by linarith) hA

theorem surftri_met_identity (env : Env K) (prim : Prim K) (mesh : Mesh K) (m : Nat → Met6 K)
    (ptt : Tria) (i : Nat) (h : IdentityCorner env mesh m ptt i) :
    surftri_met env prim mesh m ptt i = some ⟨1, 0, 0, 1, 0, 1⟩ := by
  obtain ⟨ht, hm⟩ := h
  unfold surftri_met
  simp only [hm]
  rcases ht with hs | hg
  · simp only [hs, if_true]
  · by_cases hs : env.MS_SIN (mesh.point (ptt.v i)).tag = true
    · simp only [hs, if_true]
    · simp only [hs, hg, if_false, Bool.false_eq_true]

theorem normSq_nonneg (a : Vec3 K) : 0 ≤ a.normSq := by
  unfold Vec3.normSq Vec3.dot
  nlinarith [mul_self_nonneg a.x, mul_self_nonneg a.y, mul_self_nonneg a.z]

theorem surftri_dens_flat (mesh : Mesh K) (ptt : Tria) (b : Nat → Vec3 K)
    (hf : FlatPatch mesh ptt b) (i : Nat) :
    surftri_dens ⟨1, 0, 0, 1, 0, 1⟩ (surftri_J b i) =
      (((mesh.point (ptt.v 1)).c.sub (mesh.point (ptt.v 0)).c).cross
        ((mesh.point (ptt.v 2)).c.sub (mesh.point (ptt.v 0)).c)).normSq := by
  obtain ⟨h0, h1, h2, h3, h4, h5, h6, h7, h8⟩ := hf
  unfold surftri_J
  by_cases i0 : i = 0
  · simp only [i0, if_true, h0, h6, h7]
    unfold surftri_dens bez3 Vec3.lerp Vec3.normSq Vec3.dot Vec3.cross Vec3.sub
    ring
  · by_cases i1 : i = 1
    · simp only [i1, if_true, one_ne_zero, if_false, h1, h8, h3]
      unfold surftri_dens bez3 Vec3.lerp Vec3.normSq Vec3.dot Vec3.cross Vec3.sub
      ring
    · simp only [i0, i1, if_false, h2, h4, h5]
      unfold surftri_dens bez3 Vec3.lerp Vec3.normSq Vec3.dot Vec3.cross Vec3.sub
      ring

theorem surftri_flat_identity (env : Env K) (prim : Prim K) (mesh : Mesh K)
    (m : Nat → Met6 K) (ptt : Tria) (b : Nat → Vec3 K)
    (hb : env.bezierCP mesh ptt = some b) (hf : FlatPatch mesh ptt b)
    (hc : ∀ i, i < 3 → IdentityCorner env mesh m ptt i) :
    surftri_ani env prim mesh m ptt = 3 * prim.ATHIRD * (2 * euclidArea env mesh ptt) := by
  have hX := normSq_nonneg (((mesh.point (ptt.v 1)).c.sub (mesh.point (ptt.v 0)).c).cross
    ((mesh.point (ptt.v 2)).c.sub (mesh.point (ptt.v 0)).c))
  unfold surftri_ani euclidArea
  simp only [hb, surftri_met_identity env prim mesh m ptt 0 (hc 0 (by norm_num)),
    surftri_met_identity env prim mesh m ptt 1 (hc 1 (by norm_num)),
    surftri_met_identity env prim mesh m ptt 2 (hc 2 (by norm_num)),
    surftri_dens_flat mesh ptt b hf, abs_of_nonneg hX]
  ring

/-- The length `l` of line 1279 is the square root of the squared chord. -/
theorem grad2met_ends_l (env : Env K) (prim : Prim K) (mesh : Mesh K) (m : Nat → Met6 K)
    (iel i : Nat) (g : GradEdge K) (h : grad2met_ends env prim mesh m iel i = some g) :
    g.l = env.sqrt
      (((mesh.point ((mesh.tria iel).v (env.iprv2 i))).c.x -
          (mesh.point ((mesh.tria iel).v (env.inxt2 i))).c.x) *
        ((mesh.point ((mesh.tria iel).v (env.iprv2 i))).c.x -
          (mesh.point ((mesh.tria iel).v (env.inxt2 i))).c.x) +
       ((mesh.point ((mesh.tria iel).v (env.iprv2 i))).c.y -
          (mesh.point ((mesh.tria iel).v (env.inxt2 i))).c.y) *
        ((mesh.point ((mesh.tria iel).v (env.iprv2 i))).c.y -
          (mesh.point ((mesh.tria iel).v (env.inxt2 i))).c.y) +
       ((mesh.point ((mesh.tria iel).v (env.iprv2 i))).c.z -
          (mesh.point ((mesh.tria iel).v (env.inxt2 i))).c.z) *
        ((mesh.point ((mesh.tria iel).v (env.iprv2 i))).c.z -
          (mesh.point ((mesh.tria iel).v (env.inxt2 i))).c.z)) := by
  unfold grad2met_ends at h
  simp only at h
  split_ifs at h with h0
  split at h
  · exact absurd h (by simp)
  · split at h
    · exact absurd h (by simp)
    · split at h
      · exact absurd h (by simp)
      · split at h
        · exact absurd h (by simp)
        · injection h with h
          subst h
          rfl

/-- The endpoint that `grad2met` updates has the strictly smaller speed. -/
theorem GradUpdated_smaller (env : Env K) (prim : Prim K) (mesh : Mesh K) (m : Nat → Met6 K)
    (iel i : Nat) (g : GradEdge K) (np : Nat) (r : Mat3 K) (e : GradEnd K) (alpha : K)
    (code : Int) (hg : grad2met_ends env prim mesh m iel i = some g)
    (hu : GradUpdated env mesh iel i g np r e alpha code) (hlt : e.ps < alpha - prim.EPS)
    (hE : 0 ≤ prim.EPS) (hh : 0 ≤ mesh.info.hgrad) (hs0 : ∀ x, 0 ≤ env.sqrt x) :
    e.ps < (if g.e2.ps > g.e1.ps then g.e2.ps else g.e1.ps) := by
  rcases hu with ⟨h1, _, _, he, _, _⟩ | ⟨h1, _, _, he, ha, _⟩
  · rw [if_pos h1, he]
    exact h1
  · rw [if_neg h1]
    obtain ⟨_, n1, m1, n2, m2, _, _, _, _, ⟨c1, hc1⟩, _⟩ :=
      grad2met_ends_some env prim mesh m iel i g hg
    have hp := grad2met_end_ps_nonneg env prim g.r1 m1 c1 g.e1 hs0 hc1
    have hl : 0 ≤ g.l := by
      rw [grad2met_ends_l env prim mesh m iel i g hg]
      exact hs0 _
    have := grad2met_alpha_le mesh.info g.l g.e1.ps hp (mul_nonneg hh hl)
    rw [ha] at hlt
    linarith

omit [LinearOrderedField K] in
theorem Met6.get_set (a : Met6 K) (j : Nat) (x : K) (hj : j < 3) : (a.set j x).get j = x := by
  interval_cases j <;> rfl

/-- The entry written by `grad2met` at a singular or ridge endpoint differs from
the entry read when the increment is not null. -/
theorem grad2met_update_ne (env : Env K) (prim : Prim K) (p : Point K) (mm : Met6 K)
    (r : Mat3 K) (e : GradEnd K) (alpha : K) (hb : 0 < gradBeta prim e alpha)
    (ht : env.MS_SIN p.tag = true ∨ hasBit p.tag env.MG_GEO = true) :
    grad2met_update env prim p mm r e alpha ≠ mm := by
  unfold grad2met_update
  by_cases hs : env.MS_SIN p.tag = true
  · simp only [hs, if_true]
    intro h
    have h0 := congrArg Met6.m0 h
    simp only at h0
    have : grad2met_beta (prim.eigensym e.mtan).2 e.t0 e.t1 e.ps alpha = gradBeta prim e alpha :=
      rfl
    rw [this] at h0
    linarith
  · have hg : hasBit p.tag env.MG_GEO = true := ht.resolve_left hs
    simp only [hs, hg, if_true, if_false, Bool.false_eq_true]
    obtain ⟨j, hj, hr⟩ := grad2met_ridge_one mm
      (if grad2met_ichg (prim.eigensym e.mtan).2 e.t0 e.t1 = 0 then (prim.eigensym e.mtan).1.1
        else (prim.eigensym e.mtan).1.2)
      (grad2met_beta (prim.eigensym e.mtan).2 e.t0 e.t1 e.ps alpha)
    rw [hr]
    intro h
    have h0 := congrArg (fun a => Met6.get a j) h
    simp only [Met6.get_set _ _ _ hj] at h0
    have : grad2met_beta (prim.eigensym e.mtan).2 e.t0 e.t1 e.ps alpha = gradBeta prim e alpha :=
      rfl
    rw [this] at h0
    linarith

/-- On an edge at rest the body of the inner loop of `gradsiz_ani` changes
nothing. -/
theorem gradsiz_edge_quiet (env : Env K) (prim : Prim K) (k : Nat) (s : GradState K) (i : Nat)
    (h : EdgeQuiet env prim s.mesh s.m k i) : gradsiz_edge env prim k s i = s := by
  unfold gradsiz_edge
  simp only
  split_ifs with h1 h2 h3
  · rfl
  · exfalso
    unfold EdgeQuiet at h
    rw [h] at h2
    omega
  · exfalso
    unfold EdgeQuiet at h
    rw [h] at h3
    omega
  · have := grad2met_minus_one env prim s.mesh s.m k i h
    rw [this]

/-- When every edge of every active triangle is at rest, a sweep changes
neither the mesh nor the metric array and updates no vertex. -/
theorem gradsiz_sweep_quiet (env : Env K) (prim : Prim K) (s : GradState K)
    (h : ∀ k i, ActiveEdge s.mesh k i → EdgeQuiet env prim s.mesh s.m k i) :
    gradsiz_sweep env prim s =
      { s with base := s.base + 1, nu := 0, nup := s.nup + 0, it := s.it + 1 } := by
  have key : ∀ (l : List Nat) (s0 : GradState K), s0.mesh = s.mesh → s0.m = s.m →
      (∀ k ∈ l, 1 ≤ k ∧ k ≤ s.mesh.nt) → l.foldl (gradsiz_tria env prim) s0 = s0 := by
    intro l
    induction l with
    | nil => intro s0 _ _ _; rfl
    | cons k l ih =>
      intro s0 hm hmm hl
      rw [List.foldl_cons]
      have hk := hl k (List.mem_cons_self _ _)
      have e : gradsiz_tria env prim s0 k = s0 := by
        unfold gradsiz_tria
        by_cases hok : MG_EOK (s0.mesh.tria k) = false
        · rw [if_pos hok]
        · rw [if_neg hok]
          have hok1 : MG_EOK (s.mesh.tria k) = true := by
            rw [← hm]
            simpa using hok
          have q : ∀ i, i < 3 → gradsiz_edge env prim k s0 i = s0 := by
            intro i hi
            apply gradsiz_edge_quiet
            rw [hm, hmm]
            exact h k i ⟨hk.1, hk.2, hok1, hi⟩
          simp only [List.foldl_cons, List.foldl_nil]
          rw [q 0 (by norm_num), q 1 (by norm_num), q 2 (by norm_num)]
      rw [e]
      exact ih s0 hm hmm (fun j hj => hl j (List.mem_cons_of_mem _ hj))
  unfold gradsiz_sweep
  simp only
  rw [key (List.range' 1 s.mesh.nt) { s with base := s.base + 1, nu := 0 } rfl rfl
    (fun k hk => by
      rw [List.mem_range'_1] at hk
      omega)]

/-- The mesh of the final state of `gradsiz_ani` differs from the mesh on entry
by its flags only. -/
theorem gradsiz_run_geom (env : Env K) (prim : Prim K) (mesh : Mesh K) (m : Nat → Met6 K) :
    SameGeom mesh (gradsiz_run env prim mesh m).mesh := by
  have edge : ∀ k (s : GradState K) i, SameGeom s.mesh (gradsiz_edge env prim k s i).mesh := by
    intro k s i
    unfold gradsiz_edge
    simp only
    split_ifs
    · exact SameGeom.refl _
    · exact SameGeom_setFlag _ _ _
    · exact SameGeom_setFlag _ _ _
    · exact SameGeom.refl _
  have edges : ∀ k (l : List Nat) (s : GradState K),
      SameGeom s.mesh (l.foldl (gradsiz_edge env prim k) s).mesh := by
    intro k l
    induction l with
    | nil => intro s; exact SameGeom.refl _
    | cons i l ih =>
      intro s
      rw [List.foldl_cons]
      exact SameGeom.trans (edge k s i) (ih _)
  have tria : ∀ (s : GradState K) k, SameGeom s.mesh (gradsiz_tria env prim s k).mesh := by
    intro s k
    unfold gradsiz_tria
    split_ifs
    · exact SameGeom.refl _
    · exact edges k _ s
  have trias : ∀ (l : List Nat) (s : GradState K),
      SameGeom s.mesh (l.foldl (gradsiz_tria env prim) s).mesh := by
    intro l
    induction l with
    | nil => intro s; exact SameGeom.refl _
    | cons i l ih =>
      intro s
      rw [List.foldl_cons]
      exact SameGeom.trans (tria s i) (ih _)
  have sweep : ∀ s : GradState K, SameGeom s.mesh (gradsiz_sweep env prim s).mesh := by
    intro s
    exact trias (List.range' 1 s.mesh.nt) { s with base := s.base + 1, nu := 0 }
  have loop : ∀ (fuel : Nat) (s : GradState K),
      SameGeom s.mesh (gradsiz_loop env prim 100 fuel s).mesh := by
    intro fuel
    induction fuel with
    | zero => intro s; exact SameGeom.refl _
    | succ n ih =>
      intro s
      rw [gradsiz_loop]
      split_ifs
      · exact SameGeom.trans (sweep s) (ih _)
      · exact sweep s
  exact SameGeom.trans (foldl_setFlag (List.range' 1 mesh.np) 0 mesh).1
    (loop 100 ⟨(List.range' 1 mesh.np).foldl (fun me k => me.setFlag k 0) mesh,
      gradsiz_prepass env ((List.range' 1 mesh.np).foldl (fun me k => me.setFlag k 0) mesh) m,
      0, 0, 0, 0⟩)

/-- A fold whose step keeps a record beside a state in `Except` computes, on the
state, the monadic fold of the step on states. -/
theorem traced_fold_snd {σ α β : Type} (f : σ → α → Except Fatal σ)
    (G : List β × Except Fatal σ → α → List β × Except Fatal σ)
    (hG : ∀ acc a, (G acc a).2 = acc.2.bind (fun s => f s a))
    (l : List α) (acc : List β × Except Fatal σ) :
    (l.foldl G acc).2 = acc.2.bind (fun s => l.foldlM f s) := by
  induction l generalizing acc with
  | nil =>
    rw [List.foldl_nil]
    cases h : acc.2 with
    | error e => rfl
    | ok s => rfl
  | cons a l ih =>
    rw [List.foldl_cons, ih, hG]
    cases h : acc.2 with
    | error e => rfl
    | ok s =>
      simp only [List.foldlM_cons]
      cases f s a with
      | error e => rfl
      | ok s1 => rfl

/-- An invariant kept by the step on the elements of the list is kept by the
fold. -/
theorem fold_inv {A α : Type} (G : A → α → A) (P : A → Prop) (l : List α)
    (hG : ∀ acc a, a ∈ l → P acc → P (G acc a)) (acc : A) (h : P acc) : P (l.foldl G acc) := by
  induction l generalizing acc with
  | nil => exact h
  | cons a l ih =>
    rw [List.foldl_cons]
    exact ih (fun acc b hb hp => hG acc b (List.mem_cons_of_mem _ hb) hp) _
      (hG acc a (List.mem_cons_self _ _) h)

theorem defsiz_vertex_traced_snd (env : Env K) (f g : Estimator K) (n0 : Vec3 K)
    (ismet : Bool) (k : Nat) (acc : List (SizCall K) × Except Fatal (SizState K)) (i : Nat) :
    (defsiz_vertex_traced env f g n0 ismet k acc i).2 =
      acc.2.bind (fun s => defsiz_vertex env f g n0 ismet k i s) := by
  unfold defsiz_vertex_traced
  cases h : acc.2 with
  | error e =>
    simp only [h]
    rfl
  | ok s => rfl

theorem defsiz_tria_traced_snd (env : Env K) (f g : Estimator K) (n0 : Vec3 K)
    (ismet : Bool) (acc : List (SizCall K) × Except Fatal (SizState K)) (k : Nat) :
    (defsiz_tria_traced env f g n0 ismet acc k).2 =
      acc.2.bind (fun s => defsiz_tria env f g n0 ismet s k) := by
  unfold defsiz_tria_traced
  cases h : acc.2 with
  | error e =>
    simp only [h]
    rfl
  | ok s =>
    simp only
    show _ = defsiz_tria env f g n0 ismet s k
    unfold defsiz_tria
    by_cases hc : (!MG_EOK (s.mesh.tria k) || decide ((s.mesh.tria k).ref < 0)) = true
    · simp only [hc, if_true, h]
    · simp only [hc, if_false, Bool.false_eq_true]
      rw [traced_fold_snd (fun s i => defsiz_vertex env f g n0 ismet k i s) _
        (defsiz_vertex_traced_snd env f g n0 ismet k), h]
      rfl

/-- The first pass with the record of the calls computes the first pass. -/
theorem defsiz_pass1_traced_snd (env : Env K) (f g : Estimator K) (n0 : Vec3 K)
    (ismet : Bool) (s : SizState K) :
    (defsiz_pass1_traced env f g n0 ismet s).2 = defsiz_pass1 env f g n0 ismet s := by
  unfold defsiz_pass1_traced defsiz_pass1
  rw [traced_fold_snd (defsiz_tria env f g n0 ismet) _ (defsiz_tria_traced_snd env f g n0 ismet)]
  rfl

theorem defsiz_vertex_traced_inv (env : Env K) (f g : Estimator K) (n0 : Vec3 K)
    (ismet : Bool) (s0 : SizState K) (k : Nat)
    (acc : List (SizCall K) × Except Fatal (SizState K)) (i : Nat)
    (hk : 1 ≤ k ∧ k ≤ s0.mesh.nt ∧ MG_EOK (s0.mesh.tria k) = true ∧ 0 ≤ (s0.mesh.tria k).ref)
    (hi : i < 3) (h : SizTraceInv env s0 acc) :
    SizTraceInv env s0 (defsiz_vertex_traced env f g n0 ismet k acc i) := by
  unfold defsiz_vertex_traced
  cases hacc : acc.2 with
  | error e => exact h
  | ok s =>
    obtain ⟨hl, hst⟩ := h
    have hinv := hst s hacc
    refine ⟨fun c hc => ?_, fun s1 hs1 => defsiz_vertex_inv env f g n0 ismet k i s0 s s1 hinv hs1⟩
    rcases List.mem_append.mp hc with hc | hc
    · exact hl c hc
    · have hc1 : c = ⟨k, i, s.mesh.info.hmax⟩ := by
        unfold defsiz_vertex_calls at hc
        simp only at hc
        split_ifs at hc
        · exact absurd hc (List.not_mem_nil _)
        · exact List.mem_singleton.mp hc
        · exact List.mem_singleton.mp hc
        · exact absurd hc (List.not_mem_nil _)
      rw [hc1]
      exact ⟨hk.1, hk.2.1, hi, hk.2.2.1, hk.2.2.2, by rw [hinv.1.2.2.2.1]⟩

theorem defsiz_tria_traced_inv (env : Env K) (f g : Estimator K) (n0 : Vec3 K)
    (ismet : Bool) (s0 : SizState K) (acc : List (SizCall K) × Except Fatal (SizState K))
    (k : Nat) (hk : 1 ≤ k ∧ k ≤ s0.mesh.nt) (h : SizTraceInv env s0 acc) :
    SizTraceInv env s0 (defsiz_tria_traced env f g n0 ismet acc k) := by
  unfold defsiz_tria_traced
  cases hacc : acc.2 with
  | error e => exact h
  | ok s =>
    simp only
    by_cases hc : (!MG_EOK (s.mesh.tria k) || decide ((s.mesh.tria k).ref < 0)) = true
    · rw [if_pos hc]
      exact h
    · rw [if_neg hc]
      have hg := (h.2 s hacc).1
      have hc1 : MG_EOK (s0.mesh.tria k) = true ∧ 0 ≤ (s0.mesh.tria k).ref := by
        rw [hg.2.2.2.2.1]
        simp only [Bool.or_eq_true, Bool.not_eq_true', decide_eq_true_eq, not_or,
          Bool.not_eq_false, not_lt] at hc
        exact hc
      exact fold_inv _ (SizTraceInv env s0) [0, 1, 2]
        (fun a i hi ha => defsiz_vertex_traced_inv env f g n0 ismet s0 k a i
          ⟨hk.1, hk.2, hc1.1, hc1.2⟩ (by
            simp only [List.mem_cons, List.mem_singleton, List.not_mem_nil, or_false] at hi
            omega) ha) acc h

/-- The record of the first pass satisfies its invariant. -/
theorem defsiz_pass1_traced_inv (env : Env K) (f g : Estimator K) (n0 : Vec3 K)
    (ismet : Bool) (s : SizState K) :
    SizTraceInv env s (defsiz_pass1_traced env f g n0 ismet s) := by
  unfold defsiz_pass1_traced
  refine fold_inv _ (SizTraceInv env s) _ (fun a k hk ha =>
    defsiz_tria_traced_inv env f g n0 ismet s a k (by
      rw [List.mem_range'_1] at hk
      omega) ha) _ ⟨fun c hc => absurd hc (List.not_mem_nil _), fun s1 hs1 => ?_⟩
  injection hs1 with hs1
  rw [← hs1]
  exact Pass1Inv_init env s

theorem gradsiz_edge_traced_inv (env : Env K) (prim : Prim K) (mesh0 : Mesh K) (k : Nat)
    (acc : List (Nat × Nat) × GradState K) (i : Nat)
    (hk : 1 ≤ k ∧ k ≤ mesh0.nt ∧ MG_EOK (mesh0.tria k) = true) (hi : i < 3)
    (h : GradTraceInv mesh0 acc) : GradTraceInv mesh0 (gradsiz_edge_traced env prim k acc i) := by
  obtain ⟨hl, hg⟩ := h
  unfold gradsiz_edge_traced
  refine ⟨fun c hc => ?_, ?_⟩
  · rcases List.mem_append.mp hc with hc | hc
    · exact hl c hc
    · have hc1 : c = (k, i) := by
        unfold gradsiz_edge_calls at hc
        simp only at hc
        split_ifs at hc
        · exact absurd hc (List.not_mem_nil _)
        · exact List.mem_singleton.mp hc
      rw [hc1]
      exact ⟨hk.1, hk.2.1, hi, hk.2.2⟩
  · show SameGeom mesh0 (gradsiz_edge env prim k acc.2 i).mesh
    unfold gradsiz_edge
    simp only
    split_ifs
    · exact hg
    · exact SameGeom.trans hg (SameGeom_setFlag _ _ _)
    · exact SameGeom.trans hg (SameGeom_setFlag _ _ _)
    · exact hg

theorem gradsiz_tria_traced_inv (env : Env K) (prim : Prim K) (mesh0 : Mesh K)
    (acc : List (Nat × Nat) × GradState K) (k : Nat) (hk : 1 ≤ k ∧ k ≤ mesh0.nt)
    (h : GradTraceInv mesh0 acc) : GradTraceInv mesh0 (gradsiz_tria_traced env prim acc k) := by
  unfold gradsiz_tria_traced
  by_cases hc : MG_EOK (acc.2.mesh.tria k) = false
  · rw [if_pos hc]
    exact h
  · rw [if_neg hc]
    have hok : MG_EOK (mesh0.tria k) = true := by
      rw [h.2.2.2.2.2.1]
      simpa using hc
    exact fold_inv _ (GradTraceInv mesh0) [0, 1, 2]
      (fun a i hi ha => gradsiz_edge_traced_inv env prim mesh0 k a i ⟨hk.1, hk.2, hok⟩ (by
        simp only [List.mem_cons, List.mem_singleton, List.not_mem_nil, or_false] at hi
        omega) ha) acc h

theorem gradsiz_sweep_traced_inv (env : Env K) (prim : Prim K) (mesh0 : Mesh K)
    (acc : List (Nat × Nat) × GradState K) (h : GradTraceInv mesh0 acc) :
    GradTraceInv mesh0 (gradsiz_sweep_traced env prim acc) := by
  have hf := fold_inv (gradsiz_tria_traced env prim) (GradTraceInv mesh0)
    (List.range' 1 acc.2.mesh.nt)
    (fun a k hk ha => gradsiz_tria_traced_inv env prim mesh0 a k (by
      rw [List.mem_range'_1] at hk
      rw [h.2.2.1]
      omega) ha)
    (acc.1, { acc.2 with base := acc.2.base + 1, nu := 0 }) ⟨h.1, h.2⟩
  exact ⟨hf.1, hf.2⟩

theorem gradsiz_loop_traced_inv (env : Env K) (prim : Prim K) (mesh0 : Mesh K) (maxit : Int)
    (fuel : Nat) (acc : List (Nat × Nat) × GradState K) (h : GradTraceInv mesh0 acc) :
    GradTraceInv mesh0 (gradsiz_loop_traced env prim maxit fuel acc) := by
  induction fuel generalizing acc with
  | zero => exact h
  | succ n ih =>
    rw [gradsiz_loop_traced]
    have h1 := gradsiz_sweep_traced_inv env prim mesh0 acc h
    split_ifs
    · exact ih _ h1
    · exact h1

theorem gradsiz_tria_traced_snd (env : Env K) (prim : Prim K)
    (acc : List (Nat × Nat) × GradState K) (k : Nat) :
    (gradsiz_tria_traced env prim acc k).2 = gradsiz_tria env prim acc.2 k := by
  have edges : ∀ (l : List Nat) (a : List (Nat × Nat) × GradState K),
      (l.foldl (gradsiz_edge_traced env prim k) a).2 = l.foldl (gradsiz_edge env prim k) a.2 := by
    intro l
    induction l with
    | nil => intro a; rfl
    | cons i l ih =>
      intro a
      rw [List.foldl_cons, List.foldl_cons, ih]
      rfl
  unfold gradsiz_tria_traced gradsiz_tria
  by_cases hc : MG_EOK (acc.2.mesh.tria k) = false
  · rw [if_pos hc, if_pos hc]
  · rw [if_neg hc, if_neg hc]
    exact edges _ _

theorem gradsiz_sweep_traced_snd (env : Env K) (prim : Prim K)
    (acc : List (Nat × Nat) × GradState K) :
    (gradsiz_sweep_traced env prim acc).2 = gradsiz_sweep env prim acc.2 := by
  have trias : ∀ (l : List Nat) (a : List (Nat × Nat) × GradState K),
      (l.foldl (gradsiz_tria_traced env prim) a).2 = l.foldl (gradsiz_tria env prim) a.2 := by
    intro l
    induction l with
    | nil => intro a; rfl
    | cons i l ih =>
      intro a
      rw [List.foldl_cons, List.foldl_cons, ih, gradsiz_tria_traced_snd]
  unfold gradsiz_sweep_traced gradsiz_sweep
  simp only
  rw [trias]

/-- The loop with the record of the calls computes the loop. -/
theorem gradsiz_loop_traced_snd (env : Env K) (prim : Prim K) (maxit : Int) (fuel : Nat)
    (acc : List (Nat × Nat) × GradState K) :
    (gradsiz_loop_traced env prim maxit fuel acc).2 = gradsiz_loop env prim maxit fuel acc.2 := by
  induction fuel generalizing acc with
  | zero => rfl
  | succ n ih =>
    rw [gradsiz_loop_traced, gradsiz_loop]
    by_cases hc : (gradsiz_sweep env prim acc.2).it < maxit ∧ (gradsiz_sweep env prim acc.2).nu > 0
    · rw [if_pos hc, if_pos (by rw [gradsiz_sweep_traced_snd]; exact hc), ih,
        gradsiz_sweep_traced_snd]
    · rw [if_neg hc, if_neg (by rw [gradsiz_sweep_traced_snd]; exact hc),
        gradsiz_sweep_traced_snd]

/-- Every call recorded for a run of `defsiz_ani` is on a triangle that is not
deleted and whose region id is not negative, and sees the defaulted `hmax`. -/
theorem defsiz_calls_inv (env : Env K) (f g : Estimator K) (mm0 : Met6 K) (n0 : Vec3 K)
    (mesh : Mesh K) (met : Sol K) (c : SizCall K) (hc : c ∈ defsiz_calls env f g mm0 n0 mesh met) :
    1 ≤ c.k ∧ c.k ≤ mesh.nt ∧ c.i < 3 ∧ MG_EOK (mesh.tria c.k) = true ∧
      0 ≤ (mesh.tria c.k).ref ∧ c.hmax = (defsiz_hmax mesh).info.hmax := by
  have hg : SameGeom (defsiz_hmax mesh) (defsiz_reset (defsiz_hmax mesh)) :=
    (defsiz_reset_spec _).1
  obtain ⟨_, hnt, _, _, _, htr, _, _⟩ := defsiz_hmax_geom mesh
  have key : ∀ (ismet : Bool) (m : Nat → Met6 K),
      c ∈ (defsiz_pass1_traced env f g n0 ismet ⟨defsiz_reset (defsiz_hmax mesh), m, mm0⟩).1 →
      1 ≤ c.k ∧ c.k ≤ mesh.nt ∧ c.i < 3 ∧ MG_EOK (mesh.tria c.k) = true ∧
        0 ≤ (mesh.tria c.k).ref ∧ c.hmax = (defsiz_hmax mesh).info.hmax := by
    intro ismet m hm
    have h := (defsiz_pass1_traced_inv env f g n0 ismet
      ⟨defsiz_reset (defsiz_hmax mesh), m, mm0⟩).1 c hm
    rw [← hg.2.1, ← hg.2.2.2.2.1, ← hg.2.2.2.1, hnt, htr] at h
    exact h
  unfold defsiz_calls at hc
  cases hm : met.m with
  | some m =>
    rw [hm] at hc
    exact key true m hc
  | none =>
    rw [hm] at hc
    split_ifs at hc
    · exact absurd hc (List.not_mem_nil _)
    · exact absurd hc (List.not_mem_nil _)
    · exact key false _ hc

/-- Every call recorded for a run of `gradsiz_ani` is on an edge of a triangle
that is not deleted. -/
theorem gradsiz_calls_inv (env : Env K) (prim : Prim K) (mesh : Mesh K) (m : Nat → Met6 K)
    (c : Nat × Nat) (hc : c ∈ gradsiz_calls env prim mesh m) :
    1 ≤ c.1 ∧ c.1 ≤ mesh.nt ∧ c.2 < 3 ∧ MG_EOK (mesh.tria c.1) = true := by
  unfold gradsiz_calls at hc
  exact (gradsiz_loop_traced_inv env prim mesh 100 100 _
    ⟨fun c hc => absurd hc (List.not_mem_nil _), (foldl_setFlag _ 0 mesh).1⟩).1 c hc
/-- A run of `defsiz_ani` that returns 1 has gone through the two passes, the
first one entered with the mesh whose `hmax` is defaulted. -/
theorem defsiz_ani_one (env : Env K) (f g : Estimator K) (mm0 : Met6 K) (n0 : Vec3 K)
    (mesh : Mesh K) (met : Sol K) (mesh2 : Mesh K) (met2 : Sol K)
    (h : defsiz_ani env f g mm0 n0 mesh met = .ok (1, mesh2, met2)) :
    ∃ m0 s1, defsiz_pass1 env f g n0 met.m.isSome ⟨defsiz_reset (defsiz_hmax mesh), m0, mm0⟩ =
        .ok s1 ∧ mesh2 = (defsiz_pass2 env met.m.isSome s1).mesh := by
  cases hm : met.m with
  | some m =>
    rw [defsiz_ani_met env f g mm0 n0 mesh met m hm] at h
    cases h1 : defsiz_pass1 env f g n0 true ⟨defsiz_reset (defsiz_hmax mesh), m, mm0⟩ with
    | error e =>
      rw [h1] at h
      cases h
    | ok s1 =>
      rw [h1] at h
      injection h with h
      injection h with _ h
      injection h with h _
      exact ⟨m, s1, h1, h.symm⟩
  | none =>
    rw [defsiz_ani_nomet env f g mm0 n0 mesh met hm] at h
    split_ifs at h
    · injection h with h
      injection h with h _
      exact absurd h (by norm_num)
    · cases h1 : defsiz_pass1 env f g n0 false (pass1Entry mesh mm0) with
      | error e =>
        rw [h1] at h
        cases h
      | ok s1 =>
        rw [h1] at h
        injection h with h
        injection h with _ h
        injection h with h _
        exact ⟨fun _ => Met6.zero, s1, h1, h.symm⟩

/-- A run of `defsiz_ani` that returns 0 has returned at the allocation, before
any other statement: the mesh is unchanged and no estimator was called. -/
theorem defsiz_ani_zero (env : Env K) (f g : Estimator K) (mm0 : Met6 K) (n0 : Vec3 K)
    (mesh : Mesh K) (met : Sol K) (mesh2 : Mesh K) (met2 : Sol K)
    (h : defsiz_ani env f g mm0 n0 mesh met = .ok (0, mesh2, met2)) :
    mesh2 = mesh ∧ defsiz_calls env f g mm0 n0 mesh met = [] := by
  cases hm : met.m with
  | some m =>
    rw [defsiz_ani_met env f g mm0 n0 mesh met m hm] at h
    cases h1 : defsiz_pass1 env f g n0 true ⟨defsiz_reset (defsiz_hmax mesh), m, mm0⟩ with
    | error e =>
      rw [h1] at h
      cases h
    | ok s1 =>
      rw [h1] at h
      injection h with h
      injection h with h _
      exact absurd h (by norm_num)
  | none =>
    rw [defsiz_ani_nomet env f g mm0 n0 mesh met hm] at h
    split_ifs at h with ha hc
    · injection h with h
      injection h with _ h
      injection h with h _
      refine ⟨h.symm, ?_⟩
      unfold defsiz_calls
      rw [hm]
      simp only [ha, Bool.not_false, if_true]
    · cases h1 : defsiz_pass1 env f g n0 false (pass1Entry mesh mm0) with
      | error e =>
        rw [h1] at h
        cases h
      | ok s1 =>
        rw [h1] at h
        injection h with h
        injection h with h _
        exact absurd h (by norm_num)

/-- The second pass computes `isqhmax` from the `hmax` of its state and keeps the
geometry of the mesh. -/
theorem defsiz_pass2_geom (env : Env K) (ismet : Bool) (s : SizState K) :
    defsiz_pass2 env ismet s =
      (List.range' 1 s.mesh.np).foldl (defsiz_fill env ismet (isq s.mesh.info.hmax)) s ∧
    SameGeom s.mesh (defsiz_pass2 env ismet s).mesh := by
  refine ⟨rfl, ?_⟩
  exact (defsiz_fill_fold env ismet (1 / (s.mesh.info.hmax * s.mesh.info.hmax))
    (List.range' 1 s.mesh.np) s).1

/-- The value `lambda[0]` (resp. `lambda[1]`) of an orthonormal decomposition is
the form at the first (resp. second) vector. -/
theorem compose_at_rows (vp : Mat2 K) (h : vp.IsOrthonormal) (k0 k1 : K) :
    quad2 (grad2met_compose vp k0 k1) vp.v00 vp.v01 = k0 ∧
    quad2 (grad2met_compose vp k0 k1) vp.v10 vp.v11 = k1 := by
  obtain ⟨h0, h1, h01⟩ := h
  unfold quad2 grad2met_compose
  constructor
  · linear_combination (k0 * (vp.v00 * vp.v00 + vp.v01 * vp.v01) + k0) * h0 +
      k1 * (vp.v00 * vp.v10 + vp.v01 * vp.v11) * h01
  · linear_combination (k1 * (vp.v10 * vp.v10 + vp.v11 * vp.v11) + k1) * h1 +
      k0 * (vp.v00 * vp.v10 + vp.v01 * vp.v11) * h01

/-- At a vertex that is neither singular nor a ridge vertex, `grad2met` recovers
the normal `gradNormal` and the stored entry. -/
theorem grad2met_side_plain (env : Env K) (prim : Prim K) (mesh : Mesh K) (m : Nat → Met6 K)
    (nt : Vec3 K) (np : Nat) (ux uy uz : K) (hs : env.MS_SIN (mesh.point np).tag = false)
    (hg : hasBit (mesh.point np).tag env.MG_GEO = false) :
    grad2met_side env prim mesh m nt np ux uy uz = some (gradNormal env mesh np, m np) := by
  unfold grad2met_side gradNormal
  simp only [hs, hg, if_false, Bool.false_eq_true]
  by_cases hr : hasBit (mesh.point np).tag env.MG_REF = true
  · simp only [hr, if_true]
  · simp only [hr, if_false, Bool.false_eq_true]

/-- The frame and the tangential data of the endpoint that `grad2met` updates
come from `grad2met_side` and `grad2met_end` at this endpoint. -/
theorem GradUpdated_side (env : Env K) (prim : Prim K) (mesh : Mesh K) (m : Nat → Met6 K)
    (iel i : Nat) (g : GradEdge K) (np : Nat) (r : Mat3 K) (e : GradEnd K) (alpha : K)
    (code : Int) (hg : grad2met_ends env prim mesh m iel i = some g)
    (hu : GradUpdated env mesh iel i g np r e alpha code) :
    ∃ nt ux uy uz n mm c, grad2met_side env prim mesh m nt np ux uy uz = some (n, mm) ∧
      r = env.rotmatrix n ∧ grad2met_end env prim r mm c = some e := by
  obtain ⟨_, n1, m1, n2, m2, hs1, hs2, hr1, hr2, ⟨c1, hc1⟩, ⟨c2, hc2⟩⟩ :=
    grad2met_ends_some env prim mesh m iel i g hg
  rcases hu with ⟨_, hnp, hr, he, _, _⟩ | ⟨_, hnp, hr, he, _, _⟩
  · rw [hnp, hr, he]
    exact ⟨_, _, _, _, n1, m1, c1, hs1, hr1, hc1⟩
  · rw [hnp, hr, he]
    exact ⟨_, _, _, _, n2, m2, c2, hs2, hr2, hc2⟩

end Lemmas3

/-! ### Lemmas on the pruning, the isotropic bump, the quadric fit and the edge
length -/

section Lemmas4

variable {K : Type} [LinearOrderedField K]

/-- An iteration of the fitting loop adds its four sample points in turn. -/
theorem defmetreg_fitStep_eq (env : Env K) (prim : Prim K) (mesh : Mesh K) (idp : Nat)
    (r : Mat3 K) (list : Nat → Nat) (bfail : Nat → Nat → Vec3 K) (acc : Met6 K × Vec3 K)
    (k : Nat) :
    defmetreg_fitStep env prim mesh idp r list bfail acc k =
      (defmetreg_samples env prim mesh idp r list bfail k).foldl fitAdd acc := rfl

/-- A fold over the concatenation of the images of a list. -/
theorem foldl_flatMap_eq {α β γ : Type} (f : α → β → α) (g : γ → List β) (l : List γ) (a : α) :
    (l.flatMap g).foldl f a = l.foldl (fun acc k => (g k).foldl f acc) a := by
  induction l generalizing a with
  | nil => rfl
  | cons x xs ih => simp only [List.flatMap_cons, List.foldl_append, List.foldl_cons, ih]

/-- The fitting loop adds the sample points of the ball in turn. -/
theorem defmetreg_fit_eq (env : Env K) (prim : Prim K) (mesh : Mesh K) (idp : Nat)
    (r : Mat3 K) (list : Nat → Nat) (bfail : Nat → Nat → Vec3 K) (ilist : Nat) :
    defmetreg_fit env prim mesh idp r list bfail ilist =
      (defmetreg_points env prim mesh idp r list bfail ilist).foldl fitAdd
        (Met6.zero, ⟨0, 0, 0⟩) := by
  unfold defmetreg_fit defmetreg_points
  rw [foldl_flatMap_eq]
  rfl

/-- The fitting loop has four sample points for each triangle of the ball. -/
theorem defmetreg_points_length (env : Env K) (prim : Prim K) (mesh : Mesh K) (idp : Nat)
    (r : Mat3 K) (list : Nat → Nat) (bfail : Nat → Nat → Vec3 K) (ilist : Nat) :
    (defmetreg_points env prim mesh idp r list bfail ilist).length = 4 * ilist := by
  unfold defmetreg_points
  induction ilist with
  | zero => rfl
  | succ n ih =>
    rw [List.range_succ, List.flatMap_append, List.length_append, ih]
    simp only [List.flatMap_cons, List.flatMap_nil, List.append_nil]
    unfold defmetreg_samples
    simp only [List.length_cons, List.length_nil]
    omega

/-- The sums `tAA` from an accumulator: the matrix of the normal equations is
added. -/
theorem fitAdd_matrix (pts : List (Vec3 K)) (acc : Met6 K × Vec3 K) :
    (pts.foldl fitAdd acc).1.toMatrix = acc.1.toMatrix + normalMatrix pts := by
  induction pts generalizing acc with
  | nil => simp [normalMatrix]
  | cons p ps ih =>
    rw [List.foldl_cons, ih]
    unfold normalMatrix
    rw [List.map_cons, List.sum_cons, ← add_assoc]
    congr 1
    ext i j
    fin_cases i <;> fin_cases j <;>
      simp [fitAdd, Met6.toMatrix, Matrix.vecMulVec] <;> ring

/-- The sums `tAb` from an accumulator: the right-hand side of the normal
equations is added. -/
theorem fitAdd_rhs (pts : List (Vec3 K)) (acc : Met6 K × Vec3 K) :
    ![(pts.foldl fitAdd acc).2.x, (pts.foldl fitAdd acc).2.y, (pts.foldl fitAdd acc).2.z] =
      ![acc.2.x, acc.2.y, acc.2.z] + normalRhs pts := by
  induction pts generalizing acc with
  | nil => simp [normalRhs]
  | cons p ps ih =>
    rw [List.foldl_cons, ih]
    unfold normalRhs
    rw [List.map_cons, List.sum_cons, ← add_assoc]
    congr 1
    ext i
    fin_cases i <;> simp [fitAdd] <;> ring

/-- The sum of the squares for the coefficients `c'`, from the one for `c`: the
quadratic form of `tAA` at the difference and the residual of the normal
equations. -/
theorem fitError_expand (pts : List (Vec3 K)) (acc : Met6 K × Vec3 K) (c c' : Vec3 K) :
    fitError pts c' + ((c'.sub c).dot (acc.1.apply (c'.sub c)) -
        2 * (c'.sub c).dot (acc.2.sub (acc.1.apply c))) =
      fitError pts c + ((c'.sub c).dot ((pts.foldl fitAdd acc).1.apply (c'.sub c)) -
        2 * (c'.sub c).dot ((pts.foldl fitAdd acc).2.sub ((pts.foldl fitAdd acc).1.apply c))) := by
  induction pts generalizing acc with
  | nil => rfl
  | cons p ps ih =>
    rw [List.foldl_cons]
    have e := ih (fitAdd acc p)
    have hc : ∀ x : Vec3 K, fitError (p :: ps) x =
        (p.z - quadric x p.x p.y) ^ 2 + fitError ps x := by
      intro x
      unfold fitError
      rw [List.map_cons, List.sum_cons]
    have hstep : (p.z - quadric c' p.x p.y) ^ 2 + ((c'.sub c).dot (acc.1.apply (c'.sub c)) -
          2 * (c'.sub c).dot (acc.2.sub (acc.1.apply c))) =
        (p.z - quadric c p.x p.y) ^ 2 + ((c'.sub c).dot ((fitAdd acc p).1.apply (c'.sub c)) -
          2 * (c'.sub c).dot ((fitAdd acc p).2.sub ((fitAdd acc p).1.apply c))) := by
      unfold fitAdd quadric Met6.apply Vec3.dot Vec3.sub
      simp only
      ring
    rw [hc, hc]
    linear_combination e + hstep

/-- The quadratic form of `tAA` is a sum of squares: it is not negative. -/
theorem fit_form_nonneg (pts : List (Vec3 K)) (acc : Met6 K × Vec3 K) (d : Vec3 K)
    (h : 0 ≤ d.dot (acc.1.apply d)) : 0 ≤ d.dot ((pts.foldl fitAdd acc).1.apply d) := by
  induction pts generalizing acc with
  | nil => exact h
  | cons p ps ih =>
    rw [List.foldl_cons]
    apply ih
    have : d.dot ((fitAdd acc p).1.apply d) =
        d.dot (acc.1.apply d) + ((fitRow p).dot d) ^ 2 := by
      unfold fitAdd fitRow Met6.apply Vec3.dot
      simp only
      ring
    rw [this]
    positivity

/-- When the quadratic form of `tAA` vanishes at `d`, so does `tAA d`. -/
theorem fit_form_zero (pts : List (Vec3 K)) (acc : Met6 K × Vec3 K) (d : Vec3 K)
    (h0 : 0 ≤ d.dot (acc.1.apply d))
    (h : d.dot ((pts.foldl fitAdd acc).1.apply d) = 0) :
    (pts.foldl fitAdd acc).1.apply d = acc.1.apply d ∧ d.dot (acc.1.apply d) = 0 := by
  induction pts generalizing acc with
  | nil => exact ⟨rfl, h⟩
  | cons p ps ih =>
    rw [List.foldl_cons] at h ⊢
    have e : d.dot ((fitAdd acc p).1.apply d) =
        d.dot (acc.1.apply d) + ((fitRow p).dot d) ^ 2 := by
      unfold fitAdd fitRow Met6.apply Vec3.dot
      simp only
      ring
    have hp : 0 ≤ d.dot ((fitAdd acc p).1.apply d) := by
      rw [e]
      positivity
    obtain ⟨h1, h2⟩ := ih (fitAdd acc p) hp h
    rw [e] at h2
    have hsq : ((fitRow p).dot d) ^ 2 = 0 := by nlinarith [sq_nonneg ((fitRow p).dot d)]
    have hz : (fitRow p).dot d = 0 := pow_eq_zero_iff (two_ne_zero) |>.mp hsq
    have ha : (fitAdd acc p).1.apply d = acc.1.apply d := by
      have hx : (fitAdd acc p).1.apply d =
          (acc.1.apply d).add (Vec3.smul ((fitRow p).dot d) (fitRow p)) := by
        unfold fitAdd fitRow Met6.apply Vec3.dot Vec3.add Vec3.smul
        simp only
        congr 1 <;> ring
      rw [hx, hz]
      unfold Vec3.add Vec3.smul
      simp
    refine ⟨h1.trans ha, ?_⟩
    rw [hsq, add_zero] at h2
    exact h2

/-- A symmetric system with a non-zero determinant has at most one solution. -/
theorem apply_eq_zero (a : Met6 K) (d : Vec3 K) (hdet : a.det ≠ 0)
    (h : a.apply d = ⟨0, 0, 0⟩) : d = ⟨0, 0, 0⟩ := by
  unfold Met6.det Met6.toMatrix at hdet
  rw [Matrix.det_fin_three] at hdet
  simp only [Matrix.of_apply, Matrix.cons_val_zero, Matrix.cons_val_one, Matrix.head_cons,
    Matrix.cons_val_two, Matrix.tail_cons, Matrix.cons_val', Matrix.empty_val',
    Matrix.cons_val_fin_one] at hdet
  unfold Met6.apply at h
  injection h with h0 h1 h2
  have e0 : d.x * (a.m0 * a.m3 * a.m5 - a.m0 * a.m4 * a.m4 - a.m1 * a.m1 * a.m5 +
      a.m1 * a.m4 * a.m2 + a.m2 * a.m1 * a.m4 - a.m2 * a.m3 * a.m2) = 0 := by
    linear_combination (a.m3 * a.m5 - a.m4 * a.m4) * h0 - (a.m1 * a.m5 - a.m2 * a.m4) * h1 +
      (a.m1 * a.m4 - a.m2 * a.m3) * h2
  have e1 : d.y * (a.m0 * a.m3 * a.m5 - a.m0 * a.m4 * a.m4 - a.m1 * a.m1 * a.m5 +
      a.m1 * a.m4 * a.m2 + a.m2 * a.m1 * a.m4 - a.m2 * a.m3 * a.m2) = 0 := by
    linear_combination -(a.m1 * a.m5 - a.m2 * a.m4) * h0 + (a.m0 * a.m5 - a.m2 * a.m2) * h1 -
      (a.m0 * a.m4 - a.m1 * a.m2) * h2
  have e2 : d.z * (a.m0 * a.m3 * a.m5 - a.m0 * a.m4 * a.m4 - a.m1 * a.m1 * a.m5 +
      a.m1 * a.m4 * a.m2 + a.m2 * a.m1 * a.m4 - a.m2 * a.m3 * a.m2) = 0 := by
    linear_combination (a.m1 * a.m4 - a.m2 * a.m3) * h0 - (a.m0 * a.m4 - a.m1 * a.m2) * h1 +
      (a.m0 * a.m3 - a.m1 * a.m1) * h2
  have hx := (mul_eq_zero.mp e0).resolve_right hdet
  have hy := (mul_eq_zero.mp e1).resolve_right hdet
  have hz := (mul_eq_zero.mp e2).resolve_right hdet
  cases d
  simp only at hx hy hz
  rw [hx, hy, hz]

omit [LinearOrderedField K] in
/-- Two vectors with the same components are equal. -/
theorem Vec3.ext3 {a b : Vec3 K} (hx : a.x = b.x) (hy : a.y = b.y) (hz : a.z = b.z) : a = b := by
  cases a
  cases b
  simp only at hx hy hz
  rw [hx, hy, hz]

/-- Cramer's rule solves the system. -/
theorem sys33symQ_spec : Sys33Spec fanPrim := by
  intro a b r h
  change sys33symQ a b = some r at h
  unfold sys33symQ at h
  simp only at h
  split_ifs at h with hd
  injection h with h
  rw [← h]
  unfold Met6.apply
  apply Vec3.ext3 <;> simp only <;> field_simp <;> ring

/-- The matrix of the null entry. -/
theorem zero_toMatrix : (Met6.zero : Met6 K).toMatrix = 0 := by
  ext i j
  fin_cases i <;> fin_cases j <;> rfl

/-- The product of the null entry and a vector. -/
theorem zero_apply (d : Vec3 K) : (Met6.zero : Met6 K).apply d = ⟨0, 0, 0⟩ := by
  unfold Met6.zero Met6.apply
  simp

/-- The sums of the normal equations of a list of sample points, and the
solution of the system as the minimiser of the sum of the squares. -/
theorem normal_equations (pts : List (Vec3 K)) (F : Met6 K × Vec3 K) (c : Vec3 K)
    (hF : F = pts.foldl fitAdd (Met6.zero, ⟨0, 0, 0⟩)) (hc : F.1.apply c = F.2) :
    F.1.toMatrix = normalMatrix pts ∧ ![F.2.x, F.2.y, F.2.z] = normalRhs pts ∧
    (∀ c' : Vec3 K, fitError pts c ≤ fitError pts c') ∧
    (F.1.det ≠ 0 → ∀ c' : Vec3 K, fitError pts c' ≤ fitError pts c → c' = c) := by
  have hz : ∀ d : Vec3 K, d.dot ((Met6.zero : Met6 K).apply d) = 0 := by
    intro d
    rw [zero_apply]
    unfold Vec3.dot
    simp
  have hexp : ∀ c' : Vec3 K,
      fitError pts c' = fitError pts c + (c'.sub c).dot (F.1.apply (c'.sub c)) := by
    intro c'
    have e := fitError_expand pts (Met6.zero, ⟨0, 0, 0⟩) c c'
    rw [← hF, hc] at e
    have z1 : (c'.sub c).dot ((Met6.zero : Met6 K).apply (c'.sub c)) = 0 := hz _
    have z2 : (c'.sub c).dot ((⟨0, 0, 0⟩ : Vec3 K).sub ((Met6.zero : Met6 K).apply c)) = 0 := by
      rw [zero_apply]
      unfold Vec3.dot Vec3.sub
      simp
    have z3 : (c'.sub c).dot (F.2.sub F.2) = 0 := by
      unfold Vec3.dot Vec3.sub
      simp
    simp only [z1, z2, z3] at e
    linear_combination e
  have hnn : ∀ d : Vec3 K, 0 ≤ d.dot (F.1.apply d) := by
    intro d
    rw [hF]
    exact fit_form_nonneg pts (Met6.zero, ⟨0, 0, 0⟩) d (le_of_eq (hz d).symm)
  refine ⟨?_, ?_, fun c' => ?_, fun hdet c' hle => ?_⟩
  · rw [hF, fitAdd_matrix]
    show (Met6.zero : Met6 K).toMatrix + _ = _
    rw [zero_toMatrix, zero_add]
  · rw [hF, fitAdd_rhs]
    have : (![(0 : K), 0, 0] : Fin 3 → K) = 0 := by
      ext i
      fin_cases i <;> rfl
    show ![(0 : K), 0, 0] + _ = _
    rw [this, zero_add]
  · rw [hexp c']
    linarith [hnn (c'.sub c)]
  · have h0 : (c'.sub c).dot (F.1.apply (c'.sub c)) = 0 := by
      have := hexp c'
      linarith [hnn (c'.sub c)]
    have hk : F.1.apply (c'.sub c) = (Met6.zero : Met6 K).apply (c'.sub c) := by
      have h1 : (c'.sub c).dot ((pts.foldl fitAdd (Met6.zero, ⟨0, 0, 0⟩)).1.apply (c'.sub c)) =
          0 := by
        rw [← hF]
        exact h0
      have := (fit_form_zero pts (Met6.zero, ⟨0, 0, 0⟩) (c'.sub c)
        (le_of_eq (hz _).symm) h1).1
      rw [hF]
      exact this
    rw [zero_apply] at hk
    have hd := apply_eq_zero F.1 (c'.sub c) hdet hk
    unfold Vec3.sub at hd
    injection hd with hx hy hz'
    exact Vec3.ext3 (by linarith) (by linarith) (by linarith)

/-- The determinant of `tAA` on the bowl. -/
theorem bowl_det : (defmetreg_fit fanEnv fanPrim (bowlFan (1 / 1000)) 5 idMat3
    (fanEnv.boulet (bowlFan (1 / 1000)) 1 0).2 noB 4).1.det ≠ 0 := by
  unfold Met6.det
  rw [Matrix.det_fin_three]
  decide!

/-- A property of the entry of the vertex `k` that the pre-pass and every call
of `grad2met` keep is kept by a run of `gradsiz_ani`. -/
theorem gradsiz_run_preserves (env : Env K) (prim : Prim K) (mesh : Mesh K)
    (m : Nat → Met6 K) (k : Nat) (P : Met6 K → Prop)
    (hpre : ∀ me m1, SameGeom mesh me → P (m1 k) → P (gradsiz_prepass env me m1 k))
    (hstep : ∀ me m1 iel i, SameGeom mesh me → P (m1 k) →
      P ((grad2met env prim me m1 iel i).2 k))
    (h : P (m k)) : P ((gradsiz_run env prim mesh m).m k) := by
  have edge : ∀ j (s : GradState K) i, SameGeom mesh s.mesh ∧ P (s.m k) →
      SameGeom mesh (gradsiz_edge env prim j s i).mesh ∧ P ((gradsiz_edge env prim j s i).m k) := by
    intro j s i hq
    have hl := hstep s.mesh s.m j i hq.1 hq.2
    unfold gradsiz_edge
    simp only
    split_ifs
    · exact hq
    · exact ⟨SameGeom.trans hq.1 (SameGeom_setFlag _ _ _), hl⟩
    · exact ⟨SameGeom.trans hq.1 (SameGeom_setFlag _ _ _), hl⟩
    · exact ⟨hq.1, hl⟩
  have tria : ∀ (s : GradState K) j, SameGeom mesh s.mesh ∧ P (s.m k) →
      SameGeom mesh (gradsiz_tria env prim s j).mesh ∧ P ((gradsiz_tria env prim s j).m k) := by
    intro s j hq
    unfold gradsiz_tria
    split_ifs
    · exact hq
    · exact fold_inv (gradsiz_edge env prim j)
        (fun s => SameGeom mesh s.mesh ∧ P (s.m k)) [0, 1, 2]
        (fun s i _ hs1 => edge j s i hs1) s hq
  have sweep : ∀ s : GradState K, SameGeom mesh s.mesh ∧ P (s.m k) →
      SameGeom mesh (gradsiz_sweep env prim s).mesh ∧ P ((gradsiz_sweep env prim s).m k) := by
    intro s hq
    exact fold_inv (gradsiz_tria env prim)
      (fun s => SameGeom mesh s.mesh ∧ P (s.m k)) (List.range' 1 s.mesh.nt)
      (fun s j _ hs1 => tria s j hs1) { s with base := s.base + 1, nu := 0 } hq
  have loop : ∀ (fuel : Nat) (s : GradState K), SameGeom mesh s.mesh ∧ P (s.m k) →
      SameGeom mesh (gradsiz_loop env prim 100 fuel s).mesh ∧
        P ((gradsiz_loop env prim 100 fuel s).m k) := by
    intro fuel
    induction fuel with
    | zero => intro s hq; exact hq
    | succ n ih =>
      intro s hq
      rw [gradsiz_loop]
      split_ifs
      · exact ih _ (sweep s hq)
      · exact sweep s hq
  have hg0 := (foldl_setFlag (List.range' 1 mesh.np) 0 mesh).1
  exact (loop 100 ⟨(List.range' 1 mesh.np).foldl (fun me k => me.setFlag k 0) mesh,
      gradsiz_prepass env ((List.range' 1 mesh.np).foldl (fun me k => me.setFlag k 0) mesh) m,
      0, 0, 0, 0⟩ ⟨hg0, hpre _ m hg0 h⟩).2

/-- The update of a singular vertex that holds `a * Identity`. -/
theorem grad2met_update_iso (env : Env K) (prim : Prim K) (p : Point K) (a : K) (r : Mat3 K)
    (e : GradEnd K) (alpha : K) (hs : env.MS_SIN p.tag = true) :
    grad2met_update env prim p (Met6.iso a) r e alpha =
      Met6.iso (a + 1 / 2 * gradBeta prim e alpha) := by
  unfold grad2met_update
  simp only [hs, if_true]
  rfl

/-- A call of `grad2met` leaves the entry of a singular vertex that holds
`a * Identity` as it is, or adds the half of an increment to its diagonal. -/
theorem grad2met_singular_iso (env : Env K) (prim : Prim K) (mesh : Mesh K)
    (m : Nat → Met6 K) (iel i k : Nat) (a : K)
    (hs : env.MS_SIN (mesh.point k).tag = true) (ha : m k = Met6.iso a) :
    (grad2met env prim mesh m iel i).2 k = Met6.iso a ∨
      ∃ beta : K, (grad2met env prim mesh m iel i).2 k =
          { m k with m0 := (m k).m0 + 1 / 2 * beta, m3 := (m k).m3 + 1 / 2 * beta,
                     m5 := (m k).m5 + 1 / 2 * beta } ∧
        (grad2met env prim mesh m iel i).2 k = Met6.iso (a + 1 / 2 * beta) := by
  by_cases hu : (grad2met env prim mesh m iel i).1 = -1
  · rw [grad2met_minus_one env prim mesh m iel i hu]
    exact Or.inl ha
  obtain ⟨g, np, r, e, alpha, _, _, _, hres⟩ := grad2met_updated env prim mesh m iel i hu
  rw [hres]
  by_cases hk : k = np
  · subst hk
    right
    rw [Function.update_same]
    refine ⟨gradBeta prim e alpha, ?_, ?_⟩
    · unfold grad2met_update
      simp only [hs, if_true]
      rfl
    · rw [ha]
      exact grad2met_update_iso env prim _ a r e alpha hs
  · left
    rw [Function.update_noteq hk]
    exact ha

/-- What `grad2met` returns when it updates the endpoint described by
`GradUpdated`. -/
theorem grad2met_at (env : Env K) (prim : Prim K) (mesh : Mesh K) (m : Nat → Met6 K)
    (iel i : Nat) (g : GradEdge K) (np : Nat) (r : Mat3 K) (e : GradEnd K) (alpha : K)
    (hg : grad2met_ends env prim mesh m iel i = some g)
    (hup : GradUpdated env mesh iel i g np r e alpha (grad2met env prim mesh m iel i).1)
    (hu : (grad2met env prim mesh m iel i).1 ≠ -1) :
    e.ps < alpha - prim.EPS ∧
    (grad2met env prim mesh m iel i).2 =
      Function.update m np (grad2met_update env prim (mesh.point np) (m np) r e alpha) := by
  have hrun := grad2met_of_some env prim mesh m iel i g hg
  rcases hup with ⟨h1, hnp, hr, he, hal, _⟩ | ⟨h1, hnp, hr, he, hal, _⟩
  · rw [if_pos h1] at hrun
    by_cases h2 : g.e1.ps ≥ grad2met_alpha mesh.info g.l g.e2.ps - prim.EPS
    · rw [if_pos h2] at hrun
      rw [hrun] at hu
      exact absurd rfl hu
    · rw [if_neg h2] at hrun
      rw [hrun, hnp, hr, he, hal]
      exact ⟨not_le.mp h2, rfl⟩
  · rw [if_neg h1] at hrun
    by_cases h2 : g.e2.ps ≥ grad2met_alpha mesh.info g.l g.e1.ps - prim.EPS
    · rw [if_pos h2] at hrun
      rw [hrun] at hu
      exact absurd rfl hu
    · rw [if_neg h2] at hrun
      rw [hrun, hnp, hr, he, hal]
      exact ⟨not_le.mp h2, rfl⟩

/-- The tangential block of `R (a Identity) tR` is `a` times the identity when `R`
is orthogonal. -/
theorem rmtr_iso (prim : Prim K) (r : Mat3 K) (a : K) (hrm : RmtrSpec prim)
    (hR : r.IsOrthogonal) :
    (prim.rmtr r (Met6.iso a)).m0 = a ∧ (prim.rmtr r (Met6.iso a)).m1 = 0 ∧
    (prim.rmtr r (Met6.iso a)).m3 = a := by
  obtain ⟨e00, e01, _, e11, _, _⟩ := orth_rows r hR
  obtain ⟨h0, h1, h3⟩ := hrm r (Met6.iso a)
  rw [h0, h1, h3]
  unfold Met6.iso Met6.apply Vec3.dot Mat3.row
  simp only [if_true, if_false, one_ne_zero]
  refine ⟨?_, ?_, ?_⟩
  · linear_combination a * e00
  · linear_combination a * e01
  · linear_combination a * e11

/-- The larger of two squares that add up to 1 is at least `1/2`, and it is `1/2`
exactly when the two magnitudes are equal. -/
theorem larger_square (x y : K) (h : x * x + y * y = 1) (hxy : |y| ≤ |x|) :
    1 ≤ 2 * (x * x) ∧ (2 * (x * x) = 1 ↔ |x| = |y|) := by
  have sx : x * x = |x| * |x| := (abs_mul_abs_self x).symm
  have sy : y * y = |y| * |y| := (abs_mul_abs_self y).symm
  have hx0 := abs_nonneg x
  have hy0 := abs_nonneg y
  rw [sx, sy] at h
  rw [sx]
  constructor
  · nlinarith
  · constructor
    · intro h2
      have : |y| * |y| = |x| * |x| := by linarith
      nlinarith
    · intro h2
      rw [← h2] at h
      linarith

/-- The bounds on the isotropic bump: with `beta c^2 = alpha^2 - a`, `alpha^2 > a`
and `2 c^2 >= 1`, the increment is positive and `a + beta/2 <= alpha^2`, with
equality exactly when `2 c^2 = 1`. -/
theorem bump_bounds (a beta alpha2 c2 : K) (hb : beta * c2 = alpha2 - a) (hd : 0 < alpha2 - a)
    (h1 : 1 ≤ 2 * c2) :
    0 < beta ∧ a + 1 / 2 * beta ≤ alpha2 ∧ (a + 1 / 2 * beta = alpha2 ↔ 2 * c2 = 1) := by
  have hc : 0 < c2 := by linarith
  have hbpos : 0 < beta := by
    by_contra hn
    have : beta * c2 ≤ 0 := mul_nonpos_of_nonpos_of_nonneg (not_lt.mp hn) (le_of_lt hc)
    linarith
  have hprod : 0 ≤ beta * (2 * c2 - 1) := mul_nonneg (le_of_lt hbpos) (by linarith)
  refine ⟨hbpos, by linarith, ?_⟩
  constructor
  · intro h
    have h0 : beta * (2 * c2 - 1) = 0 := by linear_combination 2 * hb - 2 * h
    rcases mul_eq_zero.mp h0 with h2 | h2
    · exact absurd h2 (ne_of_gt hbpos)
    · linarith
  · intro h
    have h0 : beta * (2 * c2 - 1) = 0 := by
      rw [h]
      ring
    linear_combination hb - 1 / 2 * h0

/-- The matrix of `tR I R`: the product of the transpose of `R`, the block `I`
completed by zeros and `R`. -/
theorem back_toMatrix (r : Mat3 K) (t : Vec3 K) :
    (defmetreg_back r t).toMatrix =
      r.toMatrix.transpose * !![t.x, t.y, 0; t.y, t.z, 0; 0, 0, 0] * r.toMatrix := by
  ext i j
  fin_cases i <;> fin_cases j <;>
    simp only [defmetreg_back, Met6.toMatrix, Mat3.toMatrix, Matrix.mul_apply,
      Fin.sum_univ_three, Matrix.transpose_apply,
      Matrix.of_apply, Matrix.cons_val_zero, Matrix.cons_val_one, Matrix.head_cons,
      Matrix.cons_val_two, Matrix.tail_cons, Fin.zero_eta, Fin.mk_one, Fin.reduceFinMk,
      Matrix.cons_val', Matrix.empty_val', Matrix.cons_val_fin_one, Fin.isValue,
      Matrix.head_fin_const] <;>
    ring

/-- In a frame that maps the normal to `e3`, the tensor `tR I R` has the normal in
its kernel. -/
theorem back_kernel (r : Mat3 K) (t n : Vec3 K) (hn : r.mulVec n = ⟨0, 0, 1⟩) :
    (defmetreg_back r t).apply n = ⟨0, 0, 0⟩ ∧
    ∀ v : Vec3 K, v.dot ((defmetreg_back r t).apply n) = 0 := by
  have h0 : (r.row 0).dot n = 0 := congrArg Vec3.x hn
  have h1 : (r.row 1).dot n = 0 := congrArg Vec3.y hn
  have hk : (defmetreg_back r t).apply n = ⟨0, 0, 0⟩ := by
    rw [back_apply, h0, h1]
    unfold Mat3.tangent Vec3.add Vec3.smul
    simp
  refine ⟨hk, fun v => ?_⟩
  rw [hk]
  unfold Vec3.dot
  simp

omit [LinearOrderedField K] in
/-- The generation of the last update after one more visit. -/
theorem lastUpdate_snoc (env : Env K) (mesh : Mesh K) (log : List GradVisit) (c : GradVisit)
    (v : Nat) :
    lastUpdate env mesh (log ++ [c]) v =
      if c.updated env mesh = some v then c.b else lastUpdate env mesh log v := by
  unfold lastUpdate
  rw [List.foldl_append]
  rfl

omit [LinearOrderedField K] in
/-- The generation of the last update is not negative when the generations of
the record are not. -/
theorem lastUpdate_nonneg (env : Env K) (mesh : Mesh K) (log : List GradVisit) (v : Nat)
    (h : ∀ c ∈ log, 0 ≤ c.b) : 0 ≤ lastUpdate env mesh log v := by
  induction log using List.reverseRecOn with
  | nil => exact le_refl _
  | append_singleton l x ih =>
    rw [lastUpdate_snoc]
    split_ifs
    · exact h x (by simp)
    · exact ih (fun c hc => h c (List.mem_append_left _ hc))

omit [LinearOrderedField K] in
/-- In a record whose generations do not decrease, the last update of `v` is
below `B > 0` exactly when every update of `v` is. -/
theorem lastUpdate_lt (env : Env K) (mesh : Mesh K) (log : List GradVisit) (v : Nat) (B : Int)
    (hB : 0 < B) (hs : List.Pairwise (fun d c : GradVisit => d.b ≤ c.b) log) :
    lastUpdate env mesh log v < B ↔ ∀ d ∈ log, d.updated env mesh = some v → d.b < B := by
  induction log using List.reverseRecOn with
  | nil =>
    constructor
    · intro _ d hd
      cases hd
    · intro _
      exact hB
  | append_singleton l x ih =>
    obtain ⟨hl, _, hx⟩ := List.pairwise_append.mp hs
    rw [lastUpdate_snoc]
    by_cases hu : x.updated env mesh = some v
    · rw [if_pos hu]
      constructor
      · intro h d hd hdu
        rcases List.mem_append.mp hd with h1 | h1
        · exact lt_of_le_of_lt (hx d h1 x (by simp)) h
        · rw [List.mem_singleton.mp h1]
          exact h
      · intro h
        exact h x (by simp) hu
    · rw [if_neg hu, ih hl]
      constructor
      · intro h d hd hdu
        rcases List.mem_append.mp hd with h1 | h1
        · exact h d h1 hdu
        · rw [List.mem_singleton.mp h1] at hdu
          exact absurd hdu hu
      · intro h d hd hdu
        exact h d (List.mem_append_left _ hd) hdu

/-- A list that ends with `x`, cut before one of its elements. -/
theorem split_snoc {α : Type} (pre post log : List α) (c x : α)
    (h : log ++ [x] = pre ++ c :: post) :
    (post = [] ∧ pre = log ∧ c = x) ∨ ∃ post1, post = post1 ++ [x] ∧ log = pre ++ c :: post1 := by
  rcases List.eq_nil_or_concat post with hp | ⟨post1, y, hp⟩
  · subst hp
    left
    have := List.append_inj' h rfl
    refine ⟨rfl, this.1.symm, ?_⟩
    have h2 := this.2
    injection h2 with h2
    exact h2.symm
  · rw [List.concat_eq_append] at hp
    subst hp
    right
    have e : pre ++ c :: (post1 ++ [y]) = (pre ++ c :: post1) ++ [y] := by simp
    rw [e] at h
    have := List.append_inj' h rfl
    have h2 := this.2
    injection h2 with h2
    rw [h2]
    exact ⟨post1, rfl, this.1⟩

omit [LinearOrderedField K] in
/-- The empty record. -/
theorem LogOk_nil (env : Env K) (mesh : Mesh K) : LogOk env mesh [] := by
  intro pre c post h
  cases pre <;> cases h

omit [LinearOrderedField K] in
/-- One more visit that satisfies `VisitOk`. -/
theorem LogOk_snoc (env : Env K) (mesh : Mesh K) (log : List GradVisit) (x : GradVisit)
    (h : LogOk env mesh log) (hx : VisitOk env mesh log x) : LogOk env mesh (log ++ [x]) := by
  intro pre c post hsplit
  rcases split_snoc pre post log c x hsplit with ⟨_, h1, h2⟩ | ⟨post1, _, h1⟩
  · rw [h1, h2]
    exact hx
  · exact h pre c post1 h1

/-- The vertex updated by the visit of the body of the inner loop, from the value
that `grad2met` returns. -/
theorem gradsiz_edge_visit_updated (env : Env K) (prim : Prim K) (mesh : Mesh K) (k : Nat)
    (s : GradState K) (i : Nat) (ht : s.mesh.tria = mesh.tria) :
    (gradsiz_edge_visit env prim k s i).updated env mesh =
      if (s.mesh.point ((mesh.tria k).v (env.inxt2 i))).flag < s.base - 1 ∧
          (s.mesh.point ((mesh.tria k).v (env.iprv2 i))).flag < s.base - 1 then none
      else if (grad2met env prim s.mesh s.m k i).1 = ((env.inxt2 i : Nat) : Int) then
        some ((mesh.tria k).v (env.inxt2 i))
      else if (grad2met env prim s.mesh s.m k i).1 = ((env.iprv2 i : Nat) : Int) then
        some ((mesh.tria k).v (env.iprv2 i))
      else none := by
  unfold GradVisit.updated gradsiz_edge_visit
  simp only [ht]
  by_cases hc : (s.mesh.point ((mesh.tria k).v (env.inxt2 i))).flag < s.base - 1 ∧
      (s.mesh.point ((mesh.tria k).v (env.iprv2 i))).flag < s.base - 1
  · simp only [hc, and_self, if_true]
    rfl
  · simp only [hc, if_false, Option.some.injEq]

/-- The mesh after the body of the inner loop: the flag of the vertex updated by
the visit is the generation, the other flags are unchanged. -/
theorem gradsiz_edge_flag (env : Env K) (prim : Prim K) (mesh : Mesh K) (k : Nat)
    (s : GradState K) (i : Nat) (ht : s.mesh.tria = mesh.tria) (v : Nat) :
    ((gradsiz_edge env prim k s i).mesh.point v).flag =
      if (gradsiz_edge_visit env prim k s i).updated env mesh = some v then s.base
      else (s.mesh.point v).flag := by
  rw [gradsiz_edge_visit_updated env prim mesh k s i ht]
  unfold gradsiz_edge
  simp only [ht]
  by_cases hc : (s.mesh.point ((mesh.tria k).v (env.inxt2 i))).flag < s.base - 1 ∧
      (s.mesh.point ((mesh.tria k).v (env.iprv2 i))).flag < s.base - 1
  · simp only [hc, and_self, if_true]
    rfl
  · simp only [hc, if_false]
    by_cases h1 : (grad2met env prim s.mesh s.m k i).1 = ((env.inxt2 i : Nat) : Int)
    · simp only [h1, if_true, Option.some.injEq]
      by_cases hv : (mesh.tria k).v (env.inxt2 i) = v
      · rw [if_pos hv, ← hv, setFlag_point_self]
      · rw [if_neg hv, setFlag_point_ne _ _ (fun h => hv h.symm)]
    · simp only [h1, if_false]
      by_cases h2 : (grad2met env prim s.mesh s.m k i).1 = ((env.iprv2 i : Nat) : Int)
      · simp only [h2, if_true, Option.some.injEq]
        by_cases hv : (mesh.tria k).v (env.iprv2 i) = v
        · rw [if_pos hv, ← hv, setFlag_point_self]
        · rw [if_neg hv, setFlag_point_ne _ _ (fun h => hv h.symm)]
      · simp only [h2, if_false]
        rfl

/-- The body of the inner loop keeps the geometry of the mesh. -/
theorem gradsiz_edge_geom (env : Env K) (prim : Prim K) (k : Nat) (s : GradState K) (i : Nat) :
    SameGeom s.mesh (gradsiz_edge env prim k s i).mesh := by
  unfold gradsiz_edge
  simp only
  split_ifs
  · exact SameGeom.refl _
  · exact SameGeom_setFlag _ _ _
  · exact SameGeom_setFlag _ _ _
  · exact SameGeom.refl _

/-- The body of the inner loop keeps the invariant of the record. -/
theorem gradsiz_edge_logged_inv (env : Env K) (prim : Prim K) (mesh : Mesh K)
    (hwf : EdgesInMesh env mesh) (k i : Nat) (hk : ActiveEdge mesh k i)
    (acc : List GradVisit × GradState K) (hb : 1 ≤ acc.2.base) (h : VisitInv env mesh acc) :
    VisitInv env mesh (gradsiz_edge_logged env prim k acc i) ∧
    (gradsiz_edge_logged env prim k acc i).2.base = acc.2.base := by
  obtain ⟨hgeo, hbs, hfl, hpw, hlog⟩ := h
  have ht : acc.2.mesh.tria = mesh.tria := hgeo.2.2.2.2.1.symm
  have hbase : (gradsiz_edge env prim k acc.2 i).base = acc.2.base :=
    (gradsiz_edge_frame env prim k acc.2 i).2.1
  obtain ⟨⟨a1, a2⟩, ⟨a3, a4⟩⟩ := hwf k i hk
  have hxb : (gradsiz_edge_visit env prim k acc.2 i).b = acc.2.base := rfl
  have hf1 : (gradsiz_edge_visit env prim k acc.2 i).f1 =
      lastUpdate env mesh acc.1 ((mesh.tria k).v (env.inxt2 i)) := by
    rw [← hfl _ a1 a2, ← ht]
    rfl
  have hf2 : (gradsiz_edge_visit env prim k acc.2 i).f2 =
      lastUpdate env mesh acc.1 ((mesh.tria k).v (env.iprv2 i)) := by
    rw [← hfl _ a3 a4, ← ht]
    rfl
  have hnn : ∀ v, 0 ≤ lastUpdate env mesh acc.1 v := fun v =>
    lastUpdate_nonneg env mesh acc.1 v (fun c hc => le_trans (by norm_num) (hbs c hc).1)
  have hskip : (gradsiz_edge_visit env prim k acc.2 i).ier = none ↔
      (gradsiz_edge_visit env prim k acc.2 i).f1 < (gradsiz_edge_visit env prim k acc.2 i).b - 1 ∧
      (gradsiz_edge_visit env prim k acc.2 i).f2 <
        (gradsiz_edge_visit env prim k acc.2 i).b - 1 := by
    have hier : (gradsiz_edge_visit env prim k acc.2 i).ier =
        if (gradsiz_edge_visit env prim k acc.2 i).f1 <
            (gradsiz_edge_visit env prim k acc.2 i).b - 1 ∧
          (gradsiz_edge_visit env prim k acc.2 i).f2 <
            (gradsiz_edge_visit env prim k acc.2 i).b - 1 then none
        else some (grad2met env prim acc.2.mesh acc.2.m k i).1 := rfl
    rw [hier]
    by_cases hc : (gradsiz_edge_visit env prim k acc.2 i).f1 <
        (gradsiz_edge_visit env prim k acc.2 i).b - 1 ∧
      (gradsiz_edge_visit env prim k acc.2 i).f2 <
        (gradsiz_edge_visit env prim k acc.2 i).b - 1
    · rw [if_pos hc]
      exact ⟨fun _ => hc, fun _ => rfl⟩
    · rw [if_neg hc]
      exact ⟨fun h => Option.noConfusion h, fun h => absurd h hc⟩
  refine ⟨⟨SameGeom.trans hgeo (gradsiz_edge_geom env prim k acc.2 i), ?_, ?_, ?_, ?_⟩, hbase⟩
  · intro c hc
    rcases List.mem_append.mp hc with h1 | h1
    · exact ⟨(hbs c h1).1, by rw [show (gradsiz_edge_logged env prim k acc i).2.base =
        acc.2.base from hbase]; exact (hbs c h1).2⟩
    · rw [List.mem_singleton.mp h1]
      exact ⟨hb, by rw [show (gradsiz_edge_logged env prim k acc i).2.base =
        acc.2.base from hbase]; exact le_refl _⟩
  · intro v hv1 hv2
    show ((gradsiz_edge env prim k acc.2 i).mesh.point v).flag =
      lastUpdate env mesh (acc.1 ++ [gradsiz_edge_visit env prim k acc.2 i]) v
    rw [lastUpdate_snoc, gradsiz_edge_flag env prim mesh k acc.2 i ht v, hfl v hv1 hv2]
    rfl
  · show List.Pairwise _ (acc.1 ++ [gradsiz_edge_visit env prim k acc.2 i])
    rw [List.pairwise_append]
    refine ⟨hpw, List.pairwise_singleton _ _, fun d hd c hc => ?_⟩
    rw [List.mem_singleton.mp hc]
    exact (hbs d hd).2
  · apply LogOk_snoc env mesh acc.1 _ hlog
    refine ⟨hk, hb, fun d hd => (hbs d hd).2, ?_, ?_, hf1, hf2, hskip, fun h2 => ?_⟩
    · rw [hf1]
      exact hnn _
    · rw [hf2]
      exact hnn _
    · rw [hskip, hf1, hf2, hxb]
      have hB : (0 : Int) < acc.2.base - 1 := by
        have : (gradsiz_edge_visit env prim k acc.2 i).b = acc.2.base := rfl
        rw [this] at h2
        omega
      rw [lastUpdate_lt env mesh acc.1 _ _ hB hpw, lastUpdate_lt env mesh acc.1 _ _ hB hpw]
      constructor
      · rintro ⟨h3, h4⟩ d hd (hu | hu)
        · exact h3 d hd hu
        · exact h4 d hd hu
      · intro h3
        exact ⟨fun d hd hu => h3 d hd (Or.inl hu), fun d hd hu => h3 d hd (Or.inr hu)⟩

/-- The body of the loop over the triangles keeps the invariant of the record. -/
theorem gradsiz_tria_logged_inv (env : Env K) (prim : Prim K) (mesh : Mesh K)
    (hwf : EdgesInMesh env mesh) (k : Nat) (hk1 : 1 ≤ k) (hk2 : k ≤ mesh.nt)
    (acc : List GradVisit × GradState K) (hb : 1 ≤ acc.2.base) (h : VisitInv env mesh acc) :
    VisitInv env mesh (gradsiz_tria_logged env prim acc k) ∧
    (gradsiz_tria_logged env prim acc k).2.base = acc.2.base := by
  unfold gradsiz_tria_logged
  by_cases he : MG_EOK (acc.2.mesh.tria k) = false
  · rw [if_pos he]
    exact ⟨h, rfl⟩
  · rw [if_neg he]
    have he1 : MG_EOK (mesh.tria k) = true := by
      rw [h.1.2.2.2.2.1]
      simpa using he
    exact fold_inv (gradsiz_edge_logged env prim k)
      (fun a => VisitInv env mesh a ∧ a.2.base = acc.2.base) [0, 1, 2]
      (fun a i hi ha => by
        have hi3 : i < 3 := by
          simp only [List.mem_cons, List.mem_singleton, List.not_mem_nil, or_false] at hi
          omega
        obtain ⟨h1, h2⟩ := gradsiz_edge_logged_inv env prim mesh hwf k i ⟨hk1, hk2, he1, hi3⟩ a
          (by rw [ha.2]; exact hb) ha.1
        exact ⟨h1, h2.trans ha.2⟩) acc ⟨h, rfl⟩

/-- A sweep keeps the invariant of the record and raises the generation by 1. -/
theorem gradsiz_sweep_logged_inv (env : Env K) (prim : Prim K) (mesh : Mesh K)
    (hwf : EdgesInMesh env mesh) (acc : List GradVisit × GradState K) (hb : 0 ≤ acc.2.base)
    (h : VisitInv env mesh acc) :
    VisitInv env mesh (gradsiz_sweep_logged env prim acc) ∧
    (gradsiz_sweep_logged env prim acc).2.base = acc.2.base + 1 := by
  obtain ⟨hgeo, hbs, hfl, hpw, hlog⟩ := h
  have h0 : VisitInv env mesh (acc.1, { acc.2 with base := acc.2.base + 1, nu := 0 }) :=
    ⟨hgeo, fun c hc => ⟨(hbs c hc).1, by have := (hbs c hc).2; show c.b ≤ acc.2.base + 1; omega⟩,
      hfl, hpw, hlog⟩
  have hf := fold_inv (gradsiz_tria_logged env prim)
    (fun a => VisitInv env mesh a ∧ a.2.base = acc.2.base + 1) (List.range' 1 acc.2.mesh.nt)
    (fun a k hk ha => by
      have hk' : 1 ≤ k ∧ k ≤ mesh.nt := by
        rw [List.mem_range'_1, ← hgeo.2.1] at hk
        omega
      obtain ⟨h1, h2⟩ := gradsiz_tria_logged_inv env prim mesh hwf k hk'.1 hk'.2 a
        (by rw [ha.2]; omega) ha.1
      exact ⟨h1, h2.trans ha.2⟩)
    (acc.1, { acc.2 with base := acc.2.base + 1, nu := 0 }) ⟨h0, rfl⟩
  obtain ⟨⟨g1, g2, g3, g4, g5⟩, g6⟩ := hf
  exact ⟨⟨g1, g2, g3, g4, g5⟩, g6⟩

/-- The loop of the sweeps keeps the invariant of the record. -/
theorem gradsiz_loop_logged_inv (env : Env K) (prim : Prim K) (mesh : Mesh K)
    (hwf : EdgesInMesh env mesh) (fuel : Nat) (acc : List GradVisit × GradState K)
    (hb : 0 ≤ acc.2.base) (h : VisitInv env mesh acc) :
    VisitInv env mesh (gradsiz_loop_logged env prim 100 fuel acc) := by
  induction fuel generalizing acc with
  | zero => exact h
  | succ n ih =>
    rw [gradsiz_loop_logged]
    obtain ⟨h1, h2⟩ := gradsiz_sweep_logged_inv env prim mesh hwf acc hb h
    by_cases hc : (gradsiz_sweep_logged env prim acc).2.it < 100 ∧
        (gradsiz_sweep_logged env prim acc).2.nu > 0
    · simp only [hc, and_self, if_true]
      exact ih _ (by rw [h2]; omega) h1
    · simp only [hc, if_false]
      exact h1

/-- The traversal with the record of the visits computes the traversal: the
body of the loop over the triangles. -/
theorem gradsiz_tria_logged_snd (env : Env K) (prim : Prim K)
    (acc : List GradVisit × GradState K) (k : Nat) :
    (gradsiz_tria_logged env prim acc k).2 = gradsiz_tria env prim acc.2 k := by
  unfold gradsiz_tria_logged gradsiz_tria
  by_cases he : MG_EOK (acc.2.mesh.tria k) = false
  · rw [if_pos he, if_pos he]
  · rw [if_neg he, if_neg he]
    rfl

/-- The traversal with the record of the visits computes the traversal: a fold
of the body of the loop over the triangles. -/
theorem gradsiz_trias_logged_snd (env : Env K) (prim : Prim K) (l : List Nat)
    (acc : List GradVisit × GradState K) :
    (l.foldl (gradsiz_tria_logged env prim) acc).2 = l.foldl (gradsiz_tria env prim) acc.2 := by
  induction l generalizing acc with
  | nil => rfl
  | cons k l ih => rw [List.foldl_cons, List.foldl_cons, ih, gradsiz_tria_logged_snd]

/-- The traversal with the record of the visits computes the traversal: one
sweep. -/
theorem gradsiz_sweep_logged_snd (env : Env K) (prim : Prim K)
    (acc : List GradVisit × GradState K) :
    (gradsiz_sweep_logged env prim acc).2 = gradsiz_sweep env prim acc.2 := by
  unfold gradsiz_sweep_logged gradsiz_sweep
  simp only [gradsiz_trias_logged_snd]

/-- The traversal with the record of the visits computes the traversal: the
loop of the sweeps. -/
theorem gradsiz_loop_logged_snd (env : Env K) (prim : Prim K) (fuel : Nat)
    (acc : List GradVisit × GradState K) :
    (gradsiz_loop_logged env prim 100 fuel acc).2 = gradsiz_loop env prim 100 fuel acc.2 := by
  induction fuel generalizing acc with
  | zero => rfl
  | succ n ih =>
    rw [gradsiz_loop_logged, gradsiz_loop]
    simp only [gradsiz_sweep_logged_snd]
    by_cases hc : (gradsiz_sweep env prim acc.2).it < 100 ∧ (gradsiz_sweep env prim acc.2).nu > 0
    · rw [if_pos hc, if_pos hc, ih, gradsiz_sweep_logged_snd]
    · rw [if_neg hc, if_neg hc, gradsiz_sweep_logged_snd]

/-- The keys of the record after the body of the inner loop. -/
theorem gradsiz_edge_logged_keys (env : Env K) (prim : Prim K) (k : Nat)
    (acc : List GradVisit × GradState K) (i : Nat) :
    (gradsiz_edge_logged env prim k acc i).1.map visitKey =
      acc.1.map visitKey ++ [(acc.2.base, k, i)] := by
  unfold gradsiz_edge_logged
  rw [List.map_append]
  rfl

/-- The keys of the record after the body of the loop over the triangles, and
what it keeps. -/
theorem gradsiz_tria_logged_keys (env : Env K) (prim : Prim K) (mesh : Mesh K)
    (acc : List GradVisit × GradState K) (k : Nat) (hgeo : SameGeom mesh acc.2.mesh) :
    (gradsiz_tria_logged env prim acc k).1.map visitKey =
      acc.1.map visitKey ++
        (if MG_EOK (mesh.tria k) then [(k, 0), (k, 1), (k, 2)] else []).map
          (fun e => (acc.2.base, e.1, e.2)) ∧
    SameGeom mesh (gradsiz_tria_logged env prim acc k).2.mesh ∧
    (gradsiz_tria_logged env prim acc k).2.base = acc.2.base := by
  have ht : acc.2.mesh.tria = mesh.tria := hgeo.2.2.2.2.1.symm
  unfold gradsiz_tria_logged
  rw [ht]
  by_cases he : MG_EOK (mesh.tria k) = false
  · rw [if_pos he]
    simp [he, hgeo]
  · rw [if_neg he]
    have he1 : MG_EOK (mesh.tria k) = true := by simpa using he
    rw [if_pos he1]
    simp only [List.foldl_cons, List.foldl_nil]
    have b0 := (gradsiz_edge_frame env prim k acc.2 0).2.1
    have b1 := (gradsiz_edge_frame env prim k (gradsiz_edge env prim k acc.2 0) 1).2.1
    have b2 := (gradsiz_edge_frame env prim k
      (gradsiz_edge env prim k (gradsiz_edge env prim k acc.2 0) 1) 2).2.1
    refine ⟨?_, ?_, ?_⟩
    · rw [gradsiz_edge_logged_keys, gradsiz_edge_logged_keys, gradsiz_edge_logged_keys]
      show _ ++ [((gradsiz_edge env prim k (gradsiz_edge env prim k acc.2 0) 1).base, k, 2)] = _
      rw [b1]
      show _ ++ [((gradsiz_edge env prim k acc.2 0).base, k, 1)] ++ _ = _
      rw [b0]
      simp
    · exact SameGeom.trans hgeo (SameGeom.trans (gradsiz_edge_geom env prim k acc.2 0)
        (SameGeom.trans (gradsiz_edge_geom env prim k _ 1) (gradsiz_edge_geom env prim k _ 2)))
    · show (gradsiz_edge env prim k
        (gradsiz_edge env prim k (gradsiz_edge env prim k acc.2 0) 1) 2).base = _
      rw [b2, b1, b0]

/-- The keys of the record after a fold of the body of the loop over the
triangles. -/
theorem gradsiz_trias_logged_keys (env : Env K) (prim : Prim K) (mesh : Mesh K) (l : List Nat)
    (acc : List GradVisit × GradState K) (hgeo : SameGeom mesh acc.2.mesh) :
    (l.foldl (gradsiz_tria_logged env prim) acc).1.map visitKey =
      acc.1.map visitKey ++
        (l.flatMap (fun k => if MG_EOK (mesh.tria k) then [(k, 0), (k, 1), (k, 2)] else [])).map
          (fun e => (acc.2.base, e.1, e.2)) ∧
    SameGeom mesh (l.foldl (gradsiz_tria_logged env prim) acc).2.mesh ∧
    (l.foldl (gradsiz_tria_logged env prim) acc).2.base = acc.2.base := by
  induction l generalizing acc with
  | nil => simp [hgeo]
  | cons k l ih =>
    obtain ⟨h1, h2, h3⟩ := gradsiz_tria_logged_keys env prim mesh acc k hgeo
    obtain ⟨i1, i2, i3⟩ := ih (gradsiz_tria_logged env prim acc k) h2
    rw [List.foldl_cons]
    refine ⟨?_, i2, i3.trans h3⟩
    rw [i1, h1, h3, List.flatMap_cons, List.map_append, List.append_assoc]

/-- The keys of the record after a sweep: the edges of the triangles that are not
deleted, in the next generation. -/
theorem gradsiz_sweep_logged_keys (env : Env K) (prim : Prim K) (mesh : Mesh K)
    (acc : List GradVisit × GradState K) (hgeo : SameGeom mesh acc.2.mesh) :
    (gradsiz_sweep_logged env prim acc).1.map visitKey =
      acc.1.map visitKey ++ (activeEdges mesh).map (fun e => (acc.2.base + 1, e.1, e.2)) ∧
    SameGeom mesh (gradsiz_sweep_logged env prim acc).2.mesh ∧
    (gradsiz_sweep_logged env prim acc).2.base = acc.2.base + 1 ∧
    (gradsiz_sweep_logged env prim acc).2.it = acc.2.it + 1 := by
  obtain ⟨h1, h2, h3⟩ := gradsiz_trias_logged_keys env prim mesh (List.range' 1 acc.2.mesh.nt)
    (acc.1, { acc.2 with base := acc.2.base + 1, nu := 0 }) hgeo
  have hit : ((List.range' 1 acc.2.mesh.nt).foldl (gradsiz_tria_logged env prim)
      (acc.1, { acc.2 with base := acc.2.base + 1, nu := 0 })).2.it = acc.2.it := by
    rw [gradsiz_trias_logged_snd]
    exact (gradsiz_trias_frame env prim _ _).1
  refine ⟨?_, h2, h3, ?_⟩
  · unfold activeEdges
    rw [hgeo.2.1]
    exact h1
  · show _ + 1 = _
    rw [hit]

/-- The keys of the record after the loop of the sweeps: each sweep made goes
through the edges of the triangles that are not deleted, in the order of the
mesh, and raises the generation by 1. -/
theorem gradsiz_loop_logged_keys (env : Env K) (prim : Prim K) (mesh : Mesh K) (fuel : Nat)
    (acc : List GradVisit × GradState K) (hgeo : SameGeom mesh acc.2.mesh) :
    ∃ n : Nat, (0 < fuel → 1 ≤ n) ∧ n ≤ fuel ∧
      (gradsiz_loop_logged env prim 100 fuel acc).1.map visitKey =
        acc.1.map visitKey ++ (List.range n).flatMap
          (fun j => (activeEdges mesh).map (fun e => (acc.2.base + (j : Int) + 1, e.1, e.2))) ∧
      (gradsiz_loop_logged env prim 100 fuel acc).2.base = acc.2.base + (n : Int) := by
  induction fuel generalizing acc with
  | zero => exact ⟨0, fun h => absurd h (lt_irrefl _), le_refl _, by simp [gradsiz_loop_logged],
      by simp [gradsiz_loop_logged]⟩
  | succ f ih =>
    rw [gradsiz_loop_logged]
    obtain ⟨h1, h2, h3, _⟩ := gradsiz_sweep_logged_keys env prim mesh acc hgeo
    by_cases hc : (gradsiz_sweep_logged env prim acc).2.it < 100 ∧
        (gradsiz_sweep_logged env prim acc).2.nu > 0
    · simp only [hc, and_self, if_true]
      obtain ⟨n, _, i2, i3, i4⟩ := ih (gradsiz_sweep_logged env prim acc) h2
      refine ⟨n + 1, fun _ => Nat.le_add_left 1 n, Nat.succ_le_succ i2, ?_, ?_⟩
      · rw [i3, h1, h3, List.append_assoc, List.range_succ_eq_map, List.flatMap_cons,
          List.flatMap_map]
        congr 2
        · simp
        · apply List.flatMap_congr
          intro j _
          apply List.map_congr_left
          intro e _
          simp only [Function.comp, Nat.succ_eq_add_one, Nat.cast_add, Nat.cast_one,
            Prod.mk.injEq, and_true]
          ring
      · rw [i4, h3]
        push_cast
        ring
    · simp only [hc, if_false]
      refine ⟨1, fun _ => le_refl 1, Nat.succ_le_succ (Nat.zero_le f), ?_, ?_⟩
      · rw [h1]
        simp [List.range_succ]
      · rw [h3]
        simp

omit [LinearOrderedField K] in
/-- The invariant of the record holds on entry of the loop of the sweeps. -/
theorem gradsiz_visits_init (env : Env K) (mesh : Mesh K) (m0 : Nat → Met6 K) :
    VisitInv env mesh
      ([], ⟨(List.range' 1 mesh.np).foldl (fun me k => me.setFlag k 0) mesh, m0, 0, 0, 0, 0⟩) := by
  obtain ⟨h1, h2⟩ := foldl_setFlag (List.range' 1 mesh.np) (0 : Int) mesh
  refine ⟨h1, fun c hc => absurd hc (List.not_mem_nil c), fun v hv1 hv2 => ?_, List.Pairwise.nil,
    LogOk_nil env mesh⟩
  show (((List.range' 1 mesh.np).foldl (fun me k => me.setFlag k 0) mesh).point v).flag = 0
  rw [h2 v, if_pos]
  rw [List.mem_range'_1]
  omega

/-- The record of the calls is the record of the visits without the skipped
ones: the body of the inner loop. -/
theorem gradsiz_edge_logged_calls (env : Env K) (prim : Prim K) (k : Nat)
    (a : List GradVisit × GradState K) (t : List (Nat × Nat) × GradState K) (i : Nat)
    (h : t.1 = visitsCalled a.1 ∧ t.2 = a.2) :
    (gradsiz_edge_traced env prim k t i).1 = visitsCalled (gradsiz_edge_logged env prim k a i).1 ∧
    (gradsiz_edge_traced env prim k t i).2 = (gradsiz_edge_logged env prim k a i).2 := by
  obtain ⟨h1, h2⟩ := h
  unfold gradsiz_edge_traced gradsiz_edge_logged
  refine ⟨?_, by rw [h2]⟩
  show t.1 ++ gradsiz_edge_calls env k t.2 i = visitsCalled (a.1 ++ [gradsiz_edge_visit env prim k a.2 i])
  rw [h1, h2]
  unfold visitsCalled
  rw [List.filter_append, List.map_append]
  congr 1
  unfold gradsiz_edge_calls gradsiz_edge_visit
  by_cases hc : ((a.2.mesh.point ((a.2.mesh.tria k).v (env.inxt2 i))).flag < a.2.base - 1 ∧
      (a.2.mesh.point ((a.2.mesh.tria k).v (env.iprv2 i))).flag < a.2.base - 1)
  · simp [hc]
  · simp [hc]

/-- The record of the calls is the record of the visits without the skipped
ones: the body of the loop over the triangles. -/
theorem gradsiz_tria_logged_calls (env : Env K) (prim : Prim K)
    (a : List GradVisit × GradState K) (t : List (Nat × Nat) × GradState K) (k : Nat)
    (h : t.1 = visitsCalled a.1 ∧ t.2 = a.2) :
    (gradsiz_tria_traced env prim t k).1 = visitsCalled (gradsiz_tria_logged env prim a k).1 ∧
    (gradsiz_tria_traced env prim t k).2 = (gradsiz_tria_logged env prim a k).2 := by
  unfold gradsiz_tria_traced gradsiz_tria_logged
  rw [h.2]
  by_cases he : MG_EOK (a.2.mesh.tria k) = false
  · rw [if_pos he, if_pos he]
    exact h
  · rw [if_neg he, if_neg he]
    simp only [List.foldl_cons, List.foldl_nil]
    exact gradsiz_edge_logged_calls env prim k _ _ 2
      (gradsiz_edge_logged_calls env prim k _ _ 1 (gradsiz_edge_logged_calls env prim k _ _ 0 h))

/-- The record of the calls is the record of the visits without the skipped
ones: a fold of the body of the loop over the triangles. -/
theorem gradsiz_trias_logged_calls (env : Env K) (prim : Prim K) (l : List Nat)
    (a : List GradVisit × GradState K) (t : List (Nat × Nat) × GradState K)
    (h : t.1 = visitsCalled a.1 ∧ t.2 = a.2) :
    (l.foldl (gradsiz_tria_traced env prim) t).1 =
      visitsCalled (l.foldl (gradsiz_tria_logged env prim) a).1 ∧
    (l.foldl (gradsiz_tria_traced env prim) t).2 = (l.foldl (gradsiz_tria_logged env prim) a).2 := by
  induction l generalizing a t with
  | nil => exact h
  | cons k l ih =>
    rw [List.foldl_cons, List.foldl_cons]
    exact ih _ _ (gradsiz_tria_logged_calls env prim a t k h)

/-- The record of the calls is the record of the visits without the skipped
ones: a sweep. -/
theorem gradsiz_sweep_logged_calls (env : Env K) (prim : Prim K)
    (a : List GradVisit × GradState K) (t : List (Nat × Nat) × GradState K)
    (h : t.1 = visitsCalled a.1 ∧ t.2 = a.2) :
    (gradsiz_sweep_traced env prim t).1 = visitsCalled (gradsiz_sweep_logged env prim a).1 ∧
    (gradsiz_sweep_traced env prim t).2 = (gradsiz_sweep_logged env prim a).2 := by
  obtain ⟨g1, g2⟩ := gradsiz_trias_logged_calls env prim (List.range' 1 a.2.mesh.nt)
    (a.1, { a.2 with base := a.2.base + 1, nu := 0 })
    (t.1, { t.2 with base := t.2.base + 1, nu := 0 }) ⟨h.1, by rw [h.2]⟩
  unfold gradsiz_sweep_traced gradsiz_sweep_logged
  rw [h.2] at g1 g2 ⊢
  exact ⟨g1, by simp only [g2]⟩

/-- The record of the calls is the record of the visits without the skipped
ones: the loop of the sweeps. -/
theorem gradsiz_loop_logged_calls (env : Env K) (prim : Prim K) (maxit : Int) (fuel : Nat)
    (a : List GradVisit × GradState K) (t : List (Nat × Nat) × GradState K)
    (h : t.1 = visitsCalled a.1 ∧ t.2 = a.2) :
    (gradsiz_loop_traced env prim maxit fuel t).1 =
      visitsCalled (gradsiz_loop_logged env prim maxit fuel a).1 ∧
    (gradsiz_loop_traced env prim maxit fuel t).2 =
      (gradsiz_loop_logged env prim maxit fuel a).2 := by
  induction fuel generalizing a t with
  | zero => exact h
  | succ n ih =>
    rw [gradsiz_loop_traced, gradsiz_loop_logged]
    obtain ⟨g1, g2⟩ := gradsiz_sweep_logged_calls env prim a t h
    simp only [g2]
    by_cases hc : (gradsiz_sweep_logged env prim a).2.it < maxit ∧
        (gradsiz_sweep_logged env prim a).2.nu > 0
    · simp only [hc, and_self, if_true]
      exact ih _ _ ⟨g1, g2⟩
    · simp only [hc, if_false]
      exact ⟨g1, g2⟩

omit [LinearOrderedField K] in
/-- In a record whose keys are those of `n >= 1` sweeps over the edges `E`, the
visits of the generation 1 are the edges `E`, in their order. -/
theorem first_sweep_keys (L : List GradVisit) (E : List (Nat × Nat)) (n : Nat) (hn : 1 ≤ n)
    (h : L.map visitKey =
      (List.range n).flatMap (fun j => E.map (fun e => ((j : Int) + 1, e.1, e.2)))) :
    (L.filter (fun c => decide (c.b = 1))).map (fun c => (c.k, c.i)) = E := by
  have e1 : (L.filter (fun c => decide (c.b = 1))).map (fun c => (c.k, c.i)) =
      ((L.map visitKey).filter (fun x => decide (x.1 = 1))).map (fun x => x.2) := by
    rw [List.filter_map, List.map_map]
    rfl
  rw [e1, h]
  obtain ⟨p, rfl⟩ : ∃ p, n = p + 1 := ⟨n - 1, by omega⟩
  rw [List.range_succ_eq_map, List.flatMap_cons, List.filter_append]
  have e2 : ((List.map Nat.succ (List.range p)).flatMap
      (fun j => E.map (fun e => ((j : Int) + 1, e.1, e.2)))).filter
        (fun x => decide (x.1 = 1)) = [] := by
    rw [List.filter_eq_nil_iff]
    intro x hx
    rw [List.mem_flatMap] at hx
    obtain ⟨j, hj, hx⟩ := hx
    rw [List.mem_map] at hj hx
    obtain ⟨q, _, rfl⟩ := hj
    obtain ⟨e, _, rfl⟩ := hx
    simp only [Nat.succ_eq_add_one, Nat.cast_add, Nat.cast_one, decide_eq_true_eq]
    omega
  have e3 : (E.map (fun e => (((0 : Nat) : Int) + 1, e.1, e.2))).filter
      (fun x => decide (x.1 = 1)) = E.map (fun e => (((0 : Nat) : Int) + 1, e.1, e.2)) := by
    rw [List.filter_eq_self]
    intro x hx
    rw [List.mem_map] at hx
    obtain ⟨e, _, rfl⟩ := hx
    simp
  rw [e2, e3, List.append_nil, List.map_map]
  simp

omit [LinearOrderedField K] in
/-- The visits of a record that are all made are all called. -/
theorem visitsCalled_of_made (L : List GradVisit) (h : ∀ c ∈ L, c.ier ≠ none) :
    visitsCalled L = L.map (fun c => (c.k, c.i)) := by
  unfold visitsCalled
  rw [List.filter_eq_self.mpr]
  intro c hc
  cases hi : c.ier with
  | none => exact absurd hi (h c hc)
  | some x => rfl

end Lemmas4

/-! ## The claims -/

section Claims

variable {K : Type} [LinearOrderedField K]

/-- C1. After `defsiz_ani` has run with no supplied metric, `0 < hmin <= hmax`
and an orthogonal rotation primitive, every valid vertex respects the size
bounds: the tensor of a vertex that is not a ridge vertex (singular, regular,
reference) has all its eigenvalues in `[isqhmax, isqhmin]`, and the three sizes
`m[0], m[1], m[2]` of a ridge vertex lie in `[isqhmax, isqhmin]`. -/
theorem defsiz_ani_bounds (env : Env K) (defmetref defmetreg : Estimator K) (mm0 : Met6 K)
    (n0 : Vec3 K) (mesh : Mesh K) (met : Sol K) (mesh2 : Mesh K) (met2 : Sol K)
    (hm : met.m = none) (hmin : 0 < mesh.info.hmin) (hle : mesh.info.hmin ≤ mesh.info.hmax)
    (hR : ∀ n, (env.rotmatrix n).IsOrthogonal)
    (h : defsiz_ani env defmetref defmetreg mm0 n0 mesh met = .ok (1, mesh2, met2)) :
    ∃ m2, met2.m = some m2 ∧ ∀ k, 1 ≤ k → k ≤ mesh.np → MG_VOK env (mesh.point k) = true →
      (¬ IsRidgeTag env (mesh.point k).tag →
        SpectrumIn (m2 k).toMatrix (isq mesh.info.hmax) (isq mesh.info.hmin)) ∧
      (IsRidgeTag env (mesh.point k).tag →
        InBounds mesh.info (m2 k).m0 ∧ InBounds mesh.info (m2 k).m1 ∧
        InBounds mesh.info (m2 k).m2) := by
  obtain ⟨m2, hm2, hk⟩ :=
    defsiz_ani_nomet_entries env defmetref defmetreg mm0 n0 mesh met mesh2 met2 hm h
  have hb := isq_le_of_bounds mesh.info hmin hle
  have hh : defsiz_hmax mesh = mesh := defsiz_hmax_of_nonneg mesh (hmin.le.trans hle)
  refine ⟨m2, hm2, fun k hk1 hk2 hv => ?_⟩
  obtain ⟨_, he⟩ := hk k hk1 hk2 hv
  rw [hh] at he
  constructor
  · intro hr
    rcases he with (⟨_, a, ha⟩ | ⟨hs, hg, _⟩) | hd
    · rw [ha]
      exact iso_spectrum _ _ _ (clampSize_ge _ _) (clampSize_le _ _ hb)
    · exact absurd ⟨hs, hg⟩ hr
    · rw [hd, defsiz_default_nonridge env mesh _ _ hR hr]
      exact iso_spectrum _ _ _ (le_refl _) hb
  · intro hr
    rcases he with (⟨hs, _⟩ | ⟨_, _, hf⟩) | hd
    · rw [hr.1] at hs
      exact absurd hs (by decide)
    · exact RidgeForm_inBounds mesh.info _ hf hb
    · rw [hd, defsiz_default_ridge env mesh _ _ hr]
      exact ⟨⟨le_refl _, hb⟩, ⟨le_refl _, hb⟩, ⟨le_refl _, hb⟩⟩

/-- Witness of C1 on the two-triangle patch with a curved corner: the run
returns 1 and the bounds hold at every valid vertex. -/
theorem defsiz_ani_bounds_witness :
    ∃ mesh2 met2,
      defsiz_ani curvedEnv fourEstimator fourEstimator junk6 junk3 patchMesh (noMet ℚ) =
        .ok (1, mesh2, met2) ∧
      (0 < patchMesh.info.hmin ∧ patchMesh.info.hmin ≤ patchMesh.info.hmax) ∧
      ∃ m2, met2.m = some m2 ∧
        ∀ k, 1 ≤ k → k ≤ patchMesh.np → MG_VOK curvedEnv (patchMesh.point k) = true →
          (¬ IsRidgeTag curvedEnv (patchMesh.point k).tag →
            SpectrumIn (m2 k).toMatrix (isq patchMesh.info.hmax) (isq patchMesh.info.hmin)) ∧
          (IsRidgeTag curvedEnv (patchMesh.point k).tag →
            InBounds patchMesh.info (m2 k).m0 ∧ InBounds patchMesh.info (m2 k).m1 ∧
            InBounds patchMesh.info (m2 k).m2) := by
  obtain ⟨mesh2, met2, h⟩ := ok_of_codeOf
    (defsiz_ani curvedEnv fourEstimator fourEstimator junk6 junk3 patchMesh (noMet ℚ))
    (by decide!)
  exact ⟨mesh2, met2, h, ⟨by decide!, by decide!⟩,
    defsiz_ani_bounds curvedEnv fourEstimator fourEstimator junk6 junk3 patchMesh (noMet ℚ)
      mesh2 met2 rfl (by decide!) (by decide!) (fun _ => idMat3_orth) h⟩

/-- C5. After `defsiz_ani` with no supplied metric and `hmax > 0`, the tensor
stored at every valid vertex that is not a ridge vertex (singular, regular or
reference) is positive semi-definite, whatever matrix the rotation primitive
returns. -/
theorem defsiz_ani_psd (env : Env K) (defmetref defmetreg : Estimator K) (mm0 : Met6 K)
    (n0 : Vec3 K) (mesh : Mesh K) (met : Sol K) (mesh2 : Mesh K) (met2 : Sol K)
    (hm : met.m = none) (hmax : 0 < mesh.info.hmax)
    (h : defsiz_ani env defmetref defmetreg mm0 n0 mesh met = .ok (1, mesh2, met2)) :
    ∃ m2, met2.m = some m2 ∧ ∀ k, 1 ≤ k → k ≤ mesh.np → MG_VOK env (mesh.point k) = true →
      ¬ IsRidgeTag env (mesh.point k).tag → IsPSD (m2 k).toMatrix := by
  obtain ⟨m2, hm2, hk⟩ :=
    defsiz_ani_nomet_entries env defmetref defmetreg mm0 n0 mesh met mesh2 met2 hm h
  have hh : defsiz_hmax mesh = mesh := defsiz_hmax_of_nonneg mesh hmax.le
  have hq : 0 ≤ isq mesh.info.hmax := isq_nonneg _
  refine ⟨m2, hm2, fun k hk1 hk2 hv hr => ?_⟩
  obtain ⟨_, he⟩ := hk k hk1 hk2 hv
  rw [hh] at he
  rcases he with (⟨_, a, ha⟩ | ⟨hs, hg, _⟩) | hd
  · rw [ha]
    exact iso_psd _ (hq.trans (clampSize_ge _ _))
  · exact absurd ⟨hs, hg⟩ hr
  · rw [hd]
    unfold defsiz_default
    by_cases hs : env.MS_SIN (mesh.point k).tag = true
    · rw [if_pos hs]
      exact iso_psd _ hq
    · rw [if_neg hs]
      have hg : ¬ hasBit (mesh.point k).tag env.MG_GEO = true :=
        fun hg => hr ⟨by simpa using hs, hg⟩
      rw [if_neg hg]
      exact defsiz_frame_psd _ _ hq

/-- Witness of C5 on the two-triangle patch with a curved corner. -/
theorem defsiz_ani_psd_witness :
    ∃ mesh2 met2,
      defsiz_ani curvedEnv fourEstimator fourEstimator junk6 junk3 patchMesh (noMet ℚ) =
        .ok (1, mesh2, met2) ∧ 0 < patchMesh.info.hmax ∧
      ∃ m2, met2.m = some m2 ∧
        ∀ k, 1 ≤ k → k ≤ patchMesh.np → MG_VOK curvedEnv (patchMesh.point k) = true →
          ¬ IsRidgeTag curvedEnv (patchMesh.point k).tag → IsPSD (m2 k).toMatrix := by
  obtain ⟨mesh2, met2, h⟩ := ok_of_codeOf
    (defsiz_ani curvedEnv fourEstimator fourEstimator junk6 junk3 patchMesh (noMet ℚ))
    (by decide!)
  exact ⟨mesh2, met2, h, by decide!,
    defsiz_ani_psd curvedEnv fourEstimator fourEstimator junk6 junk3 patchMesh (noMet ℚ)
      mesh2 met2 rfl (by decide!) h⟩

/-- C7. In `defsiz_ani` with no supplied metric, every valid vertex that the
first pass did not flag receives, by tag: `isqhmax * Identity` if it is singular;
`isqhmax` in `m[0], m[1], m[2]` and 0 in `m[3], m[4], m[5]` if it is a ridge vertex;
and `isqhmax * (R^T R)` otherwise, `R` being the rotation frame of the first normal
of its extended record for a reference vertex and of its own `n` otherwise. -/
theorem defsiz_ani_fallback (env : Env K) (defmetref defmetreg : Estimator K) (mm0 : Met6 K)
    (n0 : Vec3 K) (mesh : Mesh K) (met : Sol K) (s1 : SizState K)
    (hm : met.m = none)
    (hadd : env.ADD_MEM mesh (6 * mesh.npmax + 1) = true)
    (hcal : env.SAFE_CALLOC (6 * (mesh.npmax + 1) + 1) = true)
    (h1 : defsiz_pass1 env defmetref defmetreg n0 false (pass1Entry mesh mm0) = .ok s1) :
    ∃ mesh2 m2,
      defsiz_ani env defmetref defmetreg mm0 n0 mesh met =
        .ok (1, mesh2, { np := mesh.np, npmax := mesh.npmax, m := some m2 }) ∧
      ∀ k, 1 ≤ k → k ≤ mesh.np → MG_VOK env (mesh.point k) = true →
        (s1.mesh.point k).flag ≠ 1 →
        (env.MS_SIN (mesh.point k).tag = true →
          m2 k = Met6.iso (isq (defsiz_hmax mesh).info.hmax)) ∧
        (IsRidgeTag env (mesh.point k).tag →
          m2 k = ⟨isq (defsiz_hmax mesh).info.hmax, isq (defsiz_hmax mesh).info.hmax,
            isq (defsiz_hmax mesh).info.hmax, 0, 0, 0⟩) ∧
        (env.MS_SIN (mesh.point k).tag = false →
          hasBit (mesh.point k).tag env.MG_GEO = false →
          (m2 k).toMatrix = isq (defsiz_hmax mesh).info.hmax •
            ((env.rotmatrix (if hasBit (mesh.point k).tag env.MG_REF = true
                then (mesh.xpoint (mesh.point k).ig).n1 else (mesh.point k).n)).toMatrix.transpose *
              (env.rotmatrix (if hasBit (mesh.point k).tag env.MG_REF = true
                then (mesh.xpoint (mesh.point k).ig).n1 else (mesh.point k).n)).toMatrix)) := by
  refine ⟨(defsiz_pass2 env false s1).mesh, (defsiz_pass2 env false s1).m, ?_, ?_⟩
  · rw [defsiz_ani_nomet env defmetref defmetreg mm0 n0 mesh met hm, hadd, hcal, h1]
    simp
  · intro k hk1 hk2 hv hf
    have hg := (defsiz_pass1_inv env defmetref defmetreg n0 false _ s1 h1).1
    obtain ⟨_, _, e3⟩ := defsiz_pass2_entries env mesh mm0 s1 hg k hk1 hk2 hv
    rw [e3 hf]
    refine ⟨fun hs => ?_, fun hr => defsiz_default_ridge env mesh _ _ hr, fun hs hgeo => ?_⟩
    · unfold defsiz_default
      rw [if_pos hs]
      rfl
    · rw [defsiz_default_plain env mesh _ _ hs hgeo, defsiz_frame_toMatrix]

/-- Witness of C7 on the two-triangle patch: the regular vertex 1 is not flagged
by the first pass and receives the identity (`isqhmax = 1`). -/
theorem defsiz_ani_fallback_witness :
    ∃ s1 mesh2 m2,
      defsiz_pass1 curvedEnv fourEstimator fourEstimator junk3 false
        (pass1Entry patchMesh junk6) = .ok s1 ∧
      defsiz_ani curvedEnv fourEstimator fourEstimator junk6 junk3 patchMesh (noMet ℚ) =
        .ok (1, mesh2, { np := patchMesh.np, npmax := patchMesh.npmax, m := some m2 }) ∧
      ∀ k, 1 ≤ k → k ≤ patchMesh.np → MG_VOK curvedEnv (patchMesh.point k) = true →
        (s1.mesh.point k).flag ≠ 1 →
        (curvedEnv.MS_SIN (patchMesh.point k).tag = true →
          m2 k = Met6.iso (isq (defsiz_hmax patchMesh).info.hmax)) ∧
        (IsRidgeTag curvedEnv (patchMesh.point k).tag →
          m2 k = ⟨isq (defsiz_hmax patchMesh).info.hmax, isq (defsiz_hmax patchMesh).info.hmax,
            isq (defsiz_hmax patchMesh).info.hmax, 0, 0, 0⟩) ∧
        (curvedEnv.MS_SIN (patchMesh.point k).tag = false →
          hasBit (patchMesh.point k).tag curvedEnv.MG_GEO = false →
          (m2 k).toMatrix = isq (defsiz_hmax patchMesh).info.hmax •
            ((curvedEnv.rotmatrix (if hasBit (patchMesh.point k).tag curvedEnv.MG_REF = true
                then (patchMesh.xpoint (patchMesh.point k).ig).n1
                else (patchMesh.point k).n)).toMatrix.transpose *
              (curvedEnv.rotmatrix (if hasBit (patchMesh.point k).tag curvedEnv.MG_REF = true
                then (patchMesh.xpoint (patchMesh.point k).ig).n1
                else (patchMesh.point k).n)).toMatrix)) := by
  obtain ⟨s1, h1⟩ := defsiz_pass1_ok curvedEnv fourEstimator fourEstimator junk3 false
    (pass1Entry patchMesh junk6).mesh (pass1Entry patchMesh junk6)
    (curvedEnv_queries _) (SameGeom.refl _)
  obtain ⟨mesh2, m2, h2, h3⟩ := defsiz_ani_fallback curvedEnv fourEstimator fourEstimator
    junk6 junk3 patchMesh (noMet ℚ) s1 rfl rfl rfl h1
  exact ⟨s1, mesh2, m2, h1, h2, h3⟩

/-- C8. `defsiz_ani` returns 1, with every valid vertex flagged and holding a
written entry (an estimated entry or the default one when no metric was
supplied), whenever the storage allocation succeeds and no ball or half-ball
query of the run fails: `QueriesOk` is stated on the mesh of the call as the
first pass reads it (line 1102 may have replaced `hmax`), and asks `boulet` to
succeed at the singular vertices and `bouletrid` at the ridge vertices of its
active triangles only. It returns 0 exactly when no metric was supplied and the
memory budget macro fails, so that no estimator outcome makes it return 0. -/
theorem defsiz_ani_returns (env : Env K) (defmetref defmetreg : Estimator K) (mm0 : Met6 K)
    (n0 : Vec3 K) (mesh : Mesh K) (met : Sol K) :
    ((met.m = none → env.ADD_MEM mesh (6 * mesh.npmax + 1) = true ∧
        env.SAFE_CALLOC (6 * (mesh.npmax + 1) + 1) = true) →
      QueriesOk env (defsiz_hmax mesh) →
      ∃ mesh2 met2 m2,
        defsiz_ani env defmetref defmetreg mm0 n0 mesh met = .ok (1, mesh2, met2) ∧
        met2.m = some m2 ∧
        ∀ k, 1 ≤ k → k ≤ mesh.np → MG_VOK env (mesh.point k) = true →
          (mesh2.point k).flag = 1 ∧
          (met.m = none →
            Estimated env (defsiz_hmax mesh).info (mesh.point k).tag (m2 k) ∨
            m2 k = defsiz_default env mesh (isq (defsiz_hmax mesh).info.hmax) (mesh.point k))) ∧
    ((∃ mesh2 met2, defsiz_ani env defmetref defmetreg mm0 n0 mesh met = .ok (0, mesh2, met2)) ↔
      (met.m = none ∧ env.ADD_MEM mesh (6 * mesh.npmax + 1) = false)) := by
  constructor
  · intro halloc hq
    cases hm : met.m with
    | none =>
      obtain ⟨hadd, hcal⟩ := halloc hm
      obtain ⟨s1, h1⟩ := defsiz_pass1_ok env defmetref defmetreg n0 false
        (defsiz_hmax mesh) (pass1Entry mesh mm0) hq (defsiz_reset_spec (defsiz_hmax mesh)).1
      have hrun : defsiz_ani env defmetref defmetreg mm0 n0 mesh met =
          .ok (1, (defsiz_pass2 env false s1).mesh,
            { np := mesh.np, npmax := mesh.npmax, m := some (defsiz_pass2 env false s1).m }) := by
        rw [defsiz_ani_nomet env defmetref defmetreg mm0 n0 mesh met hm, hadd, hcal, h1]
        simp
      obtain ⟨m2, hm2, hk⟩ := defsiz_ani_nomet_entries env defmetref defmetreg mm0 n0 mesh met
        _ _ hm hrun
      exact ⟨_, _, m2, hrun, hm2, fun k hk1 hk2 hv =>
        ⟨(hk k hk1 hk2 hv).1, fun _ => (hk k hk1 hk2 hv).2⟩⟩
    | some m =>
      have hg0 : SameGeom (defsiz_hmax mesh) (defsiz_reset (defsiz_hmax mesh)) :=
        (defsiz_reset_spec (defsiz_hmax mesh)).1
      obtain ⟨s1, h1⟩ := defsiz_pass1_ok env defmetref defmetreg n0 true
        (defsiz_hmax mesh) ⟨defsiz_reset (defsiz_hmax mesh), m, mm0⟩ hq hg0
      have hg := hg0.trans
        (defsiz_pass1_inv env defmetref defmetreg n0 true _ s1 h1).1
      refine ⟨(defsiz_pass2 env true s1).mesh, { met with m := some (defsiz_pass2 env true s1).m },
        (defsiz_pass2 env true s1).m, ?_, rfl, fun k hk1 hk2 hv => ⟨?_, fun hc => ?_⟩⟩
      · rw [defsiz_ani_met env defmetref defmetreg mm0 n0 mesh met m hm, h1]
      · have hnp : s1.mesh.np = mesh.np := by rw [← hg.1, (defsiz_hmax_geom mesh).1]
        have htag : (s1.mesh.point k).tag = (mesh.point k).tag := by
          rw [← (hg.2.2.2.2.2.2 k).2.2.1, (defsiz_hmax_geom mesh).2.2.2.1]
        exact defsiz_pass2_flag env true s1 k hk1 (by rw [hnp]; exact hk2)
          (by rw [MG_VOK_congr env htag]; exact hv)
      · exact absurd hc (by simp)
  · constructor
    · rintro ⟨mesh2, met2, h⟩
      cases hm : met.m with
      | none =>
        refine ⟨rfl, ?_⟩
        rw [defsiz_ani_nomet env defmetref defmetreg mm0 n0 mesh met hm] at h
        split_ifs at h with h1 h2
        · exact h1
        · cases hp : defsiz_pass1 env defmetref defmetreg n0 false (pass1Entry mesh mm0) with
          | error e => rw [hp] at h; exact absurd h (by simp)
          | ok s1 =>
            rw [hp] at h
            simp only at h
            injection h with h
            injection h with h
            exact absurd h (by decide)
      | some m =>
        rw [defsiz_ani_met env defmetref defmetreg mm0 n0 mesh met m hm] at h
        cases hp : defsiz_pass1 env defmetref defmetreg n0 true
            ⟨defsiz_reset (defsiz_hmax mesh), m, mm0⟩ with
        | error e => rw [hp] at h; exact absurd h (by simp)
        | ok s1 =>
          rw [hp] at h
          simp only at h
          injection h with h
          injection h with h
          exact absurd h (by decide)
    · rintro ⟨hm, hadd⟩
      refine ⟨mesh, { met with np := mesh.np, npmax := mesh.npmax }, ?_⟩
      rw [defsiz_ani_nomet env defmetref defmetreg mm0 n0 mesh met hm, if_pos hadd]

/-- Witness of C8 on the two-triangle patch with a curved corner, the estimators
of regular and reference vertices being `defmetreg` and `defmetref`: allocation
and queries succeed, the run returns 1 and every valid vertex is flagged. -/
theorem defsiz_ani_returns_witness :
    QueriesOk curvedEnv (defsiz_hmax patchMesh) ∧
    ∃ mesh2 met2 m2,
      defsiz_ani curvedEnv (defmetref curvedEnv fanPrim noB) (defmetreg curvedEnv fanPrim noB)
        junk6 junk3 patchMesh (noMet ℚ) = .ok (1, mesh2, met2) ∧
      met2.m = some m2 ∧
      ∀ k, 1 ≤ k → k ≤ patchMesh.np → MG_VOK curvedEnv (patchMesh.point k) = true →
        (mesh2.point k).flag = 1 ∧
        ((noMet ℚ).m = none →
          Estimated curvedEnv (defsiz_hmax patchMesh).info (patchMesh.point k).tag (m2 k) ∨
          m2 k = defsiz_default curvedEnv patchMesh (isq (defsiz_hmax patchMesh).info.hmax)
            (patchMesh.point k)) :=
  ⟨curvedEnv_queries _,
    (defsiz_ani_returns curvedEnv (defmetref curvedEnv fanPrim noB)
      (defmetreg curvedEnv fanPrim noB) junk6 junk3 patchMesh (noMet ℚ)).1
      (fun _ => ⟨rfl, rfl⟩) (curvedEnv_queries _)⟩

/-- C6. On the flat unit square whose 4 vertices are regular, with
`hmin = 0.001`, `hmax = 1`, `hausd = 0.01` and no supplied metric, `defsiz_ani`
stores the identity tensor `(1,0,0,1,0,1)` at every vertex; and in general the
fallback tensor `isqhmax * (R^T R)` of a regular or reference vertex is
`isqhmax * Identity` whenever the rotation matrix `R` is orthogonal. -/
theorem defsiz_ani_flat_square (env : Env K) (defmetref defmetreg : Estimator K)
    (mm0 : Met6 K) (n0 : Vec3 K) (hnul : 0 < env.MG_NUL) (hsin : env.MS_SIN 0 = false)
    (hadd : env.ADD_MEM (squareMesh K) (6 * (squareMesh K).npmax + 1) = true)
    (hcal : env.SAFE_CALLOC (6 * ((squareMesh K).npmax + 1) + 1) = true)
    (hR : (env.rotmatrix ⟨0, 0, 1⟩).IsOrthogonal) :
    (∃ mesh2 met2 m2,
      defsiz_ani env defmetref defmetreg mm0 n0 (squareMesh K) (noMet K) =
        .ok (1, mesh2, met2) ∧
      met2.m = some m2 ∧ ∀ k, 1 ≤ k → k ≤ 4 → m2 k = ⟨1, 0, 0, 1, 0, 1⟩) ∧
    (∀ (mesh : Mesh K) (p : Point K) (q : K), env.MS_SIN p.tag = false →
      hasBit p.tag env.MG_GEO = false →
      (env.rotmatrix (if hasBit p.tag env.MG_REF = true then (mesh.xpoint p.ig).n1
        else p.n)).IsOrthogonal →
      defsiz_default env mesh q p = ⟨q, 0, 0, q, 0, q⟩ ∧
      (defsiz_default env mesh q p).toMatrix = q • (1 : Matrix (Fin 3) (Fin 3) K)) := by
  have hgen : ∀ (mesh : Mesh K) (p : Point K) (q : K), env.MS_SIN p.tag = false →
      hasBit p.tag env.MG_GEO = false →
      (env.rotmatrix (if hasBit p.tag env.MG_REF = true then (mesh.xpoint p.ig).n1
        else p.n)).IsOrthogonal →
      defsiz_default env mesh q p = ⟨q, 0, 0, q, 0, q⟩ ∧
      (defsiz_default env mesh q p).toMatrix = q • (1 : Matrix (Fin 3) (Fin 3) K) := by
    intro mesh p q hs hg ho
    have e : defsiz_default env mesh q p = Met6.iso q := by
      rw [defsiz_default_plain env mesh q p hs hg]
      exact defsiz_frame_orth q _ ho
    exact ⟨e, by rw [e, iso_toMatrix]⟩
  refine ⟨?_, hgen⟩
  have htag : ∀ k, ((squareMesh K).point k).tag = 0 := by
    intro k
    simp [squareMesh, squareMeshTag]
  have hq : QueriesOk env (pass1Entry (squareMesh K) mm0).mesh := by
    intro me hme it ip _
    have ht : (me.point ((me.tria it).v ip)).tag = 0 := by
      rw [← (hme.2.2.2.2.2.2 _).2.2.1, pass1Entry_tag, htag]
    rw [ht, hsin, hasBit_zero]
    exact ⟨fun h => absurd h (by decide), fun _ h => absurd h (by decide)⟩
  obtain ⟨s1, h1⟩ := defsiz_pass1_ok env defmetref defmetreg n0 false
    (pass1Entry (squareMesh K) mm0).mesh (pass1Entry (squareMesh K) mm0) hq (SameGeom.refl _)
  have hrun : defsiz_ani env defmetref defmetreg mm0 n0 (squareMesh K) (noMet K) =
      .ok (1, (defsiz_pass2 env false s1).mesh,
        { np := (squareMesh K).np, npmax := (squareMesh K).npmax,
          m := some (defsiz_pass2 env false s1).m }) := by
    rw [defsiz_ani_nomet env defmetref defmetreg mm0 n0 (squareMesh K) (noMet K) rfl, hadd,
      hcal, h1]
    simp
  refine ⟨_, _, (defsiz_pass2 env false s1).m, hrun, rfl, fun k hk1 hk2 => ?_⟩
  have hv : MG_VOK env ((squareMesh K).point k) = true := by
    unfold MG_VOK
    rw [htag]
    exact decide_eq_true hnul
  obtain ⟨_, he⟩ := defsiz_entries env defmetref defmetreg n0 (squareMesh K) mm0 s1 h1 k hk1
    (by exact hk2) hv
  have hh : defsiz_hmax (squareMesh K) = squareMesh K :=
    defsiz_hmax_of_nonneg _ (by simp [squareMesh, squareMeshTag])
  rw [hh] at he
  rcases he with he | ⟨_, he⟩
  · exact absurd he (not_Estimated_plain env _ _ _ (by rw [htag]; exact hsin)
      (by rw [htag]; exact hasBit_zero _))
  · rw [he]
    have hn : (if hasBit ((squareMesh K).point k).tag env.MG_REF = true
        then ((squareMesh K).xpoint ((squareMesh K).point k).ig).n1
        else ((squareMesh K).point k).n) = ⟨0, 0, 1⟩ := by
      rw [htag, hasBit_zero]
      rfl
    have := (hgen (squareMesh K) ((squareMesh K).point k) (isq (squareMesh K).info.hmax)
      (by rw [htag]; exact hsin) (by rw [htag]; exact hasBit_zero _) (by rw [hn]; exact hR)).1
    rw [this]
    have hq1 : isq (squareMesh K).info.hmax = 1 := by
      simp [isq, squareMesh, squareMeshTag]
    rw [hq1]

/-- Witness of C6: the flat environment on the unit square over `ℚ`. -/
theorem defsiz_ani_flat_square_witness :
    (∃ mesh2 met2 m2,
      defsiz_ani flatEnv fourEstimator fourEstimator junk6 junk3 (squareMesh ℚ) (noMet ℚ) =
        .ok (1, mesh2, met2) ∧
      met2.m = some m2 ∧ ∀ k, 1 ≤ k → k ≤ 4 → m2 k = ⟨1, 0, 0, 1, 0, 1⟩) ∧
    storedAt (defsiz_ani flatEnv fourEstimator fourEstimator junk6 junk3 (squareMesh ℚ)
      (noMet ℚ)) 3 = some ⟨1, 0, 0, 1, 0, 1⟩ :=
  ⟨(defsiz_ani_flat_square flatEnv fourEstimator fourEstimator junk6 junk3 (by decide)
      (by decide) rfl rfl idMat3_orth).1, by decide!⟩

/-- C2 (amended). `defsiz_ani` never invokes the estimators of regular and
reference vertices: the two calls sit behind the constant-true guard `1 || ...`.
Its result is the same for every pair of estimators, and with no supplied metric
every valid vertex that is neither singular nor a ridge vertex holds the fallback
tensor `isqhmax * (R^T R)` of line 1160, not a tensor of `defmetreg` or
`defmetref`. -/
theorem defsiz_ani_estimators_gated (env : Env K) (defmetref defmetreg f1 g1 : Estimator K)
    (mm0 : Met6 K) (n0 : Vec3 K) (mesh : Mesh K) (met : Sol K) :
    defsiz_ani env defmetref defmetreg mm0 n0 mesh met =
      defsiz_ani env f1 g1 mm0 n0 mesh met ∧
    (∀ mesh2 met2, met.m = none →
      defsiz_ani env defmetref defmetreg mm0 n0 mesh met = .ok (1, mesh2, met2) →
      ∃ m2, met2.m = some m2 ∧
        ∀ k, 1 ≤ k → k ≤ mesh.np → MG_VOK env (mesh.point k) = true →
          env.MS_SIN (mesh.point k).tag = false →
          hasBit (mesh.point k).tag env.MG_GEO = false →
          m2 k = defsiz_frame (isq (defsiz_hmax mesh).info.hmax)
            (env.rotmatrix (if hasBit (mesh.point k).tag env.MG_REF = true
              then (mesh.xpoint (mesh.point k).ig).n1 else (mesh.point k).n))) := by
  refine ⟨defsiz_ani_indep env defmetref defmetreg f1 g1 mm0 n0 mesh met, ?_⟩
  intro mesh2 met2 hm h
  obtain ⟨m2, hm2, hk⟩ :=
    defsiz_ani_nomet_entries env defmetref defmetreg mm0 n0 mesh met mesh2 met2 hm h
  refine ⟨m2, hm2, fun k hk1 hk2 hv hs hg => ?_⟩
  rcases (hk k hk1 hk2 hv).2 with he | he
  · exact absurd he (not_Estimated_plain env _ _ _ hs hg)
  · rw [he, defsiz_default_plain env mesh _ _ hs hg]

/-- Counterexample to C2 as stated, with the estimators of the source. On the bowl
(`bowlFan`), the centre 5 is a regular vertex (tag 0) of the active triangle 1,
`defmetreg` called as the builder would call it first (triangle 1, vertex 0, on the
state at the entry of the first pass) succeeds with the curvature tensor
`(11235960/1861313, 0, 0, 19995080/1861313, 0, 0)`, and `defsiz_ani` returns 1 with
the fallback `Identity` stored at the vertex 5. On the same bowl around a
reference vertex (`refBowl`), `defmetref` succeeds with the same tensor and
`defsiz_ani` stores `Identity` too. -/
theorem defsiz_ani_ignores_estimator :
    MG_EOK ((bowlFan (1 / 1000)).tria 1) = true ∧ ((bowlFan (1 / 1000)).tria 1).v 0 = 5 ∧
    ((bowlFan (1 / 1000)).point 5).tag = 0 ∧
    estimatedAt (defmetreg fanEnv fanPrim noB (pass1Entry (bowlFan (1 / 1000)) junk6).mesh
      (fun _ => Met6.zero) 1 0) 5 =
      some (1, ⟨11235960 / 1861313, 0, 0, 19995080 / 1861313, 0, 0⟩) ∧
    codeOf (defsiz_ani fanEnv (defmetref fanEnv fanPrim noB) (defmetreg fanEnv fanPrim noB)
      junk6 junk3 (bowlFan (1 / 1000)) (noMet ℚ)) = some 1 ∧
    storedAt (defsiz_ani fanEnv (defmetref fanEnv fanPrim noB) (defmetreg fanEnv fanPrim noB)
      junk6 junk3 (bowlFan (1 / 1000)) (noMet ℚ)) 5 = some ⟨1, 0, 0, 1, 0, 1⟩ ∧
    MG_EOK (refBowl.tria 1) = true ∧ (refBowl.tria 1).v 0 = 5 ∧
    hasBit (refBowl.point 5).tag fanEnv.MG_REF = true ∧
    hasBit (refBowl.point 5).tag fanEnv.MG_GEO = false ∧
    fanEnv.MS_SIN (refBowl.point 5).tag = false ∧
    estimatedAt (defmetref fanEnv fanPrim noB (pass1Entry refBowl junk6).mesh
      (fun _ => Met6.zero) 1 0) 5 =
      some (1, ⟨11235960 / 1861313, 0, 0, 19995080 / 1861313, 0, 0⟩) ∧
    codeOf (defsiz_ani fanEnv (defmetref fanEnv fanPrim noB) (defmetreg fanEnv fanPrim noB)
      junk6 junk3 refBowl (noMet ℚ)) = some 1 ∧
    storedAt (defsiz_ani fanEnv (defmetref fanEnv fanPrim noB) (defmetreg fanEnv fanPrim noB)
      junk6 junk3 refBowl (noMet ℚ)) 5 = some ⟨1, 0, 0, 1, 0, 1⟩ := by
  refine ⟨by decide, by decide, by decide, by decide!, by decide!, by decide!, by decide,
    by decide, by decide, by decide, by decide, by decide!, by decide!, by decide!⟩

/-- C3 (the code at the failing input). On the flat unit square with a supplied
metric holding `2 * Identity` at vertex 1 and `5 * Identity` at vertex 4, no
estimator resolves the regular vertex 1, and `defsiz_ani` returns 1 having stored
at vertex 1 the values supplied at vertex 4 (the last content of the buffer `mm`),
not its own. -/
theorem defsiz_ani_supplied_overwritten :
    suppliedMet.m.map (fun m => m 1) = some ⟨2, 0, 0, 2, 0, 2⟩ ∧
    suppliedMet.m.map (fun m => m 4) = some ⟨5, 0, 0, 5, 0, 5⟩ ∧
    codeOf (defsiz_ani flatEnv fourEstimator fourEstimator junk6 junk3 (squareMesh ℚ)
      suppliedMet) = some 1 ∧
    storedAt (defsiz_ani flatEnv fourEstimator fourEstimator junk6 junk3 (squareMesh ℚ)
      suppliedMet) 1 = some ⟨5, 0, 0, 5, 0, 5⟩ := by
  decide!

/-- C4 (the code at the failing input). On the two-triangle patch whose corner 4
is curved, a first run with no supplied metric stores `Identity` at the regular
vertex 1 and `25/2 * Identity` at the corner; a second run on the state left by
the first stores `25/2 * Identity` at vertex 1: the two runs differ. -/
theorem defsiz_ani_second_run_differs :
    storedAt (defsiz_ani curvedEnv fourEstimator fourEstimator junk6 junk3 patchMesh
      (noMet ℚ)) 1 = some ⟨1, 0, 0, 1, 0, 1⟩ ∧
    storedAt (defsiz_ani curvedEnv fourEstimator fourEstimator junk6 junk3 patchMesh
      (noMet ℚ)) 4 = some ⟨25 / 2, 0, 0, 25 / 2, 0, 25 / 2⟩ ∧
    storedAt (runAgain (defsiz_ani curvedEnv fourEstimator fourEstimator junk6 junk3)
      (defsiz_ani curvedEnv fourEstimator fourEstimator junk6 junk3 patchMesh (noMet ℚ))) 1 =
      some ⟨25 / 2, 0, 0, 25 / 2, 0, 25 / 2⟩ := by
  decide!

/-- C9 (amended). Whenever the ball query succeeds (`boulet` does not return
0), `defmetsin` returns 1 and stores `alpha * Identity` at the singular vertex,
where `alpha = max(isqhmax, min(isqhmin, maxK/(8*hausd)))` and `maxK` is the
maximum over the ball edges of non-degenerate tangent of the curvature
`|g - (g.tau) tau/|tau|^2| / |tau|^2`; `maxK = 0` and `alpha = isqhmax` when every
edge is degenerate, and `alpha = isqhmin` when `maxK/(8*hausd) > isqhmin >= isqhmax`. -/
theorem defmetsin_spec (env : Env K) (mesh : Mesh K) (m : Nat → Met6 K) (it ip : Nat)
    (h : (env.boulet mesh it ip).1 ≠ 0) :
    defmetsin env mesh m it ip = .ok (1, Function.update m ((mesh.tria it).v ip)
      ⟨clampSize mesh.info (ballMaxK env mesh it ip), 0, 0,
        clampSize mesh.info (ballMaxK env mesh it ip), 0,
        clampSize mesh.info (ballMaxK env mesh it ip)⟩) ∧
    ((∀ e ∈ ballEdges env mesh it ip,
        (edgeTangent (mesh.point ((mesh.tria it).v ip)).c e.1).normSq < env.EPSD) →
      ballMaxK env mesh it ip = 0 ∧
      clampSize mesh.info (ballMaxK env mesh it ip) = isq mesh.info.hmax) ∧
    (isq mesh.info.hmax ≤ isq mesh.info.hmin →
      isq mesh.info.hmin < ballMaxK env mesh it ip / (8 * mesh.info.hausd) →
      clampSize mesh.info (ballMaxK env mesh it ip) = isq mesh.info.hmin) := by
  refine ⟨defmetsin_ok env mesh m it ip h, fun hd => ?_, fun h1 h2 => clampSize_top _ _ h1 h2⟩
  have h0 : ballMaxK env mesh it ip = 0 := maxCurvature_degenerate env _ _ hd
  rw [h0]
  exact ⟨rfl, clampSize_zero _⟩

/-- Witness of C9: the curved corner 4 of the two-triangle patch, whose ball is
the triangle 2. -/
theorem defmetsin_spec_witness :
    (curvedEnv.boulet patchMesh 2 2).1 ≠ 0 ∧
    defmetsin curvedEnv patchMesh (fun _ => Met6.zero) 2 2 =
      .ok (1, Function.update (fun _ => Met6.zero) ((patchMesh.tria 2).v 2)
        ⟨clampSize patchMesh.info (ballMaxK curvedEnv patchMesh 2 2), 0, 0,
          clampSize patchMesh.info (ballMaxK curvedEnv patchMesh 2 2), 0,
          clampSize patchMesh.info (ballMaxK curvedEnv patchMesh 2 2)⟩) ∧
    clampSize patchMesh.info (ballMaxK curvedEnv patchMesh 2 2) = 25 / 2 :=
  ⟨by decide,
    (defmetsin_spec curvedEnv patchMesh (fun _ => Met6.zero) 2 2 (by decide)).1,
    by decide!⟩

/-- Counterexample to C9 as stated: when the ball query fails (`boulet` returns
0), `defmetsin` neither stores a tensor nor returns 1: the process exits. -/
theorem defmetsin_exits_on_empty_ball :
    (noBallEnv.boulet patchMesh 2 2).1 = 0 ∧
    defmetsin noBallEnv patchMesh (fun _ => Met6.zero) 2 2 = .error Fatal.exitFailure :=
  ⟨rfl, defmetsin_exit noBallEnv patchMesh (fun _ => Met6.zero) 2 2 rfl⟩

/-- C10 (amended). Whenever the half-ball query succeeds, `defmetrid` returns 1
and stores the entry `mk` with `m[3] = m[4] = m[5] = 0` and three sizes, each the
maximum of the seed `isqhmax` and of the clamped contributions that were not
skipped: the two ridge arcs for `m[0]`, the sheet `i` for `m[i+1]`; hence, for
`0 < hmin <= hmax`, each of `m[0], m[1], m[2]` lies in `[isqhmax, isqhmin]`; and for
a sheet whose contribution is skipped, `m[i+1]` is exactly `isqhmax`. -/
theorem defmetrid_spec (env : Env K) (n0 : Vec3 K) (mesh : Mesh K) (m : Nat → Met6 K)
    (it ip : Nat) (h : (env.bouletrid mesh it ip).ier ≠ 0) :
    ∃ mk, defmetrid env n0 mesh m it ip = .ok (1, Function.update m ((mesh.tria it).v ip) mk) ∧
      mk = ridgeEntry mesh.info
        (arcContribution env n0 mesh ((mesh.tria it).v ip) (env.bouletrid mesh it ip).ip0)
        (arcContribution env n0 mesh ((mesh.tria it).v ip) (env.bouletrid mesh it ip).ip1)
        (sheetContribution env mesh ((mesh.tria it).v ip)
          (mesh.xpoint (mesh.point ((mesh.tria it).v ip)).ig).n1
          (env.bouletrid mesh it ip).ilist1 (env.bouletrid mesh it ip).list1 (mesh.tria it))
        (sheetContribution env mesh ((mesh.tria it).v ip)
          (mesh.xpoint (mesh.point ((mesh.tria it).v ip)).ig).n2
          (env.bouletrid mesh it ip).ilist2 (env.bouletrid mesh it ip).list2 (mesh.tria it)) ∧
      RidgeForm mesh.info mk ∧
      (0 < mesh.info.hmin → mesh.info.hmin ≤ mesh.info.hmax →
        InBounds mesh.info mk.m0 ∧ InBounds mesh.info mk.m1 ∧ InBounds mesh.info mk.m2) ∧
      ((∃ pt0, SheetSkipped env mesh ((mesh.tria it).v ip)
          (mesh.xpoint (mesh.point ((mesh.tria it).v ip)).ig).n1
          (env.bouletrid mesh it ip).ilist1 (env.bouletrid mesh it ip).list1 pt0) →
        mk.m1 = isq mesh.info.hmax) ∧
      ((∃ pt0, SheetSkipped env mesh ((mesh.tria it).v ip)
          (mesh.xpoint (mesh.point ((mesh.tria it).v ip)).ig).n2
          (env.bouletrid mesh it ip).ilist2 (env.bouletrid mesh it ip).list2 pt0) →
        mk.m2 = isq mesh.info.hmax) := by
  refine ⟨_, defmetrid_ok env n0 mesh m it ip (mesh.tria it) (mesh.tria it) h, rfl,
    ridgeEntry_form _ _ _ _ _,
    fun hp hle => RidgeForm_inBounds mesh.info _ (ridgeEntry_form _ _ _ _ _) (isq_anti hp hle),
    ?_, ?_⟩
  · rintro ⟨pt0, hs⟩
    have hn := (SheetSkipped_iff env mesh _ _ _ _ pt0).mp hs
    rw [sheetContribution_indep env mesh _ _ _ _ pt0 (mesh.tria it)] at hn
    show seedMax mesh.info (Option.toList _) = _
    rw [hn]
    rfl
  · rintro ⟨pt0, hs⟩
    have hn := (SheetSkipped_iff env mesh _ _ _ _ pt0).mp hs
    rw [sheetContribution_indep env mesh _ _ _ _ pt0 (mesh.tria it)] at hn
    show seedMax mesh.info (Option.toList _) = _
    rw [hn]
    rfl

/-- Witness of C10: the ridge vertex 1 of the roof with `hmin = 0.1`. -/
theorem defmetrid_spec_witness :
    (roofEnv.bouletrid (roofMesh (1 / 10)) 1 0).ier ≠ 0 ∧
    ∃ mk, defmetrid roofEnv junk3 (roofMesh (1 / 10)) (fun _ => Met6.zero) 1 0 =
        .ok (1, Function.update (fun _ => Met6.zero) (((roofMesh (1 / 10)).tria 1).v 0) mk) ∧
      mk = ridgeEntry (roofMesh (1 / 10)).info
        (arcContribution roofEnv junk3 (roofMesh (1 / 10)) (((roofMesh (1 / 10)).tria 1).v 0)
          (roofEnv.bouletrid (roofMesh (1 / 10)) 1 0).ip0)
        (arcContribution roofEnv junk3 (roofMesh (1 / 10)) (((roofMesh (1 / 10)).tria 1).v 0)
          (roofEnv.bouletrid (roofMesh (1 / 10)) 1 0).ip1)
        (sheetContribution roofEnv (roofMesh (1 / 10)) (((roofMesh (1 / 10)).tria 1).v 0)
          ((roofMesh (1 / 10)).xpoint
            ((roofMesh (1 / 10)).point (((roofMesh (1 / 10)).tria 1).v 0)).ig).n1
          (roofEnv.bouletrid (roofMesh (1 / 10)) 1 0).ilist1
          (roofEnv.bouletrid (roofMesh (1 / 10)) 1 0).list1 ((roofMesh (1 / 10)).tria 1))
        (sheetContribution roofEnv (roofMesh (1 / 10)) (((roofMesh (1 / 10)).tria 1).v 0)
          ((roofMesh (1 / 10)).xpoint
            ((roofMesh (1 / 10)).point (((roofMesh (1 / 10)).tria 1).v 0)).ig).n2
          (roofEnv.bouletrid (roofMesh (1 / 10)) 1 0).ilist2
          (roofEnv.bouletrid (roofMesh (1 / 10)) 1 0).list2 ((roofMesh (1 / 10)).tria 1)) ∧
      RidgeForm (roofMesh (1 / 10)).info mk ∧
      (0 < (roofMesh (1 / 10)).info.hmin →
        (roofMesh (1 / 10)).info.hmin ≤ (roofMesh (1 / 10)).info.hmax →
        InBounds (roofMesh (1 / 10)).info mk.m0 ∧ InBounds (roofMesh (1 / 10)).info mk.m1 ∧
        InBounds (roofMesh (1 / 10)).info mk.m2) ∧
      ((∃ pt0, SheetSkipped roofEnv (roofMesh (1 / 10)) (((roofMesh (1 / 10)).tria 1).v 0)
          ((roofMesh (1 / 10)).xpoint
            ((roofMesh (1 / 10)).point (((roofMesh (1 / 10)).tria 1).v 0)).ig).n1
          (roofEnv.bouletrid (roofMesh (1 / 10)) 1 0).ilist1
          (roofEnv.bouletrid (roofMesh (1 / 10)) 1 0).list1 pt0) →
        mk.m1 = isq (roofMesh (1 / 10)).info.hmax) ∧
      ((∃ pt0, SheetSkipped roofEnv (roofMesh (1 / 10)) (((roofMesh (1 / 10)).tria 1).v 0)
          ((roofMesh (1 / 10)).xpoint
            ((roofMesh (1 / 10)).point (((roofMesh (1 / 10)).tria 1).v 0)).ig).n2
          (roofEnv.bouletrid (roofMesh (1 / 10)) 1 0).ilist2
          (roofEnv.bouletrid (roofMesh (1 / 10)) 1 0).list2 pt0) →
        mk.m2 = isq (roofMesh (1 / 10)).info.hmax) :=
  ⟨by decide, defmetrid_spec roofEnv junk3 (roofMesh (1 / 10)) (fun _ => Met6.zero) 1 0
    (by decide)⟩

/-- Counterexample to C10 as stated: on the roof with `hmin = -2 <= hmax = 1`
the half-ball query succeeds and `defmetrid` stores `m[0] = m[1] = m[2] = 1`, which
is above `isqhmin = 1/4`: the bound needs `0 < hmin`. -/
theorem defmetrid_negative_hmin :
    (roofMesh (-2)).info.hmin ≤ (roofMesh (-2)).info.hmax ∧
    (roofEnv.bouletrid (roofMesh (-2)) 1 0).ier ≠ 0 ∧
    estimatedAt (defmetrid roofEnv junk3 (roofMesh (-2)) (fun _ => Met6.zero) 1 0) 1 =
      some (1, ⟨1, 1, 1, 0, 0, 0⟩) ∧
    isq (roofMesh (-2)).info.hmin = 1 / 4 ∧ ¬ ((1 : ℚ) ≤ isq (roofMesh (-2)).info.hmin) := by
  decide!

/-- C15. Before any sweep, `gradsiz_ani` replaces `m[0]`, `m[1]`, `m[2]` of every
valid ridge vertex that is not singular by their maximum: the loop of the sweeps
starts from the array of the pre-pass, which leaves `m[3]`, `m[4]`, `m[5]` of those
vertices and all six values of every other vertex unchanged, and applying the
pre-pass twice gives the same array as applying it once. -/
theorem gradsiz_prepass_spec (env : Env K) (prim : Prim K) (mesh : Mesh K)
    (m : Nat → Met6 K) :
    gradsiz_run env prim mesh m = gradsiz_loop env prim 100 100
      ⟨defsiz_reset mesh, gradsiz_prepass env (defsiz_reset mesh) m, 0, 0, 0, 0⟩ ∧
    (∀ k, GradRidge env mesh k →
      gradsiz_prepass env (defsiz_reset mesh) m k =
        ⟨max (m k).m0 (max (m k).m1 (m k).m2), max (m k).m0 (max (m k).m1 (m k).m2),
          max (m k).m0 (max (m k).m1 (m k).m2), (m k).m3, (m k).m4, (m k).m5⟩) ∧
    (∀ k, ¬ GradRidge env mesh k → gradsiz_prepass env (defsiz_reset mesh) m k = m k) ∧
    gradsiz_prepass env (defsiz_reset mesh) (gradsiz_prepass env (defsiz_reset mesh) m) =
      gradsiz_prepass env (defsiz_reset mesh) m := by
  have hg := fun k => GradRidge_congr env mesh (defsiz_reset mesh) (defsiz_reset_spec mesh).1 k
  refine ⟨rfl, fun k hk => ?_, fun k hk => ?_, ?_⟩
  · rw [gradsiz_prepass_eq, if_pos ((hg k).mp hk)]
    rfl
  · rw [gradsiz_prepass_eq, if_neg (fun h => hk ((hg k).mpr h))]
  · funext k
    rw [gradsiz_prepass_eq]
    by_cases hk : GradRidge env (defsiz_reset mesh) k
    · rw [if_pos hk, gradsiz_prepass_eq, if_pos hk, ridgeIso_idem]
    · rw [if_neg hk]

/-- C16. `gradsiz_ani` terminates on every mesh and returns 1: from the state
left by the pre-pass it runs `n` sweeps with `1 <= n <= 100`, `it = n` on exit,
every sweep before the last one updates a vertex, and the last one updates no
vertex or is the 100th. -/
theorem gradsiz_ani_sweeps (env : Env K) (prim : Prim K) (mesh : Mesh K) (m : Nat → Met6 K) :
    (gradsiz_ani env prim mesh m).1 = 1 ∧
    (gradsiz_ani env prim mesh m).2 =
      ((gradsiz_run env prim mesh m).mesh, (gradsiz_run env prim mesh m).m) ∧
    ∃ n : Nat, 1 ≤ n ∧ n ≤ 100 ∧
      gradsiz_run env prim mesh m = (gradsiz_sweep env prim)^[n]
        ⟨defsiz_reset mesh, gradsiz_prepass env (defsiz_reset mesh) m, 0, 0, 0, 0⟩ ∧
      (gradsiz_run env prim mesh m).it = n ∧
      (∀ j, 1 ≤ j → j < n → 0 < ((gradsiz_sweep env prim)^[j]
        ⟨defsiz_reset mesh, gradsiz_prepass env (defsiz_reset mesh) m, 0, 0, 0, 0⟩).nu) ∧
      ((gradsiz_run env prim mesh m).nu = 0 ∨ n = 100) := by
  refine ⟨rfl, rfl, ?_⟩
  obtain ⟨n, h1, h2, e, hj, hl⟩ := gradsiz_loop_spec env prim 100 100
    ⟨defsiz_reset mesh, gradsiz_prepass env (defsiz_reset mesh) m, 0, 0, 0, 0⟩ (by norm_num)
    (by norm_num)
  have e1 : gradsiz_run env prim mesh m = (gradsiz_sweep env prim)^[n]
      ⟨defsiz_reset mesh, gradsiz_prepass env (defsiz_reset mesh) m, 0, 0, 0, 0⟩ := e
  have hit := gradsiz_iterate_it env prim n
    ⟨defsiz_reset mesh, gradsiz_prepass env (defsiz_reset mesh) m, 0, 0, 0, 0⟩
  simp only [zero_add] at hit
  refine ⟨n, h1, h2, e1, by rw [e1, hit], hj, ?_⟩
  rw [e1]
  rcases hl with hl | hl
  · exact Or.inl hl
  · right
    rw [hit] at hl
    exact_mod_cast hl

/-- C20. `grad2met` returns -1 and leaves the whole metric array unchanged when
the normal of the triangle cannot be computed, when a ridge reconstruction fails,
when a frame-local chord projection has a squared norm below `EPSD2`, and when
the speed `s` of the smaller-speed endpoint already meets the bound, `s >= alpha -
EPS` with `alpha = s_big/(1 + hgrad*l*s_big)`; the latter holds whenever the two
speeds are equal and not negative, `hgrad*l >= 0` and `EPS >= 0`. Every return of
-1 leaves the array unchanged. -/
theorem grad2met_no_change (env : Env K) (prim : Prim K) (mesh : Mesh K) (m : Nat → Met6 K)
    (iel i : Nat) :
    ((grad2met env prim mesh m iel i).1 = -1 → (grad2met env prim mesh m iel i).2 = m) ∧
    (grad2met_ends env prim mesh m iel i = none → grad2met env prim mesh m iel i = (-1, m)) ∧
    (prim.nortriOk mesh (mesh.tria iel) = false →
      grad2met_ends env prim mesh m iel i = none) ∧
    (∀ np, np = (mesh.tria iel).v (env.inxt2 i) ∨ np = (mesh.tria iel).v (env.iprv2 i) →
      env.MS_SIN (mesh.point np).tag = false → hasBit (mesh.point np).tag env.MG_GEO = true →
      prim.buildridmet mesh m np
        ((mesh.point ((mesh.tria iel).v (env.iprv2 i))).c.x -
          (mesh.point ((mesh.tria iel).v (env.inxt2 i))).c.x)
        ((mesh.point ((mesh.tria iel).v (env.iprv2 i))).c.y -
          (mesh.point ((mesh.tria iel).v (env.inxt2 i))).c.y)
        ((mesh.point ((mesh.tria iel).v (env.iprv2 i))).c.z -
          (mesh.point ((mesh.tria iel).v (env.inxt2 i))).c.z) = none →
      grad2met_ends env prim mesh m iel i = none) ∧
    (∀ r m1 c, c.x * c.x + c.y * c.y < prim.EPSD2 → grad2met_end env prim r m1 c = none) ∧
    (∀ g, grad2met_ends env prim mesh m iel i = some g →
      (g.e2.ps > g.e1.ps → g.e1.ps ≥ grad2met_alpha mesh.info g.l g.e2.ps - prim.EPS →
        grad2met env prim mesh m iel i = (-1, m)) ∧
      (¬ g.e2.ps > g.e1.ps → g.e2.ps ≥ grad2met_alpha mesh.info g.l g.e1.ps - prim.EPS →
        grad2met env prim mesh m iel i = (-1, m)) ∧
      (g.e1.ps = g.e2.ps → 0 ≤ g.e1.ps → 0 ≤ mesh.info.hgrad * g.l → 0 ≤ prim.EPS →
        grad2met env prim mesh m iel i = (-1, m))) := by
  refine ⟨fun h => by rw [grad2met_minus_one env prim mesh m iel i h],
    grad2met_of_none env prim mesh m iel i, fun h => ?_, fun np hnp hs hg hb => ?_,
    fun r m1 c h => grad2met_end_none env prim r m1 c h, fun g hg => ⟨fun h1 h2 => ?_,
      fun h1 h2 => ?_, fun h1 h2 h3 h4 => ?_⟩⟩
  · unfold grad2met_ends
    simp only [h, if_true]
  · have hside : grad2met_side env prim mesh m (env.nortri mesh (mesh.tria iel)) np
        ((mesh.point ((mesh.tria iel).v (env.iprv2 i))).c.x -
          (mesh.point ((mesh.tria iel).v (env.inxt2 i))).c.x)
        ((mesh.point ((mesh.tria iel).v (env.iprv2 i))).c.y -
          (mesh.point ((mesh.tria iel).v (env.inxt2 i))).c.y)
        ((mesh.point ((mesh.tria iel).v (env.iprv2 i))).c.z -
          (mesh.point ((mesh.tria iel).v (env.inxt2 i))).c.z) = none := by
      unfold grad2met_side
      simp only [hs, hg, hb, if_true]
      simp
    cases hc : grad2met_ends env prim mesh m iel i with
    | none => rfl
    | some g =>
      obtain ⟨_, n1, m1, n2, m2, hs1, hs2, _⟩ := grad2met_ends_some env prim mesh m iel i g hc
      rcases hnp with rfl | rfl
      · rw [hside] at hs1
        exact absurd hs1 (by simp)
      · rw [hside] at hs2
        exact absurd hs2 (by simp)
  · rw [grad2met_of_some env prim mesh m iel i g hg, if_pos h1, if_pos h2]
  · rw [grad2met_of_some env prim mesh m iel i g hg, if_neg h1, if_pos h2]
  · rw [grad2met_of_some env prim mesh m iel i g hg, if_neg (by rw [h1]; exact lt_irrefl _),
      if_pos]
    have := grad2met_alpha_le mesh.info g.l g.e1.ps h2 h3
    rw [← h1]
    show grad2met_alpha mesh.info g.l g.e1.ps - prim.EPS ≤ g.e1.ps
    linarith

/-- C17. Whenever `grad2met` updates an endpoint (it does not return -1), the
increment `beta = (alpha^2 - s^2)/c_i^2` is strictly positive, `s` being the speed
of that endpoint and `c_i` the component of larger magnitude of its unit chord
projection in the basis of `_MMG5_eigensym`; the tangential block is recomposed
with `mu = lambda_i + beta > lambda_i` and the other eigenvalue kept; and the
stored entry receives `beta/2` on its diagonal (singular vertex), `beta` on one of
its three sizes (ridge vertex), or is the recomposed block sent back by the
rotation (other vertices). The square root is not negative and is positive on a
positive number, `EPS >= 0`, `EPSD2 > 0` and `_MMG5_eigensym` returns a basis. -/
theorem grad2met_raises (env : Env K) (prim : Prim K) (mesh : Mesh K) (m : Nat → Met6 K)
    (iel i : Nat) (hE : 0 ≤ prim.EPS) (hD : 0 < prim.EPSD2) (hs0 : ∀ x, 0 ≤ env.sqrt x)
    (hs : ∀ x, 0 < x → 0 < env.sqrt x) (hvp : ∀ a, (prim.eigensym a).2.IsBasis)
    (hu : (grad2met env prim mesh m iel i).1 ≠ -1) :
    ∃ g np r e alpha, grad2met_ends env prim mesh m iel i = some g ∧
      GradUpdated env mesh iel i g np r e alpha (grad2met env prim mesh m iel i).1 ∧
      e.ps < alpha - prim.EPS ∧
      gradBeta prim e alpha = (alpha * alpha - e.ps * e.ps) /
        (gradComp prim e (gradIdx prim e) * gradComp prim e (gradIdx prim e)) ∧
      |gradComp prim e (1 - gradIdx prim e)| ≤ |gradComp prim e (gradIdx prim e)| ∧
      0 < gradBeta prim e alpha ∧
      gradLambda prim e (gradIdx prim e) <
        gradLambda prim e (gradIdx prim e) + gradBeta prim e alpha ∧
      grad2met_tan prim e alpha = grad2met_compose (prim.eigensym e.mtan).2
        (if gradIdx prim e = 0 then gradLambda prim e 0 + gradBeta prim e alpha
          else gradLambda prim e 0)
        (if gradIdx prim e = 0 then gradLambda prim e 1
          else gradLambda prim e 1 + gradBeta prim e alpha) ∧
      (∀ k, k ≠ np → (grad2met env prim mesh m iel i).2 k = m k) ∧
      (env.MS_SIN (mesh.point np).tag = true →
        (grad2met env prim mesh m iel i).2 np =
          { m np with m0 := (m np).m0 + 1 / 2 * gradBeta prim e alpha,
                      m3 := (m np).m3 + 1 / 2 * gradBeta prim e alpha,
                      m5 := (m np).m5 + 1 / 2 * gradBeta prim e alpha }) ∧
      (env.MS_SIN (mesh.point np).tag = false → hasBit (mesh.point np).tag env.MG_GEO = true →
        ∃ j, j < 3 ∧ (grad2met env prim mesh m iel i).2 np =
          (m np).set j ((m np).get j + gradBeta prim e alpha)) ∧
      (env.MS_SIN (mesh.point np).tag = false → hasBit (mesh.point np).tag env.MG_GEO = false →
        (grad2met env prim mesh m iel i).2 np = defmetreg_back r (grad2met_tan prim e alpha)) := by
  obtain ⟨g, np, r, e, alpha, hg, hup, hlt, hres⟩ := grad2met_updated env prim mesh m iel i hu
  obtain ⟨m1, c, hend⟩ := GradUpdated_end env prim mesh m iel i g np r e alpha _ hg hup
  have hc := gradComp_idx_ne prim e (grad2met_comp_ne _ _ _ (hvp e.mtan)
    (grad2met_end_tnz env prim r m1 c e hD hs hend))
  have hb := gradBeta_pos prim e alpha (grad2met_end_ps_nonneg env prim r m1 c e hs0 hend)
    hE hlt hc
  refine ⟨g, np, r, e, alpha, hg, hup, hlt, gradBeta_eq prim e alpha, ?_, hb, by linarith,
    grad2met_tan_eq prim e alpha, fun k hk => ?_, fun h1 => ?_, fun h1 h2 => ?_, fun h1 h2 => ?_⟩
  · unfold gradComp gradIdx grad2met_ichg
    by_cases h : |(grad2met_comp (prim.eigensym e.mtan).2 e.t0 e.t1).1| >
        |(grad2met_comp (prim.eigensym e.mtan).2 e.t0 e.t1).2|
    · simp only [h, if_true]
      exact le_of_lt h
    · simp only [h, if_false]
      exact not_lt.mp h
  · rw [hres, Function.update_noteq hk]
  · rw [hres, Function.update_same]
    unfold grad2met_update
    simp only [h1, if_true]
    rfl
  · rw [hres, Function.update_same]
    unfold grad2met_update
    simp only [h1, h2, if_true]
    exact grad2met_ridge_one _ _ _
  · rw [hres, Function.update_same]
    unfold grad2met_update
    simp only [h1, h2]
    rfl

/-- Witness of C17: on the flat fan with speed 10 at the centre and speed 1 at
vertex 1, `grad2met` on the edge from 5 to 1 returns the index of vertex 1, whose
increment is `beta = 24`. -/
theorem grad2met_raises_witness :
    (grad2met fanEnv fanPrim (flatFan 0 noTag) gradMet 1 2).1 ≠ -1 ∧
    ∃ g np r e alpha, grad2met_ends fanEnv fanPrim (flatFan 0 noTag) gradMet 1 2 = some g ∧
      GradUpdated fanEnv (flatFan 0 noTag) 1 2 g np r e alpha
        (grad2met fanEnv fanPrim (flatFan 0 noTag) gradMet 1 2).1 ∧
      e.ps < alpha - fanPrim.EPS ∧
      gradBeta fanPrim e alpha = (alpha * alpha - e.ps * e.ps) /
        (gradComp fanPrim e (gradIdx fanPrim e) * gradComp fanPrim e (gradIdx fanPrim e)) ∧
      |gradComp fanPrim e (1 - gradIdx fanPrim e)| ≤ |gradComp fanPrim e (gradIdx fanPrim e)| ∧
      0 < gradBeta fanPrim e alpha ∧
      gradLambda fanPrim e (gradIdx fanPrim e) <
        gradLambda fanPrim e (gradIdx fanPrim e) + gradBeta fanPrim e alpha ∧
      grad2met_tan fanPrim e alpha = grad2met_compose (fanPrim.eigensym e.mtan).2
        (if gradIdx fanPrim e = 0 then gradLambda fanPrim e 0 + gradBeta fanPrim e alpha
          else gradLambda fanPrim e 0)
        (if gradIdx fanPrim e = 0 then gradLambda fanPrim e 1
          else gradLambda fanPrim e 1 + gradBeta fanPrim e alpha) ∧
      (∀ k, k ≠ np → (grad2met fanEnv fanPrim (flatFan 0 noTag) gradMet 1 2).2 k = gradMet k) ∧
      (fanEnv.MS_SIN ((flatFan 0 noTag).point np).tag = true →
        (grad2met fanEnv fanPrim (flatFan 0 noTag) gradMet 1 2).2 np =
          { gradMet np with m0 := (gradMet np).m0 + 1 / 2 * gradBeta fanPrim e alpha,
                            m3 := (gradMet np).m3 + 1 / 2 * gradBeta fanPrim e alpha,
                            m5 := (gradMet np).m5 + 1 / 2 * gradBeta fanPrim e alpha }) ∧
      (fanEnv.MS_SIN ((flatFan 0 noTag).point np).tag = false →
        hasBit ((flatFan 0 noTag).point np).tag fanEnv.MG_GEO = true →
        ∃ j, j < 3 ∧ (grad2met fanEnv fanPrim (flatFan 0 noTag) gradMet 1 2).2 np =
          (gradMet np).set j ((gradMet np).get j + gradBeta fanPrim e alpha)) ∧
      (fanEnv.MS_SIN ((flatFan 0 noTag).point np).tag = false →
        hasBit ((flatFan 0 noTag).point np).tag fanEnv.MG_GEO = false →
        (grad2met fanEnv fanPrim (flatFan 0 noTag) gradMet 1 2).2 np =
          defmetreg_back r (grad2met_tan fanPrim e alpha)) :=
  ⟨by decide!, grad2met_raises fanEnv fanPrim (flatFan 0 noTag) gradMet 1 2 (by decide!)
    (by decide!) sqrtQ_nonneg sqrtQ_pos eigensymQ_basis (by decide!)⟩

/-- C19. When `grad2met` updates an endpoint that is neither singular nor a ridge
vertex (full tensor), with an orthogonal rotation frame, an orthonormal
eigendecomposition of its tangential block and exact square roots, the specific
speed of the rewritten tensor along the unit frame-local chord projection is
exactly `alpha = s_big/(1 + hgrad*l*s_big)`, `s_big` being the speed of the other
endpoint and `l` the length of the chord; with speeds 10 and 1, `l = 1` and
`hgrad = 0.1` the endpoint of speed 1 is updated and `alpha = 5`. `rmtr` returns
the tangential block of `R M tR`, `EPSD2 > 0` and the square root of a positive
number is positive. -/
theorem grad2met_speed (env : Env K) (prim : Prim K) (mesh : Mesh K) (m : Nat → Met6 K)
    (iel i : Nat) (hD : 0 < prim.EPSD2) (hs : ∀ x, 0 < x → 0 < env.sqrt x)
    (hrm : RmtrSpec prim) (hu : (grad2met env prim mesh m iel i).1 ≠ -1) :
    ∃ g np r e alpha, grad2met_ends env prim mesh m iel i = some g ∧
      GradUpdated env mesh iel i g np r e alpha (grad2met env prim mesh m iel i).1 ∧
      (alpha = g.e2.ps / (1 + mesh.info.hgrad * g.l * g.e2.ps) ∨
        alpha = g.e1.ps / (1 + mesh.info.hgrad * g.l * g.e1.ps)) ∧
      (env.MS_SIN (mesh.point np).tag = false → hasBit (mesh.point np).tag env.MG_GEO = false →
        r.IsOrthogonal → (prim.eigensym e.mtan).2.IsOrthonormal →
        e.mtan = grad2met_compose (prim.eigensym e.mtan).2 (gradLambda prim e 0)
          (gradLambda prim e 1) →
        e.ps * e.ps = quad2 e.mtan e.t0 e.t1 → env.sqrt (alpha * alpha) = alpha →
        speedAlong env prim r ((grad2met env prim mesh m iel i).2 np) e.t0 e.t1 = alpha) ∧
      (mesh.info.hgrad = 1 / 10 → g.l = 1 →
        (g.e1.ps = 10 ∧ g.e2.ps = 1) ∨ (g.e1.ps = 1 ∧ g.e2.ps = 10) →
        e.ps = 1 ∧ alpha = 5) := by
  obtain ⟨g, np, r, e, alpha, hg, hup, hlt, hres⟩ := grad2met_updated env prim mesh m iel i hu
  obtain ⟨m1, c, hend⟩ := GradUpdated_end env prim mesh m iel i g np r e alpha _ hg hup
  refine ⟨g, np, r, e, alpha, hg, hup, ?_, fun h1 h2 hR hvp hdec hps hsq => ?_,
    fun hh hl hsp => ?_⟩
  · rcases hup with ⟨_, _, _, _, ha, _⟩ | ⟨_, _, _, _, ha, _⟩
    · exact Or.inl ha
    · exact Or.inr ha
  · have hc := gradComp_idx_ne prim e (grad2met_comp_ne _ _ _ hvp.isBasis
      (grad2met_end_tnz env prim r m1 c e hD hs hend))
    have hnew : (grad2met env prim mesh m iel i).2 np =
        defmetreg_back r (grad2met_tan prim e alpha) := by
      rw [hres, Function.update_same]
      unfold grad2met_update
      simp only [h1, h2]
      rfl
    obtain ⟨b0, b1, b3⟩ := rmtr_back prim r (grad2met_tan prim e alpha) hrm hR
    unfold speedAlong
    rw [hnew, b0, b1, b3]
    have : (⟨(grad2met_tan prim e alpha).x, (grad2met_tan prim e alpha).y,
        (grad2met_tan prim e alpha).z⟩ : Vec3 K) = grad2met_tan prim e alpha := rfl
    rw [this, quad2_tan prim e alpha hdec hps hc, hsq]
  · unfold GradUpdated grad2met_alpha at hup
    rcases hup with ⟨hgt, _, _, he, ha, _⟩ | ⟨hgt, _, _, he, ha, _⟩
    · rcases hsp with ⟨s1, s2⟩ | ⟨s1, s2⟩
      · rw [s1, s2] at hgt
        norm_num at hgt
      · rw [he, ha, s1, s2, hh, hl]
        norm_num
    · rcases hsp with ⟨s1, s2⟩ | ⟨s1, s2⟩
      · rw [he, ha, s1, s2, hh, hl]
        norm_num
      · rw [s1, s2] at hgt
        norm_num at hgt

/-- Witness of C19: on the flat fan with speed 10 at the centre 5 and speed 1 at
vertex 1, chord length 1 and `hgrad = 0.1`, `grad2met` rewrites the tensor of
vertex 1 to `(25,0,0,1,0,0)`, whose speed along the chord is exactly 5. -/
theorem grad2met_speed_witness :
    (grad2met fanEnv fanPrim (flatFan 0 noTag) gradMet 1 2).1 ≠ -1 ∧
    (grad2met fanEnv fanPrim (flatFan 0 noTag) gradMet 1 2).2 1 = ⟨25, 0, 0, 1, 0, 0⟩ ∧
    speedAlong fanEnv fanPrim idMat3 ⟨25, 0, 0, 1, 0, 0⟩ (-1) 0 = 5 ∧
    ∃ g np r e alpha, grad2met_ends fanEnv fanPrim (flatFan 0 noTag) gradMet 1 2 = some g ∧
      GradUpdated fanEnv (flatFan 0 noTag) 1 2 g np r e alpha
        (grad2met fanEnv fanPrim (flatFan 0 noTag) gradMet 1 2).1 ∧
      (alpha = g.e2.ps / (1 + (flatFan 0 noTag).info.hgrad * g.l * g.e2.ps) ∨
        alpha = g.e1.ps / (1 + (flatFan 0 noTag).info.hgrad * g.l * g.e1.ps)) ∧
      (fanEnv.MS_SIN ((flatFan 0 noTag).point np).tag = false →
        hasBit ((flatFan 0 noTag).point np).tag fanEnv.MG_GEO = false →
        r.IsOrthogonal → (fanPrim.eigensym e.mtan).2.IsOrthonormal →
        e.mtan = grad2met_compose (fanPrim.eigensym e.mtan).2 (gradLambda fanPrim e 0)
          (gradLambda fanPrim e 1) →
        e.ps * e.ps = quad2 e.mtan e.t0 e.t1 → fanEnv.sqrt (alpha * alpha) = alpha →
        speedAlong fanEnv fanPrim r
          ((grad2met fanEnv fanPrim (flatFan 0 noTag) gradMet 1 2).2 np) e.t0 e.t1 = alpha) ∧
      ((flatFan 0 noTag).info.hgrad = 1 / 10 → g.l = 1 →
        (g.e1.ps = 10 ∧ g.e2.ps = 1) ∨ (g.e1.ps = 1 ∧ g.e2.ps = 10) →
        e.ps = 1 ∧ alpha = 5) :=
  ⟨by decide!, by decide!, by decide!,
    grad2met_speed fanEnv fanPrim (flatFan 0 noTag) gradMet 1 2 (by decide!) sqrtQ_pos
      rmtrQ_spec (by decide!)⟩

/-- C11. In `defmetreg` and in `defmetref`, once the ball is computed and the
tests of the projection (and, in `defmetref`, the scan of the reference edges and
the assertion on `ipref`) are passed, if the second member of the quadric fit
satisfies `tAb[0]^2 + tAb[1]^2 + tAb[2]^2 < EPSD` then the stored tensor is exactly
`(isqhmax,0,0,isqhmax,0,isqhmax)` and the function returns 1, whatever
`_MMG5_sys33sym` and `_MMG5_eigensym` would return: the normal equations are not
solved. -/
theorem flat_patch_isqhmax (env : Env K) (prim : Prim K) (bfail : Nat → Nat → Vec3 K)
    (mesh : Mesh K) (m : Nat → Met6 K) (it ip : Nat) (hb : (env.boulet mesh it ip).1 ≠ 0) :
    (defmetreg_badproj (defmetreg_lispoi env mesh ((mesh.tria it).v ip)
        (env.rotmatrix (mesh.point ((mesh.tria it).v ip)).n) (env.boulet mesh it ip).2)
        (env.boulet mesh it ip).1.toNat = false →
      FlatRhs env (defmetreg_fit env prim mesh ((mesh.tria it).v ip)
        (env.rotmatrix (mesh.point ((mesh.tria it).v ip)).n) (env.boulet mesh it ip).2 bfail
        (env.boulet mesh it ip).1.toNat).2 →
      ∀ solve eig, defmetreg env { prim with sys33sym := solve, eigensym := eig } bfail mesh m
        it ip = .ok (1, Function.update m ((mesh.tria it).v ip)
          ⟨isq mesh.info.hmax, 0, 0, isq mesh.info.hmax, 0, isq mesh.info.hmax⟩)) ∧
    (∀ ipref, defmetref_scan env mesh (env.boulet mesh it ip).2
        (env.boulet mesh it ip).1.toNat = .ok ipref → ipref.1 ≠ 0 → ipref.2 ≠ 0 →
      defmetref_badproj (defmetreg_lispoi env mesh ((mesh.tria it).v ip)
        (env.rotmatrix (mesh.xpoint (mesh.point ((mesh.tria it).v ip)).ig).n1)
        (env.boulet mesh it ip).2) (env.boulet mesh it ip).1.toNat = false →
      FlatRhs env (defmetreg_fit env prim mesh ((mesh.tria it).v ip)
        (env.rotmatrix (mesh.xpoint (mesh.point ((mesh.tria it).v ip)).ig).n1)
        (env.boulet mesh it ip).2 bfail (env.boulet mesh it ip).1.toNat).2 →
      ∀ solve eig, defmetref env { prim with sys33sym := solve, eigensym := eig } bfail mesh m
        it ip = .ok (1, Function.update m ((mesh.tria it).v ip)
          ⟨isq mesh.info.hmax, 0, 0, isq mesh.info.hmax, 0, isq mesh.info.hmax⟩)) := by
  constructor
  · intro hp hf solve eig
    have hf1 : FlatRhs env (defmetreg_fit env { prim with sys33sym := solve, eigensym := eig }
        mesh ((mesh.tria it).v ip) (env.rotmatrix (mesh.point ((mesh.tria it).v ip)).n)
        (env.boulet mesh it ip).2 bfail (env.boulet mesh it ip).1.toNat).2 := hf
    rw [defmetreg_eq env _ bfail mesh m it ip hb, if_neg (by simp [hp]), if_pos hf1]
    rfl
  · intro ipref hsc h1 h2 hp hf solve eig
    have hf1 : FlatRhs env (defmetreg_fit env { prim with sys33sym := solve, eigensym := eig }
        mesh ((mesh.tria it).v ip)
        (env.rotmatrix (mesh.xpoint (mesh.point ((mesh.tria it).v ip)).ig).n1)
        (env.boulet mesh it ip).2 bfail (env.boulet mesh it ip).1.toNat).2 := hf
    rw [defmetref_eq env _ bfail mesh m it ip ipref hb hsc, if_neg (by simp [hp]),
      if_neg (by simp [h1, h2]), if_pos hf1]
    rfl

/-- Witness of C11: the flat fan around the reference vertex 5, whose edges to
the vertices 1 and 3 are reference edges; both estimators store the identity
(`isqhmax = 1`) at vertex 5 and return 1. -/
theorem flat_patch_isqhmax_witness :
    (fanEnv.boulet (flatFan 1 refTag13) 1 0).1 ≠ 0 ∧
    defmetreg fanEnv { fanPrim with sys33sym := fanPrim.sys33sym, eigensym := fanPrim.eigensym }
      noB (flatFan 1 refTag13) (fun _ => Met6.zero) 1 0 =
      .ok (1, Function.update (fun _ => Met6.zero) (((flatFan 1 refTag13).tria 1).v 0)
        ⟨isq (flatFan 1 refTag13).info.hmax, 0, 0, isq (flatFan 1 refTag13).info.hmax, 0,
          isq (flatFan 1 refTag13).info.hmax⟩) ∧
    defmetref fanEnv { fanPrim with sys33sym := fanPrim.sys33sym, eigensym := fanPrim.eigensym }
      noB (flatFan 1 refTag13) (fun _ => Met6.zero) 1 0 =
      .ok (1, Function.update (fun _ => Met6.zero) (((flatFan 1 refTag13).tria 1).v 0)
        ⟨isq (flatFan 1 refTag13).info.hmax, 0, 0, isq (flatFan 1 refTag13).info.hmax, 0,
          isq (flatFan 1 refTag13).info.hmax⟩) ∧
    estimatedAt (defmetreg fanEnv fanPrim noB (flatFan 1 refTag13) (fun _ => Met6.zero) 1 0) 5 =
      some (1, ⟨1, 0, 0, 1, 0, 1⟩) ∧
    estimatedAt (defmetref fanEnv fanPrim noB (flatFan 1 refTag13) (fun _ => Met6.zero) 1 0) 5 =
      some (1, ⟨1, 0, 0, 1, 0, 1⟩) :=
  ⟨by decide,
    (flat_patch_isqhmax fanEnv fanPrim noB (flatFan 1 refTag13) (fun _ => Met6.zero) 1 0
      (by decide)).1 (by decide!) (by decide!) fanPrim.sys33sym fanPrim.eigensym,
    (flat_patch_isqhmax fanEnv fanPrim noB (flatFan 1 refTag13) (fun _ => Met6.zero) 1 0
      (by decide)).2 (1, 3) (by rfl) (by decide) (by decide) (by decide!) (by decide!)
      fanPrim.sys33sym fanPrim.eigensym, by decide!, by decide!⟩

/-- C14. While it scans the ball of a reference vertex, `defmetref` records in
`ipref` at most two distinct endpoints of reference edges in the order they are
first seen, meeting again a recorded endpoint being no error, and it stops the
process by `exit(0)` instead of returning as soon as a reference edge leads to a
third distinct endpoint. Vertex indices are positive; `refEnds` is the sequence of
the endpoints of the reference edges met by the scan. -/
theorem defmetref_ref_endpoints (env : Env K) (prim : Prim K) (bfail : Nat → Nat → Vec3 K)
    (mesh : Mesh K) (m : Nat → Met6 K) (it ip : Nat) (hb : (env.boulet mesh it ip).1 ≠ 0)
    (hpos : ∀ v ∈ refEnds env mesh (env.boulet mesh it ip).2 (env.boulet mesh it ip).1.toNat,
      v ≠ 0) :
    defmetref_scan env mesh (env.boulet mesh it ip).2 (env.boulet mesh it ip).1.toNat =
      (if (firstSeen (refEnds env mesh (env.boulet mesh it ip).2
          (env.boulet mesh it ip).1.toNat)).length ≤ 2
        then .ok (padPair (firstSeen (refEnds env mesh (env.boulet mesh it ip).2
          (env.boulet mesh it ip).1.toNat)))
        else .error Fatal.exitZero) ∧
    (2 < (firstSeen (refEnds env mesh (env.boulet mesh it ip).2
        (env.boulet mesh it ip).1.toNat)).length →
      defmetref env prim bfail mesh m it ip = .error Fatal.exitZero) ∧
    (∀ pre v post, refEnds env mesh (env.boulet mesh it ip).2
        (env.boulet mesh it ip).1.toNat = pre ++ v :: post →
      (firstSeen pre).length = 2 → v ∉ firstSeen pre →
      pre.foldlM defmetref_store (0, 0) = .ok (padPair (firstSeen pre)) ∧
      defmetref_store (padPair (firstSeen pre)) v = .error Fatal.exitZero ∧
      defmetref env prim bfail mesh m it ip = .error Fatal.exitZero) := by
  have hscan := defmetref_store_fold
    (refEnds env mesh (env.boulet mesh it ip).2 (env.boulet mesh it ip).1.toNat) []
    List.nodup_nil (by simp) (by simp) hpos
  have hsc : defmetref_scan env mesh (env.boulet mesh it ip).2 (env.boulet mesh it ip).1.toNat =
      (if (firstSeen (refEnds env mesh (env.boulet mesh it ip).2
          (env.boulet mesh it ip).1.toNat)).length ≤ 2
        then .ok (padPair (firstSeen (refEnds env mesh (env.boulet mesh it ip).2
          (env.boulet mesh it ip).1.toNat)))
        else .error Fatal.exitZero) := by
    rw [defmetref_scan_eq]
    exact hscan
  have herr : 2 < (firstSeen (refEnds env mesh (env.boulet mesh it ip).2
        (env.boulet mesh it ip).1.toNat)).length →
      defmetref env prim bfail mesh m it ip = .error Fatal.exitZero := by
    intro h
    rw [if_neg (by omega)] at hsc
    exact defmetref_scan_error env prim bfail mesh m it ip _ hb hsc
  refine ⟨hsc, herr, fun pre v post he h2 hv => ?_⟩
  have hpre : ∀ w ∈ pre, w ≠ 0 := fun w hw => hpos w (by rw [he]; simp [hw])
  have h1 := defmetref_store_fold pre [] List.nodup_nil (by simp) (by simp) hpre
  rw [if_pos (by unfold firstSeen at h2; omega)] at h1
  have hlong : 2 < (firstSeen (refEnds env mesh (env.boulet mesh it ip).2
      (env.boulet mesh it ip).1.toNat)).length := by
    rw [he]
    unfold firstSeen at h2 hv ⊢
    rw [List.foldl_append, List.foldl_cons]
    have e2 : seeOne (pre.foldl seeOne []) v = pre.foldl seeOne [] ++ [v] := by
      simp [seeOne, hv]
    rw [e2]
    have := seeOne_fold_length_le post (pre.foldl seeOne [] ++ [v])
    simp only [List.length_append, List.length_singleton] at this
    omega
  refine ⟨h1, ?_, herr hlong⟩
  match hfs : firstSeen pre, h2, hv with
  | [a, b], _, hv =>
    have hne : ∀ w ∈ firstSeen pre, w ≠ 0 := by
      intro w hw
      have : w ∈ pre := by
        unfold firstSeen at hw
        have key : ∀ (l acc : List Nat), w ∈ l.foldl seeOne acc → w ∈ acc ∨ w ∈ l := by
          intro l
          induction l with
          | nil => intro acc h; exact Or.inl h
          | cons x l ih =>
            intro acc h
            rw [List.foldl_cons] at h
            rcases ih _ h with h | h
            · unfold seeOne at h
              split_ifs at h
              · exact Or.inl h
              · simp at h
                rcases h with h | h
                · exact Or.inl h
                · exact Or.inr (by simp [h])
            · exact Or.inr (List.mem_cons_of_mem _ h)
        rcases key pre [] hw with h | h
        · simp at h
        · exact h
      exact hpre w this
    rw [hfs] at hne
    have ha : a ≠ 0 := hne a (by simp)
    have hb' : b ≠ 0 := hne b (by simp)
    simp at hv
    simp [defmetref_store, padPair, ha, hb', hv.1, hv.2]

/-- Witness of C14: on the flat fan whose edges from the reference vertex 5 to the
vertices 1, 2 and 3 are reference edges, the scan records 2 and 1 and stops the
process at the edge to vertex 3; with the reference edges to 1 and 3 only, it
records `(1, 3)`. -/
theorem defmetref_ref_endpoints_witness :
    (fanEnv.boulet (flatFan 1 refTag123) 1 0).1 ≠ 0 ∧
    refEnds fanEnv (flatFan 1 refTag123) (fanEnv.boulet (flatFan 1 refTag123) 1 0).2 4 =
      [2, 1, 3, 2, 3, 1] ∧
    defmetref fanEnv fanPrim noB (flatFan 1 refTag123) (fun _ => Met6.zero) 1 0 =
      .error Fatal.exitZero ∧
    defmetref_scan fanEnv (flatFan 1 refTag13) (fanEnv.boulet (flatFan 1 refTag13) 1 0).2 4 =
      .ok (1, 3) :=
  ⟨by decide, by decide,
    (defmetref_ref_endpoints fanEnv fanPrim noB (flatFan 1 refTag123) (fun _ => Met6.zero) 1 0
      (by decide) (by decide)).2.1 (by decide), by rfl⟩

/-- C13 (amended). When `defmetreg` takes the non-flat path and succeeds, with
`0 < hmin <= hmax`, the rotation matrix `R` orthogonal and mapping the vertex
normal `n` to `e3`, and `_MMG5_eigensym` returning an orthonormal basis for the
curvature form, it returns 1 and the stored tensor `M` has the normal in its
kernel (`M n = 0`), satisfies `isqhmax*|t|^2 <= t^T M t <= isqhmin*|t|^2` for every
vector `t` orthogonal to `n`, and has the two vectors of the basis, sent back by
`R`, as eigenvectors for the truncated sizes
`max(isqhmax, min(isqhmin, (2/9)|kappa_i|/hausd))`. -/
theorem defmetreg_curved (env : Env K) (prim : Prim K) (bfail : Nat → Nat → Vec3 K)
    (mesh : Mesh K) (m : Nat → Met6 K) (it ip : Nat) (c : Vec3 K)
    (hb : (env.boulet mesh it ip).1 ≠ 0)
    (hp : defmetreg_badproj (defmetreg_lispoi env mesh ((mesh.tria it).v ip)
      (env.rotmatrix (mesh.point ((mesh.tria it).v ip)).n) (env.boulet mesh it ip).2)
      (env.boulet mesh it ip).1.toNat = false)
    (hf : ¬ FlatRhs env (defmetreg_fit env prim mesh ((mesh.tria it).v ip)
      (env.rotmatrix (mesh.point ((mesh.tria it).v ip)).n) (env.boulet mesh it ip).2 bfail
      (env.boulet mesh it ip).1.toNat).2)
    (hsol : prim.sys33sym (defmetreg_fit env prim mesh ((mesh.tria it).v ip)
      (env.rotmatrix (mesh.point ((mesh.tria it).v ip)).n) (env.boulet mesh it ip).2 bfail
      (env.boulet mesh it ip).1.toNat).1 (defmetreg_fit env prim mesh ((mesh.tria it).v ip)
      (env.rotmatrix (mesh.point ((mesh.tria it).v ip)).n) (env.boulet mesh it ip).2 bfail
      (env.boulet mesh it ip).1.toNat).2 = some c)
    (hR : (env.rotmatrix (mesh.point ((mesh.tria it).v ip)).n).IsOrthogonal)
    (hn : (env.rotmatrix (mesh.point ((mesh.tria it).v ip)).n).mulVec
      (mesh.point ((mesh.tria it).v ip)).n = ⟨0, 0, 1⟩)
    (hvp : (prim.eigensym (curvForm c)).2.IsOrthonormal)
    (hmin : 0 < mesh.info.hmin) (hle : mesh.info.hmin ≤ mesh.info.hmax) :
    ∃ M, defmetreg env prim bfail mesh m it ip =
        .ok (1, Function.update m ((mesh.tria it).v ip) M) ∧
      M.apply (mesh.point ((mesh.tria it).v ip)).n = ⟨0, 0, 0⟩ ∧
      (∀ t : Vec3 K, t.dot (mesh.point ((mesh.tria it).v ip)).n = 0 →
        isq mesh.info.hmax * t.normSq ≤ t.dot (M.apply t) ∧
        t.dot (M.apply t) ≤ isq mesh.info.hmin * t.normSq) ∧
      M.apply ((env.rotmatrix (mesh.point ((mesh.tria it).v ip)).n).tangent
          (prim.eigensym (curvForm c)).2.v00 (prim.eigensym (curvForm c)).2.v01) =
        Vec3.smul (truncSize mesh.info (prim.eigensym (curvForm c)).1.1)
          ((env.rotmatrix (mesh.point ((mesh.tria it).v ip)).n).tangent
            (prim.eigensym (curvForm c)).2.v00 (prim.eigensym (curvForm c)).2.v01) ∧
      M.apply ((env.rotmatrix (mesh.point ((mesh.tria it).v ip)).n).tangent
          (prim.eigensym (curvForm c)).2.v10 (prim.eigensym (curvForm c)).2.v11) =
        Vec3.smul (truncSize mesh.info (prim.eigensym (curvForm c)).1.2)
          ((env.rotmatrix (mesh.point ((mesh.tria it).v ip)).n).tangent
            (prim.eigensym (curvForm c)).2.v10 (prim.eigensym (curvForm c)).2.v11) := by
  have hrun := defmetreg_eq env prim bfail mesh m it ip hb
  rw [if_neg (by simp [hp]), if_neg hf, hsol] at hrun
  simp only at hrun
  rw [defmetreg_intm_eq] at hrun
  have hq := isq_le_of_bounds mesh.info hmin hle
  have hr2 := orth_third_row _ _ hR hn
  have h0 : (Mat3.row (env.rotmatrix (mesh.point ((mesh.tria it).v ip)).n) 0).dot
      (mesh.point ((mesh.tria it).v ip)).n = 0 := by
    have := congrArg Vec3.x hn
    exact this
  have h1 : (Mat3.row (env.rotmatrix (mesh.point ((mesh.tria it).v ip)).n) 1).dot
      (mesh.point ((mesh.tria it).v ip)).n = 0 := by
    have := congrArg Vec3.y hn
    exact this
  obtain ⟨e1, e2⟩ := back_eigen (env.rotmatrix (mesh.point ((mesh.tria it).v ip)).n)
    (prim.eigensym (curvForm c)).2 (truncSize mesh.info (prim.eigensym (curvForm c)).1.1)
    (truncSize mesh.info (prim.eigensym (curvForm c)).1.2) hR hvp
  refine ⟨_, hrun, ?_, fun t ht => ?_, e1, e2⟩
  · rw [back_apply, h0, h1]
    unfold Mat3.tangent Vec3.add Vec3.smul
    simp
  · rw [back_quad]
    have hz : (Mat3.row (env.rotmatrix (mesh.point ((mesh.tria it).v ip)).n) 2).dot t = 0 := by
      rw [← hr2]
      unfold Vec3.dot at ht ⊢
      linear_combination ht
    have hns := orth_normSq (env.rotmatrix (mesh.point ((mesh.tria it).v ip)).n) t hR
    rw [hz] at hns
    simp only [mul_zero, add_zero] at hns
    rw [← hns]
    exact quad2_compose_bounds _ hvp _ _ _ _ _ _
      ⟨truncSize_ge _ _, truncSize_le _ _ hq⟩ ⟨truncSize_ge _ _, truncSize_le _ _ hq⟩

/-- Witness of C13: the bowl around the regular vertex 5 with `hmin = 0.001`. -/
theorem defmetreg_curved_witness :
    ∃ c, fanPrim.sys33sym (defmetreg_fit fanEnv fanPrim (bowlFan (1 / 1000))
        (((bowlFan (1 / 1000)).tria 1).v 0)
        (fanEnv.rotmatrix ((bowlFan (1 / 1000)).point (((bowlFan (1 / 1000)).tria 1).v 0)).n)
        (fanEnv.boulet (bowlFan (1 / 1000)) 1 0).2 noB
        (fanEnv.boulet (bowlFan (1 / 1000)) 1 0).1.toNat).1
        (defmetreg_fit fanEnv fanPrim (bowlFan (1 / 1000)) (((bowlFan (1 / 1000)).tria 1).v 0)
        (fanEnv.rotmatrix ((bowlFan (1 / 1000)).point (((bowlFan (1 / 1000)).tria 1).v 0)).n)
        (fanEnv.boulet (bowlFan (1 / 1000)) 1 0).2 noB
        (fanEnv.boulet (bowlFan (1 / 1000)) 1 0).1.toNat).2 = some c ∧
      ∃ M, defmetreg fanEnv fanPrim noB (bowlFan (1 / 1000)) (fun _ => Met6.zero) 1 0 =
        .ok (1, Function.update (fun _ => Met6.zero) (((bowlFan (1 / 1000)).tria 1).v 0) M) ∧
      M.apply ((bowlFan (1 / 1000)).point (((bowlFan (1 / 1000)).tria 1).v 0)).n = ⟨0, 0, 0⟩ ∧
      (∀ t : Vec3 ℚ,
        t.dot ((bowlFan (1 / 1000)).point (((bowlFan (1 / 1000)).tria 1).v 0)).n = 0 →
        isq (bowlFan (1 / 1000)).info.hmax * t.normSq ≤ t.dot (M.apply t) ∧
        t.dot (M.apply t) ≤ isq (bowlFan (1 / 1000)).info.hmin * t.normSq) := by
  have hs : ∃ c, fanPrim.sys33sym (defmetreg_fit fanEnv fanPrim (bowlFan (1 / 1000))
        (((bowlFan (1 / 1000)).tria 1).v 0)
        (fanEnv.rotmatrix ((bowlFan (1 / 1000)).point (((bowlFan (1 / 1000)).tria 1).v 0)).n)
        (fanEnv.boulet (bowlFan (1 / 1000)) 1 0).2 noB
        (fanEnv.boulet (bowlFan (1 / 1000)) 1 0).1.toNat).1
        (defmetreg_fit fanEnv fanPrim (bowlFan (1 / 1000)) (((bowlFan (1 / 1000)).tria 1).v 0)
        (fanEnv.rotmatrix ((bowlFan (1 / 1000)).point (((bowlFan (1 / 1000)).tria 1).v 0)).n)
        (fanEnv.boulet (bowlFan (1 / 1000)) 1 0).2 noB
        (fanEnv.boulet (bowlFan (1 / 1000)) 1 0).1.toNat).2 = some c :=
    Option.isSome_iff_exists.mp (by decide!)
  obtain ⟨c, hc⟩ := hs
  obtain ⟨M, h1, h2, h3, _⟩ := defmetreg_curved fanEnv fanPrim noB (bowlFan (1 / 1000))
    (fun _ => Met6.zero) 1 0 c (by decide) (by decide!) (by decide!) hc idMat3_orth
    (by decide!) (eigensymQ_orth _) (by decide!) (by decide!)
  exact ⟨c, hc, M, h1, h2, h3⟩

/-- Counterexample to C13 as stated: on the bowl with `hmin = -2 <= hmax = 1`,
`defmetreg` takes the non-flat path and succeeds, the rotation is the identity
and maps the normal `(0,0,1)` to `e3`, the canonical basis returned by the
eigensolver is an orthonormal eigenbasis of the diagonal curvature form, and the
stored tensor is `(1,0,0,1,0,0)`: for `t = (1,0,0)`, orthogonal to the normal,
`t^T M t = 1` is above `isqhmin*|t|^2 = 1/4`. -/
theorem defmetreg_negative_hmin :
    (bowlFan (-2)).info.hmin ≤ (bowlFan (-2)).info.hmax ∧
    ¬ FlatRhs fanEnv (defmetreg_fit fanEnv fanPrim (bowlFan (-2)) 5 idMat3
      (fanEnv.boulet (bowlFan (-2)) 1 0).2 noB 4).2 ∧
    estimatedAt (defmetreg fanEnv fanPrim noB (bowlFan (-2)) (fun _ => Met6.zero) 1 0) 5 =
      some (1, ⟨1, 0, 0, 1, 0, 0⟩) ∧
    fanEnv.rotmatrix ((bowlFan (-2)).point 5).n = idMat3 ∧
    idMat3.mulVec ((bowlFan (-2)).point 5).n = ⟨0, 0, 1⟩ ∧
    ((fanPrim.sys33sym (defmetreg_fit fanEnv fanPrim (bowlFan (-2)) 5 idMat3
      (fanEnv.boulet (bowlFan (-2)) 1 0).2 noB 4).1 (defmetreg_fit fanEnv fanPrim (bowlFan (-2)) 5
      idMat3 (fanEnv.boulet (bowlFan (-2)) 1 0).2 noB 4).2).map
      (fun c => ((curvForm c).y, (fanPrim.eigensym (curvForm c)).2))) =
      some (0, ⟨1, 0, 0, 1⟩) ∧
    (⟨1, 0, 0⟩ : Vec3 ℚ).dot ((bowlFan (-2)).point 5).n = 0 ∧
    isq (bowlFan (-2)).info.hmin * (⟨1, 0, 0⟩ : Vec3 ℚ).normSq = 1 / 4 ∧
    (⟨1, 0, 0⟩ : Vec3 ℚ).dot ((⟨1, 0, 0, 1, 0, 0⟩ : Met6 ℚ).apply ⟨1, 0, 0⟩) = 1 ∧
    ¬ ((⟨1, 0, 0⟩ : Vec3 ℚ).dot ((⟨1, 0, 0, 1, 0, 0⟩ : Met6 ℚ).apply ⟨1, 0, 0⟩) ≤
      isq (bowlFan (-2)).info.hmin * (⟨1, 0, 0⟩ : Vec3 ℚ).normSq) := by
  decide!

/-- C18 (amended). Gradation fixed point: when `gradsiz_ani` stops after a sweep
that made zero updates, `grad2met` returns -1 on every edge of every active
triangle for the final metric array, and wherever it computes the two specific
speeds they satisfy `specific_speed_small >= specific_speed_big / (1 +
hgrad*length*specific_speed_big) - EPS`, `length` being the length of the chord.
The primitives called with the mesh do not read the flags, the ridge
reconstruction reads the metric at its vertex only, and the endpoints of the
edges are vertices of the mesh. -/
theorem gradsiz_fixed_point (env : Env K) (prim : Prim K) (mesh : Mesh K) (m : Nat → Met6 K)
    (hff : FlagFree env prim) (hloc : RidLocal prim) (hwf : EdgesInMesh env mesh)
    (h0 : (gradsiz_run env prim mesh m).nu = 0) :
    ∀ k i, ActiveEdge mesh k i →
      (grad2met env prim (gradsiz_run env prim mesh m).mesh (gradsiz_run env prim mesh m).m
        k i).1 = -1 ∧
      ∀ g, grad2met_ends env prim (gradsiz_run env prim mesh m).mesh
          (gradsiz_run env prim mesh m).m k i = some g →
        max g.e1.ps g.e2.ps / (1 + mesh.info.hgrad * g.l * max g.e1.ps g.e2.ps) - prim.EPS ≤
          min g.e1.ps g.e2.ps := by
  intro k i ha
  have hq := gradsiz_run_quiet env prim mesh m hff hloc hwf h0 k i ha
  refine ⟨hq, fun g hg => ?_⟩
  have hinfo : (gradsiz_run env prim mesh m).mesh.info = mesh.info := by
    obtain ⟨n, _, _, e, _, _⟩ := gradsiz_loop_spec env prim 100 100
      ⟨defsiz_reset mesh, gradsiz_prepass env (defsiz_reset mesh) m, 0, 0, 0, 0⟩ (by norm_num)
      (by norm_num)
    have e1 : gradsiz_run env prim mesh m = (gradsiz_sweep env prim)^[n]
        ⟨defsiz_reset mesh, gradsiz_prepass env (defsiz_reset mesh) m, 0, 0, 0, 0⟩ := e
    rw [e1]
    exact ((gradsiz_iterate_end env prim mesh _ hff hloc
      (gradsiz_start_end env prim mesh m hwf) n).1.2.2.2.1).symm
  unfold EdgeQuiet at hq
  rw [grad2met_code, hg, hinfo] at hq
  unfold gradCode grad2met_alpha at hq
  simp only at hq
  by_cases h1 : g.e2.ps > g.e1.ps
  · rw [if_pos h1] at hq
    rw [max_eq_right (le_of_lt h1), min_eq_left (le_of_lt h1)]
    by_cases h2 : g.e1.ps ≥ g.e2.ps / (1 + mesh.info.hgrad * g.l * g.e2.ps) - prim.EPS
    · exact h2
    · rw [if_neg h2] at hq
      omega
  · rw [if_neg h1] at hq
    rw [max_eq_left (not_lt.mp h1), min_eq_right (not_lt.mp h1)]
    by_cases h2 : g.e2.ps ≥ g.e1.ps / (1 + mesh.info.hgrad * g.l * g.e1.ps) - prim.EPS
    · exact h2
    · rw [if_neg h2] at hq
      omega

/-- Witness of C18: the flat fan with the identity at every vertex; the first
sweep updates no vertex. -/
theorem gradsiz_fixed_point_witness :
    (gradsiz_run fanEnv fanPrim (flatFan 0 noTag) unitMet).nu = 0 ∧
    ∀ k i, ActiveEdge (flatFan 0 noTag) k i →
      (grad2met fanEnv fanPrim (gradsiz_run fanEnv fanPrim (flatFan 0 noTag) unitMet).mesh
        (gradsiz_run fanEnv fanPrim (flatFan 0 noTag) unitMet).m k i).1 = -1 ∧
      ∀ g, grad2met_ends fanEnv fanPrim
          (gradsiz_run fanEnv fanPrim (flatFan 0 noTag) unitMet).mesh
          (gradsiz_run fanEnv fanPrim (flatFan 0 noTag) unitMet).m k i = some g →
        max g.e1.ps g.e2.ps /
            (1 + (flatFan 0 noTag).info.hgrad * g.l * max g.e1.ps g.e2.ps) - fanPrim.EPS ≤
          min g.e1.ps g.e2.ps :=
  ⟨by decide!, gradsiz_fixed_point fanEnv fanPrim (flatFan 0 noTag) unitMet fanPrim_flagFree
    fanPrim_ridLocal flatFan_edges (by decide!)⟩

/-- Counterexample to C18 as stated: on the flat fan with the identity at every
vertex, `gradsiz_ani` stops after its first sweep, which updates no vertex; on
the edge from vertex 5 to vertex 1 the two specific speeds are 1 and the length is
1, so that `specific_speed_small = 1` is above `specific_speed_big / (1 +
hgrad*length*specific_speed_big) + EPS = 10/11 + 10^-6`. -/
theorem gradsiz_fixed_point_reversed :
    (gradsiz_run fanEnv fanPrim (flatFan 0 noTag) unitMet).nu = 0 ∧
    (gradsiz_run fanEnv fanPrim (flatFan 0 noTag) unitMet).it = 1 ∧
    MG_EOK ((flatFan 0 noTag).tria 1) = true ∧
    (grad2met_ends fanEnv fanPrim (gradsiz_run fanEnv fanPrim (flatFan 0 noTag) unitMet).mesh
      (gradsiz_run fanEnv fanPrim (flatFan 0 noTag) unitMet).m 1 2).map
      (fun g => (g.e1.ps, g.e2.ps, g.l)) = some (1, 1, 1) ∧
    (flatFan 0 noTag).info.hgrad = 1 / 10 ∧
    ¬ ((1 : ℚ) ≤ 1 / (1 + (flatFan 0 noTag).info.hgrad * 1 * 1) + fanPrim.EPS) := by
  decide!

/-- Witness of C20: on the flat fan with the identity at every vertex, the two
speeds of the edge from vertex 5 to vertex 1 are equal to 1, `hgrad*l = 0.1`, and
`grad2met` returns -1 without changing the array. -/
theorem grad2met_no_change_witness :
    grad2met fanEnv fanPrim (flatFan 0 noTag) unitMet 1 2 = (-1, unitMet) := by
  obtain ⟨g, hg⟩ : ∃ g, grad2met_ends fanEnv fanPrim (flatFan 0 noTag) unitMet 1 2 = some g :=
    Option.isSome_iff_exists.mp (by decide!)
  have hv : (grad2met_ends fanEnv fanPrim (flatFan 0 noTag) unitMet 1 2).map
      (fun g => (g.e1.ps, g.e2.ps, g.l)) = some (1, 1, 1) := by decide!
  rw [hg] at hv
  simp only [Option.map_some', Option.some.injEq, Prod.mk.injEq] at hv
  obtain ⟨h1, h2, h3⟩ := hv
  exact ((grad2met_no_change fanEnv fanPrim (flatFan 0 noTag) unitMet 1 2).2.2.2.2.2 g hg).2.2
    (by rw [h1, h2]) (by rw [h1]; norm_num) (by rw [h3]; decide!) (by decide!)

/-- C23: when the ridge reconstructions succeed (`endTensor` returns the tensors
`M0`, `M1`) and both quadratic forms are non-negative, `_MMG5_lenedg_ani` returns
`(sqrt(t0^T M0 t0) + sqrt(t1^T M1 t1))/2`. The tangent `t_i` of the endpoint `i`
for its chord `u_i` to the other endpoint is `edgeTangentAt`: `u_i` at a singular
endpoint, `(u_i.t) t` with the stored tangent on a ridge edge, `u_i - (u_i.n) n`
with the selected normal otherwise. The tensor `M_i` is `endTensor`: the stored
entry at a singular, reference or regular endpoint, the tensor rebuilt by
`_MMG5_buildridmet` at a ridge endpoint that is not singular. -/
theorem lenedg_ani_average (env : Env K) (prim : Prim K) (mesh : Mesh K) (m : Nat → Met6 K)
    (np0 np1 : Nat) (isedg : Bool) (M0 M1 : Met6 K)
    (h0 : endTensor env prim mesh m np0 (chord mesh np0 np1) = some M0)
    (h1 : endTensor env prim mesh m np1 (chord mesh np0 np1) = some M1)
    (hq0 : 0 ≤ M0.quad (edgeTangentAt env mesh (mesh.point np0) isedg (chord mesh np0 np1)))
    (hq1 : 0 ≤ M1.quad (edgeTangentAt env mesh (mesh.point np1) isedg (chord mesh np1 np0))) :
    lenedg_ani env prim mesh m np0 np1 isedg =
      (env.sqrt (M0.quad (edgeTangentAt env mesh (mesh.point np0) isedg (chord mesh np0 np1))) +
        env.sqrt (M1.quad (edgeTangentAt env mesh (mesh.point np1) isedg
          (chord mesh np1 np0)))) / 2 := by
  rw [lenedg_ani_eq, h0, h1]
  simp only [guardedForm, not_lt.mpr hq0, not_lt.mpr hq1, if_false]
  ring

theorem lenedg_ani_average_witness :
    endTensor fanEnv fanPrim ridgeFan ridgeMet 5 (chord ridgeFan 5 1) = some ⟨4, 0, 0, 9, 0, 16⟩ ∧
    edgeTangentAt fanEnv ridgeFan (ridgeFan.point 5) true (chord ridgeFan 5 1) = ⟨1, 0, 0⟩ ∧
    edgeTangentAt fanEnv ridgeFan (ridgeFan.point 1) true (chord ridgeFan 1 5) = ⟨0, 0, 0⟩ ∧
    edgeTangentAt fanEnv ridgeFan (ridgeFan.point 1) false (chord ridgeFan 1 5) = ⟨-1, 0, 0⟩ ∧
    lenedg_ani fanEnv fanPrim ridgeFan ridgeMet 5 1 false = 3 / 2 ∧
    lenedg_ani fanEnv fanPrim ridgeFan ridgeMet 5 1 true =
      (fanEnv.sqrt ((⟨4, 0, 0, 9, 0, 16⟩ : Met6 ℚ).quad
          (edgeTangentAt fanEnv ridgeFan (ridgeFan.point 5) true (chord ridgeFan 5 1))) +
        fanEnv.sqrt ((⟨1, 0, 0, 1, 0, 1⟩ : Met6 ℚ).quad
          (edgeTangentAt fanEnv ridgeFan (ridgeFan.point 1) true (chord ridgeFan 1 5)))) / 2 ∧
    lenedg_ani fanEnv fanPrim ridgeFan ridgeMet 5 1 true = 1 :=
  ⟨by decide!, by decide!, by decide!, by decide!, by decide!,
    lenedg_ani_average fanEnv fanPrim ridgeFan ridgeMet 5 1 true ⟨4, 0, 0, 9, 0, 16⟩
      ⟨1, 0, 0, 1, 0, 1⟩ (by decide!) (by decide!) (by decide!) (by decide!), by decide!⟩

/-- C24: when the ridge reconstructions succeed, `_MMG5_lenedg_ani` returns the
half sum of the square roots of the two quadratic forms, a negative form being
replaced by 1 first (`guardedForm`); so, `sqrt(1)` being 1, an endpoint whose form
is negative contributes exactly 1/2, and, the square root being non-negative,
the returned length is non-negative and is not the failure value -1. -/
theorem lenedg_ani_negative_form (env : Env K) (prim : Prim K) (mesh : Mesh K)
    (m : Nat → Met6 K) (np0 np1 : Nat) (isedg : Bool) (M0 M1 : Met6 K)
    (h0 : endTensor env prim mesh m np0 (chord mesh np0 np1) = some M0)
    (h1 : endTensor env prim mesh m np1 (chord mesh np0 np1) = some M1) :
    lenedg_ani env prim mesh m np0 np1 isedg =
      1 / 2 * env.sqrt (guardedForm (M0.quad
        (edgeTangentAt env mesh (mesh.point np0) isedg (chord mesh np0 np1)))) +
      1 / 2 * env.sqrt (guardedForm (M1.quad
        (edgeTangentAt env mesh (mesh.point np1) isedg (chord mesh np1 np0)))) ∧
    (∀ q : K, q < 0 → guardedForm q = 1) ∧ (∀ q : K, 0 ≤ q → guardedForm q = q) ∧
    (env.sqrt 1 = 1 →
      M0.quad (edgeTangentAt env mesh (mesh.point np0) isedg (chord mesh np0 np1)) < 0 →
      lenedg_ani env prim mesh m np0 np1 isedg =
        1 / 2 + 1 / 2 * env.sqrt (guardedForm (M1.quad
          (edgeTangentAt env mesh (mesh.point np1) isedg (chord mesh np1 np0))))) ∧
    (env.sqrt 1 = 1 →
      M1.quad (edgeTangentAt env mesh (mesh.point np1) isedg (chord mesh np1 np0)) < 0 →
      lenedg_ani env prim mesh m np0 np1 isedg =
        1 / 2 * env.sqrt (guardedForm (M0.quad
          (edgeTangentAt env mesh (mesh.point np0) isedg (chord mesh np0 np1)))) + 1 / 2) ∧
    ((∀ x, 0 ≤ env.sqrt x) →
      0 ≤ lenedg_ani env prim mesh m np0 np1 isedg ∧
      lenedg_ani env prim mesh m np0 np1 isedg ≠ -1) := by
  have e : lenedg_ani env prim mesh m np0 np1 isedg =
      1 / 2 * env.sqrt (guardedForm (M0.quad
        (edgeTangentAt env mesh (mesh.point np0) isedg (chord mesh np0 np1)))) +
      1 / 2 * env.sqrt (guardedForm (M1.quad
        (edgeTangentAt env mesh (mesh.point np1) isedg (chord mesh np1 np0)))) := by
    rw [lenedg_ani_eq, h0, h1]
    simp only
    ring
  refine ⟨e, ?_, ?_, ?_, ?_, ?_⟩
  · intro q hq
    unfold guardedForm
    rw [if_pos hq]
  · intro q hq
    unfold guardedForm
    rw [if_neg (not_lt.mpr hq)]
  · intro hs hq
    rw [e]
    unfold guardedForm
    rw [if_pos hq, hs]
    ring
  · intro hs hq
    rw [e]
    unfold guardedForm
    rw [if_pos hq, hs]
    ring
  · intro hs
    have a0 := hs (guardedForm (M0.quad
      (edgeTangentAt env mesh (mesh.point np0) isedg (chord mesh np0 np1))))
    have a1 := hs (guardedForm (M1.quad
      (edgeTangentAt env mesh (mesh.point np1) isedg (chord mesh np1 np0))))
    rw [e]
    constructor
    · linarith
    · intro hneg
      linarith

theorem lenedg_ani_negative_form_witness :
    (negMet 5).quad (edgeTangentAt fanEnv (flatFan 0 noTag) ((flatFan 0 noTag).point 5) false
      (chord (flatFan 0 noTag) 5 1)) = -1 ∧
    lenedg_ani fanEnv fanPrim (flatFan 0 noTag) negMet 5 1 false = 3 / 2 ∧
    (fanEnv.sqrt 1 = 1 →
      (negMet 5).quad (edgeTangentAt fanEnv (flatFan 0 noTag) ((flatFan 0 noTag).point 5) false
        (chord (flatFan 0 noTag) 5 1)) < 0 →
      lenedg_ani fanEnv fanPrim (flatFan 0 noTag) negMet 5 1 false =
        1 / 2 + 1 / 2 * fanEnv.sqrt (guardedForm ((negMet 1).quad
          (edgeTangentAt fanEnv (flatFan 0 noTag) ((flatFan 0 noTag).point 1) false
            (chord (flatFan 0 noTag) 1 5))))) :=
  ⟨by decide!, by decide!,
    (lenedg_ani_negative_form fanEnv fanPrim (flatFan 0 noTag) negMet 5 1 false (negMet 5)
      (negMet 1) (by decide!) (by decide!)).2.2.2.1⟩

/-- C25: when the Bezier patch is built (control points `b`) and the tensors
`M0`, `M1`, `M2` of the three corners are obtained (stored entry, or ridge
reconstruction), `_MMG5_surftri_ani` returns `_MMG5_ATHIRD` times the sum over the
corners of `sqrt(|det(J_i^T M_i J_i)|)`, that is a third of it for the constant
`1/3`, `J_i` being the matrix `cornerJacobian b i` of the control-point
differences; it returns 0 when the patch or a ridge reconstruction fails; the
result is never negative (non-negative square root and constant). -/
theorem surftri_ani_quadrature (env : Env K) (prim : Prim K) (mesh : Mesh K)
    (m : Nat → Met6 K) (ptt : Tria) :
    (∀ b M0 M1 M2, env.bezierCP mesh ptt = some b →
      surftri_met env prim mesh m ptt 0 = some M0 →
      surftri_met env prim mesh m ptt 1 = some M1 →
      surftri_met env prim mesh m ptt 2 = some M2 →
      surftri_ani env prim mesh m ptt =
        prim.ATHIRD * (env.sqrt |density M0 (cornerJacobian b 0)| +
          env.sqrt |density M1 (cornerJacobian b 1)| +
          env.sqrt |density M2 (cornerJacobian b 2)|) ∧
      (prim.ATHIRD = 1 / 3 →
        surftri_ani env prim mesh m ptt =
          1 / 3 * (env.sqrt |(((cornerJacobian b 0).transpose * M0.toMatrix *
              cornerJacobian b 0).det)| +
            env.sqrt |(((cornerJacobian b 1).transpose * M1.toMatrix *
              cornerJacobian b 1).det)| +
            env.sqrt |(((cornerJacobian b 2).transpose * M2.toMatrix *
              cornerJacobian b 2).det)|))) ∧
    (∀ i, i < 3 → surftri_met env prim mesh m ptt i =
      endTensor env prim mesh m (ptt.v i)
        ⟨1 / 2 * ((mesh.point (ptt.v (env.inxt2 i))).c.x + (mesh.point (ptt.v (env.iprv2 i))).c.x) -
            (mesh.point (ptt.v i)).c.x,
          1 / 2 * ((mesh.point (ptt.v (env.inxt2 i))).c.y + (mesh.point (ptt.v (env.iprv2 i))).c.y) -
            (mesh.point (ptt.v i)).c.y,
          1 / 2 * ((mesh.point (ptt.v (env.inxt2 i))).c.z + (mesh.point (ptt.v (env.iprv2 i))).c.z) -
            (mesh.point (ptt.v i)).c.z⟩) ∧
    (env.bezierCP mesh ptt = none → surftri_ani env prim mesh m ptt = 0) ∧
    (∀ i, i < 3 → surftri_met env prim mesh m ptt i = none →
      surftri_ani env prim mesh m ptt = 0) ∧
    ((∀ x, 0 ≤ env.sqrt x) → 0 ≤ prim.ATHIRD → 0 ≤ surftri_ani env prim mesh m ptt) := by
  refine ⟨?_, ?_, (surftri_ani_fail env prim mesh m ptt).1,
    (surftri_ani_fail env prim mesh m ptt).2, surftri_ani_nonneg env prim mesh m ptt⟩
  · intro b M0 M1 M2 hb h0 h1 h2
    have e := surftri_ani_eq env prim mesh m ptt b M0 M1 M2 hb h0 h1 h2
    refine ⟨e, ?_⟩
    intro hA
    rw [e, hA]
    rfl
  · intro i _
    unfold surftri_met endTensor
    by_cases hs : env.MS_SIN (mesh.point (ptt.v i)).tag = true
    · simp [hs]
    · by_cases hg : hasBit (mesh.point (ptt.v i)).tag env.MG_GEO = true
      · simp [hs, hg]
      · simp [hs, hg]

theorem surftri_ani_quadrature_witness :
    flatEnv.bezierCP (squareMesh ℚ) ((squareMesh ℚ).tria 1) =
      some (flatPatch (squareMesh ℚ) ((squareMesh ℚ).tria 1)) ∧
    surftri_ani flatEnv fanPrim (squareMesh ℚ) gradMet ((squareMesh ℚ).tria 1) = 1 ∧
    surftri_ani flatEnv fanPrim (squareMesh ℚ) gradMet ((squareMesh ℚ).tria 1) =
      fanPrim.ATHIRD * (flatEnv.sqrt |density (gradMet 1)
          (cornerJacobian (flatPatch (squareMesh ℚ) ((squareMesh ℚ).tria 1)) 0)| +
        flatEnv.sqrt |density (gradMet 2)
          (cornerJacobian (flatPatch (squareMesh ℚ) ((squareMesh ℚ).tria 1)) 1)| +
        flatEnv.sqrt |density (gradMet 3)
          (cornerJacobian (flatPatch (squareMesh ℚ) ((squareMesh ℚ).tria 1)) 2)|) :=
  ⟨rfl, by decide!,
    ((surftri_ani_quadrature flatEnv fanPrim (squareMesh ℚ) gradMet
      ((squareMesh ℚ).tria 1)).1 _ (gradMet 1) (gradMet 2) (gradMet 3) rfl (by decide!)
      (by decide!) (by decide!)).1⟩

/-- C26: for a triangle whose three corners are not ridge vertices and carry the
identity tensor and whose Bezier patch is flat, `_MMG5_surftri_ani` returns
`3 * _MMG5_ATHIRD` times TWICE the Euclidean area `|(p1-p0) x (p2-p0)|/2`, hence
twice the area for the constant `1/3`: on the triangle `(0,0,0), (1,0,0), (1,1,0)`
of area 1/2 it returns 1. -/
theorem surftri_ani_twice_area :
    (∀ (env : Env K) (prim : Prim K) (mesh : Mesh K) (m : Nat → Met6 K) (ptt : Tria)
      (b : Nat → Vec3 K), env.bezierCP mesh ptt = some b → FlatPatch mesh ptt b →
      (∀ i, i < 3 → IdentityCorner env mesh m ptt i) →
      surftri_ani env prim mesh m ptt = 3 * prim.ATHIRD * (2 * euclidArea env mesh ptt) ∧
      (prim.ATHIRD = 1 / 3 → surftri_ani env prim mesh m ptt = 2 * euclidArea env mesh ptt)) ∧
    flatEnv.bezierCP (squareMesh ℚ) ((squareMesh ℚ).tria 1) =
      some (flatPatch (squareMesh ℚ) ((squareMesh ℚ).tria 1)) ∧
    FlatPatch (squareMesh ℚ) ((squareMesh ℚ).tria 1)
      (flatPatch (squareMesh ℚ) ((squareMesh ℚ).tria 1)) ∧
    (∀ i, i < 3 → IdentityCorner flatEnv (squareMesh ℚ) unitMet ((squareMesh ℚ).tria 1) i) ∧
    euclidArea flatEnv (squareMesh ℚ) ((squareMesh ℚ).tria 1) = 1 / 2 ∧
    surftri_ani flatEnv fanPrim (squareMesh ℚ) unitMet ((squareMesh ℚ).tria 1) = 1 ∧
    surftri_ani flatEnv fanPrim (squareMesh ℚ) unitMet ((squareMesh ℚ).tria 1) ≠
      euclidArea flatEnv (squareMesh ℚ) ((squareMesh ℚ).tria 1) := by
  refine ⟨?_, rfl, by unfold FlatPatch; decide!, ?_, by decide!, by decide!, by decide!⟩
  · intro env prim mesh m ptt b hb hf hc
    have e := surftri_flat_identity env prim mesh m ptt b hb hf hc
    refine ⟨e, ?_⟩
    intro hA
    rw [e, hA]
    ring
  · intro i hi
    unfold IdentityCorner
    interval_cases i <;> decide!

/-- C29: a call of `grad2met` on the edge `i` of the triangle `iel` either returns
-1 and leaves the metric array unchanged, or returns the local index of one
endpoint `np` of the edge and stores one entry, at `np`: the first endpoint
(index `inxt2[i]`) when the speed of the second is strictly greater, the second
endpoint (index `iprv2[i]`) otherwise; every other entry is unchanged. With
`EPS >= 0`, `hgrad >= 0` and a non-negative square root the updated endpoint is the
one whose speed is strictly smaller; with the contracts under which the
increment is positive, the entry stored at a singular or ridge endpoint differs
from the entry read. -/
theorem grad2met_one_endpoint (env : Env K) (prim : Prim K) (mesh : Mesh K)
    (m : Nat → Met6 K) (iel i : Nat) :
    ((grad2met env prim mesh m iel i).1 = -1 ∨
      (grad2met env prim mesh m iel i).1 = (env.inxt2 i : Int) ∨
      (grad2met env prim mesh m iel i).1 = (env.iprv2 i : Int)) ∧
    ((grad2met env prim mesh m iel i).1 = -1 → (grad2met env prim mesh m iel i).2 = m) ∧
    ((grad2met env prim mesh m iel i).1 ≠ -1 →
      ∃ g np r e alpha, grad2met_ends env prim mesh m iel i = some g ∧
        GradUpdated env mesh iel i g np r e alpha (grad2met env prim mesh m iel i).1 ∧
        (grad2met env prim mesh m iel i).2 =
          Function.update m np (grad2met_update env prim (mesh.point np) (m np) r e alpha) ∧
        (∀ k, k ≠ np → (grad2met env prim mesh m iel i).2 k = m k) ∧
        (0 ≤ prim.EPS → 0 ≤ mesh.info.hgrad → (∀ x, 0 ≤ env.sqrt x) →
          e.ps < (if g.e2.ps > g.e1.ps then g.e2.ps else g.e1.ps)) ∧
        (0 ≤ prim.EPS → 0 < prim.EPSD2 → (∀ x, 0 ≤ env.sqrt x) →
          (∀ x, 0 < x → 0 < env.sqrt x) → (∀ a, (prim.eigensym a).2.IsBasis) →
          env.MS_SIN (mesh.point np).tag = true ∨ hasBit (mesh.point np).tag env.MG_GEO = true →
          (grad2met env prim mesh m iel i).2 np ≠ m np)) ∧
    (∀ k, k ≠ (mesh.tria iel).v (env.inxt2 i) → k ≠ (mesh.tria iel).v (env.iprv2 i) →
      (grad2met env prim mesh m iel i).2 k = m k) := by
  refine ⟨?_, fun h => ?_, fun hu => ?_, fun k h1 h2 => ?_⟩
  · rcases grad2met_frame env prim mesh m iel i with h | h | h
    · exact Or.inl h.1
    · exact Or.inr (Or.inl h.1)
    · exact Or.inr (Or.inr h.1)
  · rw [grad2met_minus_one env prim mesh m iel i h]
  · obtain ⟨g, np, r, e, alpha, hg, hup, hlt, hres⟩ := grad2met_updated env prim mesh m iel i hu
    refine ⟨g, np, r, e, alpha, hg, hup, hres, fun k hk => ?_, fun hE hh hs0 => ?_,
      fun hE hD hs0 hs hvp ht => ?_⟩
    · rw [hres, Function.update_noteq hk]
    · exact GradUpdated_smaller env prim mesh m iel i g np r e alpha _ hg hup hlt hE hh hs0
    · obtain ⟨m1, c, hend⟩ := GradUpdated_end env prim mesh m iel i g np r e alpha _ hg hup
      have hc := gradComp_idx_ne prim e (grad2met_comp_ne _ _ _ (hvp e.mtan)
        (grad2met_end_tnz env prim r m1 c e hD hs hend))
      have hb := gradBeta_pos prim e alpha (grad2met_end_ps_nonneg env prim r m1 c e hs0 hend)
        hE hlt hc
      rw [hres, Function.update_same]
      exact grad2met_update_ne env prim _ _ r e alpha hb ht
  · rcases grad2met_frame env prim mesh m iel i with h | h | h
    · rw [h.2]
    · exact h.2 k h1
    · exact h.2 k h2

/-- Witness of C29: on the flat fan with speed 10 at the centre 5 and speed 1
elsewhere, `grad2met` on the edge 2 of the triangle 1 (from vertex 5 to vertex 1)
returns 1, the local index of vertex 1, stores `(25,0,0,1,0,0)` there and leaves
the entries of the vertices 5, 2, 3 and 4 unchanged. -/
theorem grad2met_one_endpoint_witness :
    (grad2met fanEnv fanPrim (flatFan 0 noTag) gradMet 1 2).1 = 1 ∧
    fanEnv.inxt2 2 = 0 ∧ fanEnv.iprv2 2 = 1 ∧
    ((flatFan 0 noTag).tria 1).v 0 = 5 ∧ ((flatFan 0 noTag).tria 1).v 1 = 1 ∧
    (grad2met fanEnv fanPrim (flatFan 0 noTag) gradMet 1 2).2 1 = ⟨25, 0, 0, 1, 0, 0⟩ ∧
    (∀ k, k ≠ ((flatFan 0 noTag).tria 1).v (fanEnv.inxt2 2) →
      k ≠ ((flatFan 0 noTag).tria 1).v (fanEnv.iprv2 2) →
      (grad2met fanEnv fanPrim (flatFan 0 noTag) gradMet 1 2).2 k = gradMet k) :=
  ⟨by decide!, by decide, by decide, by decide, by decide, by decide!,
    (grad2met_one_endpoint fanEnv fanPrim (flatFan 0 noTag) gradMet 1 2).2.2.2⟩

/-- C30: when `gradsiz_ani` stops because its last sweep updated no vertex
(`nu = 0`), `grad2met` called on any edge of any active triangle with the final
mesh and metric array returns -1 and leaves the array unchanged, the edges that
the last sweep skipped included; hence one more sweep would change neither the
flags nor the array. The primitives called with the mesh do not read the vertex
flags, `_MMG5_buildridmet` reads the array at its vertex only and the endpoints of
the edges are vertices `1..np`. -/
theorem gradsiz_pruning_sound (env : Env K) (prim : Prim K) (mesh : Mesh K)
    (m : Nat → Met6 K) (hff : FlagFree env prim) (hloc : RidLocal prim)
    (hwf : EdgesInMesh env mesh) (h0 : (gradsiz_run env prim mesh m).nu = 0) :
    (∀ k i, ActiveEdge mesh k i →
      grad2met env prim (gradsiz_run env prim mesh m).mesh (gradsiz_run env prim mesh m).m k i =
        (-1, (gradsiz_run env prim mesh m).m) ∧
      gradsiz_edge env prim k (gradsiz_run env prim mesh m) i = gradsiz_run env prim mesh m) ∧
    (gradsiz_sweep env prim (gradsiz_run env prim mesh m)).mesh =
      (gradsiz_run env prim mesh m).mesh ∧
    (gradsiz_sweep env prim (gradsiz_run env prim mesh m)).m = (gradsiz_run env prim mesh m).m ∧
    (gradsiz_sweep env prim (gradsiz_run env prim mesh m)).nu = 0 := by
  have hq := gradsiz_run_quiet env prim mesh m hff hloc hwf h0
  have hg := gradsiz_run_geom env prim mesh m
  have hq1 : ∀ k i, ActiveEdge (gradsiz_run env prim mesh m).mesh k i →
      EdgeQuiet env prim (gradsiz_run env prim mesh m).mesh (gradsiz_run env prim mesh m).m
        k i := by
    intro k i ha
    apply hq
    obtain ⟨a1, a2, a3, a4⟩ := ha
    refine ⟨a1, ?_, ?_, a4⟩
    · rw [hg.2.1]
      exact a2
    · rw [hg.2.2.2.2.1]
      exact a3
  have hsw := gradsiz_sweep_quiet env prim (gradsiz_run env prim mesh m) hq1
  refine ⟨fun k i ha => ⟨grad2met_minus_one env prim _ _ k i (hq k i ha),
    gradsiz_edge_quiet env prim k _ i (hq k i ha)⟩, ?_, ?_, ?_⟩
  · rw [hsw]
  · rw [hsw]
  · rw [hsw]

/-- Witness of C30: on the flat fan with speed 1 at vertex 2 and 6/5 elsewhere,
`gradsiz_ani` stops after two sweeps, the second one without update; the
vertices 3 and 4 were never updated (flag 0), so the second sweep, of generation
2, skipped the edge 0 of the triangle 3 that joins them, and `grad2met` returns -1
on it. -/
theorem gradsiz_pruning_sound_witness :
    (gradsiz_run fanEnv fanPrim (flatFan 0 noTag) dentMet).nu = 0 ∧
    (gradsiz_run fanEnv fanPrim (flatFan 0 noTag) dentMet).it = 2 ∧
    (gradsiz_run fanEnv fanPrim (flatFan 0 noTag) dentMet).base = 2 ∧
    ((flatFan 0 noTag).tria 3).v (fanEnv.inxt2 0) = 3 ∧
    ((flatFan 0 noTag).tria 3).v (fanEnv.iprv2 0) = 4 ∧
    ((gradsiz_run fanEnv fanPrim (flatFan 0 noTag) dentMet).mesh.point 3).flag = 0 ∧
    ((gradsiz_run fanEnv fanPrim (flatFan 0 noTag) dentMet).mesh.point 4).flag = 0 ∧
    ActiveEdge (flatFan 0 noTag) 3 0 ∧
    grad2met fanEnv fanPrim (gradsiz_run fanEnv fanPrim (flatFan 0 noTag) dentMet).mesh
        (gradsiz_run fanEnv fanPrim (flatFan 0 noTag) dentMet).m 3 0 =
      (-1, (gradsiz_run fanEnv fanPrim (flatFan 0 noTag) dentMet).m) :=
  ⟨by decide!, by decide!, by decide!, by decide, by decide, by decide!, by decide!,
    by unfold ActiveEdge; decide,
    ((gradsiz_pruning_sound fanEnv fanPrim (flatFan 0 noTag) dentMet fanPrim_flagFree
      fanPrim_ridLocal flatFan_edges (by decide!)).1 3 0 (by unfold ActiveEdge; decide)).1⟩

/-- Counterexample to C22: on the unit square whose triangle 1 has the region id
0 and whose triangle 2 has the region id -1, both inactive for the claim, the
triangle pass of `defsiz_ani` calls `defmetsin` on the vertex 2 of the triangle 1
(and stores its result at the corner 4), and the sweeps of `gradsiz_ani` call
`grad2met` on the three edges of the triangle 2 (and update the vertex 2, which
belongs to no other triangle). The deleted triangle 3 is not processed. -/
theorem traversals_process_nonpositive_ref :
    (refSquare.tria 1).ref = 0 ∧ Inactive (refSquare.tria 1) ∧
    defsiz_calls flatEnv fourEstimator fourEstimator junk6 junk3 refSquare (noMet ℚ) =
      [⟨1, 2, 1⟩] ∧
    (refSquare.tria 1).v 2 = 4 ∧
    storedAt (defsiz_ani flatEnv fourEstimator fourEstimator junk6 junk3 refSquare (noMet ℚ)) 4 =
      some ⟨1, 0, 0, 1, 0, 1⟩ ∧
    (refSquare.tria 2).ref = -1 ∧ Inactive (refSquare.tria 2) ∧
    gradsiz_calls fanEnv fanPrim refSquare unitMet =
      [(1, 0), (1, 1), (1, 2), (2, 0), (2, 1), (2, 2)] ∧
    (gradsiz_calls fanEnv fanPrim refSquare dentMet).count (2, 0) = 2 ∧
    (∀ k, k ≠ 2 → (refSquare.tria k).v 0 ≠ 2 ∧ (refSquare.tria k).v 1 ≠ 2 ∧
      (refSquare.tria k).v 2 ≠ 2) ∧
    (gradsiz_ani fanEnv fanPrim refSquare dentMet).2.2 2 ≠ dentMet 2 := by
  refine ⟨by decide, by unfold Inactive; decide, by decide!, by decide, by decide!, by decide,
    by unfold Inactive; decide, by decide!, by decide!, ?_, by decide!⟩
  intro k hk
  unfold refSquare mkTria
  simp only
  split_ifs <;> simp_all

/-- C22 (amended): no traversal processes a DELETED triangle. Every estimator
call recorded for the triangle pass of `defsiz_ani` is on a triangle that is not
deleted and whose region id is not negative (`ref >= 0`), and every call of
`grad2met` recorded for the sweeps of `gradsiz_ani` is on a triangle that is not
deleted, whatever its region id. The traversals with the record compute the
traversals, and the body of each triangle loop leaves the state unchanged on
the triangles it skips. -/
theorem traversals_skip_deleted (env : Env K) (prim : Prim K) (f g : Estimator K)
    (mm0 : Met6 K) (n0 : Vec3 K) (mesh : Mesh K) (met : Sol K) (m : Nat → Met6 K) :
    (∀ c ∈ defsiz_calls env f g mm0 n0 mesh met,
      MG_EOK (mesh.tria c.k) = true ∧ 0 ≤ (mesh.tria c.k).ref) ∧
    (∀ c ∈ gradsiz_calls env prim mesh m, MG_EOK (mesh.tria c.1) = true) ∧
    (∀ ismet s, (defsiz_pass1_traced env f g n0 ismet s).2 = defsiz_pass1 env f g n0 ismet s) ∧
    (∀ s, (gradsiz_loop_traced env prim 100 100 ([], s)).2 = gradsiz_loop env prim 100 100 s) ∧
    (∀ ismet s k, MG_EOK (s.mesh.tria k) = false ∨ (s.mesh.tria k).ref < 0 →
      defsiz_tria env f g n0 ismet s k = .ok s) ∧
    (∀ s k, MG_EOK (s.mesh.tria k) = false → gradsiz_tria env prim s k = s) := by
  refine ⟨fun c hc => ?_, fun c hc => ?_, fun ismet s => defsiz_pass1_traced_snd env f g n0 ismet s,
    fun s => gradsiz_loop_traced_snd env prim 100 100 ([], s), fun ismet s k hk => ?_,
    fun s k hk => ?_⟩
  · have := defsiz_calls_inv env f g mm0 n0 mesh met c hc
    exact ⟨this.2.2.2.1, this.2.2.2.2.1⟩
  · exact (gradsiz_calls_inv env prim mesh m c hc).2.2.2
  · unfold defsiz_tria
    have : (!MG_EOK (s.mesh.tria k) || decide ((s.mesh.tria k).ref < 0)) = true := by
      rcases hk with hk | hk
      · simp [hk]
      · simp [hk]
    simp only [this, if_true]
  · unfold gradsiz_tria
    rw [if_pos hk]

/-- Witness of C22 (amended): on the unit square with the deleted triangle 3, no
call is recorded on the triangle 3 by either traversal. -/
theorem traversals_skip_deleted_witness :
    MG_EOK (refSquare.tria 3) = false ∧ refSquare.nt = 3 ∧
    (∀ c ∈ defsiz_calls flatEnv fourEstimator fourEstimator junk6 junk3 refSquare (noMet ℚ),
      c.k ≠ 3) ∧
    (∀ c ∈ gradsiz_calls fanEnv fanPrim refSquare dentMet, c.1 ≠ 3) := by
  have h := traversals_skip_deleted fanEnv fanPrim fourEstimator fourEstimator junk6 junk3
    refSquare (noMet ℚ) dentMet
  have h2 := traversals_skip_deleted flatEnv fanPrim fourEstimator fourEstimator junk6 junk3
    refSquare (noMet ℚ) dentMet
  refine ⟨by decide, rfl, fun c hc e => ?_, fun c hc e => ?_⟩
  · have := (h2.1 c hc).1
    rw [e] at this
    exact absurd this (by decide)
  · have := h.2.1 c hc
    rw [e] at this
    exact absurd this (by decide)

/-- C28: line 1102 replaces a negative `hmax` by `0.5 * delta` and leaves a
non-negative `hmax` unchanged; it stands before the first pass, so every
estimator call recorded for `defsiz_ani` sees the defaulted value, the first
pass is entered with it, the second pass computes `isqhmax` from it and the mesh
returned with the code 1 holds it. A run that returns 0 has returned at the
allocation, before line 1102: the mesh is unchanged and no estimator was
called. -/
theorem defsiz_ani_hmax_default (env : Env K) (f g : Estimator K) (mm0 : Met6 K)
    (n0 : Vec3 K) (mesh : Mesh K) (met : Sol K) :
    (defsiz_hmax mesh).info.hmax =
      (if mesh.info.hmax < 0 then 1 / 2 * mesh.info.delta else mesh.info.hmax) ∧
    (0 ≤ mesh.info.hmax → defsiz_hmax mesh = mesh) ∧
    (∀ c ∈ defsiz_calls env f g mm0 n0 mesh met, c.hmax = (defsiz_hmax mesh).info.hmax) ∧
    (∀ mesh2 met2, defsiz_ani env f g mm0 n0 mesh met = .ok (1, mesh2, met2) →
      mesh2.info.hmax = (defsiz_hmax mesh).info.hmax ∧
      ∃ m0 s1, defsiz_pass1 env f g n0 met.m.isSome ⟨defsiz_reset (defsiz_hmax mesh), m0, mm0⟩ =
          .ok s1 ∧
        s1.mesh.info.hmax = (defsiz_hmax mesh).info.hmax ∧
        defsiz_pass2 env met.m.isSome s1 = (List.range' 1 s1.mesh.np).foldl
          (defsiz_fill env met.m.isSome (isq (defsiz_hmax mesh).info.hmax)) s1 ∧
        mesh2 = (defsiz_pass2 env met.m.isSome s1).mesh) ∧
    (∀ mesh2 met2, defsiz_ani env f g mm0 n0 mesh met = .ok (0, mesh2, met2) →
      mesh2 = mesh ∧ defsiz_calls env f g mm0 n0 mesh met = []) := by
  refine ⟨?_, defsiz_hmax_of_nonneg mesh, fun c hc => ?_, fun mesh2 met2 h => ?_,
    fun mesh2 met2 h => defsiz_ani_zero env f g mm0 n0 mesh met mesh2 met2 h⟩
  · unfold defsiz_hmax
    split_ifs <;> rfl
  · exact (defsiz_calls_inv env f g mm0 n0 mesh met c hc).2.2.2.2.2
  · obtain ⟨m0, s1, h1, h2⟩ := defsiz_ani_one env f g mm0 n0 mesh met mesh2 met2 h
    have hinv := (defsiz_pass1_inv env f g n0 met.m.isSome _ s1 h1).1
    have hr := (defsiz_reset_spec (defsiz_hmax mesh)).1
    have e1 : s1.mesh.info = (defsiz_hmax mesh).info := by
      rw [← hinv.2.2.2.1]
      exact hr.2.2.2.1.symm
    have hp := defsiz_pass2_geom env met.m.isSome s1
    refine ⟨?_, m0, s1, h1, by rw [e1], ?_, h2⟩
    · rw [h2, ← hp.2.2.2.2.1, e1]
    · rw [hp.1, e1]

/-- Witness of C28: with `hmax = -1` and `delta = 4` the builder sets `hmax = 2`,
the call of `defmetsin` at the corner 4 sees `hmax = 2` and the regular vertex 1
receives `isqhmax = 1/4`. -/
theorem defsiz_ani_hmax_default_witness :
    unsetMesh.info.hmax = -1 ∧ (defsiz_hmax unsetMesh).info.hmax = 2 ∧
    defsiz_calls curvedEnv fourEstimator fourEstimator junk6 junk3 unsetMesh (noMet ℚ) =
      [⟨2, 2, 2⟩] ∧
    storedAt (defsiz_ani curvedEnv fourEstimator fourEstimator junk6 junk3 unsetMesh (noMet ℚ)) 1 =
      some ⟨1 / 4, 0, 0, 1 / 4, 0, 1 / 4⟩ ∧
    (defsiz_hmax unsetMesh).info.hmax =
      (if unsetMesh.info.hmax < 0 then 1 / 2 * unsetMesh.info.delta else unsetMesh.info.hmax) :=
  ⟨by decide!, by decide!, by decide!, by decide!,
    (defsiz_ani_hmax_default curvedEnv fourEstimator fourEstimator junk6 junk3 unsetMesh
      (noMet ℚ)).1⟩

/-- C35: in `defmetreg` and in `defmetref`, which run the same fitting loop
`defmetreg_fit` in their frame `r`, `tAA` and `tAb` are the matrix `tA A` and the
right-hand side `tA z` of the normal equations of the least-squares fit of a
quadric `a x^2 + b y^2 + c x y` to the `4 * ilist` sample points of the loop. When
`_MMG5_sys33sym` returns the solution `c` of `tAA c = tAb`, the quadric of
coefficients `c` minimises the sum of the `(z_i - q(x_i,y_i))^2`, it is the only
minimiser when the determinant of `tAA` is not 0, and the form
`(2 c[0], c[2], 2 c[1])` handed to `_MMG5_eigensym` is its Hessian: the second-order
term of its expansion at any point, the origin included, is half this form. -/
theorem defmetreg_fit_least_squares (env : Env K) (prim : Prim K) (mesh : Mesh K) (idp : Nat)
    (r : Mat3 K) (list : Nat → Nat) (bfail : Nat → Nat → Vec3 K) (ilist : Nat) (c : Vec3 K)
    (hsys : Sys33Spec prim)
    (hsol : prim.sys33sym (defmetreg_fit env prim mesh idp r list bfail ilist).1
      (defmetreg_fit env prim mesh idp r list bfail ilist).2 = some c) :
    (defmetreg_points env prim mesh idp r list bfail ilist).length = 4 * ilist ∧
    (defmetreg_fit env prim mesh idp r list bfail ilist).1.toMatrix =
      normalMatrix (defmetreg_points env prim mesh idp r list bfail ilist) ∧
    ![(defmetreg_fit env prim mesh idp r list bfail ilist).2.x,
      (defmetreg_fit env prim mesh idp r list bfail ilist).2.y,
      (defmetreg_fit env prim mesh idp r list bfail ilist).2.z] =
      normalRhs (defmetreg_points env prim mesh idp r list bfail ilist) ∧
    (∀ c' : Vec3 K, fitError (defmetreg_points env prim mesh idp r list bfail ilist) c ≤
      fitError (defmetreg_points env prim mesh idp r list bfail ilist) c') ∧
    ((defmetreg_fit env prim mesh idp r list bfail ilist).1.det ≠ 0 →
      ∀ c' : Vec3 K, fitError (defmetreg_points env prim mesh idp r list bfail ilist) c' ≤
        fitError (defmetreg_points env prim mesh idp r list bfail ilist) c → c' = c) ∧
    (∀ info : Info K, defmetreg_intm prim info c =
      grad2met_compose (prim.eigensym ⟨2 * c.x, c.z, 2 * c.y⟩).2
        (truncSize info (prim.eigensym ⟨2 * c.x, c.z, 2 * c.y⟩).1.1)
        (truncSize info (prim.eigensym ⟨2 * c.x, c.z, 2 * c.y⟩).1.2)) ∧
    (∀ x y h k : K, quadric c (x + h) (y + k) =
      quadric c x y + ((2 * c.x * x + c.z * y) * h + (c.z * x + 2 * c.y * y) * k) +
        1 / 2 * quad2 ⟨2 * c.x, c.z, 2 * c.y⟩ h k) ∧
    (∀ h k : K, quadric c h k = 1 / 2 * quad2 ⟨2 * c.x, c.z, 2 * c.y⟩ h k) := by
  have hc := hsys _ _ _ hsol
  obtain ⟨h1, h2, h3, h4⟩ := normal_equations
    (defmetreg_points env prim mesh idp r list bfail ilist)
    (defmetreg_fit env prim mesh idp r list bfail ilist) c
    (defmetreg_fit_eq env prim mesh idp r list bfail ilist) hc
  refine ⟨defmetreg_points_length env prim mesh idp r list bfail ilist, h1, h2, h3, h4,
    fun info => ?_, fun x y h k => ?_, fun h k => ?_⟩
  · rw [defmetreg_intm_eq]
    rfl
  · unfold quadric quad2
    ring
  · unfold quadric quad2
    ring

/-- Witness of C35: on the bowl around the regular vertex 5 (four triangles,
sixteen sample points) the solver returns `c = (2528091/18613130,
4498893/18613130, 0)`, the determinant of `tAA` is not 0, and this `c` is the
only minimiser of the sum of the squares. -/
theorem defmetreg_fit_least_squares_witness :
    fanPrim.sys33sym (defmetreg_fit fanEnv fanPrim (bowlFan (1 / 1000)) 5 idMat3
        (fanEnv.boulet (bowlFan (1 / 1000)) 1 0).2 noB 4).1
      (defmetreg_fit fanEnv fanPrim (bowlFan (1 / 1000)) 5 idMat3
        (fanEnv.boulet (bowlFan (1 / 1000)) 1 0).2 noB 4).2 =
      some ⟨2528091 / 18613130, 4498893 / 18613130, 0⟩ ∧
    (defmetreg_points fanEnv fanPrim (bowlFan (1 / 1000)) 5 idMat3
      (fanEnv.boulet (bowlFan (1 / 1000)) 1 0).2 noB 4).length = 16 ∧
    (defmetreg_fit fanEnv fanPrim (bowlFan (1 / 1000)) 5 idMat3
      (fanEnv.boulet (bowlFan (1 / 1000)) 1 0).2 noB 4).1.det ≠ 0 ∧
    (∀ c' : Vec3 ℚ, fitError (defmetreg_points fanEnv fanPrim (bowlFan (1 / 1000)) 5 idMat3
        (fanEnv.boulet (bowlFan (1 / 1000)) 1 0).2 noB 4)
        ⟨2528091 / 18613130, 4498893 / 18613130, 0⟩ ≤
      fitError (defmetreg_points fanEnv fanPrim (bowlFan (1 / 1000)) 5 idMat3
        (fanEnv.boulet (bowlFan (1 / 1000)) 1 0).2 noB 4) c') ∧
    (∀ c' : Vec3 ℚ, fitError (defmetreg_points fanEnv fanPrim (bowlFan (1 / 1000)) 5 idMat3
        (fanEnv.boulet (bowlFan (1 / 1000)) 1 0).2 noB 4) c' ≤
      fitError (defmetreg_points fanEnv fanPrim (bowlFan (1 / 1000)) 5 idMat3
        (fanEnv.boulet (bowlFan (1 / 1000)) 1 0).2 noB 4)
        ⟨2528091 / 18613130, 4498893 / 18613130, 0⟩ →
      c' = ⟨2528091 / 18613130, 4498893 / 18613130, 0⟩) :=
  ⟨by decide!, by decide!, bowl_det,
    (defmetreg_fit_least_squares fanEnv fanPrim (bowlFan (1 / 1000)) 5 idMat3
      (fanEnv.boulet (bowlFan (1 / 1000)) 1 0).2 noB 4 _ sys33symQ_spec (by decide!)).2.2.2.1,
    (defmetreg_fit_least_squares fanEnv fanPrim (bowlFan (1 / 1000)) 5 idMat3
      (fanEnv.boulet (bowlFan (1 / 1000)) 1 0).2 noB 4 _ sys33symQ_spec
      (by decide!)).2.2.2.2.1 bowl_det⟩

/-- C37: the assertion `bcu[1] <= 1.0` of `defmetrid` never fails. Whenever the
search returns a triangle `k < ilist`, it was found with `detg > 0` and `detd > 0`,
so `bcu[1] = detd/(detg + detd)` and `bcu[2] = 1 - bcu[1]` lie strictly between 0
and 1; hence neither an iteration of the second loop nor `defmetrid` stops on the
assertion. On the roof, the first sheet finds the triangle `k = 1` of its
half-ball with `detg = detd = 1` and `bcu[1] = 1/2`. -/
theorem defmetrid_assert_holds :
    (∀ (lispoi : Nat → Vec3 K) (trot0 trot1 : K) (ilist : Nat),
      (defmetrid_locate lispoi trot0 trot1 ilist).1 ≠ ilist →
      0 < defmetrid_detg lispoi (defmetrid_locate lispoi trot0 trot1 ilist).2.1
        (defmetrid_locate lispoi trot0 trot1 ilist).2.2
        (defmetrid_locate lispoi trot0 trot1 ilist).1 ∧
      0 < defmetrid_detd lispoi (defmetrid_locate lispoi trot0 trot1 ilist).2.1
        (defmetrid_locate lispoi trot0 trot1 ilist).2.2
        (defmetrid_locate lispoi trot0 trot1 ilist).1 ∧
      0 < defmetrid_detd lispoi (defmetrid_locate lispoi trot0 trot1 ilist).2.1
          (defmetrid_locate lispoi trot0 trot1 ilist).2.2
          (defmetrid_locate lispoi trot0 trot1 ilist).1 *
        (1 / (defmetrid_detg lispoi (defmetrid_locate lispoi trot0 trot1 ilist).2.1
          (defmetrid_locate lispoi trot0 trot1 ilist).2.2
          (defmetrid_locate lispoi trot0 trot1 ilist).1 +
        defmetrid_detd lispoi (defmetrid_locate lispoi trot0 trot1 ilist).2.1
          (defmetrid_locate lispoi trot0 trot1 ilist).2.2
          (defmetrid_locate lispoi trot0 trot1 ilist).1)) ∧
      defmetrid_detd lispoi (defmetrid_locate lispoi trot0 trot1 ilist).2.1
          (defmetrid_locate lispoi trot0 trot1 ilist).2.2
          (defmetrid_locate lispoi trot0 trot1 ilist).1 *
        (1 / (defmetrid_detg lispoi (defmetrid_locate lispoi trot0 trot1 ilist).2.1
          (defmetrid_locate lispoi trot0 trot1 ilist).2.2
          (defmetrid_locate lispoi trot0 trot1 ilist).1 +
        defmetrid_detd lispoi (defmetrid_locate lispoi trot0 trot1 ilist).2.1
          (defmetrid_locate lispoi trot0 trot1 ilist).2.2
          (defmetrid_locate lispoi trot0 trot1 ilist).1)) < 1 ∧
      0 < 1 - defmetrid_detd lispoi (defmetrid_locate lispoi trot0 trot1 ilist).2.1
          (defmetrid_locate lispoi trot0 trot1 ilist).2.2
          (defmetrid_locate lispoi trot0 trot1 ilist).1 *
        (1 / (defmetrid_detg lispoi (defmetrid_locate lispoi trot0 trot1 ilist).2.1
          (defmetrid_locate lispoi trot0 trot1 ilist).2.2
          (defmetrid_locate lispoi trot0 trot1 ilist).1 +
        defmetrid_detd lispoi (defmetrid_locate lispoi trot0 trot1 ilist).2.1
          (defmetrid_locate lispoi trot0 trot1 ilist).2.2
          (defmetrid_locate lispoi trot0 trot1 ilist).1)) ∧
      1 - defmetrid_detd lispoi (defmetrid_locate lispoi trot0 trot1 ilist).2.1
          (defmetrid_locate lispoi trot0 trot1 ilist).2.2
          (defmetrid_locate lispoi trot0 trot1 ilist).1 *
        (1 / (defmetrid_detg lispoi (defmetrid_locate lispoi trot0 trot1 ilist).2.1
          (defmetrid_locate lispoi trot0 trot1 ilist).2.2
          (defmetrid_locate lispoi trot0 trot1 ilist).1 +
        defmetrid_detd lispoi (defmetrid_locate lispoi trot0 trot1 ilist).2.1
          (defmetrid_locate lispoi trot0 trot1 ilist).2.2
          (defmetrid_locate lispoi trot0 trot1 ilist).1)) < 1) ∧
    (∀ (env : Env K) (mesh : Mesh K) (idp : Nat) (n : Vec3 K) (ilist : Nat) (list : Nat → Nat)
      (i : Nat) (st : Tria × Met6 K),
      defmetrid_sheet env mesh idp n ilist list i st ≠ .error Fatal.assertFailure) ∧
    (∀ (env : Env K) (n0 : Vec3 K) (mesh : Mesh K) (m : Nat → Met6 K) (it ip : Nat),
      defmetrid env n0 mesh m it ip ≠ .error Fatal.assertFailure) ∧
    (defmetrid_locate
      (defmetrid_rot roofEnv (roofMesh (1 / 10)) 1 (roofEnv.rotmatrix ⟨0, 3 / 5, 4 / 5⟩) 2
        (roofEnv.bouletrid (roofMesh (1 / 10)) 1 0).list1 ((roofMesh (1 / 10)).tria 1)).2
      1 0 2 = (1, 0, 1) ∧
    defmetrid_detg
      (defmetrid_rot roofEnv (roofMesh (1 / 10)) 1 (roofEnv.rotmatrix ⟨0, 3 / 5, 4 / 5⟩) 2
        (roofEnv.bouletrid (roofMesh (1 / 10)) 1 0).list1 ((roofMesh (1 / 10)).tria 1)).2
      0 1 1 = 1 ∧
    defmetrid_detd
      (defmetrid_rot roofEnv (roofMesh (1 / 10)) 1 (roofEnv.rotmatrix ⟨0, 3 / 5, 4 / 5⟩) 2
        (roofEnv.bouletrid (roofMesh (1 / 10)) 1 0).list1 ((roofMesh (1 / 10)).tria 1)).2
      0 1 1 = 1) := by
  refine ⟨fun lispoi trot0 trot1 ilist hk => ?_, fun env mesh idp n ilist list i st => ?_,
    fun env n0 mesh m it ip => ?_, by decide!, by decide!, by decide!⟩
  · rcases defmetrid_locate_spec lispoi trot0 trot1 ilist with h | ⟨_, hg, hd⟩
    · exact absurd h hk
    · have hpos := add_pos hg hd
      have hb : defmetrid_detd lispoi (defmetrid_locate lispoi trot0 trot1 ilist).2.1
            (defmetrid_locate lispoi trot0 trot1 ilist).2.2
            (defmetrid_locate lispoi trot0 trot1 ilist).1 *
          (1 / (defmetrid_detg lispoi (defmetrid_locate lispoi trot0 trot1 ilist).2.1
            (defmetrid_locate lispoi trot0 trot1 ilist).2.2
            (defmetrid_locate lispoi trot0 trot1 ilist).1 +
          defmetrid_detd lispoi (defmetrid_locate lispoi trot0 trot1 ilist).2.1
            (defmetrid_locate lispoi trot0 trot1 ilist).2.2
            (defmetrid_locate lispoi trot0 trot1 ilist).1)) < 1 := by
        rw [mul_one_div, div_lt_one hpos]
        linarith
      have hb0 : 0 < defmetrid_detd lispoi (defmetrid_locate lispoi trot0 trot1 ilist).2.1
            (defmetrid_locate lispoi trot0 trot1 ilist).2.2
            (defmetrid_locate lispoi trot0 trot1 ilist).1 *
          (1 / (defmetrid_detg lispoi (defmetrid_locate lispoi trot0 trot1 ilist).2.1
            (defmetrid_locate lispoi trot0 trot1 ilist).2.2
            (defmetrid_locate lispoi trot0 trot1 ilist).1 +
          defmetrid_detd lispoi (defmetrid_locate lispoi trot0 trot1 ilist).2.1
            (defmetrid_locate lispoi trot0 trot1 ilist).2.2
            (defmetrid_locate lispoi trot0 trot1 ilist).1)) :=
        mul_pos hd (one_div_pos.mpr hpos)
      exact ⟨hg, hd, hb0, hb, by linarith, by linarith⟩
  · obtain ⟨pt1, h⟩ := defmetrid_sheet_eq env mesh idp n ilist list i st
    rw [h]
    exact fun hh => Except.noConfusion hh
  · by_cases hb : (env.bouletrid mesh it ip).ier = 0
    · rw [defmetrid_exit env n0 mesh m it ip hb]
      intro hh
      injection hh with hh
      exact Fatal.noConfusion hh
    · rw [defmetrid_ok env n0 mesh m it ip (mesh.tria it) (mesh.tria it) hb]
      exact fun hh => Except.noConfusion hh

/-- C38: `_MMG5_lenedg_ani` is symmetric in its endpoints, `_MMG5_lenedg_ani(a,b,isedg)
= _MMG5_lenedg_ani(b,a,isedg)`, when at each endpoint that is a ridge vertex and
not singular `_MMG5_buildridmet` gives the same result for the chord `u` and for
`-u`. -/
theorem lenedg_ani_symmetric (env : Env K) (prim : Prim K) (mesh : Mesh K)
    (m : Nat → Met6 K) (a b : Nat) (isedg : Bool)
    (ha : IsRidgeTag env (mesh.point a).tag →
      prim.buildridmet mesh m a (-(chord mesh a b).x) (-(chord mesh a b).y)
          (-(chord mesh a b).z) =
        prim.buildridmet mesh m a (chord mesh a b).x (chord mesh a b).y (chord mesh a b).z)
    (hb : IsRidgeTag env (mesh.point b).tag →
      prim.buildridmet mesh m b (-(chord mesh a b).x) (-(chord mesh a b).y)
          (-(chord mesh a b).z) =
        prim.buildridmet mesh m b (chord mesh a b).x (chord mesh a b).y (chord mesh a b).z) :
    lenedg_ani env prim mesh m a b isedg = lenedg_ani env prim mesh m b a isedg := by
  have hx : (chord mesh b a).x = -(chord mesh a b).x := by
    unfold chord Vec3.sub
    simp only
    ring
  have hy : (chord mesh b a).y = -(chord mesh a b).y := by
    unfold chord Vec3.sub
    simp only
    ring
  have hz : (chord mesh b a).z = -(chord mesh a b).z := by
    unfold chord Vec3.sub
    simp only
    ring
  have ea : endTensor env prim mesh m a (chord mesh b a) =
      endTensor env prim mesh m a (chord mesh a b) := by
    unfold endTensor
    by_cases h : env.MS_SIN (mesh.point a).tag = false ∧
        hasBit (mesh.point a).tag env.MG_GEO = true
    · rw [if_pos h, if_pos h, hx, hy, hz]
      exact ha h
    · rw [if_neg h, if_neg h]
  have eb : endTensor env prim mesh m b (chord mesh b a) =
      endTensor env prim mesh m b (chord mesh a b) := by
    unfold endTensor
    by_cases h : env.MS_SIN (mesh.point b).tag = false ∧
        hasBit (mesh.point b).tag env.MG_GEO = true
    · rw [if_pos h, if_pos h, hx, hy, hz]
      exact hb h
    · rw [if_neg h, if_neg h]
  rw [lenedg_ani_eq, lenedg_ani_eq, ea, eb]
  cases endTensor env prim mesh m a (chord mesh a b) with
  | none =>
    cases endTensor env prim mesh m b (chord mesh a b) with
    | none => rfl
    | some M1 => rfl
  | some M0 =>
    cases endTensor env prim mesh m b (chord mesh a b) with
    | none => rfl
    | some M1 =>
      simp only
      rw [add_comm]

/-- Witness of C38: on the roof with the sizes `(4, 9, 16)` at the ridge vertex 1,
the length of the edge from the ridge vertex 1 to the regular vertex 4 is 11 in
both directions (the square root of the example environment rounds 292 and 26
down to 17 and 5), and the length of the ridge edge from 1 to the corner 2 is
`(2 + 1)/2` in both directions. -/
theorem lenedg_ani_symmetric_witness :
    lenedg_ani roofEnv fanPrim (roofMesh (1 / 10)) roofMet 1 4 false =
      lenedg_ani roofEnv fanPrim (roofMesh (1 / 10)) roofMet 4 1 false ∧
    lenedg_ani roofEnv fanPrim (roofMesh (1 / 10)) roofMet 1 4 false = 11 ∧
    lenedg_ani roofEnv fanPrim (roofMesh (1 / 10)) roofMet 1 2 true = 3 / 2 ∧
    lenedg_ani roofEnv fanPrim (roofMesh (1 / 10)) roofMet 2 1 true = 3 / 2 :=
  ⟨lenedg_ani_symmetric roofEnv fanPrim (roofMesh (1 / 10)) roofMet 1 4 false
      (fun _ => rfl) (fun _ => rfl), by decide!, by decide!, by decide!⟩

/-- C39: in `_MMG5_lenedg_ani`, at an endpoint that is a ridge vertex and not
singular, for an edge that is not a ridge edge and the chord `u` from this
endpoint to the other one, the tangent is `u - (u.n) n` where `n` is the second
normal `n2` of the record if `|u.n2| < |u.n1|` and the first normal `n1` otherwise,
at the first endpoint (`gammaprim0`) as at the second (`gammaprim1`, whose chord is
the opposite of `(ux,uy,uz)`). For unit normals the tangent is orthogonal to the
normal that is chosen, its squared length is `|u|^2 - (u.n)^2`, and it is the
longer of the two candidates `u - (u.n1) n1` and `u - (u.n2) n2`. -/
theorem lenedg_ridge_tangent (env : Env K) (mesh : Mesh K) (p : Point K) (u : Vec3 K)
    (hs : env.MS_SIN p.tag = false) (hg : hasBit p.tag env.MG_GEO = true)
    (h1 : (mesh.xpoint p.ig).n1.normSq = 1) (h2 : (mesh.xpoint p.ig).n2.normSq = 1) :
    selectedNormal env mesh p u =
      (if |u.dot (mesh.xpoint p.ig).n2| < |u.dot (mesh.xpoint p.ig).n1| then
        (mesh.xpoint p.ig).n2 else (mesh.xpoint p.ig).n1) ∧
    lenedg_gamma0 env mesh p false u.x u.y u.z =
      u.sub (Vec3.smul (u.dot (selectedNormal env mesh p u)) (selectedNormal env mesh p u)) ∧
    lenedg_gamma1 env mesh p false (-u.x) (-u.y) (-u.z) =
      u.sub (Vec3.smul (u.dot (selectedNormal env mesh p u)) (selectedNormal env mesh p u)) ∧
    (u.sub (Vec3.smul (u.dot (selectedNormal env mesh p u)) (selectedNormal env mesh p u))).dot
      (selectedNormal env mesh p u) = 0 ∧
    (u.sub (Vec3.smul (u.dot (selectedNormal env mesh p u))
      (selectedNormal env mesh p u))).normSq =
      u.normSq - u.dot (selectedNormal env mesh p u) * u.dot (selectedNormal env mesh p u) ∧
    (u.sub (Vec3.smul (u.dot (selectedNormal env mesh p u))
      (selectedNormal env mesh p u))).normSq =
      max (u.sub (Vec3.smul (u.dot (mesh.xpoint p.ig).n1) (mesh.xpoint p.ig).n1)).normSq
        (u.sub (Vec3.smul (u.dot (mesh.xpoint p.ig).n2) (mesh.xpoint p.ig).n2)).normSq := by
  have hproj : ∀ n : Vec3 K, n.normSq = 1 →
      (u.sub (Vec3.smul (u.dot n) n)).dot n = 0 ∧
      (u.sub (Vec3.smul (u.dot n) n)).normSq = u.normSq - u.dot n * u.dot n := by
    intro n hn
    unfold Vec3.normSq Vec3.dot at hn
    unfold Vec3.normSq Vec3.dot Vec3.sub Vec3.smul
    simp only
    constructor
    · linear_combination -(u.x * n.x + u.y * n.y + u.z * n.z) * hn
    · linear_combination (u.x * n.x + u.y * n.y + u.z * n.z) ^ 2 * hn
  have hsel : selectedNormal env mesh p u =
      (if |u.dot (mesh.xpoint p.ig).n2| < |u.dot (mesh.xpoint p.ig).n1| then
        (mesh.xpoint p.ig).n2 else (mesh.xpoint p.ig).n1) := by
    unfold selectedNormal
    rw [if_pos hg]
  have hn : (selectedNormal env mesh p u).normSq = 1 := by
    rw [hsel]
    split_ifs
    · exact h2
    · exact h1
  have hg0 : lenedg_gamma0 env mesh p false u.x u.y u.z =
      u.sub (Vec3.smul (u.dot (selectedNormal env mesh p u)) (selectedNormal env mesh p u)) := by
    rw [lenedg_gamma0_eq]
    unfold edgeTangentAt
    simp [hs]
  have hg1 : lenedg_gamma1 env mesh p false (-u.x) (-u.y) (-u.z) =
      u.sub (Vec3.smul (u.dot (selectedNormal env mesh p u)) (selectedNormal env mesh p u)) := by
    rw [lenedg_gamma1_eq]
    have hu : (⟨- -u.x, - -u.y, - -u.z⟩ : Vec3 K) = u := by
      cases u
      simp
    rw [hu]
    unfold edgeTangentAt
    simp [hs]
  refine ⟨hsel, hg0, hg1, (hproj _ hn).1, (hproj _ hn).2, ?_⟩
  rw [(hproj _ hn).2, (hproj _ h1).2, (hproj _ h2).2, hsel]
  have sq : ∀ x : K, x * x = |x| * |x| := fun x => (abs_mul_abs_self x).symm
  by_cases hc : |u.dot (mesh.xpoint p.ig).n2| < |u.dot (mesh.xpoint p.ig).n1|
  · rw [if_pos hc, max_eq_right]
    rw [sq (u.dot (mesh.xpoint p.ig).n1), sq (u.dot (mesh.xpoint p.ig).n2)]
    nlinarith [abs_nonneg (u.dot (mesh.xpoint p.ig).n2),
      abs_nonneg (u.dot (mesh.xpoint p.ig).n1)]
  · rw [if_neg hc, max_eq_left]
    rw [sq (u.dot (mesh.xpoint p.ig).n1), sq (u.dot (mesh.xpoint p.ig).n2)]
    nlinarith [abs_nonneg (u.dot (mesh.xpoint p.ig).n2),
      abs_nonneg (u.dot (mesh.xpoint p.ig).n1), not_lt.mp hc]

/-- Witness of C39: at the ridge vertex 1 of the roof, whose unit normals are
`(0, 3/5, 4/5)` and `(0, -3/5, 4/5)`, the chord `(1, -4, -3)` to the vertex 5 has
the products `-24/5` with the first normal and 0 with the second: the second
normal is chosen, the tangent is the chord itself, of squared length 26, where
the other candidate has the squared length `74/25`. -/
theorem lenedg_ridge_tangent_witness :
    flatEnv.MS_SIN ((roofMesh (1 / 10)).point 1).tag = false ∧
    hasBit ((roofMesh (1 / 10)).point 1).tag flatEnv.MG_GEO = true ∧
    selectedNormal flatEnv (roofMesh (1 / 10)) ((roofMesh (1 / 10)).point 1) ⟨1, -4, -3⟩ =
      ⟨0, -3 / 5, 4 / 5⟩ ∧
    lenedg_gamma0 flatEnv (roofMesh (1 / 10)) ((roofMesh (1 / 10)).point 1) false 1 (-4) (-3) =
      ⟨1, -4, -3⟩ ∧
    (⟨1, -4, -3⟩ : Vec3 ℚ).normSq = 26 ∧
    ((⟨1, -4, -3⟩ : Vec3 ℚ).sub (Vec3.smul ((⟨1, -4, -3⟩ : Vec3 ℚ).dot ⟨0, 3 / 5, 4 / 5⟩)
      ⟨0, 3 / 5, 4 / 5⟩)).normSq = 74 / 25 ∧
    ((⟨1, -4, -3⟩ : Vec3 ℚ).sub (Vec3.smul ((⟨1, -4, -3⟩ : Vec3 ℚ).dot
      (selectedNormal flatEnv (roofMesh (1 / 10)) ((roofMesh (1 / 10)).point 1) ⟨1, -4, -3⟩))
      (selectedNormal flatEnv (roofMesh (1 / 10)) ((roofMesh (1 / 10)).point 1)
        ⟨1, -4, -3⟩))).normSq =
      max ((⟨1, -4, -3⟩ : Vec3 ℚ).sub (Vec3.smul ((⟨1, -4, -3⟩ : Vec3 ℚ).dot
          ((roofMesh (1 / 10)).xpoint ((roofMesh (1 / 10)).point 1).ig).n1)
          ((roofMesh (1 / 10)).xpoint ((roofMesh (1 / 10)).point 1).ig).n1)).normSq
        ((⟨1, -4, -3⟩ : Vec3 ℚ).sub (Vec3.smul ((⟨1, -4, -3⟩ : Vec3 ℚ).dot
          ((roofMesh (1 / 10)).xpoint ((roofMesh (1 / 10)).point 1).ig).n2)
          ((roofMesh (1 / 10)).xpoint ((roofMesh (1 / 10)).point 1).ig).n2)).normSq :=
  ⟨by decide, by decide, by decide!, by decide!, by decide!, by decide!,
    (lenedg_ridge_tangent flatEnv (roofMesh (1 / 10)) ((roofMesh (1 / 10)).point 1)
      ⟨1, -4, -3⟩ (by decide) (by decide) (by decide!) (by decide!)).2.2.2.2.2⟩

/-- C32: the gradation keeps the singular vertices isotropic. If a singular
vertex `k` holds `a * Identity`, a call of `grad2met` leaves its entry as it is or
adds the same amount `beta/2` to `m[0]`, `m[3]`, `m[5]` and leaves `m[1]`, `m[2]`, `m[4]`
untouched, so that the entry is `(a + beta/2) * Identity`; after `gradsiz_ani` the
entry is still a multiple of the identity; and so is, after `gradsiz_ani`, the
entry that `defmetsin` has written at a singular vertex. -/
theorem gradsiz_keeps_singular_iso (env : Env K) (prim : Prim K) (mesh : Mesh K)
    (m : Nat → Met6 K) (k : Nat) (a : K) (hs : env.MS_SIN (mesh.point k).tag = true)
    (ha : m k = Met6.iso a) :
    (∀ iel i, (grad2met env prim mesh m iel i).2 k = Met6.iso a ∨
      ∃ beta : K, (grad2met env prim mesh m iel i).2 k =
          { m k with m0 := (m k).m0 + 1 / 2 * beta, m3 := (m k).m3 + 1 / 2 * beta,
                     m5 := (m k).m5 + 1 / 2 * beta } ∧
        (grad2met env prim mesh m iel i).2 k = Met6.iso (a + 1 / 2 * beta)) ∧
    (∃ a1, (gradsiz_ani env prim mesh m).2.2 k = Met6.iso a1) ∧
    (∀ (m0 : Nat → Met6 K) (it ip : Nat) (r : Int) (m1 : Nat → Met6 K),
      defmetsin env mesh m0 it ip = .ok (r, m1) → (mesh.tria it).v ip = k →
      ∃ a1, (gradsiz_ani env prim mesh m1).2.2 k = Met6.iso a1) := by
  have run : ∀ m2 : Nat → Met6 K, (∃ c, m2 k = Met6.iso c) →
      ∃ a1, (gradsiz_run env prim mesh m2).m k = Met6.iso a1 := by
    intro m2 h2
    apply gradsiz_run_preserves env prim mesh m2 k (fun x => ∃ c, x = Met6.iso c)
    · intro me m1 hgeo hp
      rw [gradsiz_prepass_eq]
      have hn : ¬ GradRidge env me k := by
        rintro ⟨_, _, _, hf, _⟩
        rw [← (hgeo.2.2.2.2.2.2 k).2.2.1, hs] at hf
        cases hf
      rw [if_neg hn]
      exact hp
    · intro me m1 iel i hgeo ⟨c, hc⟩
      have hs1 : env.MS_SIN (me.point k).tag = true := by
        rw [← (hgeo.2.2.2.2.2.2 k).2.2.1]
        exact hs
      rcases grad2met_singular_iso env prim me m1 iel i k c hs1 hc with h | ⟨beta, _, h⟩
      · exact ⟨_, h⟩
      · exact ⟨_, h⟩
    · exact h2
  refine ⟨fun iel i => grad2met_singular_iso env prim mesh m iel i k a hs ha, run m ⟨a, ha⟩,
    fun m0 it ip r m1 hd hk => ?_⟩
  obtain ⟨_, v, hv, c, hc⟩ := defmetsin_returns env mesh m0 it ip r m1 hd
  apply run
  rw [hv, hk, Function.update_same]
  exact ⟨_, hc⟩

/-- Witness of C32: on the fan whose centre 5 is a corner holding the identity,
with `100 * Identity` elsewhere, `gradsiz_ani` leaves `51/2 * Identity` at the
centre. -/
theorem gradsiz_keeps_singular_iso_witness :
    fanEnv.MS_SIN (cornerFan.point 5).tag = true ∧ cornerMet 5 = Met6.iso 1 ∧
    (gradsiz_ani fanEnv fanPrim cornerFan cornerMet).2.2 5 = Met6.iso (51 / 2) ∧
    (grad2met fanEnv fanPrim cornerFan cornerMet 1 2).2 5 = Met6.iso 13 ∧
    ∃ a1, (gradsiz_ani fanEnv fanPrim cornerFan cornerMet).2.2 5 = Met6.iso a1 :=
  ⟨by decide, by decide!, by decide!, by decide!,
    (gradsiz_keeps_singular_iso fanEnv fanPrim cornerFan cornerMet 5 1 (by decide)
      (by decide!)).2.1⟩

/-- C33: when `grad2met` updates a singular endpoint `np` that holds
`a * Identity`, with an orthogonal frame, orthonormal vectors from
`_MMG5_eigensym`, a unit chord projection and an exact square root for the speed,
the new entry is `(a + beta/2) * Identity`, the square of the old speed is `a`, the
square of the new speed along the chord is `a + beta/2`, and
`a < a + beta/2 <= alpha^2`, with equality exactly when the two components of the
unit projection on the vectors of `_MMG5_eigensym` have the same magnitude; hence
`s_old < s' <= alpha` for an increasing square root that is exact at `alpha^2`. -/
theorem grad2met_singular_bump (env : Env K) (prim : Prim K) (mesh : Mesh K)
    (m : Nat → Met6 K) (iel i : Nat) (g : GradEdge K) (np : Nat) (r : Mat3 K) (e : GradEnd K)
    (alpha a : K) (hg : grad2met_ends env prim mesh m iel i = some g)
    (hup : GradUpdated env mesh iel i g np r e alpha (grad2met env prim mesh m iel i).1)
    (hu : (grad2met env prim mesh m iel i).1 ≠ -1)
    (hsin : env.MS_SIN (mesh.point np).tag = true) (ha : m np = Met6.iso a)
    (hE : 0 ≤ prim.EPS) (hs0 : ∀ x, 0 ≤ env.sqrt x) (hrm : RmtrSpec prim)
    (hR : r.IsOrthogonal) (hvp : (prim.eigensym e.mtan).2.IsOrthonormal)
    (hunit : e.t0 * e.t0 + e.t1 * e.t1 = 1)
    (hps : e.ps * e.ps = quad2 e.mtan e.t0 e.t1) :
    (grad2met env prim mesh m iel i).2 np = Met6.iso (a + 1 / 2 * gradBeta prim e alpha) ∧
    e.ps * e.ps = a ∧
    quad2 ⟨(prim.rmtr r ((grad2met env prim mesh m iel i).2 np)).m0,
      (prim.rmtr r ((grad2met env prim mesh m iel i).2 np)).m1,
      (prim.rmtr r ((grad2met env prim mesh m iel i).2 np)).m3⟩ e.t0 e.t1 =
      a + 1 / 2 * gradBeta prim e alpha ∧
    a < a + 1 / 2 * gradBeta prim e alpha ∧
    a + 1 / 2 * gradBeta prim e alpha ≤ alpha * alpha ∧
    (a + 1 / 2 * gradBeta prim e alpha = alpha * alpha ↔
      |gradComp prim e 0| = |gradComp prim e 1|) ∧
    ((∀ x y, 0 ≤ x → x < y → env.sqrt x < env.sqrt y) →
      e.ps < speedAlong env prim r ((grad2met env prim mesh m iel i).2 np) e.t0 e.t1) ∧
    ((∀ x y, x ≤ y → env.sqrt x ≤ env.sqrt y) → env.sqrt (alpha * alpha) = alpha →
      speedAlong env prim r ((grad2met env prim mesh m iel i).2 np) e.t0 e.t1 ≤ alpha) := by
  obtain ⟨hlt, hres⟩ := grad2met_at env prim mesh m iel i g np r e alpha hg hup hu
  obtain ⟨nt, ux, uy, uz, n, mm, c, hside, _, hend⟩ :=
    GradUpdated_side env prim mesh m iel i g np r e alpha _ hg hup
  have hmm : mm = m np := by
    unfold grad2met_side at hside
    simp only [hsin, if_true] at hside
    injection hside with hside
    injection hside with _ h2
    exact h2.symm
  obtain ⟨_, hmt, _, _, hpe⟩ := grad2met_end_some env prim r mm c e hend
  obtain ⟨i0, i1, i3⟩ := rmtr_iso prim r a hrm hR
  have hq : ∀ b : K, quad2 ⟨(prim.rmtr r (Met6.iso b)).m0, (prim.rmtr r (Met6.iso b)).m1,
      (prim.rmtr r (Met6.iso b)).m3⟩ e.t0 e.t1 = b := by
    intro b
    obtain ⟨j0, j1, j3⟩ := rmtr_iso prim r b hrm hR
    rw [j0, j1, j3]
    unfold quad2
    linear_combination b * hunit
  have hold : quad2 e.mtan e.t0 e.t1 = a := by
    rw [hmt, hmm, ha]
    exact hq a
  have hnew : (grad2met env prim mesh m iel i).2 np =
      Met6.iso (a + 1 / 2 * gradBeta prim e alpha) := by
    rw [hres, Function.update_same, ha]
    exact grad2met_update_iso env prim _ a r e alpha hsin
  have hpsa : e.ps * e.ps = a := by rw [hps, hold]
  have hps0 : 0 ≤ e.ps := grad2met_end_ps_nonneg env prim r mm c e hs0 hend
  have hcs := comp_normSq (prim.eigensym e.mtan).2 hvp e.t0 e.t1
  rw [hunit] at hcs
  -- the component of larger magnitude
  have hbig : 1 ≤ 2 * (gradComp prim e (gradIdx prim e) * gradComp prim e (gradIdx prim e)) ∧
      (2 * (gradComp prim e (gradIdx prim e) * gradComp prim e (gradIdx prim e)) = 1 ↔
        |gradComp prim e 0| = |gradComp prim e 1|) := by
    unfold gradComp gradIdx grad2met_ichg
    by_cases hc : |(grad2met_comp (prim.eigensym e.mtan).2 e.t0 e.t1).1| >
        |(grad2met_comp (prim.eigensym e.mtan).2 e.t0 e.t1).2|
    · simp only [hc, if_true, one_ne_zero, if_false]
      exact larger_square _ _ hcs (le_of_lt hc)
    · simp only [hc, if_false, one_ne_zero, if_true]
      have := larger_square _ _ (by rw [add_comm]; exact hcs) (not_lt.mp hc)
      exact ⟨this.1, this.2.trans eq_comm⟩
  have hd : 0 < alpha * alpha - a := by
    rw [← hpsa]
    nlinarith
  have hc2 : gradComp prim e (gradIdx prim e) * gradComp prim e (gradIdx prim e) ≠ 0 := by
    intro h0
    rw [h0] at hbig
    linarith [hbig.1]
  have hb : gradBeta prim e alpha *
      (gradComp prim e (gradIdx prim e) * gradComp prim e (gradIdx prim e)) =
      alpha * alpha - a := by
    rw [gradBeta_eq, hpsa]
    field_simp
  obtain ⟨hbpos, hle, hiff0⟩ := bump_bounds a (gradBeta prim e alpha) (alpha * alpha)
    (gradComp prim e (gradIdx prim e) * gradComp prim e (gradIdx prim e)) hb hd hbig.1
  have hiff : a + 1 / 2 * gradBeta prim e alpha = alpha * alpha ↔
      |gradComp prim e 0| = |gradComp prim e 1| := hiff0.trans hbig.2
  have hsp : speedAlong env prim r ((grad2met env prim mesh m iel i).2 np) e.t0 e.t1 =
      env.sqrt (a + 1 / 2 * gradBeta prim e alpha) := by
    unfold speedAlong
    rw [hnew, hq]
  refine ⟨hnew, hpsa, ?_, by linarith, hle, hiff, fun hmono => ?_, fun hmono hex => ?_⟩
  · rw [hnew]
    exact hq _
  · rw [hsp, hpe]
    have : e.mtan.x * e.t0 * e.t0 + 2 * e.mtan.y * e.t0 * e.t1 + e.mtan.z * e.t1 * e.t1 = a :=
      hold
    rw [this]
    apply hmono
    · rw [← hpsa]
      exact mul_self_nonneg _
    · linarith
  · rw [hsp]
    exact le_of_le_of_eq (hmono _ _ hle) hex

/-- Witness of C33: on the fan whose centre 5 is a corner holding the identity
(speed 1), the edge to the vertex 1 of speed 10 has `alpha = 5`; the unit
projection `(1, 0)` has the components 1 and 0 on the canonical basis, `beta = 24`
and the centre receives `13 * Identity`, with `1 < 13 <= 25` and no equality. -/
theorem grad2met_singular_bump_witness :
    grad2met_ends fanEnv fanPrim cornerFan cornerMet 1 2 = some cornerEdge ∧
    (grad2met fanEnv fanPrim cornerFan cornerMet 1 2).1 = 0 ∧
    gradBeta fanPrim cornerEdge.e1 5 = 24 ∧
    (grad2met fanEnv fanPrim cornerFan cornerMet 1 2).2 5 = Met6.iso 13 ∧
    (1 : ℚ) < 1 + 1 / 2 * gradBeta fanPrim cornerEdge.e1 5 ∧
    1 + 1 / 2 * gradBeta fanPrim cornerEdge.e1 5 ≤ (5 : ℚ) * 5 ∧
    (1 + 1 / 2 * gradBeta fanPrim cornerEdge.e1 5 = (5 : ℚ) * 5 ↔
      |gradComp fanPrim cornerEdge.e1 0| = |gradComp fanPrim cornerEdge.e1 1|) ∧
    |gradComp fanPrim cornerEdge.e1 0| ≠ |gradComp fanPrim cornerEdge.e1 1| :=
  ⟨by decide!, by decide!, by decide!, by decide!,
    (grad2met_singular_bump fanEnv fanPrim cornerFan cornerMet 1 2 cornerEdge 5 idMat3
      cornerEdge.e1 5 1 (by decide!) (by unfold GradUpdated; decide!) (by decide!)
      (by decide) (by decide!) (by decide!) sqrtQ_nonneg rmtrQ_spec idMat3_orth
      (eigensymQ_orth _) (by decide!) (by decide!)).2.2.2.1,
    (grad2met_singular_bump fanEnv fanPrim cornerFan cornerMet 1 2 cornerEdge 5 idMat3
      cornerEdge.e1 5 1 (by decide!) (by unfold GradUpdated; decide!) (by decide!)
      (by decide) (by decide!) (by decide!) sqrtQ_nonneg rmtrQ_spec idMat3_orth
      (eigensymQ_orth _) (by decide!) (by decide!)).2.2.2.2.1,
    (grad2met_singular_bump fanEnv fanPrim cornerFan cornerMet 1 2 cornerEdge 5 idMat3
      cornerEdge.e1 5 1 (by decide!) (by unfold GradUpdated; decide!) (by decide!)
      (by decide) (by decide!) (by decide!) sqrtQ_nonneg rmtrQ_spec idMat3_orth
      (eigensymQ_orth _) (by decide!) (by decide!)).2.2.2.2.2.1,
    by decide!⟩

/-- C34: when `grad2met` updates an endpoint `np` that is neither singular nor a
ridge vertex (regular or reference vertex), the stored tensor is
`tR [[mtan', 0], [0, 0]] R`, from the updated tangential block `mtan'` and the first
two rows of the frame `R` of the endpoint, which is the rotation of its normal;
nothing else of the previous entry is read, `mtan'` coming from the tangential
block of `R M tR` only. With `R` orthogonal and mapping the normal `n` to `e3`, the new
tensor has `n` in its kernel, `M n = 0`, and its tangential block in the frame is
`mtan'`. -/
theorem grad2met_regular_rewrite (env : Env K) (prim : Prim K) (mesh : Mesh K)
    (m : Nat → Met6 K) (iel i : Nat) (g : GradEdge K) (np : Nat) (r : Mat3 K) (e : GradEnd K)
    (alpha : K) (hg : grad2met_ends env prim mesh m iel i = some g)
    (hup : GradUpdated env mesh iel i g np r e alpha (grad2met env prim mesh m iel i).1)
    (hu : (grad2met env prim mesh m iel i).1 ≠ -1)
    (hsin : env.MS_SIN (mesh.point np).tag = false)
    (hgeo : hasBit (mesh.point np).tag env.MG_GEO = false) :
    (grad2met env prim mesh m iel i).2 np = defmetreg_back r (grad2met_tan prim e alpha) ∧
    ((grad2met env prim mesh m iel i).2 np).toMatrix =
      r.toMatrix.transpose *
        !![(grad2met_tan prim e alpha).x, (grad2met_tan prim e alpha).y, 0;
           (grad2met_tan prim e alpha).y, (grad2met_tan prim e alpha).z, 0;
           0, 0, 0] * r.toMatrix ∧
    r = env.rotmatrix (gradNormal env mesh np) ∧
    e.mtan = ⟨(prim.rmtr r (m np)).m0, (prim.rmtr r (m np)).m1, (prim.rmtr r (m np)).m3⟩ ∧
    (∀ mm : Met6 K, grad2met_update env prim (mesh.point np) mm r e alpha =
      (grad2met env prim mesh m iel i).2 np) ∧
    (r.IsOrthogonal → r.mulVec (gradNormal env mesh np) = ⟨0, 0, 1⟩ →
      ((grad2met env prim mesh m iel i).2 np).apply (gradNormal env mesh np) = ⟨0, 0, 0⟩ ∧
      (RmtrSpec prim →
        (prim.rmtr r ((grad2met env prim mesh m iel i).2 np)).m0 =
          (grad2met_tan prim e alpha).x ∧
        (prim.rmtr r ((grad2met env prim mesh m iel i).2 np)).m1 =
          (grad2met_tan prim e alpha).y ∧
        (prim.rmtr r ((grad2met env prim mesh m iel i).2 np)).m3 =
          (grad2met_tan prim e alpha).z)) := by
  obtain ⟨_, hres⟩ := grad2met_at env prim mesh m iel i g np r e alpha hg hup hu
  obtain ⟨nt, ux, uy, uz, n, mm, c, hside, hr, hend⟩ :=
    GradUpdated_side env prim mesh m iel i g np r e alpha _ hg hup
  rw [grad2met_side_plain env prim mesh m nt np ux uy uz hsin hgeo] at hside
  injection hside with hside
  injection hside with hn hmm
  obtain ⟨_, hmt, _, _, _⟩ := grad2met_end_some env prim r mm c e hend
  have hupd : ∀ mm1 : Met6 K, grad2met_update env prim (mesh.point np) mm1 r e alpha =
      defmetreg_back r (grad2met_tan prim e alpha) := by
    intro mm1
    unfold grad2met_update
    simp only [hsin, hgeo, if_false, Bool.false_eq_true]
  have hnew : (grad2met env prim mesh m iel i).2 np =
      defmetreg_back r (grad2met_tan prim e alpha) := by
    rw [hres, Function.update_same]
    exact hupd _
  refine ⟨hnew, ?_, ?_, ?_, fun mm1 => ?_, fun hR hmap => ⟨?_, fun hrm => ?_⟩⟩
  · rw [hnew]
    exact back_toMatrix r _
  · rw [hn]
    exact hr
  · rw [hmt, ← hmm]
  · rw [hnew]
    exact hupd mm1
  · rw [hnew]
    exact (back_kernel r _ _ hmap).1
  · rw [hnew]
    exact rmtr_back prim r _ hrm hR

/-- Witness of C34: on the flat fan with speed 10 at the centre and the identity,
of full rank, at the regular vertex 1, `grad2met` on the edge from 5 to 1 rewrites
the entry of the vertex 1 into `(25, 0, 0, 1, 0, 0)`: the normal `(0, 0, 1)`, on which
the identity had the value 1, is now in the kernel. -/
theorem grad2met_regular_rewrite_witness :
    grad2met_ends fanEnv fanPrim (flatFan 0 noTag) gradMet 1 2 = some plainEdge ∧
    (grad2met fanEnv fanPrim (flatFan 0 noTag) gradMet 1 2).1 = 1 ∧
    gradMet 1 = ⟨1, 0, 0, 1, 0, 1⟩ ∧
    (gradMet 1).apply ⟨0, 0, 1⟩ = ⟨0, 0, 1⟩ ∧
    gradNormal fanEnv (flatFan 0 noTag) 1 = ⟨0, 0, 1⟩ ∧
    grad2met_tan fanPrim plainEdge.e2 5 = ⟨25, 0, 1⟩ ∧
    (grad2met fanEnv fanPrim (flatFan 0 noTag) gradMet 1 2).2 1 = ⟨25, 0, 0, 1, 0, 0⟩ ∧
    ((grad2met fanEnv fanPrim (flatFan 0 noTag) gradMet 1 2).2 1).apply
      (gradNormal fanEnv (flatFan 0 noTag) 1) = ⟨0, 0, 0⟩ :=
  ⟨by decide!, by decide!, by decide!, by decide!, by decide!, by decide!, by decide!,
    ((grad2met_regular_rewrite fanEnv fanPrim (flatFan 0 noTag) gradMet 1 2 plainEdge 1 idMat3
      plainEdge.e2 5 (by decide!) (by unfold GradUpdated; decide!) (by decide!) (by decide)
      (by decide)).2.2.2.2.2 idMat3_orth (by decide!)).1⟩

/-- C31: the pruning of the sweeps of `gradsiz_ani` by the flags, on a mesh whose
active triangles have their vertices in `1..np`. The record `gradsiz_visits` of the
edges looked at by a run is that of the code (the traversal with the record
computes the traversal, and the visits that are not skipped are the calls of
`grad2met`). The run makes `n` sweeps, `1 <= n <= 100`, the sweep number `b` being the
value of `mesh->base`, and each sweep looks at every edge of every active triangle
in the order of the mesh. In the first sweep none is skipped: the edges passed to
`grad2met` in the sweep 1 are all the edges of the active triangles. For every
visit, the flags read at the two endpoints are the numbers of the sweeps of their
last updates (0 when never updated); the edge is skipped exactly when both flags
are `< b - 1`, which from the sweep 2 on says that no earlier visit of the sweep `b`
or `b - 1` has updated one of the two endpoints; a vertex updated by a visit of the
sweep `b` gets the flag `b`, at the step and in the record, and on return the flag
of each vertex is the number of the sweep of its last update. -/
theorem gradsiz_sweep_pruning (env : Env K) (prim : Prim K) (mesh : Mesh K)
    (m : Nat → Met6 K) (hwf : EdgesInMesh env mesh) :
    (∀ acc, (gradsiz_loop_logged env prim 100 100 acc).2 =
      gradsiz_loop env prim 100 100 acc.2) ∧
    gradsiz_calls env prim mesh m = visitsCalled (gradsiz_visits env prim mesh m) ∧
    (∃ n : Nat, 1 ≤ n ∧ n ≤ 100 ∧ (gradsiz_run env prim mesh m).base = (n : Int) ∧
      (gradsiz_visits env prim mesh m).map visitKey =
        (List.range n).flatMap
          (fun j => (activeEdges mesh).map (fun e => ((j : Int) + 1, e.1, e.2)))) ∧
    (∀ c ∈ gradsiz_visits env prim mesh m, c.b = 1 → c.ier ≠ none) ∧
    visitsCalled ((gradsiz_visits env prim mesh m).filter (fun c => decide (c.b = 1))) =
      activeEdges mesh ∧
    (∀ pre c post, gradsiz_visits env prim mesh m = pre ++ c :: post →
      1 ≤ c.b ∧
      c.f1 = lastUpdate env mesh pre ((mesh.tria c.k).v (env.inxt2 c.i)) ∧
      c.f2 = lastUpdate env mesh pre ((mesh.tria c.k).v (env.iprv2 c.i)) ∧
      (c.ier = none ↔ c.f1 < c.b - 1 ∧ c.f2 < c.b - 1) ∧
      (2 ≤ c.b → (c.ier = none ↔ ∀ d ∈ pre,
        d.updated env mesh = some ((mesh.tria c.k).v (env.inxt2 c.i)) ∨
        d.updated env mesh = some ((mesh.tria c.k).v (env.iprv2 c.i)) → d.b < c.b - 1)) ∧
      (∀ v, c.updated env mesh = some v → lastUpdate env mesh (pre ++ [c]) v = c.b)) ∧
    (∀ v, 1 ≤ v → v ≤ mesh.np →
      ((gradsiz_ani env prim mesh m).2.1.point v).flag =
        lastUpdate env mesh (gradsiz_visits env prim mesh m) v) ∧
    (∀ (k : Nat) (s : GradState K) (i v : Nat), s.mesh.tria = mesh.tria →
      ((gradsiz_edge env prim k s i).mesh.point v).flag =
        if (gradsiz_edge_visit env prim k s i).updated env mesh = some v then s.base
        else (s.mesh.point v).flag) := by
  have hinit := gradsiz_visits_init env mesh
    (gradsiz_prepass env ((List.range' 1 mesh.np).foldl (fun me k => me.setFlag k 0) mesh) m)
  have hinv := gradsiz_loop_logged_inv env prim mesh hwf 100 _ (le_refl (0 : Int)) hinit
  obtain ⟨n, hn1, hn2, hkeys, hbase⟩ := gradsiz_loop_logged_keys env prim mesh 100 _ hinit.1
  have hsnd := gradsiz_loop_logged_snd env prim 100
    ([], ⟨(List.range' 1 mesh.np).foldl (fun me k => me.setFlag k 0) mesh,
      gradsiz_prepass env ((List.range' 1 mesh.np).foldl (fun me k => me.setFlag k 0) mesh) m,
      0, 0, 0, 0⟩)
  obtain ⟨_, _, hfl, _, hlog⟩ := hinv
  have hk : (gradsiz_visits env prim mesh m).map visitKey =
      (List.range n).flatMap
        (fun j => (activeEdges mesh).map (fun e => ((j : Int) + 1, e.1, e.2))) := by
    unfold gradsiz_visits
    simp only
    rw [hkeys]
    simp
  have hfirst : ∀ c ∈ gradsiz_visits env prim mesh m, c.b = 1 → c.ier ≠ none := by
    intro c hc hb hnone
    obtain ⟨pre, post, hsplit⟩ := List.append_of_mem hc
    obtain ⟨_, _, _, h0, _, _, _, hskip, _⟩ := hlog pre c post hsplit
    have := (hskip.mp hnone).1
    omega
  refine ⟨fun acc => gradsiz_loop_logged_snd env prim 100 acc, ?_, ⟨n, hn1 (by decide), hn2, ?_, hk⟩,
    hfirst, ?_, fun pre c post hsplit => ?_, fun v hv1 hv2 => ?_,
    fun k s i v ht => gradsiz_edge_flag env prim mesh k s i ht v⟩
  · exact (gradsiz_loop_logged_calls env prim 100 100 _ _ ⟨rfl, rfl⟩).1
  · unfold gradsiz_run
    simp only
    rw [← hsnd, hbase]
    simp
  · rw [visitsCalled_of_made _ (fun c hc => by
      rw [List.mem_filter] at hc
      exact hfirst c hc.1 (by simpa using hc.2))]
    exact first_sweep_keys _ _ n (hn1 (by decide)) hk
  · obtain ⟨_, h1, _, _, _, h5, h6, h7, h8⟩ := hlog pre c post hsplit
    refine ⟨h1, h5, h6, h7, h8, fun v hv => ?_⟩
    rw [lastUpdate_snoc, if_pos hv]
  · have := hfl v hv1 hv2
    unfold gradsiz_ani gradsiz_run
    simp only
    rw [← hsnd]
    exact this

/-- Witness of C31: on the flat fan with the identity at the vertex 2 and
`36/25 * Identity` elsewhere, the run makes 2 sweeps of 12 visits. The first visit
updates the vertex 2 and the second the centre 5, in the sweep 1, where no edge is
skipped; in the sweep 2 the edge 0 of the triangles 3 and 4, whose endpoints were
never updated (flags 0), is skipped, and the other edges are passed to `grad2met`;
on return the vertices 2 and 5 have the flag 1 and the others the flag 0. -/
theorem gradsiz_sweep_pruning_witness :
    EdgesInMesh fanEnv (flatFan 0 noTag) ∧
    gradsiz_visits fanEnv fanPrim (flatFan 0 noTag) dentMet =
      [⟨1, 1, 0, 0, 0, some 2⟩, ⟨1, 1, 1, 1, 0, some 0⟩, ⟨1, 1, 2, 1, 0, some (-1)⟩,
       ⟨1, 2, 0, 1, 0, some (-1)⟩, ⟨1, 2, 1, 0, 1, some (-1)⟩, ⟨1, 2, 2, 1, 1, some (-1)⟩,
       ⟨1, 3, 0, 0, 0, some (-1)⟩, ⟨1, 3, 1, 0, 1, some (-1)⟩, ⟨1, 3, 2, 1, 0, some (-1)⟩,
       ⟨1, 4, 0, 0, 0, some (-1)⟩, ⟨1, 4, 1, 0, 1, some (-1)⟩, ⟨1, 4, 2, 1, 0, some (-1)⟩,
       ⟨2, 1, 0, 0, 1, some (-1)⟩, ⟨2, 1, 1, 1, 1, some (-1)⟩, ⟨2, 1, 2, 1, 0, some (-1)⟩,
       ⟨2, 2, 0, 1, 0, some (-1)⟩, ⟨2, 2, 1, 0, 1, some (-1)⟩, ⟨2, 2, 2, 1, 1, some (-1)⟩,
       ⟨2, 3, 0, 0, 0, none⟩, ⟨2, 3, 1, 0, 1, some (-1)⟩, ⟨2, 3, 2, 1, 0, some (-1)⟩,
       ⟨2, 4, 0, 0, 0, none⟩, ⟨2, 4, 1, 0, 1, some (-1)⟩, ⟨2, 4, 2, 1, 0, some (-1)⟩] ∧
    activeEdges (flatFan 0 noTag) =
      [(1, 0), (1, 1), (1, 2), (2, 0), (2, 1), (2, 2), (3, 0), (3, 1), (3, 2), (4, 0), (4, 1),
       (4, 2)] ∧
    ((flatFan 0 noTag).tria 1).v (fanEnv.iprv2 0) = 2 ∧
    ((flatFan 0 noTag).tria 1).v (fanEnv.iprv2 1) = 5 ∧
    (List.range' 1 5).map
      (fun v => ((gradsiz_ani fanEnv fanPrim (flatFan 0 noTag) dentMet).2.1.point v).flag) =
      [0, 1, 0, 0, 1] ∧
    visitsCalled ((gradsiz_visits fanEnv fanPrim (flatFan 0 noTag) dentMet).filter
      (fun c => decide (c.b = 1))) = activeEdges (flatFan 0 noTag) :=
  ⟨flatFan_edges, by decide!, by decide, by decide, by decide, by decide!,
    (gradsiz_sweep_pruning fanEnv fanPrim (flatFan 0 noTag) dentMet flatFan_edges).2.2.2.2.1⟩

end Claims

end MMG
